import Mathlib

/-! # Tier-2 basic-block specializer (Python/tier2.c)

A shallow embedding of `Python/tier2.c`.  Pointers to code units are word
indices (into the Tier-1 code of the code object, or into the `u_code` area of
the scratch arena), C `int` / `Py_ssize_t` values are `Nat` or `Int`, and a
store into the 8-bit `oparg` field of a code unit is written with an explicit
`% 256`.  The opcode numbering (`opcode.h`), the de-specialization and
cache-count tables and the inline-cache layouts are not defined in `tier2.c`;
they are collected in `OpcodeTables` and every function that consults them
takes the tables as its first argument.
-/

namespace Tier2

/-! ## Instruction words -/

/-- Opcode names that `tier2.c` mentions; `OTHER n` stands for every other
opcode of the instruction set. -/
inductive Opcode where
  | CACHE | NOP | RESUME | RESUME_QUICK | EXTENDED_ARG | END_FOR
  | FOR_ITER | JUMP_FORWARD | JUMP_IF_FALSE_OR_POP | JUMP_IF_TRUE_OR_POP
  | POP_JUMP_IF_FALSE | POP_JUMP_IF_TRUE | SEND | POP_JUMP_IF_NOT_NONE
  | POP_JUMP_IF_NONE | JUMP_BACKWARD_QUICK | JUMP_BACKWARD_NO_INTERRUPT
  | JUMP_BACKWARD | COMPARE_OP | COMPARE_AND_BRANCH
  | RETURN_VALUE | RETURN_CONST | RAISE_VARARGS | RERAISE | INTERPRETER_EXIT
  | YIELD_VALUE | PUSH_EXC_INFO | POP_EXCEPT | LOAD_DEREF | MAKE_CELL
  | DELETE_FAST | MATCH_MAPPING | MATCH_SEQUENCE | MATCH_KEYS
  | LOAD_CONST | LOAD_FAST | BINARY_OP | BINARY_OP_ADD_INT_REST
  | BB_BRANCH | BB_BRANCH_IF_FLAG_SET | BB_BRANCH_IF_FLAG_UNSET
  | BB_JUMP_IF_FLAG_SET | BB_JUMP_IF_FLAG_UNSET | BB_JUMP_BACKWARD_LAZY
  | BB_TEST_ITER | BB_TEST_IF_FALSE_OR_POP | BB_TEST_IF_TRUE_OR_POP
  | BB_TEST_POP_IF_FALSE | BB_TEST_POP_IF_TRUE | BB_TEST_POP_IF_NOT_NONE
  | BB_TEST_POP_IF_NONE
  | OTHER (n : Nat)
  deriving Repr

/-- A number for each opcode name (the position in the list above), used to
decide equality of opcodes. -/
def Opcode.index : Opcode → Nat
  | .CACHE => 0 | .NOP => 1 | .RESUME => 2 | .RESUME_QUICK => 3
  | .EXTENDED_ARG => 4 | .END_FOR => 5 | .FOR_ITER => 6 | .JUMP_FORWARD => 7
  | .JUMP_IF_FALSE_OR_POP => 8 | .JUMP_IF_TRUE_OR_POP => 9 | .POP_JUMP_IF_FALSE => 10 | .POP_JUMP_IF_TRUE => 11
  | .SEND => 12 | .POP_JUMP_IF_NOT_NONE => 13 | .POP_JUMP_IF_NONE => 14 | .JUMP_BACKWARD_QUICK => 15
  | .JUMP_BACKWARD_NO_INTERRUPT => 16 | .JUMP_BACKWARD => 17 | .COMPARE_OP => 18 | .COMPARE_AND_BRANCH => 19
  | .RETURN_VALUE => 20 | .RETURN_CONST => 21 | .RAISE_VARARGS => 22 | .RERAISE => 23
  | .INTERPRETER_EXIT => 24 | .YIELD_VALUE => 25 | .PUSH_EXC_INFO => 26 | .POP_EXCEPT => 27
  | .LOAD_DEREF => 28 | .MAKE_CELL => 29 | .DELETE_FAST => 30 | .MATCH_MAPPING => 31
  | .MATCH_SEQUENCE => 32 | .MATCH_KEYS => 33 | .LOAD_CONST => 34 | .LOAD_FAST => 35
  | .BINARY_OP => 36 | .BINARY_OP_ADD_INT_REST => 37 | .BB_BRANCH => 38 | .BB_BRANCH_IF_FLAG_SET => 39
  | .BB_BRANCH_IF_FLAG_UNSET => 40 | .BB_JUMP_IF_FLAG_SET => 41 | .BB_JUMP_IF_FLAG_UNSET => 42 | .BB_JUMP_BACKWARD_LAZY => 43
  | .BB_TEST_ITER => 44 | .BB_TEST_IF_FALSE_OR_POP => 45 | .BB_TEST_IF_TRUE_OR_POP => 46 | .BB_TEST_POP_IF_FALSE => 47
  | .BB_TEST_POP_IF_TRUE => 48 | .BB_TEST_POP_IF_NOT_NONE => 49 | .BB_TEST_POP_IF_NONE => 50
  | .OTHER n => n + 51

/-- The opcode with a given number; inverse of `Opcode.index`. -/
def Opcode.ofIndex : Nat → Opcode
  | 0 => .CACHE | 1 => .NOP | 2 => .RESUME | 3 => .RESUME_QUICK
  | 4 => .EXTENDED_ARG | 5 => .END_FOR | 6 => .FOR_ITER | 7 => .JUMP_FORWARD
  | 8 => .JUMP_IF_FALSE_OR_POP | 9 => .JUMP_IF_TRUE_OR_POP | 10 => .POP_JUMP_IF_FALSE | 11 => .POP_JUMP_IF_TRUE
  | 12 => .SEND | 13 => .POP_JUMP_IF_NOT_NONE | 14 => .POP_JUMP_IF_NONE | 15 => .JUMP_BACKWARD_QUICK
  | 16 => .JUMP_BACKWARD_NO_INTERRUPT | 17 => .JUMP_BACKWARD | 18 => .COMPARE_OP | 19 => .COMPARE_AND_BRANCH
  | 20 => .RETURN_VALUE | 21 => .RETURN_CONST | 22 => .RAISE_VARARGS | 23 => .RERAISE
  | 24 => .INTERPRETER_EXIT | 25 => .YIELD_VALUE | 26 => .PUSH_EXC_INFO | 27 => .POP_EXCEPT
  | 28 => .LOAD_DEREF | 29 => .MAKE_CELL | 30 => .DELETE_FAST | 31 => .MATCH_MAPPING
  | 32 => .MATCH_SEQUENCE | 33 => .MATCH_KEYS | 34 => .LOAD_CONST | 35 => .LOAD_FAST
  | 36 => .BINARY_OP | 37 => .BINARY_OP_ADD_INT_REST | 38 => .BB_BRANCH | 39 => .BB_BRANCH_IF_FLAG_SET
  | 40 => .BB_BRANCH_IF_FLAG_UNSET | 41 => .BB_JUMP_IF_FLAG_SET | 42 => .BB_JUMP_IF_FLAG_UNSET | 43 => .BB_JUMP_BACKWARD_LAZY
  | 44 => .BB_TEST_ITER | 45 => .BB_TEST_IF_FALSE_OR_POP | 46 => .BB_TEST_IF_TRUE_OR_POP | 47 => .BB_TEST_POP_IF_FALSE
  | 48 => .BB_TEST_POP_IF_TRUE | 49 => .BB_TEST_POP_IF_NOT_NONE | 50 => .BB_TEST_POP_IF_NONE
  | n + 51 => .OTHER n

/-- Equality of opcodes is decided on their numbers. -/
instance : DecidableEq Opcode := fun a b =>
  if h : a.index = b.index then
    isTrue (by
      have ha : Opcode.ofIndex a.index = a := by cases a <;> rfl
      have hb : Opcode.ofIndex b.index = b := by cases b <;> rfl
      rw [← ha, ← hb, h])
  else isFalse (fun hab => h (congrArg Opcode.index hab))

/-- One `_Py_CODEUNIT`: the `opcode` byte and the `oparg` byte. -/
structure CodeUnit where
  opcode : Opcode
  oparg : Nat
  deriving DecidableEq, Repr

/-- The helper `_py_set_opcode`: stores the opcode byte and leaves the oparg
byte of the word as it was. -/
def _py_set_opcode (w : CodeUnit) (opcode : Opcode) : CodeUnit :=
  { w with opcode := opcode }

/-- Memory holding code units, addressed by word (a `_Py_CODEUNIT *`). -/
abbrev Memory := Int → CodeUnit

/-- Store of one word at address `p`. -/
def Memory.store (mem : Memory) (p : Int) (w : CodeUnit) : Memory :=
  fun a => if a = p then w else mem a

/-! ## Branch rewriter -/

/-- `_PyTier2_RewriteForwardJump(bb_branch, target)`.  `oparg >> 8` is
`oparg / 256` and `& 0xFF` is `% 256`. -/
def _PyTier2_RewriteForwardJump (mem : Memory) (bb_branch target : Int) : Memory :=
  let write_curr := bb_branch
  let oparg : Int := target - bb_branch - 1
  let branch := (mem bb_branch).opcode
  let requires_extended : Bool := decide (oparg > 0xFF)
  let jump : Opcode :=
    if branch = Opcode.BB_BRANCH_IF_FLAG_SET then Opcode.BB_JUMP_IF_FLAG_SET
    else Opcode.BB_JUMP_IF_FLAG_UNSET
  if requires_extended then
    let mem1 := mem.store write_curr ⟨Opcode.EXTENDED_ARG, (oparg / 256 % 256).toNat⟩
    let write_curr := write_curr + 1
    let oparg := oparg - 1
    mem1.store write_curr ⟨jump, (oparg % 256).toNat⟩
  else
    let mem1 := mem.store write_curr ⟨jump, (oparg % 256).toNat⟩
    let write_curr := write_curr + 1
    mem1.store write_curr (_py_set_opcode (mem1 write_curr) Opcode.NOP)

/-- `_PyTier2_RewriteBackwardJump(jump_backward_lazy, target)`. -/
def _PyTier2_RewriteBackwardJump (mem : Memory) (jump_backward_lazy target : Int) : Memory :=
  let write_curr := jump_backward_lazy - 1
  let oparg : Int := target - (jump_backward_lazy + 1)
  let oparg := -oparg
  let requires_extended : Bool := decide (oparg > 0xFF)
  let mem1 :=
    if requires_extended then
      mem.store write_curr ⟨Opcode.EXTENDED_ARG, (oparg / 256 % 256).toNat⟩
    else
      mem.store write_curr (_py_set_opcode (mem write_curr) Opcode.NOP)
  let write_curr := write_curr + 1
  let mem2 := mem1.store write_curr ⟨Opcode.JUMP_BACKWARD_QUICK, (oparg % 256).toNat⟩
  let write_curr := write_curr + 1
  mem2.store write_curr (_py_set_opcode (mem2 write_curr) Opcode.END_FOR)

/-! ## Tables and constants of the host VM -/

/-- The decode tables and inline-cache constants that `tier2.c` takes from
`opcode.h`, `pycore_opcode.h` and `pycore_code.h`. -/
structure OpcodeTables where
  /-- Table `_PyOpcode_Deopt`. -/
  deopt : Opcode → Opcode
  /-- Table `_PyOpcode_Caches`. -/
  caches : Opcode → Nat
  /-- Constant `INLINE_CACHE_ENTRIES_BB_BRANCH`. -/
  INLINE_CACHE_ENTRIES_BB_BRANCH : Nat
  /-- Constant `INLINE_CACHE_ENTRIES_FOR_ITER`. -/
  INLINE_CACHE_ENTRIES_FOR_ITER : Nat
  /-- Constant `NB_ADD`. -/
  NB_ADD : Nat
  /-- Layout of `_PyBBBranchCache`: the code unit whose 16 bits hold `bb_id`. -/
  bb_id_word : Nat → CodeUnit
  /-- Constant `sizeof(_PyTier2BBSpace)`, the arena header. -/
  sizeof_BBSpace : Nat

/-- Constant `MAX_BB_VERSIONS`. -/
def MAX_BB_VERSIONS : Nat := 5

/-- Constant `sizeof(_Py_CODEUNIT)`. -/
def sizeof_CODEUNIT : Nat := 2

/-- Canonical type descriptors (`PyTypeObject *`); equality is identity. -/
inductive PyTypeObject where
  | PyLong_Type
  | other (n : Nat)
  deriving DecidableEq, Repr

/-! ## Opcode classifier -/

/-- `IS_JABS_OPCODE`. -/
def IS_JABS_OPCODE (_opcode : Opcode) : Bool := false

/-- `IS_JREL_OPCODE`. -/
def IS_JREL_OPCODE (opcode : Opcode) : Bool :=
  match opcode with
  | .FOR_ITER | .JUMP_FORWARD | .JUMP_IF_FALSE_OR_POP | .JUMP_IF_TRUE_OR_POP
  | .POP_JUMP_IF_FALSE | .POP_JUMP_IF_TRUE | .SEND | .POP_JUMP_IF_NOT_NONE
  | .POP_JUMP_IF_NONE | .JUMP_BACKWARD_QUICK | .JUMP_BACKWARD_NO_INTERRUPT
  | .JUMP_BACKWARD => true
  | _ => false

/-- `IS_JUMP_BACKWARDS_OPCODE`. -/
def IS_JUMP_BACKWARDS_OPCODE (opcode : Opcode) : Bool :=
  opcode == .JUMP_BACKWARD_NO_INTERRUPT || opcode == .JUMP_BACKWARD ||
    opcode == .JUMP_BACKWARD_QUICK

/-- `IS_JUMP_OPCODE`. -/
def IS_JUMP_OPCODE (opcode : Opcode) : Bool :=
  IS_JREL_OPCODE opcode || IS_JABS_OPCODE opcode

/-- `IS_COMPARE_OPCODE`. -/
def IS_COMPARE_OPCODE (opcode : Opcode) : Bool :=
  opcode == .COMPARE_OP || opcode == .COMPARE_AND_BRANCH

/-- `IS_SCOPE_EXIT_OPCODE`. -/
def IS_SCOPE_EXIT_OPCODE (opcode : Opcode) : Bool :=
  match opcode with
  | .RETURN_VALUE | .RETURN_CONST | .RAISE_VARARGS | .RERAISE
  | .INTERPRETER_EXIT => true
  | _ => false

/-- `IS_TERMINATOR_OPCODE`. -/
def IS_TERMINATOR_OPCODE (opcode : Opcode) : Bool :=
  IS_JUMP_OPCODE opcode || IS_SCOPE_EXIT_OPCODE opcode

/-- `IS_FORBIDDEN_OPCODE`. -/
def IS_FORBIDDEN_OPCODE (opcode : Opcode) : Bool :=
  match opcode with
  | .SEND | .YIELD_VALUE | .RAISE_VARARGS | .PUSH_EXC_INFO | .RERAISE
  | .POP_EXCEPT | .LOAD_DEREF | .MAKE_CELL | .DELETE_FAST | .MATCH_MAPPING
  | .MATCH_SEQUENCE | .MATCH_KEYS | .EXTENDED_ARG => true
  | _ => false

/-- `IS_OPTIMIZABLE_OPCODE(opcode, oparg)`. -/
def IS_OPTIMIZABLE_OPCODE (T : OpcodeTables) (opcode : Opcode) (oparg : Nat) : Bool :=
  match T.deopt opcode with
  | .BINARY_OP => if oparg = T.NB_ADD then decide (opcode ≠ T.deopt opcode) else false
  | _ => false

/-! ## Code object, metadata, arena, Tier2Info -/

/-- Record `_PyTier2BBMetadata`.  `tier2_start` is a word index into the
arena, `tier1_end` a code-unit offset from `_PyCode_CODE(co)`. -/
structure _PyTier2BBMetadata where
  id : Nat
  tier2_start : Nat
  tier1_end : Int
  type_context_len : Nat
  type_context : List (Option PyTypeObject)
  deriving DecidableEq, Repr

/-- Record `_PyTier2BBSpace`: header fields and the words of `u_code`.
`water_level` and `max_capacity` are byte counts. -/
structure _PyTier2BBSpace where
  max_capacity : Int
  water_level : Nat
  u_code : Nat → CodeUnit

/-- Record `_PyTier2Info`.  `bb_data = none` is the NULL array; a slot of
the array that was never written is `none`.  Row `i` of
`backward_jump_target_bb_ids` is the version array of
`backward_jump_offsets[i]`. -/
structure _PyTier2Info where
  _entry_bb : Option _PyTier2BBMetadata
  _bb_space : Option _PyTier2BBSpace
  backward_jump_count : Nat
  backward_jump_offsets : List Int
  backward_jump_target_bb_ids : List (List Int)
  bb_data_len : Nat
  bb_data_curr : Nat
  bb_data : Option (List (Option _PyTier2BBMetadata))

/-- State of the pointer `co->_tier2_info`: NULL, pointing to a live
record, or still pointing to a record that was passed to `PyMem_Free`. -/
inductive Tier2InfoPtr where
  | null
  | live (t2 : _PyTier2Info)
  | dangling

/-- The fields of `PyCodeObject` that `tier2.c` reads or writes.
`co_consts` keeps `Py_TYPE` of each constant. -/
structure PyCodeObject where
  co_code_adaptive : List CodeUnit
  co_nlocals : Nat
  co_stacksize : Nat
  co_consts : List PyTypeObject
  _tier2_warmup : Int
  _tier2_info : Tier2InfoPtr

/-- `Py_SIZE(co)`: the number of code units. -/
def Py_SIZE (co : PyCodeObject) : Nat := co.co_code_adaptive.length

/-- `_PyCode_NBYTES(co)`. -/
def _PyCode_NBYTES (co : PyCodeObject) : Nat := Py_SIZE co * sizeof_CODEUNIT

/-- Read of `_PyCode_CODE(co)[i]`.  An index outside the code object (never
used on a code object whose last instruction carries its whole cache tail)
reads a `CACHE` word. -/
def code_at (co : PyCodeObject) (i : Nat) : CodeUnit :=
  co.co_code_adaptive.getD i ⟨.CACHE, 0⟩

/-- Outcomes of the allocator: each `PyMem_Malloc` / `PyMem_Realloc` call
consumes the head of the list (`false` is a NULL result); an empty list
means every further allocation succeeds. -/
abbrev Allocator := List Bool

/-- One allocation request: success flag and the remaining outcomes. -/
def PyMem_Malloc (heap : Allocator) : Bool × Allocator :=
  match heap with
  | [] => (true, [])
  | b :: rest => (b, rest)

/-- Ways the C code leaves defined behaviour. -/
inductive Fault where
  /-- Macro `Py_UNREACHABLE()` was reached. -/
  | unreachable
  /-- A NULL pointer was dereferenced. -/
  | null_deref
  /-- An array was indexed outside its bounds (an `assert(found)` failed). -/
  | out_of_bounds
  /-- The step budget given to the scan loop was used up. -/
  | out_of_fuel
  /-- A block that a successful `PyMem_Realloc` had been given was passed to
  `PyMem_Free`: the block is released a second time when the reallocation
  moved it, and the block still in use is released when it did not. -/
  | invalid_free
  deriving DecidableEq, Repr

/-! ## BB metadata functions -/

/-- `allocate_bb_metadata`: `none` when `PyMem_Malloc` fails.  The `id`
field is not written here (it is set by `write_bb_metadata`); the model
puts 0 there. -/
def allocate_bb_metadata (heap : Allocator) (tier2_start : Nat) (tier1_end : Int)
    (type_context_len : Nat) (type_context : List (Option PyTypeObject)) :
    Allocator × Option _PyTier2BBMetadata :=
  match PyMem_Malloc heap with
  | (false, heap1) => (heap1, none)
  | (true, heap1) => (heap1, some ⟨0, tier2_start, tier1_end, type_context_len, type_context⟩)

/-- The array `bb_data` after `PyMem_Realloc` to `new_len` slots: the old
slots keep their content, the new ones are unwritten. -/
def realloc_bb_data (old : Option (List (Option _PyTier2BBMetadata))) (new_len : Nat) :
    List (Option _PyTier2BBMetadata) :=
  ((old.getD []) ++ List.replicate new_len none).take new_len

/-- The last four statements of `write_bb_metadata`: store at index
`bb_data_curr`, set `metadata->id`, increment `bb_data_curr`. -/
def store_bb_metadata (t2 : _PyTier2Info) (metadata : _PyTier2BBMetadata) :
    _PyTier2Info × _PyTier2BBMetadata :=
  let id := t2.bb_data_curr
  let metadata1 := { metadata with id := id }
  ({ t2 with bb_data := some ((t2.bb_data.getD []).set id (some metadata1)),
             bb_data_curr := t2.bb_data_curr + 1 }, metadata1)

/-- `write_bb_metadata`: the first component is the C return value (0 on
success, 1 on error).  `new_len < 0` after the `int` multiplication is
`new_len ≥ 2^31`. -/
def write_bb_metadata (t2 : _PyTier2Info) (heap : Allocator) (metadata : _PyTier2BBMetadata) :
    Nat × _PyTier2Info × Allocator × _PyTier2BBMetadata :=
  if t2.bb_data.isNone || decide (t2.bb_data_curr ≥ t2.bb_data_len) then
    let new_len := (t2.bb_data_len + 1) * 2
    if new_len ≥ 2 ^ 31 then (1, t2, heap, metadata)
    else
      match PyMem_Malloc heap with
      | (false, heap1) => (1, t2, heap1, metadata)
      | (true, heap1) =>
        let t2a := { t2 with bb_data := some (realloc_bb_data t2.bb_data new_len),
                             bb_data_len := new_len }
        let r := store_bb_metadata t2a metadata
        (0, r.1, heap1, r.2)
  else
    let r := store_bb_metadata t2 metadata
    (0, r.1, heap, r.2)

/-- `_PyTier2_AllocateBBMetaData`: the registered record, or `none` (NULL). -/
def _PyTier2_AllocateBBMetaData (t2 : _PyTier2Info) (heap : Allocator) (tier2_start : Nat)
    (tier1_end : Int) (type_context_len : Nat) (type_context : List (Option PyTypeObject)) :
    _PyTier2Info × Allocator × Option _PyTier2BBMetadata :=
  match allocate_bb_metadata heap tier2_start tier1_end type_context_len type_context with
  | (heap1, none) => (t2, heap1, none)
  | (heap1, some m) =>
    match write_bb_metadata t2 heap1 m with
    | (0, t2a, heap2, m1) => (t2a, heap2, some m1)
    | (_, t2a, heap2, _) => (t2a, heap2, none)

/-! ## Type inference helpers -/

/-- `INSTR_LOCAL_READ_TYPE`: `none` is the NULL (unknown) type; an index
outside `co_consts` or the type context reads as unknown. -/
def INSTR_LOCAL_READ_TYPE (T : OpcodeTables) (co : PyCodeObject) (instr : CodeUnit)
    (type_context : List (Option PyTypeObject)) : Option PyTypeObject :=
  match T.deopt instr.opcode with
  | .LOAD_CONST => co.co_consts.get? instr.oparg
  | .LOAD_FAST => (type_context.get? instr.oparg).join
  | _ => none

/-- `BINARY_OP_RESULT_TYPE` for the instruction at offset `i`: the inferred
type, `how_many_guards` and the opcode stored in `action`, when one is
stored. -/
def BINARY_OP_RESULT_TYPE (T : OpcodeTables) (co : PyCodeObject) (i : Nat)
    (type_context : List (Option PyTypeObject)) :
    Option PyTypeObject × Option Nat × Option Opcode :=
  let instr := code_at co i
  match T.deopt instr.opcode with
  | .BINARY_OP =>
    if instr.oparg = T.NB_ADD then
      let lhs_type := INSTR_LOCAL_READ_TYPE T co (code_at co (i - 2)) type_context
      let rhs_type := INSTR_LOCAL_READ_TYPE T co (code_at co (i - 1)) type_context
      if lhs_type = some .PyLong_Type ∧ rhs_type = some .PyLong_Type then
        (some .PyLong_Type, some 0, some .BINARY_OP_ADD_INT_REST)
      else (none, none, none)
    else (none, none, none)
  | _ => (none, none, none)

/-! ## Emitter -/

/-- The words of the arena, addressed by word index from `u_code`. -/
abbrev UCode := Nat → CodeUnit

/-- Store of one word of the arena. -/
def UCode.store (u : UCode) (p : Nat) (w : CodeUnit) : UCode :=
  fun a => if a = p then w else u a

/-- `emit_cache_entries`: the opcode byte of each word becomes `CACHE`. -/
def emit_cache_entries (u : UCode) (write_curr : Nat) : Nat → UCode × Nat
  | 0 => (u, write_curr)
  | n + 1 =>
    emit_cache_entries (u.store write_curr (_py_set_opcode (u write_curr) .CACHE))
      (write_curr + 1) n

/-- The store `cache->bb_id = (uint16_t)(bb_id)` into the word at `cache`. -/
def store_bb_id (T : OpcodeTables) (u : UCode) (cache : Nat) (bb_id : Nat) : UCode :=
  u.store cache (T.bb_id_word (bb_id % 65536))

/-- `emit_type_guard`. -/
def emit_type_guard (T : OpcodeTables) (u : UCode) (write_curr : Nat) (guard : CodeUnit)
    (bb_id : Nat) : UCode × Nat :=
  let u1 := u.store write_curr guard
  let write_curr := write_curr + 1
  let u2 := u1.store write_curr ⟨.BB_BRANCH, 0⟩
  let write_curr := write_curr + 1
  let cache := write_curr
  let r := emit_cache_entries u2 write_curr T.INLINE_CACHE_ENTRIES_BB_BRANCH
  (store_bb_id T r.1 cache bb_id, r.2)

/-- The `switch` of `emit_logical_branch`: the Tier-2 opcode chosen for a
de-specialized branch opcode, `none` in the `default` case. -/
def logical_branch_opcode (deopt_opcode : Opcode) : Option Opcode :=
  match deopt_opcode with
  | .JUMP_BACKWARD_QUICK | .JUMP_BACKWARD => some .BB_JUMP_BACKWARD_LAZY
  | .FOR_ITER => some .BB_TEST_ITER
  | .JUMP_IF_FALSE_OR_POP => some .BB_TEST_IF_FALSE_OR_POP
  | .JUMP_IF_TRUE_OR_POP => some .BB_TEST_IF_TRUE_OR_POP
  | .POP_JUMP_IF_FALSE => some .BB_TEST_POP_IF_FALSE
  | .POP_JUMP_IF_TRUE => some .BB_TEST_POP_IF_TRUE
  | .POP_JUMP_IF_NOT_NONE => some .BB_TEST_POP_IF_NOT_NONE
  | .POP_JUMP_IF_NONE => some .BB_TEST_POP_IF_NONE
  | _ => none

/-- `emit_logical_branch`: the arena and the write cursor after the stub. -/
def emit_logical_branch (T : OpcodeTables) (u : UCode) (write_curr : Nat) (branch : CodeUnit)
    (bb_id : Nat) : Except Fault (UCode × Nat) :=
  let oparg := branch.oparg
  match logical_branch_opcode (T.deopt branch.opcode) with
  | none => .error .unreachable
  | some opcode =>
    if opcode = .BB_JUMP_BACKWARD_LAZY then
      let u1 := u.store write_curr ⟨.EXTENDED_ARG, 0⟩
      let write_curr := write_curr + 1
      let u2 := u1.store write_curr ⟨.BB_JUMP_BACKWARD_LAZY, oparg % 256⟩
      let write_curr := write_curr + 1
      let cache := write_curr
      let r := emit_cache_entries u2 write_curr T.INLINE_CACHE_ENTRIES_BB_BRANCH
      .ok (store_bb_id T r.1 cache bb_id, r.2)
    else if opcode = .BB_TEST_ITER then
      let oparg := T.INLINE_CACHE_ENTRIES_FOR_ITER + oparg
      let u1 := u.store write_curr ⟨.BB_TEST_ITER, oparg % 256⟩
      let write_curr := write_curr + 1
      let r1 := emit_cache_entries u1 write_curr T.INLINE_CACHE_ENTRIES_FOR_ITER
      let write_curr := r1.2
      let u2 := r1.1.store write_curr ⟨.BB_BRANCH, oparg % 256⟩
      let write_curr := write_curr + 1
      let cache := write_curr
      let r := emit_cache_entries u2 write_curr T.INLINE_CACHE_ENTRIES_BB_BRANCH
      .ok (store_bb_id T r.1 cache bb_id, r.2)
    else
      let u1 := u.store write_curr ⟨opcode, oparg % 256⟩
      let write_curr := write_curr + 1
      let u2 := u1.store write_curr ⟨.BB_BRANCH, oparg % 256⟩
      let write_curr := write_curr + 1
      let cache := write_curr
      let r := emit_cache_entries u2 write_curr T.INLINE_CACHE_ENTRIES_BB_BRANCH
      .ok (store_bb_id T r.1 cache bb_id, r.2)

/-- `emit_scope_exit`: the `switch` is on the opcode byte of the word itself. -/
def emit_scope_exit (u : UCode) (write_curr : Nat) (exit : CodeUnit) :
    Except Fault (UCode × Nat) :=
  match exit.opcode with
  | .RETURN_VALUE | .RETURN_CONST | .INTERPRETER_EXIT =>
    .ok (u.store write_curr exit, write_curr + 1)
  | _ => .error .unreachable

/-- `emit_i`. -/
def emit_i (u : UCode) (write_curr : Nat) (opcode : Opcode) (oparg : Nat) : UCode × Nat :=
  (u.store write_curr ⟨opcode, oparg % 256⟩, write_curr + 1)

/-- `copy_cache_entries`: `cache` is the Tier-1 offset of the first word to
copy. -/
def copy_cache_entries (co : PyCodeObject) (u : UCode) (write_curr : Nat) (cache : Nat) :
    Nat → UCode × Nat
  | 0 => (u, write_curr)
  | n + 1 => copy_cache_entries co (u.store write_curr (code_at co cache)) (write_curr + 1)
      (cache + 1) n

/-! ## Jump target index -/

/-- `IS_BACKWARDS_JUMP_TARGET(co, curr)` for `curr = _PyCode_CODE(co) + i`:
the linear scan over the first `backward_jump_count` offsets. -/
def IS_BACKWARDS_JUMP_TARGET (t2 : _PyTier2Info) (i : Int) : Bool :=
  (t2.backward_jump_offsets.take t2.backward_jump_count).any (fun o => decide (i = o))

/-- First loop of `add_metadata_to_jump_2d_array`: the index at which the
scan over `backward_jump_offsets` stops (`backward_jump_count` when the
target is not found). -/
def find_jump_offset_index (t2 : _PyTier2Info) (backwards_jump_target : Int) : Nat :=
  ((t2.backward_jump_offsets.take t2.backward_jump_count).findIdx
    (fun o => decide (o = backwards_jump_target)))

/-- Second loop of `add_metadata_to_jump_2d_array`: the first index below
`MAX_BB_VERSIONS` whose slot holds -1. -/
def find_free_version (row : List Int) : Option Nat :=
  (List.range MAX_BB_VERSIONS).find? (fun j => decide (row.get? j = some (-1)))

/-- `add_metadata_to_jump_2d_array`: the C return value (1 for error, 0 for
success) and the updated Tier2Info.  `meta` is `none` for a NULL pointer;
`meta->id` is read only when a free slot is found. -/
def add_metadata_to_jump_2d_array (t2_info : _PyTier2Info)
    (metadata : Option _PyTier2BBMetadata) (backwards_jump_target : Int) :
    Except Fault (Int × _PyTier2Info) :=
  let backward_jump_offset_index := find_jump_offset_index t2_info backwards_jump_target
  match t2_info.backward_jump_target_bb_ids.get? backward_jump_offset_index with
  | none => .error .out_of_bounds
  | some row =>
    match find_free_version row with
    | none => .ok (1, t2_info)
    | some jump_i =>
      match metadata with
      | none => .error .null_deref
      | some m =>
        .ok (0, { t2_info with
          backward_jump_target_bb_ids :=
            t2_info.backward_jump_target_bb_ids.set backward_jump_offset_index
              (row.set jump_i (m.id : Int)) })

/-! ## BB discovery -/

/-- The locals of `_PyTier2_Code_DetectAndEmitBB` that change during the
scan, together with the heap objects the scan writes. -/
structure Emit where
  t2 : _PyTier2Info
  bb_space : _PyTier2BBSpace
  heap : Allocator
  t2_start : Nat
  write_i : Nat
  metadata : Option _PyTier2BBMetadata
  starts_with_backwards_jump_target : Bool
  backwards_jump_target_offset : Int
  virtual_start : Bool

/-- What a call of `_PyTier2_Code_DetectAndEmitBB` leaves behind: the
Tier2Info, the arena, the allocator and the returned record (`none` is
NULL). -/
structure DetectResult where
  t2 : _PyTier2Info
  bb_space : _PyTier2BBSpace
  heap : Allocator
  result : Option _PyTier2BBMetadata

/-- How the scan loop is left: through label `end` (or by the loop
condition) with the final index `i`, or by `return NULL`. -/
inductive ScanExit where
  | at_end (s : Emit) (i : Nat)
  | returned_null (s : Emit)

/-- How one pass through the `switch` is left: `continue` (with the value
of `i` before the loop's `i++`), `DISPATCH_GOTO()`, `END()` or
`return NULL`. -/
inductive StepExit where
  | continue_ (s : Emit) (i : Nat)
  | dispatch_goto (s : Emit)
  | goto_end (s : Emit) (i : Nat)
  | return_null (s : Emit)

/-- Macro `DISPATCH()` up to `i += caches`: emit the word, copy the cache
tail. -/
def DISPATCH (co : PyCodeObject) (s : Emit) (i : Nat) (opcode : Opcode) (oparg caches : Nat) :
    Emit :=
  let r1 := emit_i s.bb_space.u_code s.write_i opcode oparg
  let r2 := copy_cache_entries co r1.1 r1.2 (i + 1) caches
  { s with bb_space := { s.bb_space with u_code := r2.1 }, write_i := r2.2 }

/-- The scan loop body from label `fall_through` on, for the instruction at
index `i`: scope exit, jump, or pass-through. -/
def fall_through (T : OpcodeTables) (co : PyCodeObject) (s1 : Emit) (i : Nat) :
    Except Fault StepExit :=
  let curr := code_at co i
  let opcode := T.deopt curr.opcode
  let oparg := curr.oparg
  let caches := T.caches opcode
  if IS_SCOPE_EXIT_OPCODE opcode = true then
    match emit_scope_exit s1.bb_space.u_code s1.write_i curr with
    | .error f => .error f
    | .ok r =>
      .ok (.goto_end { s1 with bb_space := { s1.bb_space with u_code := r.1 },
                               write_i := r.2 } i)
  else if IS_JUMP_OPCODE opcode = true then
    if opcode = .JUMP_FORWARD then
      -- `JUMPBY(oparg); continue;` with `JUMPBY(x)` being `i += x + 1`
      .ok (.continue_ s1 (i + (oparg + 1)))
    else
      match emit_logical_branch T s1.bb_space.u_code s1.write_i curr
          s1.t2.bb_data_curr with
      | .error f => .error f
      | .ok r =>
        .ok (.goto_end { s1 with bb_space := { s1.bb_space with u_code := r.1 },
                                 write_i := r.2 } (i + caches))
  else
    .ok (.continue_ (DISPATCH co s1 i opcode oparg caches) (i + caches))

/-- The assignments made when the block starts at a jump target
(`virtual_start` set): `starts_with_backwards_jump_target = true`, the
offset, `virtual_start = false`. -/
def mark_jump_target (s : Emit) (i : Nat) : Emit :=
  { s with starts_with_backwards_jump_target := true,
           backwards_jump_target_offset := (i : Int),
           virtual_start := false }

/-- The virtual end of a block in front of a jump target: the state after
the record `m` was registered (`t2a`, `heap1` are the Tier2Info and allocator
after the registration): `water_level` advanced, `t2_start` reset to the
write cursor, `virtual_start` set. -/
def virtual_end (s : Emit) (t2a : _PyTier2Info) (heap1 : Allocator)
    (m : _PyTier2BBMetadata) : Emit :=
  { s with
    t2 := t2a, heap := heap1, metadata := some m,
    bb_space := { s.bb_space with
      water_level := s.bb_space.water_level + (s.write_i - s.t2_start) * sizeof_CODEUNIT },
    t2_start := s.write_i,
    virtual_start := true }

/-- The body of the scan loop from label `dispatch_opcode` on, for the
instruction at index `i`: `curr`, `opcode`, `oparg` and `caches` are the
values fetched at the top of the loop body. -/
def dispatch_opcode (T : OpcodeTables) (co : PyCodeObject) (n_typecontext : Nat)
    (type_context_copy : List (Option PyTypeObject)) (s : Emit) (i : Nat) :
    Except Fault StepExit :=
  let curr := code_at co i
  let opcode := T.deopt curr.opcode
  let oparg := curr.oparg
  let caches := T.caches opcode
  if opcode = .RESUME then
    .ok (.continue_ (DISPATCH co s i .RESUME_QUICK oparg caches) (i + caches))
  else if opcode = .COMPARE_AND_BRANCH then
    .ok (.continue_ (DISPATCH co s i .COMPARE_OP oparg caches) (i + caches))
  else if opcode = .END_FOR then
    .ok (.continue_ (DISPATCH co { s with t2_start := s.t2_start + 1 } i .END_FOR oparg caches)
      (i + caches))
  else if IS_BACKWARDS_JUMP_TARGET s.t2 i = true then
    if s.virtual_start = true then
      fall_through T co (mark_jump_target s i) i
    else
      -- `i--`, register the block, `i++`, `DISPATCH_GOTO()`
      match _PyTier2_AllocateBBMetaData s.t2 s.heap s.t2_start ((i : Int) - 1)
          n_typecontext type_context_copy with
      | (t2a, heap1, none) => .ok (.return_null { s with t2 := t2a, heap := heap1 })
      | (t2a, heap1, some m) => .ok (.dispatch_goto (virtual_end s t2a heap1 m))
  else
    fall_through T co s i

/-- The scan loop `for (; i < Py_SIZE(co); i++)` of
`_PyTier2_Code_DetectAndEmitBB`.  The Boolean is `false` when control is at
the loop condition and `true` when it re-enters the body at label
`dispatch_opcode`, where the loop condition is not tested. -/
def scan (T : OpcodeTables) (co : PyCodeObject) (n_typecontext : Nat)
    (type_context_copy : List (Option PyTypeObject)) :
    Nat → Bool → Emit → Nat → Except Fault ScanExit
  | 0, _, _, _ => .error .out_of_fuel
  | fuel + 1, redispatch, s, i =>
    if redispatch = false ∧ Py_SIZE co ≤ i then .ok (.at_end s i)
    else
      match dispatch_opcode T co n_typecontext type_context_copy s i with
      | .error f => .error f
      | .ok (.continue_ s1 i1) => scan T co n_typecontext type_context_copy fuel false s1 (i1 + 1)
      | .ok (.dispatch_goto s1) => scan T co n_typecontext type_context_copy fuel true s1 i
      | .ok (.goto_end s1 i1) => .ok (.at_end s1 i1)
      | .ok (.return_null s1) => .ok (.returned_null s1)

/-- Label `end` of `_PyTier2_Code_DetectAndEmitBB`: register the block,
install it in the version array when it starts at a jump target, advance
`water_level`, print and return `meta`.  The `fprintf` under `BB_DEBUG`
reads `meta->tier2_start`. -/
def detect_end (s : Emit) (i : Nat) (n_typecontext : Nat)
    (type_context_copy : List (Option PyTypeObject)) : Except Fault DetectResult :=
  match _PyTier2_AllocateBBMetaData s.t2 s.heap s.t2_start ((i : Int) + 1)
      n_typecontext type_context_copy with
  | (t2a, heap1, temp_meta) =>
    let metadata := if s.metadata = none then temp_meta else s.metadata
    let installed : Except Fault (Int × _PyTier2Info) :=
      if s.starts_with_backwards_jump_target = true then
        add_metadata_to_jump_2d_array t2a temp_meta s.backwards_jump_target_offset
      else .ok (0, t2a)
    match installed with
    | .error f => .error f
    | .ok (rc, t2b) =>
      if s.starts_with_backwards_jump_target = true ∧ rc < 0 then
        .ok ⟨t2b, s.bb_space, heap1, none⟩
      else
        let bb_space1 := { s.bb_space with
          water_level := s.bb_space.water_level + (s.write_i - s.t2_start) * sizeof_CODEUNIT }
        match metadata with
        | none => .error .null_deref
        | some m => .ok ⟨t2b, bb_space1, heap1, some m⟩

/-- The rest of a call of `_PyTier2_Code_DetectAndEmitBB` once the locals
are set up: the scan loop from index `i` in state `s`, then label `end`. -/
def detect_from (T : OpcodeTables) (co : PyCodeObject) (n_typecontext : Nat)
    (type_context_copy : List (Option PyTypeObject)) (fuel : Nat) (s : Emit) (i : Nat) :
    Except Fault DetectResult :=
  match scan T co n_typecontext type_context_copy fuel false s i with
  | .error f => .error f
  | .ok (.returned_null s1) => .ok ⟨s1.t2, s1.bb_space, s1.heap, none⟩
  | .ok (.at_end s1 i1) => detect_end s1 i1 n_typecontext type_context_copy

/-- The locals of `_PyTier2_Code_DetectAndEmitBB` before the scan loop.  The
cursor `t2_start` is the word at byte `water_level` of `u_code`. -/
def detect_init (t2 : _PyTier2Info) (bb_space : _PyTier2BBSpace) (heap : Allocator) : Emit :=
  { t2 := t2, bb_space := bb_space, heap := heap,
    t2_start := bb_space.water_level / sizeof_CODEUNIT,
    write_i := bb_space.water_level / sizeof_CODEUNIT,
    metadata := none,
    starts_with_backwards_jump_target := false,
    backwards_jump_target_offset := -1,
    virtual_start := false }

/-- `_PyTier2_Code_DetectAndEmitBB(co, bb_space, tier1_start, n_typecontext,
type_context)` with `co->_tier2_info = t2`; `tier1_start` is the offset
`tier1_start - _PyCode_CODE(co)`.  The first allocation is the copy of the
type context.  Each pass of the loop moves `i` forward and re-enters at
`dispatch_opcode` at most once, so `2 * (Py_SIZE(co) - i) + 2` steps are
enough. -/
def _PyTier2_Code_DetectAndEmitBB (T : OpcodeTables) (co : PyCodeObject) (t2 : _PyTier2Info)
    (bb_space : _PyTier2BBSpace) (tier1_start : Nat) (n_typecontext : Nat)
    (type_context : List (Option PyTypeObject)) (heap : Allocator) :
    Except Fault DetectResult :=
  match PyMem_Malloc heap with
  | (false, heap1) => .ok ⟨t2, bb_space, heap1, none⟩
  | (true, heap1) =>
    detect_from T co n_typecontext (type_context.take n_typecontext)
      (2 * (Py_SIZE co - tier1_start) + 2) (detect_init t2 bb_space heap1) tier1_start

/-! ## Tier2Info functions -/

/-- `_PyTier2_CreateBBSpace(space_to_alloc)`; `fresh` is the content of the
newly allocated `u_code`. -/
def _PyTier2_CreateBBSpace (T : OpcodeTables) (heap : Allocator) (fresh : UCode)
    (space_to_alloc : Nat) : Allocator × Option _PyTier2BBSpace :=
  match PyMem_Malloc heap with
  | (false, heap1) => (heap1, none)
  | (true, heap1) =>
    (heap1, some ⟨(space_to_alloc : Int) - (T.sizeof_BBSpace : Int), 0, fresh⟩)

/-- `allocate_jump_offset_2d_array`: one row of `MAX_BB_VERSIONS` slots
holding -1 per jump target; `none` when an allocation fails. -/
def allocate_jump_offset_2d_array (heap : Allocator) :
    Nat → Allocator × Option (List (List Int))
  | 0 => (heap, some [])
  | n + 1 =>
    match PyMem_Malloc heap with
    | (false, heap1) => (heap1, none)
    | (true, heap1) =>
      match allocate_jump_offset_2d_array heap1 n with
      | (heap2, none) => (heap2, none)
      | (heap2, some rows) => (heap2, some (List.replicate MAX_BB_VERSIONS (-1) :: rows))

/-- First loop of `_PyCode_Tier2FillJumpTargets`, from index `i`: the number
of backward-jump instructions, cache tails skipped. -/
def count_backward_jumps (T : OpcodeTables) (co : PyCodeObject) : Nat → Nat → Nat
  | 0, _ => 0
  | fuel + 1, i =>
    if Py_SIZE co ≤ i then 0
    else
      let opcode := T.deopt (code_at co i).opcode
      (if IS_JUMP_BACKWARDS_OPCODE opcode then 1 else 0)
        + count_backward_jumps T co fuel (i + T.caches opcode + 1)

/-- Second loop of `_PyCode_Tier2FillJumpTargets`, from index `i`: the
target offsets `i + 1 - oparg` in the order in which they are stored. -/
def collect_backward_jump_targets (T : OpcodeTables) (co : PyCodeObject) :
    Nat → Nat → List Int
  | 0, _ => []
  | fuel + 1, i =>
    if Py_SIZE co ≤ i then []
    else
      let instr := code_at co i
      let opcode := T.deopt instr.opcode
      let rest := collect_backward_jump_targets T co fuel (i + T.caches opcode + 1)
      if IS_JUMP_BACKWARDS_OPCODE opcode then ((i : Int) + 1 - (instr.oparg : Int)) :: rest
      else rest

/-- `_PyCode_Tier2FillJumpTargets`: the C return value (1 on error) and the
Tier2Info it leaves.  `qsort` with `compare_ints` is a sort into
non-decreasing order. -/
def _PyCode_Tier2FillJumpTargets (T : OpcodeTables) (co : PyCodeObject) (t2 : _PyTier2Info)
    (heap : Allocator) : Nat × _PyTier2Info × Allocator :=
  let backwards_jump_count := count_backward_jumps T co (Py_SIZE co) 0
  if backwards_jump_count ≥ 2 ^ 31 then (1, t2, heap)
  else if backwards_jump_count = 0 then
    (0, { t2 with backward_jump_offsets := [], backward_jump_count := 0 }, heap)
  else
    match PyMem_Malloc heap with
    | (false, heap1) => (1, t2, heap1)
    | (true, heap1) =>
      match PyMem_Malloc heap1 with
      | (false, heap2) => (1, t2, heap2)
      | (true, heap2) =>
        match allocate_jump_offset_2d_array heap2 backwards_jump_count with
        | (heap3, none) => (1, t2, heap3)
        | (heap3, some backward_jump_target_bb_ids) =>
          let backward_jump_offsets :=
            (collect_backward_jump_targets T co (Py_SIZE co) 0).insertionSort (· ≤ ·)
          (0, { t2 with backward_jump_count := backwards_jump_count,
                        backward_jump_offsets := backward_jump_offsets,
                        backward_jump_target_bb_ids := backward_jump_target_bb_ids }, heap3)

/-- `_PyTier2Info_Initialize`: the fresh Tier2Info that `co->_tier2_info` is
set to, or `none` when one of the three allocations fails (the pointer then
stays as it was).  `_entry_bb`, `_bb_space` and the version arrays are not
written here. -/
def _PyTier2Info_Initialize (co : PyCodeObject) (heap : Allocator) :
    Allocator × Option _PyTier2Info :=
  match PyMem_Malloc heap with
  | (false, heap1) => (heap1, none)
  | (true, heap1) =>
    match PyMem_Malloc heap1 with
    | (false, heap2) => (heap2, none)
    | (true, heap2) =>
      match PyMem_Malloc heap2 with
      | (false, heap3) => (heap3, none)
      | (true, heap3) =>
        let bb_data_len := Py_SIZE co / 5 + 1
        (heap3, some
          { _entry_bb := none, _bb_space := none, backward_jump_count := 0,
            backward_jump_offsets := [], backward_jump_target_bb_ids := [],
            bb_data_len := bb_data_len, bb_data_curr := 0,
            bb_data := some (List.replicate bb_data_len none) })

/-- `initialize_type_context`: every local unknown. -/
def initialize_type_context (co : PyCodeObject) (heap : Allocator) :
    Allocator × Option (List (Option PyTypeObject) × Nat) :=
  match PyMem_Malloc heap with
  | (false, heap1) => (heap1, none)
  | (true, heap1) => (heap1, some (List.replicate co.co_nlocals none, co.co_nlocals))

/-- The offsets at which the loops of `_PyCode_Tier2FillJumpTargets` stand,
from index `i` on: the offsets of the instructions of the code object, the
cache tail of each instruction being skipped. -/
def instruction_offsets (T : OpcodeTables) (co : PyCodeObject) : Nat → Nat → List Nat
  | 0, _ => []
  | fuel + 1, i =>
    if Py_SIZE co ≤ i then []
    else i :: instruction_offsets T co fuel (i + T.caches (T.deopt (code_at co i).opcode) + 1)

/-- The instruction at offset `s` is a backward jump: its de-specialized
opcode satisfies `IS_JUMP_BACKWARDS_OPCODE`. -/
def is_backward_jump_at (T : OpcodeTables) (co : PyCodeObject) (s : Nat) : Bool :=
  IS_JUMP_BACKWARDS_OPCODE (T.deopt (code_at co s).opcode)

/-- The target offset `curr + 1 - oparg` of the backward jump at offset `s`. -/
def backward_jump_target (co : PyCodeObject) (s : Nat) : Int :=
  (s : Int) + 1 - ((code_at co s).oparg : Int)

/-- The offsets of the backward-jump instructions of the code object, in
code order. -/
def backward_jump_sources (T : OpcodeTables) (co : PyCodeObject) : List Nat :=
  (instruction_offsets T co (Py_SIZE co) 0).filter (is_backward_jump_at T co)

/-! ## Bootstrap -/

/-- Loop of `replace_resume_and_jump_backwards`, from index `i`. -/
def replace_loop (T : OpcodeTables) : Nat → Nat → List CodeUnit → List CodeUnit
  | 0, _, code => code
  | fuel + 1, i, code =>
    if code.length ≤ i then code
    else
      let instr := code.getD i ⟨.CACHE, 0⟩
      let opcode := T.deopt instr.opcode
      let code1 :=
        if opcode = .RESUME then code.set i (_py_set_opcode instr .RESUME_QUICK)
        else if opcode = .JUMP_BACKWARD then code.set i (_py_set_opcode instr .JUMP_BACKWARD_QUICK)
        else code
      replace_loop T fuel (i + T.caches opcode + 1) code1

/-- `replace_resume_and_jump_backwards`. -/
def replace_resume_and_jump_backwards (T : OpcodeTables) (co : PyCodeObject) : PyCodeObject :=
  { co with co_code_adaptive := replace_loop T (Py_SIZE co) 0 co.co_code_adaptive }

/-- The scan of `_PyCode_Tier2Initialize` over every code unit: `none` when
a forbidden opcode is met, else the accumulated `optimizable` flag. -/
def scan_forbidden (T : OpcodeTables) : List CodeUnit → Bool → Option Bool
  | [], optimizable => some optimizable
  | w :: rest, optimizable =>
    if IS_FORBIDDEN_OPCODE (T.deopt w.opcode) = true then none
    else scan_forbidden T rest (optimizable || IS_OPTIMIZABLE_OPCODE T w.opcode w.oparg)

/-- A `_Py_CODEUNIT *` held by a frame: into the Tier-1 code or into the arena. -/
inductive InstrPtr where
  | tier1 (offset : Int)
  | tier2 (word : Int)
  deriving DecidableEq, Repr

/-- The fields of `_PyInterpreterFrame` that `tier2.c` uses. -/
structure _PyInterpreterFrame where
  f_code : PyCodeObject
  prev_instr : InstrPtr

/-- What `_PyCode_Tier2Initialize` leaves: the frame (with its code object),
the allocator and the returned pointer (`none` is NULL). -/
structure InitResult where
  frame : _PyInterpreterFrame
  heap : Allocator
  next : Option InstrPtr

/-- `_PyCode_Tier2Initialize(frame, next_instr)`. -/
def _PyCode_Tier2Initialize (T : OpcodeTables) (frame : _PyInterpreterFrame)
    (heap : Allocator) (fresh : UCode) : Except Fault InitResult :=
  let co := replace_resume_and_jump_backwards T frame.f_code
  let fail (co : PyCodeObject) (heap : Allocator) : Except Fault InitResult :=
    .ok ⟨{ frame with f_code := co }, heap, none⟩
  if Py_SIZE co ≥ 2 ^ 31 then fail co heap
  else
    match scan_forbidden T co.co_code_adaptive false with
    | none => fail co heap
    | some false => fail co heap
    | some true =>
      match _PyTier2Info_Initialize co heap with
      | (heap1, none) => fail co heap1
      | (heap1, some t2_info) =>
        let space_to_alloc := _PyCode_NBYTES co * 3
        match _PyTier2_CreateBBSpace T heap1 fresh space_to_alloc with
        | (heap2, none) => fail { co with _tier2_info := .dangling } heap2
        | (heap2, some bb_space) =>
          match _PyCode_Tier2FillJumpTargets T co t2_info heap2 with
          | (0, t2a, heap3) =>
            let t2b := { t2a with _bb_space := some bb_space }
            match initialize_type_context co heap3 with
            | (heap4, none) => fail { co with _tier2_info := .dangling } heap4
            | (heap4, some (type_context, type_context_len)) =>
              match _PyTier2_Code_DetectAndEmitBB T co t2b bb_space 0 type_context_len
                  type_context heap4 with
              | .error f => .error f
              | .ok r =>
                match r.result with
                | none => fail { co with _tier2_info := .dangling } r.heap
                | some m =>
                  let t2c := { r.t2 with _bb_space := some r.bb_space, _entry_bb := some m }
                  .ok ⟨{ f_code := { co with _tier2_info := .live t2c },
                         prev_instr := .tier2 ((m.tier2_start : Int) - 1) },
                       r.heap, some (.tier2 (m.tier2_start : Int))⟩
          | (_, _, heap3) => fail { co with _tier2_info := .dangling } heap3

/-- What `_PyCode_Tier2Warmup` leaves: the frame (with its code object), the
allocator and the returned pointer. -/
structure WarmupResult where
  frame : _PyInterpreterFrame
  heap : Allocator
  next : InstrPtr

/-- `_PyCode_Tier2Warmup(frame, next_instr)`.  The counter `_tier2_warmup` is
an `int`; the increment is exact below `INT_MAX`.  The `assert` in front of
the bootstrap call is not part of a release build. -/
def _PyCode_Tier2Warmup (T : OpcodeTables) (frame : _PyInterpreterFrame)
    (heap : Allocator) (fresh : UCode) (next_instr : InstrPtr) : Except Fault WarmupResult :=
  let code := frame.f_code
  if code._tier2_warmup ≠ 0 then
    let frame1 := { frame with f_code := { code with _tier2_warmup := code._tier2_warmup + 1 } }
    if frame1.f_code._tier2_warmup ≥ 0 then
      match _PyCode_Tier2Initialize T frame1 heap fresh with
      | .error f => .error f
      | .ok r =>
        match r.next with
        | some next => .ok ⟨r.frame, r.heap, next⟩
        | none => .ok ⟨r.frame, r.heap, next_instr⟩
    else .ok ⟨frame1, heap, next_instr⟩
  else .ok ⟨frame, heap, next_instr⟩

/-! ## Arena check and lookup of a loop header -/

/-- What `_PyTier2_BBSpaceCheckAndReallocIfNeeded` leaves when it returns:
the Tier2Info, the allocator and the returned arena (`none` is NULL). -/
structure SpaceCheckResult where
  t2 : _PyTier2Info
  heap : Allocator
  space : Option _PyTier2BBSpace

/-- The branch `water_level + space_requested > max_capacity` of
`_PyTier2_BBSpaceCheckAndReallocIfNeeded` from the computation of `new_size`
up to the assignment `new_space->max_capacity = new_size`, the statement in
front of `PyMem_Free(curr)`; `curr` is the arena the Tier2Info points to.
`PyMem_Realloc` keeps the header fields and the words of the old block.
The space field is `none` when `PyMem_Realloc` returned NULL; nothing was
assigned then. -/
def realloc_bb_space (T : OpcodeTables) (t2 : _PyTier2Info) (curr : _PyTier2BBSpace)
    (heap : Allocator) (space_requested : Int) : SpaceCheckResult :=
  let new_size : Int :=
    (T.sizeof_BBSpace : Int) + ((curr.water_level : Int) + space_requested) * 2
  match PyMem_Malloc heap with
  | (false, heap1) => ⟨t2, heap1, none⟩
  | (true, heap1) =>
    let new_space := { curr with max_capacity := new_size }
    ⟨{ t2 with _bb_space := some new_space }, heap1, some new_space⟩

/-- `_PyTier2_BBSpaceCheckAndReallocIfNeeded(co, space_requested)` with
`co->_tier2_info = t2`.  When the arena is too small and `PyMem_Realloc`
succeeds, the function goes on to `PyMem_Free(curr)`, on the block that
`PyMem_Realloc` was given: this is the fault `invalid_free`, and the pointer
the C function then returns is to released memory.  The function returns
without a fault only when the arena has room (it is returned untouched) or
when `PyMem_Realloc` fails (NULL).  On a path without fault the arena block
is therefore never moved. -/
def _PyTier2_BBSpaceCheckAndReallocIfNeeded (T : OpcodeTables) (t2 : _PyTier2Info)
    (heap : Allocator) (space_requested : Int) : Except Fault SpaceCheckResult :=
  match t2._bb_space with
  | none => .error .null_deref
  | some curr =>
    if (curr.water_level : Int) + space_requested > curr.max_capacity then
      let grown := realloc_bb_space T t2 curr heap space_requested
      match grown.space with
      | none => .ok grown
      | some _ => .error .invalid_free
    else .ok ⟨t2, heap, some curr⟩

/-- Inner loop of `_PyTier2_LocateJumpBackwardsBB`: the first entry among
the `MAX_BB_VERSIONS` slots of a version array that is `>= 0`. -/
def first_valid_version (row : List Int) : Option Int :=
  (List.range MAX_BB_VERSIONS).findSome? (fun x =>
    match row.get? x with
    | some v => if v ≥ 0 then some v else none
    | none => none)

/-- What `_PyTier2_LocateJumpBackwardsBB` leaves: the Tier2Info, the
allocator, the value stored through `tier1_fallback` (an offset from
`_PyCode_CODE(co)`) and the returned pointer (`none` is NULL).  The pointer
is the `tier2_start` field of a record, an address in the arena block in
which the block was emitted; it is given as the index of its word in that
block.  On every path without fault the arena block is the one
`_PyTier2_CreateBBSpace` allocated (a reallocation that succeeds ends in the
fault `invalid_free`), so index and address determine each other. -/
structure LocateResult where
  t2 : _PyTier2Info
  heap : Allocator
  tier1_fallback : Int
  result : Option Nat

/-- `_PyTier2_LocateJumpBackwardsBB(frame, bb_id, jumpby, tier1_fallback)`
with `frame->f_code = co` and `co->_tier2_info = t2`.  Reading a slot of
`bb_data` that holds no record, or a version array beyond the allocated rows,
is a fault; so is the read of `bb_data[-1]` when no version is found, and so
is an arena check that reallocates the arena (the `tier2_start` read
afterwards would point into the block that was given to `PyMem_Realloc`). -/
def _PyTier2_LocateJumpBackwardsBB (T : OpcodeTables) (co : PyCodeObject) (t2 : _PyTier2Info)
    (heap : Allocator) (bb_id : Nat) (jumpby : Int) : Except Fault LocateResult :=
  match ((t2.bb_data.getD [])[bb_id]?).join with
  | none => .error .null_deref
  | some metadata =>
    let tier1_jump_target := metadata.tier1_end + jumpby
    match _PyTier2_BBSpaceCheckAndReallocIfNeeded T t2 heap
        ((_PyCode_NBYTES co : Int) - tier1_jump_target * (sizeof_CODEUNIT : Int)) with
    | .error f => .error f
    | .ok c =>
      match c.space with
      | none => .ok ⟨c.t2, c.heap, tier1_jump_target, none⟩
      | some _ =>
        match initialize_type_context co c.heap with
        | (heap2, none) => .ok ⟨c.t2, heap2, tier1_jump_target, none⟩
        | (heap2, some _) =>
          let t2_info := c.t2
          let jump_offset := tier1_jump_target
          let i := find_jump_offset_index t2_info jump_offset
          let matching_bb_id : Except Fault Int :=
            if i < t2_info.backward_jump_count then
              match t2_info.backward_jump_target_bb_ids.get? i with
              | none => .error .out_of_bounds
              | some row => .ok ((first_valid_version row).getD (-1))
            else .ok (-1)
          match matching_bb_id with
          | .error f => .error f
          | .ok id =>
            if id < 0 then .error .out_of_bounds
            else
              match ((t2_info.bb_data.getD [])[id.toNat]?).join with
              | none => .error .null_deref
              | some target_metadata =>
                .ok ⟨t2_info, heap2, tier1_jump_target, some target_metadata.tier2_start⟩

/-! ## Generation of a successor block -/

/-- What `_PyTier2_GenerateNextBB` leaves: the Tier2Info (with `_bb_space`
pointing to the arena as the call wrote it), the allocator, the value stored
through `tier1_fallback` (an offset from `_PyCode_CODE(co)`) and the returned
pointer (the index of a word of the arena block, as in `LocateResult`;
`none` is NULL). -/
structure GenerateResult where
  t2 : _PyTier2Info
  heap : Allocator
  tier1_fallback : Int
  result : Option Nat

/-- `_PyTier2_GenerateNextBB(frame, bb_id, jumpby, tier1_fallback)` with
`frame->f_code = co` and `co->_tier2_info = t2`.  Reading a slot of `bb_data`
that holds no record is a fault; so is a scan that would start in front of
the code. -/
def _PyTier2_GenerateNextBB (T : OpcodeTables) (co : PyCodeObject) (t2 : _PyTier2Info)
    (heap : Allocator) (bb_id : Nat) (jumpby : Int) : Except Fault GenerateResult :=
  match ((t2.bb_data.getD [])[bb_id]?).join with
  | none => .error .null_deref
  | some metadata =>
    let tier1_end := metadata.tier1_end + jumpby
    match _PyTier2_BBSpaceCheckAndReallocIfNeeded T t2 heap
        ((_PyCode_NBYTES co : Int) - tier1_end * (sizeof_CODEUNIT : Int)) with
    | .error f => .error f
    | .ok c =>
      match c.space with
      | none => .ok ⟨c.t2, c.heap, tier1_end, none⟩
      | some space =>
        match initialize_type_context co c.heap with
        | (heap2, none) => .ok ⟨c.t2, heap2, tier1_end, none⟩
        | (heap2, some (type_context, type_context_len)) =>
          if tier1_end < 0 then .error .out_of_bounds
          else
            match _PyTier2_Code_DetectAndEmitBB T co c.t2 space tier1_end.toNat
                type_context_len type_context heap2 with
            | .error f => .error f
            | .ok r =>
              .ok ⟨{ r.t2 with _bb_space := some r.bb_space }, r.heap, tier1_end,
                r.result.map (fun m => m.tier2_start)⟩

/-! ## Sample inputs

Concrete tables, code objects and Tier2Info records on which the functions
above are run. -/

/-- A table instance: every opcode is its own de-specialized form except the
quick forms and `OTHER 1`, which stands for a specialized `BINARY_OP`;
`BINARY_OP`, `FOR_ITER`, `COMPARE_OP` and `COMPARE_AND_BRANCH` carry one cache
entry; the `bb_id` sits in the two bytes of the word, low byte first. -/
def sampleTables : OpcodeTables where
  deopt := fun op =>
    match op with
    | .RESUME_QUICK => .RESUME
    | .JUMP_BACKWARD_QUICK => .JUMP_BACKWARD
    | .OTHER 1 => .BINARY_OP
    | op => op
  caches := fun op =>
    match op with
    | .BINARY_OP | .FOR_ITER | .COMPARE_OP | .COMPARE_AND_BRANCH => 1
    | _ => 0
  INLINE_CACHE_ENTRIES_BB_BRANCH := 1
  INLINE_CACHE_ENTRIES_FOR_ITER := 1
  NB_ADD := 0
  bb_id_word := fun v => ⟨.OTHER (v % 256), v / 256⟩
  sizeof_BBSpace := 16

/-- An arena of 1000 bytes whose words all read `CACHE 0`. -/
def sampleArena : _PyTier2BBSpace := ⟨1000, 0, fun _ => ⟨.CACHE, 0⟩⟩

/-- A Tier2Info as `_PyTier2Info_Initialize` leaves it, with `n` metadata
slots and the given jump target index. -/
def sampleInfo (n : Nat) (offsets : List Int) : _PyTier2Info :=
  { _entry_bb := none, _bb_space := none,
    backward_jump_count := offsets.length,
    backward_jump_offsets := offsets,
    backward_jump_target_bb_ids := offsets.map (fun _ => List.replicate MAX_BB_VERSIONS (-1)),
    bb_data_len := n, bb_data_curr := 0,
    bb_data := some (List.replicate n none) }

/-- A code object with two locals holding the given code units. -/
def sampleCode (code : List CodeUnit) : PyCodeObject :=
  { co_code_adaptive := code, co_nlocals := 2, co_stacksize := 2, co_consts := [],
    _tier2_warmup := -1, _tier2_info := .null }

/-- Scenario S1: `LOAD_FAST 0; LOAD_FAST 1; BINARY_OP NB_ADD` (with its cache
word)`; RETURN_VALUE`. -/
def addCode : PyCodeObject :=
  sampleCode [⟨.LOAD_FAST, 0⟩, ⟨.LOAD_FAST, 1⟩, ⟨.BINARY_OP, 0⟩, ⟨.CACHE, 0⟩,
    ⟨.RETURN_VALUE, 0⟩]

/-- A forward jump over one instruction: `LOAD_CONST 0; JUMP_FORWARD 1;
LOAD_CONST 2; LOAD_CONST 1; RETURN_VALUE`; the jump at offset 1 targets
offset 3. -/
def forwardJumpCode : PyCodeObject :=
  sampleCode [⟨.LOAD_CONST, 0⟩, ⟨.JUMP_FORWARD, 1⟩, ⟨.LOAD_CONST, 2⟩, ⟨.LOAD_CONST, 1⟩,
    ⟨.RETURN_VALUE, 0⟩]

/-- A loop whose header is offset 1: `RESUME; LOAD_FAST 0; POP_JUMP_IF_FALSE 2;
LOAD_FAST 1; JUMP_BACKWARD 4; RETURN_VALUE`. -/
def loopCode : PyCodeObject :=
  sampleCode [⟨.RESUME, 0⟩, ⟨.LOAD_FAST, 0⟩, ⟨.POP_JUMP_IF_FALSE, 2⟩, ⟨.LOAD_FAST, 1⟩,
    ⟨.JUMP_BACKWARD, 4⟩, ⟨.RETURN_VALUE, 0⟩]

/-- The first `n` words of the arena from word `lo` on. -/
def _PyTier2BBSpace.words (sp : _PyTier2BBSpace) (lo n : Nat) : List CodeUnit :=
  (List.range n).map (fun k => sp.u_code (lo + k))

/-- Successive discovery calls from the same start offset, each on the
Tier2Info and arena left by the one before, no allocation failing: the
records returned and the final Tier2Info. -/
def detect_repeatedly (T : OpcodeTables) (co : PyCodeObject) (tier1_start : Nat)
    (type_context : List (Option PyTypeObject)) :
    Nat → _PyTier2Info → _PyTier2BBSpace →
      Except Fault (List (Option _PyTier2BBMetadata) × _PyTier2Info)
  | 0, t2, _ => .ok ([], t2)
  | k + 1, t2, sp =>
    match _PyTier2_Code_DetectAndEmitBB T co t2 sp tier1_start type_context.length
        type_context [] with
    | .error f => .error f
    | .ok r =>
      match detect_repeatedly T co tier1_start type_context k r.t2 r.bb_space with
      | .error f => .error f
      | .ok (rs, t2a) => .ok (r.result :: rs, t2a)

/-- A frame whose code object adds two int constants with a specialized
`BINARY_OP` (`OTHER 1` in `sampleTables`): `RESUME; LOAD_CONST 0;
LOAD_CONST 1; OTHER 1 NB_ADD` (with its cache word)`; RETURN_VALUE`. -/
def constAddFrame : _PyInterpreterFrame :=
  { f_code :=
      { co_code_adaptive := [⟨.RESUME, 0⟩, ⟨.LOAD_CONST, 0⟩, ⟨.LOAD_CONST, 1⟩, ⟨.OTHER 1, 0⟩,
          ⟨.CACHE, 0⟩, ⟨.RETURN_VALUE, 0⟩],
        co_nlocals := 0, co_stacksize := 2,
        co_consts := [.PyLong_Type, .PyLong_Type],
        _tier2_warmup := -1, _tier2_info := .null },
    prev_instr := .tier1 0 }

/-- The first `n` words of the arena of the code object that a bootstrap
call leaves, when it leaves a live Tier2Info with an arena. -/
def InitResult.arena_words (r : InitResult) (n : Nat) : Option (List CodeUnit) :=
  match r.frame.f_code._tier2_info with
  | .live t2 => t2._bb_space.map (fun sp => sp.words 0 n)
  | _ => none

/-- A frame whose code object holds `RESUME; YIELD_VALUE; RETURN_VALUE`. -/
def yieldFrame : _PyInterpreterFrame :=
  { f_code := sampleCode [⟨.RESUME, 0⟩, ⟨.YIELD_VALUE, 0⟩, ⟨.RETURN_VALUE, 0⟩],
    prev_instr := .tier1 0 }

/-- A memory whose words all read `BB_BRANCH_IF_FLAG_SET 0`. -/
def stubMemory : Memory := fun _ => ⟨.BB_BRANCH_IF_FLAG_SET, 0⟩


/-- The Tier2Info of `loopCode` before any block exists: one jump target,
offset 1, with an empty version array. -/
def loopInfo : _PyTier2Info := sampleInfo 2 [1]

/-- The scan state at the start of a discovery call on `loopCode`. -/
def loopStart : Emit := detect_init loopInfo sampleArena []

/-- The scan state of a discovery call on `loopCode` from offset 0 after the
`RESUME` at offset 0 was emitted. -/
def loopAfterResume : Emit := DISPATCH loopCode loopStart 0 .RESUME_QUICK 0 0

/-- A `for` loop: `RESUME; LOAD_FAST 0; GET_ITER; FOR_ITER 2` (with its
cache word)`; STORE_FAST 1; JUMP_BACKWARD 4; END_FOR; LOAD_CONST 0;
RETURN_VALUE`, where `OTHER 68` and `OTHER 125` stand for `GET_ITER` and
`STORE_FAST`.  The backward jump at offset 6 targets the `FOR_ITER` at
offset 3; the loop is left at the `END_FOR` of offset 7. -/
def forLoopCode : PyCodeObject :=
  sampleCode [⟨.RESUME, 0⟩, ⟨.LOAD_FAST, 0⟩, ⟨.OTHER 68, 0⟩, ⟨.FOR_ITER, 2⟩, ⟨.CACHE, 0⟩,
    ⟨.OTHER 125, 1⟩, ⟨.JUMP_BACKWARD, 4⟩, ⟨.END_FOR, 0⟩, ⟨.LOAD_CONST, 0⟩, ⟨.RETURN_VALUE, 0⟩]

/-- A loop with a `continue`: `RESUME; LOAD_FAST 0; POP_JUMP_IF_FALSE 1;
JUMP_BACKWARD 3; LOAD_FAST 1; JUMP_BACKWARD 5; RETURN_VALUE`.  Both backward
jumps (offsets 3 and 5) target offset 1. -/
def continueLoopCode : PyCodeObject :=
  sampleCode [⟨.RESUME, 0⟩, ⟨.LOAD_FAST, 0⟩, ⟨.POP_JUMP_IF_FALSE, 1⟩, ⟨.JUMP_BACKWARD, 3⟩,
    ⟨.LOAD_FAST, 1⟩, ⟨.JUMP_BACKWARD, 5⟩, ⟨.RETURN_VALUE, 0⟩]

/-- The Tier2Info that `_PyTier2Info_Initialize` gives for a code object when
no allocation fails. -/
def freshInfo (co : PyCodeObject) : _PyTier2Info :=
  { _entry_bb := none, _bb_space := none, backward_jump_count := 0,
    backward_jump_offsets := [], backward_jump_target_bb_ids := [],
    bb_data_len := Py_SIZE co / 5 + 1, bb_data_curr := 0,
    bb_data := some (List.replicate (Py_SIZE co / 5 + 1) none) }

/-- Test `co->_tier2_info == NULL`. -/
def Tier2InfoPtr.is_null : Tier2InfoPtr → Bool
  | .null => true
  | _ => false

/-- The pointer still holds the address of a record that was freed. -/
def Tier2InfoPtr.is_dangling : Tier2InfoPtr → Bool
  | .dangling => true
  | _ => false

/-- A Tier2Info with two jump targets, offsets 1 and 7; the version array of
offset 1 already holds the block ids 3 and 5. -/
def twoVersionsInfo : _PyTier2Info :=
  { sampleInfo 10 [1, 7] with
    backward_jump_target_bb_ids := [[3, 5, -1, -1, -1], [-1, -1, -1, -1, -1]] }

/-- A record as `allocate_bb_metadata` returns it (the `id` field not yet
set): a block at word 4 of the arena whose Tier-1 end is offset 6. -/
def sampleRecord : _PyTier2BBMetadata := ⟨0, 4, 6, 2, [none, none]⟩

/-- The Tier2Info of `loopCode` after `_PyTier2Info_Initialize` and two
successful calls of `write_bb_metadata`; its table of two slots is full. -/
def twoRecordsInfo : _PyTier2Info :=
  (write_bb_metadata (write_bb_metadata (freshInfo loopCode) [] sampleRecord).2.1 []
    sampleRecord).2.1

/-- The Tier2Info of a six-word code object whose arena was created by
`_PyTier2_CreateBBSpace` with `_PyCode_NBYTES(co) * 3 = 36` bytes and has
14 bytes in use. -/
def smallArenaInfo : _PyTier2Info :=
  { freshInfo loopCode with
    _bb_space := (_PyTier2_CreateBBSpace sampleTables [] sampleArena.u_code 36).2.map
      (fun sp => { sp with water_level := 14 }) }

/-- The scan state of a discovery call on `addCode` (scenario S1) from
offset 0 after the two `LOAD_FAST` were emitted. -/
def addAfterLoads : Emit :=
  DISPATCH addCode (DISPATCH addCode (detect_init (sampleInfo 2 []) sampleArena []) 0
    .LOAD_FAST 0 0) 1 .LOAD_FAST 1 0

/-- The Tier2Info of `loopCode` after the discovery call from offset 0 (which
registers the blocks 0 and 1 and installs block 1 for the loop header,
offset 1) and the discovery call from offset 3 (block 2, which ends with the
backward jump to the header and has `tier1_end` 5), with `_bb_space` pointing
to the arena the two calls wrote. -/
def loopAfterCalls : _PyTier2Info :=
  match _PyTier2_Code_DetectAndEmitBB sampleTables loopCode loopInfo sampleArena 0 2
      [none, none] [] with
  | .ok r1 =>
    match _PyTier2_Code_DetectAndEmitBB sampleTables loopCode r1.t2 r1.bb_space 3 2
        [none, none] [] with
    | .ok r2 => { r2.t2 with _bb_space := some r2.bb_space }
    | .error _ => loopInfo
  | .error _ => loopInfo

/-- A code object whose `BINARY_OP NB_ADD` was specialized by Tier 1
(`OTHER 1` in `sampleTables`): `LOAD_FAST 0; LOAD_FAST 1; OTHER 1 NB_ADD`
(with its cache word, which holds the counter value 17)`; RETURN_VALUE`. -/
def specializedAddCode : PyCodeObject :=
  sampleCode [⟨.LOAD_FAST, 0⟩, ⟨.LOAD_FAST, 1⟩, ⟨.OTHER 1, 0⟩, ⟨.OTHER 17, 0⟩,
    ⟨.RETURN_VALUE, 0⟩]

/-- A frame whose code object holds `RESUME; LOAD_CONST 0; RETURN_VALUE`:
no code unit is optimizable. -/
def constFrame : _PyInterpreterFrame :=
  { f_code := sampleCode [⟨.RESUME, 0⟩, ⟨.LOAD_CONST, 0⟩, ⟨.RETURN_VALUE, 0⟩],
    prev_instr := .tier1 0 }

/-- A frame whose code object holds `RESUME; LOAD_FAST 0; LOAD_FAST 1;
COMPARE_OP 0` (with its cache word)`; RETURN_VALUE`.  No instruction is
optimizable; the cache word of `COMPARE_OP` holds the two bytes of a
specialized `BINARY_OP` with oparg `NB_ADD` (`OTHER 1` and 0 in
`sampleTables`). -/
def compareFrame : _PyInterpreterFrame :=
  { f_code := sampleCode [⟨.RESUME, 0⟩, ⟨.LOAD_FAST, 0⟩, ⟨.LOAD_FAST, 1⟩, ⟨.COMPARE_OP, 0⟩,
      ⟨.OTHER 1, 0⟩, ⟨.RETURN_VALUE, 0⟩],
    prev_instr := .tier1 0 }

/-- A frame whose code object holds a loop with a body of 255 words that ends
in a return, so that no backward jump closes it: `RESUME; LOAD_FAST 0;
GET_ITER` (`OTHER 68`)`; FOR_ITER 255` (with its cache word)`; STORE_FAST 1`
(`OTHER 125`)`; LOAD_FAST 1; LOAD_FAST 1; OTHER 1 NB_ADD` (a specialized
`BINARY_OP`, with its cache word)`;` 249 `NOP`s`; RETURN_VALUE; END_FOR;
LOAD_CONST 0; RETURN_VALUE`.  The `FOR_ITER` at offset 3 targets the
`END_FOR` at offset 260. -/
def longLoopFrame : _PyInterpreterFrame :=
  { f_code := sampleCode ([⟨.RESUME, 0⟩, ⟨.LOAD_FAST, 0⟩, ⟨.OTHER 68, 0⟩, ⟨.FOR_ITER, 255⟩,
        ⟨.CACHE, 0⟩, ⟨.OTHER 125, 1⟩, ⟨.LOAD_FAST, 1⟩, ⟨.LOAD_FAST, 1⟩, ⟨.OTHER 1, 0⟩,
        ⟨.CACHE, 0⟩]
      ++ List.replicate 249 ⟨.NOP, 0⟩
      ++ [⟨.RETURN_VALUE, 0⟩, ⟨.END_FOR, 0⟩, ⟨.LOAD_CONST, 0⟩, ⟨.RETURN_VALUE, 0⟩]),
    prev_instr := .tier1 0 }

/-- A frame whose code object holds a loop closed by
`JUMP_BACKWARD_NO_INTERRUPT`: `RESUME; LOAD_FAST 0; LOAD_FAST 1; OTHER 1
NB_ADD` (a specialized `BINARY_OP`, with its cache word)`; STORE_FAST 0`
(`OTHER 125`)`; JUMP_BACKWARD_NO_INTERRUPT 6`.  The jump at offset 6 targets
offset 1. -/
def noInterruptFrame : _PyInterpreterFrame :=
  { f_code := sampleCode [⟨.RESUME, 0⟩, ⟨.LOAD_FAST, 0⟩, ⟨.LOAD_FAST, 1⟩, ⟨.OTHER 1, 0⟩,
      ⟨.CACHE, 0⟩, ⟨.OTHER 125, 0⟩, ⟨.JUMP_BACKWARD_NO_INTERRUPT, 6⟩],
    prev_instr := .tier1 0 }

/-- A frame whose code object is the loop `while True: if c1 and c2 and c3
and c4 and c5: a = a + b`: `RESUME;` five times `LOAD_FAST k;
POP_JUMP_IF_FALSE` (offsets 1 to 10, each jump targeting offset 16)`;
LOAD_FAST 5; LOAD_FAST 6; OTHER 1 NB_ADD` (a specialized `BINARY_OP`, with
its cache word)`; STORE_FAST 5` (`OTHER 125`)`; JUMP_BACKWARD 16`.  The
backward jump at offset 16, the last word of the code, targets offset 1. -/
def andChainFrame : _PyInterpreterFrame :=
  { f_code :=
      { co_code_adaptive := [⟨.RESUME, 0⟩,
          ⟨.LOAD_FAST, 0⟩, ⟨.POP_JUMP_IF_FALSE, 13⟩, ⟨.LOAD_FAST, 1⟩, ⟨.POP_JUMP_IF_FALSE, 11⟩,
          ⟨.LOAD_FAST, 2⟩, ⟨.POP_JUMP_IF_FALSE, 9⟩, ⟨.LOAD_FAST, 3⟩, ⟨.POP_JUMP_IF_FALSE, 7⟩,
          ⟨.LOAD_FAST, 4⟩, ⟨.POP_JUMP_IF_FALSE, 5⟩,
          ⟨.LOAD_FAST, 5⟩, ⟨.LOAD_FAST, 6⟩, ⟨.OTHER 1, 0⟩, ⟨.CACHE, 0⟩, ⟨.OTHER 125, 5⟩,
          ⟨.JUMP_BACKWARD, 16⟩],
        co_nlocals := 7, co_stacksize := 2, co_consts := [],
        _tier2_warmup := -1, _tier2_info := .null },
    prev_instr := .tier1 0 }

/-- Successive calls of `_PyTier2_GenerateNextBB`, one per pair `(bb_id,
jumpby)`, each on the Tier2Info left by the one before, no allocation
failing: the pointers returned and the final Tier2Info. -/
def generate_successors (T : OpcodeTables) (co : PyCodeObject) :
    List (Nat × Int) → _PyTier2Info → Except Fault (List (Option Nat) × _PyTier2Info)
  | [], t2 => .ok ([], t2)
  | (bb_id, jumpby) :: rest, t2 =>
    match _PyTier2_GenerateNextBB T co t2 [] bb_id jumpby with
    | .error f => .error f
    | .ok g =>
      match generate_successors T co rest g.t2 with
      | .error f => .error f
      | .ok (rs, t2a) => .ok (g.result :: rs, t2a)

/-- The code object of `andChainFrame` with the bytecode as the bootstrap
leaves it (`RESUME_QUICK` and `JUMP_BACKWARD_QUICK` substituted). -/
def andChainCode : PyCodeObject :=
  replace_resume_and_jump_backwards sampleTables andChainFrame.f_code

/-- The Tier2Info of `andChainCode` after the bootstrap and the successor
requests of the branch stubs, in an order in which runs of the function can
make them: the fall-through of each of the five tests (blocks 1 to 5,
`jumpby` 0), then the taken branch of the first four tests (`jumpby` the
oparg of the test). -/
def andChainInfo : Option _PyTier2Info :=
  match _PyCode_Tier2Initialize sampleTables andChainFrame [] sampleArena.u_code with
  | .ok r =>
    match r.frame.f_code._tier2_info with
    | .live t2 =>
      match generate_successors sampleTables andChainCode
          [(1, 0), (2, 0), (3, 0), (4, 0), (5, 0), (1, 13), (2, 11), (3, 9), (4, 7)] t2 with
      | .ok (_, t2a) => some t2a
      | .error _ => none
    | _ => none
  | .error _ => none

/-- A frame whose code object holds two nested loops without a test at
their heads, as in `while True: x = 0` followed by an inner `while True:
x = x + y; if x: break`: `RESUME; LOAD_CONST 0; STORE_FAST 0`
(`OTHER 125`)`; LOAD_FAST 0; LOAD_FAST 1; OTHER 1 NB_ADD` (a specialized
`BINARY_OP`, with its cache word)`; STORE_FAST 0; LOAD_FAST 0;
POP_JUMP_IF_FALSE 1; JUMP_BACKWARD 10; JUMP_BACKWARD 9`.  The backward jump
at offset 10 targets offset 1, the head of the outer loop; the one at offset
11 targets offset 3, the head of the inner loop; no instruction that ends a
block lies between the two heads. -/
def nestedLoopFrame : _PyInterpreterFrame :=
  { f_code :=
      { co_code_adaptive := [⟨.RESUME, 0⟩, ⟨.LOAD_CONST, 0⟩, ⟨.OTHER 125, 0⟩,
          ⟨.LOAD_FAST, 0⟩, ⟨.LOAD_FAST, 1⟩, ⟨.OTHER 1, 0⟩, ⟨.CACHE, 0⟩, ⟨.OTHER 125, 0⟩,
          ⟨.LOAD_FAST, 0⟩, ⟨.POP_JUMP_IF_FALSE, 1⟩, ⟨.JUMP_BACKWARD, 10⟩, ⟨.JUMP_BACKWARD, 9⟩],
        co_nlocals := 2, co_stacksize := 2, co_consts := [.PyLong_Type],
        _tier2_warmup := -1, _tier2_info := .null },
    prev_instr := .tier1 0 }

/-- The code object of `nestedLoopFrame` with the bytecode as the bootstrap
leaves it (`RESUME_QUICK` and `JUMP_BACKWARD_QUICK` substituted). -/
def nestedLoopCode : PyCodeObject :=
  replace_resume_and_jump_backwards sampleTables nestedLoopFrame.f_code

/-- A frame whose code object is the loop `while True: a = a + b`:
`RESUME; LOAD_FAST 0; LOAD_FAST 1; OTHER 1 NB_ADD` (a specialized
`BINARY_OP`, with its cache word)`; STORE_FAST 0` (`OTHER 125`)`;
JUMP_BACKWARD 6`.  The backward jump at offset 6 targets offset 1.  The
code has 7 words, so the bootstrap creates the arena with
`_PyTier2_CreateBBSpace(42)`. -/
def plainLoopFrame : _PyInterpreterFrame :=
  { f_code := sampleCode [⟨.RESUME, 0⟩, ⟨.LOAD_FAST, 0⟩, ⟨.LOAD_FAST, 1⟩, ⟨.OTHER 1, 0⟩,
      ⟨.CACHE, 0⟩, ⟨.OTHER 125, 0⟩, ⟨.JUMP_BACKWARD, 6⟩],
    prev_instr := .tier1 0 }

/-- The code object of `plainLoopFrame` with the bytecode as the bootstrap
leaves it (`RESUME_QUICK` and `JUMP_BACKWARD_QUICK` substituted). -/
def plainLoopCode : PyCodeObject :=
  replace_resume_and_jump_backwards sampleTables plainLoopFrame.f_code

/-- The byte counts of an arena and its words `lo .. lo + n - 1`. -/
def _PyTier2BBSpace.summary (sp : _PyTier2BBSpace) (lo n : Nat) : Nat × Int × List CodeUnit :=
  (sp.water_level, sp.max_capacity, sp.words lo n)

/-! ## Predicates used in the statements -/

/-- No further allocation request fails. -/
def never_fails (heap : Allocator) : Prop := ∀ b ∈ heap, b = true

/-- The metadata table is consistent: `bb_data_curr` does not exceed
`bb_data_len`, and the array, when allocated, has `bb_data_len` slots. -/
def bb_data_wf (t2 : _PyTier2Info) : Prop :=
  t2.bb_data_curr ≤ t2.bb_data_len ∧ ∀ l, t2.bb_data = some l → l.length = t2.bb_data_len

/-- Slot `k` of the metadata table (`none` when outside the array or never
written). -/
def bb_data_at (t2 : _PyTier2Info) (k : Nat) : Option _PyTier2BBMetadata :=
  ((t2.bb_data.getD [])[k]?).join

/-- State `s1` of the scan comes after state `s` within one block: nothing
was registered or allocated in between, the flags are the same, and the
write cursor only moved forward, leaving the words below it as they were. -/
def Emit.continues (s s1 : Emit) : Prop :=
  s1.t2 = s.t2 ∧ s1.heap = s.heap ∧ s1.metadata = s.metadata ∧
  s1.starts_with_backwards_jump_target = s.starts_with_backwards_jump_target ∧
  s1.backwards_jump_target_offset = s.backwards_jump_target_offset ∧
  s1.virtual_start = s.virtual_start ∧
  s1.bb_space.water_level = s.bb_space.water_level ∧
  s1.bb_space.max_capacity = s.bb_space.max_capacity ∧
  s.t2_start ≤ s1.t2_start ∧ s.write_i ≤ s1.write_i ∧
  ∀ a, a < s.write_i → s1.bb_space.u_code a = s.bb_space.u_code a

/-- A version array is densely packed: the ids come first, from index 0,
and every slot after them holds the sentinel -1. -/
def densely_packed (row : List Int) : Prop :=
  ∃ k, k ≤ row.length ∧ (∀ j, j < k → row[j]? ≠ some (-1)) ∧
    ∀ j, k ≤ j → j < row.length → row[j]? = some (-1)

/-- The states of the metadata table that can be reached from a freshly
initialized Tier2Info: `_PyTier2Info_Initialize` creates the table,
`write_bb_metadata` is the only function that writes `bb_data`,
`bb_data_curr` or `bb_data_len` afterwards, and every other step leaves the
three fields as they are. -/
inductive bb_data_reachable (co : PyCodeObject) : _PyTier2Info → Prop
  | init (heap heap1 : Allocator) (t2 : _PyTier2Info)
      (h : _PyTier2Info_Initialize co heap = (heap1, some t2)) : bb_data_reachable co t2
  | write (t2 : _PyTier2Info) (heap : Allocator) (m : _PyTier2BBMetadata)
      (h : bb_data_reachable co t2) :
      bb_data_reachable co (write_bb_metadata t2 heap m).2.1
  | other (t2 t2a : _PyTier2Info) (h : bb_data_reachable co t2)
      (hd : t2a.bb_data = t2.bb_data) (hc : t2a.bb_data_curr = t2.bb_data_curr)
      (hl : t2a.bb_data_len = t2.bb_data_len) : bb_data_reachable co t2a

/-- The opcode that the scan loop emits through `DISPATCH()` for an
instruction with de-specialized opcode `opcode`: `RESUME` becomes
`RESUME_QUICK`, `COMPARE_AND_BRANCH` becomes `COMPARE_OP`, every other opcode
is emitted in its de-specialized form. -/
def pass_through_opcode (opcode : Opcode) : Opcode :=
  match opcode with
  | .RESUME => .RESUME_QUICK
  | .COMPARE_AND_BRANCH => .COMPARE_OP
  | op => op

/-- Tier2Info `t2a` comes after `t2` in the life of a code object: the jump
target index is the same, every record registered in `t2` is still there,
every version slot that held a block id still holds it, and the metadata
table is consistent. -/
def info_extends (t2 t2a : _PyTier2Info) : Prop :=
  t2a.backward_jump_count = t2.backward_jump_count ∧
  t2a.backward_jump_offsets = t2.backward_jump_offsets ∧
  (∀ (i : Nat) (row : List Int), t2.backward_jump_target_bb_ids[i]? = some row →
    ∃ row1 : List Int, t2a.backward_jump_target_bb_ids[i]? = some row1 ∧
      ∀ (x : Nat) (v : Int), row[x]? = some v → v ≠ -1 → row1[x]? = some v) ∧
  t2.bb_data_curr ≤ t2a.bb_data_curr ∧
  (∀ k, k < t2.bb_data_curr → bb_data_at t2a k = bb_data_at t2 k) ∧
  bb_data_wf t2a

/-- Where the scan loop of `_PyTier2_Code_DetectAndEmitBB` goes after the
instruction at offset `i`, when no block has to be ended in front of it: the
value of `i` at the `continue` (the loop then adds 1), or `none` when the
instruction leaves the loop through `END()`. -/
def scan_continue (T : OpcodeTables) (co : PyCodeObject) (i : Nat) : Option Nat :=
  let curr := code_at co i
  let opcode := T.deopt curr.opcode
  if opcode = .RESUME ∨ opcode = .COMPARE_AND_BRANCH ∨ opcode = .END_FOR then
    some (i + T.caches opcode)
  else if IS_SCOPE_EXIT_OPCODE opcode = true then none
  else if IS_JUMP_OPCODE opcode = true then
    if opcode = .JUMP_FORWARD then some (i + (curr.oparg + 1)) else none
  else some (i + T.caches opcode)

/-- The Tier-1 offsets of the instructions of the block that starts at
offset `i`: the offsets at which the scan loop stands from `i` on until it
leaves through `END()` or runs off the code. -/
def block_offsets (T : OpcodeTables) (co : PyCodeObject) : Nat → Nat → List Nat
  | 0, _ => []
  | fuel + 1, i =>
    if Py_SIZE co ≤ i then []
    else
      i :: (match scan_continue T co i with
            | none => []
            | some i1 => block_offsets T co fuel (i1 + 1))

/-- The state in which the scan loop of `_PyTier2_Code_DetectAndEmitBB`
reaches label `fall_through` for the instruction at offset `i` (an
instruction other than `RESUME`, `COMPARE_AND_BRANCH` and `END_FOR`) when it
stands there in state `s`: `s` itself away from a jump target; at a jump
target the assignments of `mark_jump_target` are made, after the block in
front was ended and registered when one was open (`virtual_start` unset).
`none` when that registration fails and the call returns NULL. -/
def emission_state (n_typecontext : Nat) (type_context_copy : List (Option PyTypeObject))
    (s : Emit) (i : Nat) : Option Emit :=
  if IS_BACKWARDS_JUMP_TARGET s.t2 i = true then
    if s.virtual_start = true then some (mark_jump_target s i)
    else
      match _PyTier2_AllocateBBMetaData s.t2 s.heap s.t2_start ((i : Int) - 1)
          n_typecontext type_context_copy with
      | (_, _, none) => none
      | (t2a, heap1, some m) => some (mark_jump_target (virtual_end s t2a heap1 m) i)
  else some s

/-- The `switch` of `replace_resume_and_jump_backwards` applied to one
instruction word: the opcode becomes `RESUME_QUICK` when the word
de-specializes to `RESUME`, `JUMP_BACKWARD_QUICK` when it de-specializes to
`JUMP_BACKWARD`; the oparg stays. -/
def quick_form (T : OpcodeTables) (instr : CodeUnit) : CodeUnit :=
  if T.deopt instr.opcode = .RESUME then _py_set_opcode instr .RESUME_QUICK
  else if T.deopt instr.opcode = .JUMP_BACKWARD then _py_set_opcode instr .JUMP_BACKWARD_QUICK
  else instr

/-- The scan stands in a block that was opened at a jump target after an
earlier block of the same call was registered: `meta` is set,
`starts_with_backwards_jump_target` is set and the offset stored with it is
an entry of the jump target index. -/
def Emit.marked (s : Emit) : Prop :=
  s.starts_with_backwards_jump_target = true ∧ s.metadata ≠ none ∧
  ∃ t : Nat, s.backwards_jump_target_offset = (t : Int) ∧
    IS_BACKWARDS_JUMP_TARGET s.t2 t = true

/-- State `s1` of the scan comes after state `s` with no registration in
between: the Tier2Info, the allocator and `meta` are the same, and the
cursors only moved forward, leaving the words below the write cursor as
they were. -/
def Emit.advances (s s1 : Emit) : Prop :=
  s1.t2 = s.t2 ∧ s1.heap = s.heap ∧ s1.metadata = s.metadata ∧
  s.t2_start ≤ s1.t2_start ∧ s.write_i ≤ s1.write_i ∧
  ∀ a, a < s.write_i → s1.bb_space.u_code a = s.bb_space.u_code a

/-! # Theorems -/

/-! ## Bootstrap rejects forbidden opcodes -/

theorem replace_loop_keeps_forbidden (T : OpcodeTables) (w : CodeUnit)
    (hw : IS_FORBIDDEN_OPCODE (T.deopt w.opcode) = true) :
    ∀ (fuel i : Nat) (code : List CodeUnit) (p : Nat),
      code[p]? = some w → (replace_loop T fuel i code)[p]? = some w := by
  intro fuel
  induction fuel with
  | zero => intro i code p h; simpa [replace_loop] using h
  | succ fuel ih =>
    intro i code p h
    unfold replace_loop
    by_cases hlen : code.length ≤ i
    · simpa [hlen] using h
    · simp only [hlen, if_false]
      apply ih
      by_cases hpi : p = i
      · subst hpi
        have hget : code.getD p ⟨.CACHE, 0⟩ = w := by
          simp [List.getD_eq_getElem?_getD, h]
        rw [hget]
        have h1 : T.deopt w.opcode ≠ .RESUME := by
          intro hc; rw [hc] at hw; exact absurd hw (by decide)
        have h2 : T.deopt w.opcode ≠ .JUMP_BACKWARD := by
          intro hc; rw [hc] at hw; exact absurd hw (by decide)
        simpa [h1, h2] using h
      · have hne : i ≠ p := fun hc => hpi hc.symm
        split_ifs <;> simp [List.getElem?_set_ne hne, h]

theorem scan_forbidden_none (T : OpcodeTables) :
    ∀ (code : List CodeUnit) (b : Bool),
      (∃ w ∈ code, IS_FORBIDDEN_OPCODE (T.deopt w.opcode) = true) →
      scan_forbidden T code b = none := by
  intro code
  induction code with
  | nil => intro b h; simp at h
  | cons x rest ih =>
    intro b h
    unfold scan_forbidden
    by_cases hx : IS_FORBIDDEN_OPCODE (T.deopt x.opcode) = true
    · simp [hx]
    · simp only [hx, if_false]
      apply ih
      obtain ⟨w, hmem, hw⟩ := h
      rcases List.mem_cons.mp hmem with rfl | hr
      · exact absurd hw hx
      · exact ⟨w, hr, hw⟩

/-- C1: when some code unit of the code object, at any position,
de-specializes to a forbidden opcode, `_PyCode_Tier2Initialize` returns NULL;
the pointer `co->_tier2_info` is what it was before the call, the frame's
`prev_instr` is untouched and no allocation was made (so no Tier2Info, no
arena and no basic block exist). -/
theorem bootstrap_rejects_forbidden (T : OpcodeTables) (frame : _PyInterpreterFrame)
    (heap : Allocator) (fresh : UCode)
    (h : ∃ w ∈ frame.f_code.co_code_adaptive,
      IS_FORBIDDEN_OPCODE (T.deopt w.opcode) = true) :
    ∃ r, _PyCode_Tier2Initialize T frame heap fresh = .ok r ∧ r.next = none ∧
      r.frame.f_code._tier2_info = frame.f_code._tier2_info ∧
      r.frame.prev_instr = frame.prev_instr ∧ r.heap = heap := by
  obtain ⟨w, hmem, hw⟩ := h
  obtain ⟨p, hp⟩ := List.getElem?_of_mem hmem
  have hkeep := replace_loop_keeps_forbidden T w hw (Py_SIZE frame.f_code) 0 _ p hp
  have hscan : scan_forbidden T
      (replace_resume_and_jump_backwards T frame.f_code).co_code_adaptive false = none := by
    apply scan_forbidden_none
    exact ⟨w, List.getElem?_mem hkeep, hw⟩
  unfold _PyCode_Tier2Initialize
  simp only [hscan]
  split_ifs <;> exact ⟨_, rfl, rfl, rfl, rfl, rfl⟩

/-- Witness for C1: a code object containing `YIELD_VALUE`. -/
theorem bootstrap_rejects_forbidden_witness :
    (∃ w ∈ yieldFrame.f_code.co_code_adaptive,
      IS_FORBIDDEN_OPCODE (sampleTables.deopt w.opcode) = true) ∧
    ∃ r, _PyCode_Tier2Initialize sampleTables yieldFrame [] sampleArena.u_code = .ok r ∧
      r.next = none ∧
      r.frame.f_code._tier2_info = yieldFrame.f_code._tier2_info ∧
      r.frame.prev_instr = yieldFrame.prev_instr ∧ r.heap = [] :=
  ⟨by decide,
   bootstrap_rejects_forbidden sampleTables yieldFrame [] sampleArena.u_code (by decide)⟩

/-! ## Discovery on concrete code objects -/

/-- C2: on `LOAD_CONST 0; JUMP_FORWARD 1; LOAD_CONST 2; LOAD_CONST 1;
RETURN_VALUE` the jump at offset 1 targets offset 3, but after it the scan
continues at offset 4: the block is `LOAD_CONST 0; RETURN_VALUE`, and the
target instruction `LOAD_CONST 1` is not in it. -/
theorem forward_jump_skips_its_target :
    ∃ r, _PyTier2_Code_DetectAndEmitBB sampleTables forwardJumpCode (sampleInfo 2 [])
        sampleArena 0 2 [none, none] [] = .ok r ∧
      r.bb_space.water_level = 4 ∧
      r.bb_space.words 0 2 = [⟨.LOAD_CONST, 0⟩, ⟨.RETURN_VALUE, 0⟩] ∧
      r.result = some ⟨0, 0, 5, 2, [none, none]⟩ := by
  refine ⟨_, rfl, by decide, by decide, by decide⟩

/-- C3: on scenario S1 with both locals typed int, `BINARY_OP_RESULT_TYPE`
selects `BINARY_OP_ADD_INT_REST` for the instruction at offset 2, but the
block that discovery emits carries the plain `BINARY_OP`.  The same happens
through the bootstrap for a code object that adds two int constants with a
specialized `BINARY_OP`: the entry block carries `BINARY_OP`. -/
theorem add_int_is_not_specialized :
    BINARY_OP_RESULT_TYPE sampleTables addCode 2 [some .PyLong_Type, some .PyLong_Type]
      = (some .PyLong_Type, some 0, some .BINARY_OP_ADD_INT_REST) ∧
    (∃ r, _PyTier2_Code_DetectAndEmitBB sampleTables addCode (sampleInfo 2 []) sampleArena 0 2
        [some .PyLong_Type, some .PyLong_Type] [] = .ok r ∧
      r.bb_space.water_level = 10 ∧
      r.bb_space.words 0 5 = [⟨.LOAD_FAST, 0⟩, ⟨.LOAD_FAST, 1⟩, ⟨.BINARY_OP, 0⟩,
        ⟨.CACHE, 0⟩, ⟨.RETURN_VALUE, 0⟩] ∧
      r.t2.bb_data_curr = 1) ∧
    BINARY_OP_RESULT_TYPE sampleTables constAddFrame.f_code 3 []
      = (some .PyLong_Type, some 0, some .BINARY_OP_ADD_INT_REST) ∧
    (∃ r, _PyCode_Tier2Initialize sampleTables constAddFrame [] sampleArena.u_code = .ok r ∧
      r.next = some (.tier2 0) ∧
      r.arena_words 6 = some [⟨.RESUME_QUICK, 0⟩, ⟨.LOAD_CONST, 0⟩, ⟨.LOAD_CONST, 1⟩,
        ⟨.BINARY_OP, 0⟩, ⟨.CACHE, 0⟩, ⟨.RETURN_VALUE, 0⟩]) := by
  refine ⟨by decide, ⟨_, rfl, by decide, by decide, by decide⟩, by decide,
    ⟨_, rfl, by decide, by decide⟩⟩

/-- C4: six discovery calls that start at the loop header (offset 1) of
`loopCode`.  Every call returns a record, the sixth included, although after
the fifth call the version array of the header is full; the block of the
sixth call (id 11) is installed nowhere. -/
theorem sixth_version_is_not_refused :
    ∃ rs t2, detect_repeatedly sampleTables loopCode 1 [none, none] 6 (sampleInfo 2 [1])
        sampleArena = .ok (rs, t2) ∧
      rs.map (fun r => r.map (fun m => m.id))
        = [some 0, some 2, some 4, some 6, some 8, some 10] ∧
      t2.bb_data_curr = 12 ∧
      t2.backward_jump_target_bb_ids = [[1, 3, 5, 7, 9]] := by
  refine ⟨_, _, rfl, by decide, by decide, by decide⟩

/-- C10: discovery from offset 0 of `loopCode` falls through into the loop
header at offset 1 after consuming `RESUME`; the record of the block that ends
there has `tier1_end` 0, the offset of the `RESUME` itself, not 1. -/
theorem fall_through_block_ends_one_short :
    ∃ r, _PyTier2_Code_DetectAndEmitBB sampleTables loopCode (sampleInfo 2 [1]) sampleArena
        0 2 [none, none] [] = .ok r ∧
      r.t2.bb_data
        = some [some ⟨0, 0, 0, 2, [none, none]⟩, some ⟨1, 1, 3, 2, [none, none]⟩] := by
  refine ⟨_, rfl, by decide⟩

/-! ## Branch rewriter -/

theorem memory_store_apply (mem : Memory) (p : Int) (w : CodeUnit) (a : Int) :
    mem.store p w a = if a = p then w else mem a := rfl

/-- C5: for a stub holding `BB_BRANCH_IF_FLAG_SET` (resp. `UNSET`) and a
target with `0 ≤ target - stub - 1 ≤ 255`, `_PyTier2_RewriteForwardJump`
leaves at the stub `BB_JUMP_IF_FLAG_SET` (resp. `UNSET`) with oparg
`target - stub - 1`, and `NOP` in the next word; the address after the jump
word plus the oparg is the target, no `BB_BRANCH` opcode remains at the stub,
and no other word changes. -/
theorem rewrite_forward_jump_short (mem : Memory) (stub target : Int)
    (hop : (mem stub).opcode = .BB_BRANCH_IF_FLAG_SET ∨
      (mem stub).opcode = .BB_BRANCH_IF_FLAG_UNSET)
    (hlo : 0 ≤ target - stub - 1) (hhi : target - stub - 1 ≤ 255) :
    ((mem stub).opcode = .BB_BRANCH_IF_FLAG_SET →
      (_PyTier2_RewriteForwardJump mem stub target stub).opcode = .BB_JUMP_IF_FLAG_SET) ∧
    ((mem stub).opcode = .BB_BRANCH_IF_FLAG_UNSET →
      (_PyTier2_RewriteForwardJump mem stub target stub).opcode = .BB_JUMP_IF_FLAG_UNSET) ∧
    ((_PyTier2_RewriteForwardJump mem stub target stub).oparg : Int) = target - stub - 1 ∧
    (_PyTier2_RewriteForwardJump mem stub target (stub + 1)).opcode = .NOP ∧
    (stub + 1) + ((_PyTier2_RewriteForwardJump mem stub target stub).oparg : Int) = target ∧
    (_PyTier2_RewriteForwardJump mem stub target stub).opcode ≠ .BB_BRANCH ∧
    (_PyTier2_RewriteForwardJump mem stub target stub).opcode ≠ .BB_BRANCH_IF_FLAG_SET ∧
    (_PyTier2_RewriteForwardJump mem stub target stub).opcode ≠ .BB_BRANCH_IF_FLAG_UNSET ∧
    (∀ a, a ≠ stub → a ≠ stub + 1 →
      _PyTier2_RewriteForwardJump mem stub target a = mem a) := by
  have hne : ¬ (target - stub - 1 > 255) := by omega
  have h1 : stub ≠ stub + 1 := by omega
  have hv : (((target - stub - 1) % 256).toNat : Int) = target - stub - 1 := by omega
  simp only [_PyTier2_RewriteForwardJump, Memory.store, _py_set_opcode, hne, decide_False,
    Bool.false_eq_true, if_false, if_true, h1]
  refine ⟨?_, ?_, ?_, ?_, ?_, ?_, ?_, ?_, ?_⟩
  · intro h; simp [h]
  · intro h; simp [h]
  · simpa using hv
  · simp
  · simp; omega
  · rcases hop with h | h <;> simp [h]
  · rcases hop with h | h <;> simp [h]
  · rcases hop with h | h <;> simp [h]
  · intro a ha hb; simp [ha, hb]

/-- Witness for C5: a `BB_BRANCH_IF_FLAG_SET` stub at word 10, target 20. -/
theorem rewrite_forward_jump_short_witness :
    ((stubMemory 10).opcode = .BB_BRANCH_IF_FLAG_SET ∨
      (stubMemory 10).opcode = .BB_BRANCH_IF_FLAG_UNSET) ∧
    (0 : Int) ≤ 20 - 10 - 1 ∧ (20 : Int) - 10 - 1 ≤ 255 ∧
    (_PyTier2_RewriteForwardJump stubMemory 10 20 10).opcode = .BB_JUMP_IF_FLAG_SET ∧
    ((_PyTier2_RewriteForwardJump stubMemory 10 20 10).oparg : Int) = 20 - 10 - 1 ∧
    (_PyTier2_RewriteForwardJump stubMemory 10 20 11).opcode = .NOP :=
  have h := rewrite_forward_jump_short stubMemory 10 20 (Or.inl rfl) (by decide) (by decide)
  ⟨Or.inl rfl, by decide, by decide, h.1 rfl, h.2.2.1, h.2.2.2.1⟩

/-- C6: a `BB_BRANCH_IF_FLAG_SET` stub at word 0 and target 257, so that
`target - stub - 1 = 256`.  The rewrite leaves `EXTENDED_ARG 1;
BB_JUMP_IF_FLAG_SET 255`; the pair decodes to displacement 511, and the word
after the jump (address 2) plus 511 is 513, not the target 257. -/
theorem rewrite_forward_jump_long_misses_target :
    _PyTier2_RewriteForwardJump stubMemory 0 257 0 = ⟨.EXTENDED_ARG, 1⟩ ∧
    _PyTier2_RewriteForwardJump stubMemory 0 257 1 = ⟨.BB_JUMP_IF_FLAG_SET, 255⟩ ∧
    (2 : Int) + ((((_PyTier2_RewriteForwardJump stubMemory 0 257 0).oparg <<< 8)
      ||| (_PyTier2_RewriteForwardJump stubMemory 0 257 1).oparg : Nat) : Int) = 513 := by
  decide

/-- C7: for a lazy backward-jump stub at `p` and a target with
`1 ≤ (p + 1) - target ≤ 0xFFFF`, `_PyTier2_RewriteBackwardJump` writes at
`p - 1` either `EXTENDED_ARG` with the high byte (displacement above 255) or
`NOP`, at `p` `JUMP_BACKWARD_QUICK` with the low byte and at `p + 1`
`END_FOR`; with `high` the oparg of the `EXTENDED_ARG` (0 when the word is
`NOP`) and `low` the oparg of the jump, `(p + 1) - ((high << 8) | low)` is the
target. -/
theorem rewrite_backward_jump (mem : Memory) (p target : Int)
    (hlo : 1 ≤ (p + 1) - target) (hhi : (p + 1) - target ≤ 0xFFFF) :
    (if (p + 1) - target > 255
      then _PyTier2_RewriteBackwardJump mem p target (p - 1)
            = ⟨.EXTENDED_ARG, (((p + 1) - target) / 256).toNat⟩
      else _PyTier2_RewriteBackwardJump mem p target (p - 1)
            = ⟨.NOP, (mem (p - 1)).oparg⟩) ∧
    _PyTier2_RewriteBackwardJump mem p target p
      = ⟨.JUMP_BACKWARD_QUICK, (((p + 1) - target) % 256).toNat⟩ ∧
    (_PyTier2_RewriteBackwardJump mem p target (p + 1)).opcode = .END_FOR ∧
    (p + 1) - (((((if (p + 1) - target > 255
          then (_PyTier2_RewriteBackwardJump mem p target (p - 1)).oparg else 0) <<< 8)
        ||| (_PyTier2_RewriteBackwardJump mem p target p).oparg : Nat) : Int)) = target := by
  have h1 : p - 1 ≠ p := by omega
  have h2 : p - 1 ≠ p + 1 := by omega
  have h3 : p ≠ p + 1 := by omega
  have h4 : p - 1 + 1 = p := by omega
  have h5 : p - 1 + 1 + 1 = p + 1 := by omega
  have hd : -(target - (p + 1)) = p + 1 - target := by omega
  have hlow : (((p + 1) - target) % 256).toNat < 2 ^ 8 := by omega
  simp only [_PyTier2_RewriteBackwardJump, _py_set_opcode, h4, h5, hd]
  by_cases hx : p + 1 - target > 255
  · have hhigh : ((p + 1 - target) / 256 % 256) = (p + 1 - target) / 256 := by omega
    simp only [hx, decide_True, if_true, memory_store_apply, h1, h2, h3, Ne.symm h1,
      Ne.symm h2, Ne.symm h3, if_false, hhigh, true_and]
    rw [Nat.shiftLeft_eq, Nat.mul_comm, ← Nat.mul_add_lt_is_or hlow]
    push_cast
    omega
  · simp only [hx, decide_False, if_true, memory_store_apply, h1, h2, h3, Ne.symm h1,
      Ne.symm h2, Ne.symm h3, if_false, true_and, Bool.false_eq_true]
    simp
    omega

/-- Witness for C7: a stub at word 400 and target 100, displacement 301. -/
theorem rewrite_backward_jump_witness :
    (1 : Int) ≤ (400 + 1) - 100 ∧ ((400 : Int) + 1) - 100 ≤ 0xFFFF ∧
    _PyTier2_RewriteBackwardJump stubMemory 400 100 400 = ⟨.JUMP_BACKWARD_QUICK, 45⟩ ∧
    (_PyTier2_RewriteBackwardJump stubMemory 400 100 401).opcode = .END_FOR :=
  have h := rewrite_backward_jump stubMemory 400 100 (by decide) (by decide)
  ⟨by decide, by decide, h.2.1, h.2.2.1⟩

/-! ## Allocation and registration -/

theorem malloc_never_fails (heap : Allocator) (h : never_fails heap) :
    ∃ heap1, PyMem_Malloc heap = (true, heap1) ∧ never_fails heap1 := by
  cases heap with
  | nil => exact ⟨[], rfl, h⟩
  | cons b rest =>
    have hb : b = true := h b (List.mem_cons_self _ _)
    subst hb
    exact ⟨rest, rfl, fun c hc => h c (List.mem_cons_of_mem _ hc)⟩

theorem store_bb_metadata_spec (t2 : _PyTier2Info) (m : _PyTier2BBMetadata) :
    (store_bb_metadata t2 m).2 = { m with id := t2.bb_data_curr } ∧
    (store_bb_metadata t2 m).1.bb_data_curr = t2.bb_data_curr + 1 ∧
    (store_bb_metadata t2 m).1.bb_data_len = t2.bb_data_len ∧
    (store_bb_metadata t2 m).1.backward_jump_count = t2.backward_jump_count ∧
    (store_bb_metadata t2 m).1.backward_jump_offsets = t2.backward_jump_offsets ∧
    (store_bb_metadata t2 m).1.backward_jump_target_bb_ids = t2.backward_jump_target_bb_ids ∧
    (store_bb_metadata t2 m).1.bb_data
      = some ((t2.bb_data.getD []).set t2.bb_data_curr (some { m with id := t2.bb_data_curr })) :=
  ⟨rfl, rfl, rfl, rfl, rfl, rfl, rfl⟩

/-- Registration of a record when no allocation fails: the record gets the
id `bb_data_curr`, is stored in that slot, and the earlier slots, the jump
target index and the version arrays are unchanged. -/
theorem allocate_metadata_ok (t2 : _PyTier2Info) (heap : Allocator) (ts : Nat) (te : Int)
    (n : Nat) (tc : List (Option PyTypeObject))
    (hheap : never_fails heap) (hlen : (t2.bb_data_len + 1) * 2 < 2 ^ 31)
    (hwf : bb_data_wf t2) :
    ∃ t2a heap1,
      _PyTier2_AllocateBBMetaData t2 heap ts te n tc
        = (t2a, heap1, some ⟨t2.bb_data_curr, ts, te, n, tc⟩) ∧
      never_fails heap1 ∧
      t2a.bb_data_curr = t2.bb_data_curr + 1 ∧
      t2a.bb_data_len ≤ 2 * t2.bb_data_len + 2 ∧
      bb_data_wf t2a ∧
      t2a.backward_jump_count = t2.backward_jump_count ∧
      t2a.backward_jump_offsets = t2.backward_jump_offsets ∧
      t2a.backward_jump_target_bb_ids = t2.backward_jump_target_bb_ids ∧
      bb_data_at t2a t2.bb_data_curr = some ⟨t2.bb_data_curr, ts, te, n, tc⟩ ∧
      (∀ k, k < t2.bb_data_curr → bb_data_at t2a k = bb_data_at t2 k) := by
  obtain ⟨heap1, hm1, hnf1⟩ := malloc_never_fails heap hheap
  obtain ⟨hcurr, hl⟩ := hwf
  unfold _PyTier2_AllocateBBMetaData allocate_bb_metadata
  simp only [hm1]
  unfold write_bb_metadata
  by_cases hgrow : (t2.bb_data.isNone || decide (t2.bb_data_curr ≥ t2.bb_data_len)) = true
  · -- the table is grown first
    obtain ⟨heap2, hm2, hnf2⟩ := malloc_never_fails heap1 hnf1
    have hnew : ¬ ((t2.bb_data_len + 1) * 2 ≥ 2 ^ 31) := by omega
    simp only [hgrow, if_true, hnew, if_false, hm2]
    have hlen_new : (realloc_bb_data t2.bb_data ((t2.bb_data_len + 1) * 2)).length
        = (t2.bb_data_len + 1) * 2 := by
      simp [realloc_bb_data]
    refine ⟨_, heap2, rfl, hnf2, rfl, ?_, ?_, rfl, rfl, rfl, ?_, ?_⟩
    · simp [store_bb_metadata]; omega
    · refine ⟨?_, ?_⟩
      · simp [store_bb_metadata]; omega
      · intro l h
        simp only [store_bb_metadata, Option.getD_some, Option.some.injEq] at h
        rw [← h]; simp [hlen_new, store_bb_metadata]
    · simp only [bb_data_at, store_bb_metadata, Option.getD_some]
      rw [List.getElem?_set_self (by rw [hlen_new]; omega)]
      rfl
    · intro k hk
      simp only [bb_data_at, store_bb_metadata, Option.getD_some]
      rw [List.getElem?_set_ne (by omega)]
      cases hb : t2.bb_data with
      | none => simp [realloc_bb_data, List.getElem?_take, List.getElem?_replicate]
      | some l =>
        have hll := hl l hb
        simp only [realloc_bb_data, Option.getD_some]
        rw [List.getElem?_take_of_lt (by omega), List.getElem?_append_left (by omega)]
  · -- there is a free slot
    simp only [hgrow, Bool.false_eq_true, if_false]
    have hg : ¬ t2.bb_data = none ∧ t2.bb_data_curr < t2.bb_data_len := by
      simpa using hgrow
    obtain ⟨l, hb⟩ : ∃ l, t2.bb_data = some l := by
      cases hb : t2.bb_data with
      | none => exact absurd hb hg.1
      | some l => exact ⟨l, rfl⟩
    have hll := hl l hb
    refine ⟨_, heap1, rfl, hnf1, rfl, ?_, ?_, rfl, rfl, rfl, ?_, ?_⟩
    · simp [store_bb_metadata]; omega
    · refine ⟨?_, ?_⟩
      · simp [store_bb_metadata]; omega
      · intro l' h
        simp only [store_bb_metadata, hb, Option.getD_some, Option.some.injEq] at h
        rw [← h]; simp [hll, store_bb_metadata]
    · simp only [bb_data_at, store_bb_metadata, hb, Option.getD_some]
      rw [List.getElem?_set_self (by omega)]
      rfl
    · intro k hk
      simp only [bb_data_at, store_bb_metadata, hb, Option.getD_some]
      rw [List.getElem?_set_ne (by omega)]
/-! ## The emitter only writes at or above the write cursor -/

theorem ucode_store_apply (u : UCode) (p : Nat) (w : CodeUnit) (a : Nat) :
    u.store p w a = if a = p then w else u a := rfl

theorem emit_cache_entries_spec :
    ∀ (n : Nat) (u : UCode) (w : Nat),
      (emit_cache_entries u w n).2 = w + n ∧
      ∀ a, a < w → (emit_cache_entries u w n).1 a = u a := by
  intro n
  induction n with
  | zero => intro u w; exact ⟨rfl, fun _ _ => rfl⟩
  | succ n ih =>
    intro u w
    obtain ⟨h1, h2⟩ := ih (u.store w (_py_set_opcode (u w) .CACHE)) (w + 1)
    refine ⟨?_, ?_⟩
    · simp only [emit_cache_entries, h1]; omega
    · intro a ha
      simp only [emit_cache_entries]
      rw [h2 a (by omega), ucode_store_apply, if_neg (by omega)]

theorem copy_cache_entries_spec (co : PyCodeObject) :
    ∀ (n : Nat) (u : UCode) (w c : Nat),
      (copy_cache_entries co u w c n).2 = w + n ∧
      ∀ a, a < w → (copy_cache_entries co u w c n).1 a = u a := by
  intro n
  induction n with
  | zero => intro u w c; exact ⟨rfl, fun _ _ => rfl⟩
  | succ n ih =>
    intro u w c
    obtain ⟨h1, h2⟩ := ih (u.store w (code_at co c)) (w + 1) (c + 1)
    refine ⟨?_, ?_⟩
    · simp only [copy_cache_entries, h1]; omega
    · intro a ha
      simp only [copy_cache_entries]
      rw [h2 a (by omega), ucode_store_apply, if_neg (by omega)]

theorem emit_logical_branch_spec (T : OpcodeTables) (u : UCode) (w : Nat) (branch : CodeUnit)
    (bb_id : Nat) :
    emit_logical_branch T u w branch bb_id = .error .unreachable ∨
    ∃ r, emit_logical_branch T u w branch bb_id = .ok r ∧ w ≤ r.2 ∧
      ∀ a, a < w → r.1 a = u a := by
  unfold emit_logical_branch
  cases logical_branch_opcode (T.deopt branch.opcode) with
  | none => exact Or.inl rfl
  | some opcode =>
    right
    simp only
    split_ifs
    · refine ⟨_, rfl, ?_, ?_⟩
      · simp only [(emit_cache_entries_spec _ _ _).1]; omega
      · intro a ha
        simp only [store_bb_id, ucode_store_apply]
        rw [if_neg (by omega), (emit_cache_entries_spec _ _ _).2 a (by omega)]
        simp only [ucode_store_apply]
        rw [if_neg (by omega), if_neg (by omega)]
    · refine ⟨_, rfl, ?_, ?_⟩
      · simp only [(emit_cache_entries_spec _ _ _).1]; omega
      · intro a ha
        simp only [store_bb_id, ucode_store_apply, (emit_cache_entries_spec _ _ _).1]
        rw [if_neg (by omega), (emit_cache_entries_spec _ _ _).2 a (by omega)]
        simp only [ucode_store_apply]
        rw [if_neg (by omega), (emit_cache_entries_spec _ _ _).2 a (by omega)]
        simp only [ucode_store_apply]
        rw [if_neg (by omega)]
    · refine ⟨_, rfl, ?_, ?_⟩
      · simp only [(emit_cache_entries_spec _ _ _).1]; omega
      · intro a ha
        simp only [store_bb_id, ucode_store_apply]
        rw [if_neg (by omega), (emit_cache_entries_spec _ _ _).2 a (by omega)]
        simp only [ucode_store_apply]
        rw [if_neg (by omega), if_neg (by omega)]

theorem emit_scope_exit_spec (u : UCode) (w : Nat) (exit : CodeUnit) :
    emit_scope_exit u w exit = .error .unreachable ∨
    ∃ r, emit_scope_exit u w exit = .ok r ∧ w ≤ r.2 ∧ ∀ a, a < w → r.1 a = u a := by
  have hok : ∃ r, (Except.ok (u.store w exit, w + 1) : Except Fault (UCode × Nat)) = .ok r ∧
      w ≤ r.2 ∧ ∀ a, a < w → r.1 a = u a := by
    refine ⟨_, rfl, by simp, ?_⟩
    intro a ha
    simp only [ucode_store_apply]
    rw [if_neg (by omega)]
  unfold emit_scope_exit
  split
  · exact Or.inr hok
  · exact Or.inr hok
  · exact Or.inr hok
  · exact Or.inl rfl

theorem Emit.continues_refl (s : Emit) : s.continues s :=
  ⟨rfl, rfl, rfl, rfl, rfl, rfl, rfl, rfl, Nat.le_refl _, Nat.le_refl _, fun _ _ => rfl⟩

theorem Emit.continues_trans {s s1 s2 : Emit} (h1 : s.continues s1) (h2 : s1.continues s2) :
    s.continues s2 := by
  obtain ⟨a1, a2, a3, a4, a5, a6, a7, a8, a9, a10, a11⟩ := h1
  obtain ⟨b1, b2, b3, b4, b5, b6, b7, b8, b9, b10, b11⟩ := h2
  refine ⟨b1.trans a1, b2.trans a2, b3.trans a3, b4.trans a4, b5.trans a5, b6.trans a6,
    b7.trans a7, b8.trans a8, Nat.le_trans a9 b9, Nat.le_trans a10 b10, ?_⟩
  intro a ha
  rw [b11 a (by omega), a11 a ha]

theorem DISPATCH_continues (co : PyCodeObject) (s : Emit) (i : Nat) (opcode : Opcode)
    (oparg caches : Nat) : s.continues (DISPATCH co s i opcode oparg caches) := by
  refine ⟨rfl, rfl, rfl, rfl, rfl, rfl, rfl, rfl, Nat.le_refl _, ?_, ?_⟩
  · simp only [DISPATCH, emit_i, (copy_cache_entries_spec co _ _ _ _).1]; omega
  · intro a ha
    simp only [DISPATCH, emit_i]
    rw [(copy_cache_entries_spec co _ _ _ _).2 a (by omega), ucode_store_apply,
      if_neg (by omega)]

/-- One pass from label `fall_through`: `Py_UNREACHABLE()`, or `continue`
at an index not below `i`, or `END()`; in the last two cases nothing was
registered and only words at or above the write cursor were written. -/
theorem fall_through_spec (T : OpcodeTables) (co : PyCodeObject) (s : Emit) (i : Nat) :
    fall_through T co s i = .error .unreachable ∨
    (∃ s1 i1, fall_through T co s i = .ok (.continue_ s1 i1) ∧ i ≤ i1 ∧ s.continues s1 ∧
      s1.t2_start = s.t2_start) ∨
    (∃ s1 i1, fall_through T co s i = .ok (.goto_end s1 i1) ∧ i ≤ i1 ∧ s.continues s1 ∧
      s1.t2_start = s.t2_start) := by
  unfold fall_through
  simp only
  split_ifs with h1 h2 h3
  · rcases emit_scope_exit_spec s.bb_space.u_code s.write_i (code_at co i) with he | ⟨r, he, hw, hf⟩
    · left; rw [he]
    · right; right
      rw [he]
      exact ⟨_, _, rfl, by omega,
        ⟨rfl, rfl, rfl, rfl, rfl, rfl, rfl, rfl, Nat.le_refl _, hw, hf⟩, rfl⟩
  · right; left
    exact ⟨_, _, rfl, by omega, s.continues_refl, rfl⟩
  · rcases emit_logical_branch_spec T s.bb_space.u_code s.write_i (code_at co i)
      s.t2.bb_data_curr with he | ⟨r, he, hw, hf⟩
    · left; rw [he]
    · right; right
      rw [he]
      exact ⟨_, _, rfl, by omega,
        ⟨rfl, rfl, rfl, rfl, rfl, rfl, rfl, rfl, Nat.le_refl _, hw, hf⟩, rfl⟩
  · right; left
    exact ⟨_, _, rfl, by omega, DISPATCH_continues co s i _ _ _, rfl⟩
/-! ## Steps of the scan loop -/

theorem IS_BACKWARDS_JUMP_TARGET_congr {t2 t2a : _PyTier2Info}
    (h1 : t2a.backward_jump_count = t2.backward_jump_count)
    (h2 : t2a.backward_jump_offsets = t2.backward_jump_offsets) (i : Int) :
    IS_BACKWARDS_JUMP_TARGET t2a i = IS_BACKWARDS_JUMP_TARGET t2 i := by
  simp only [IS_BACKWARDS_JUMP_TARGET, h1, h2]

theorem find_jump_offset_index_congr {t2 t2a : _PyTier2Info}
    (h1 : t2a.backward_jump_count = t2.backward_jump_count)
    (h2 : t2a.backward_jump_offsets = t2.backward_jump_offsets) (i : Int) :
    find_jump_offset_index t2a i = find_jump_offset_index t2 i := by
  simp only [find_jump_offset_index, h1, h2]

theorem find_jump_offset_index_lt (t2 : _PyTier2Info) (i : Int)
    (h : IS_BACKWARDS_JUMP_TARGET t2 i = true) :
    find_jump_offset_index t2 i < t2.backward_jump_count := by
  unfold IS_BACKWARDS_JUMP_TARGET at h
  unfold find_jump_offset_index
  obtain ⟨o, ho, hoi⟩ := List.any_eq_true.mp h
  have hlt : List.findIdx (fun o => decide (o = i))
      (t2.backward_jump_offsets.take t2.backward_jump_count)
      < (t2.backward_jump_offsets.take t2.backward_jump_count).length := by
    apply List.findIdx_lt_length_of_exists
    exact ⟨o, ho, by simpa using (of_decide_eq_true hoi).symm⟩
  have hle := List.length_take_le t2.backward_jump_count t2.backward_jump_offsets
  omega

theorem scan_at_end (T : OpcodeTables) (co : PyCodeObject) (n : Nat)
    (tc : List (Option PyTypeObject)) (fuel : Nat) (s : Emit) (i : Nat)
    (h : Py_SIZE co ≤ i) :
    scan T co n tc (fuel + 1) false s i = .ok (.at_end s i) := by
  unfold scan
  rw [if_pos ⟨rfl, h⟩]

theorem scan_of_error (T : OpcodeTables) (co : PyCodeObject) (n : Nat)
    (tc : List (Option PyTypeObject)) (fuel : Nat) (rd : Bool) (s : Emit) (i : Nat) (f : Fault)
    (h : ¬ (rd = false ∧ Py_SIZE co ≤ i))
    (hd : dispatch_opcode T co n tc s i = .error f) :
    scan T co n tc (fuel + 1) rd s i = .error f := by
  unfold scan
  rw [if_neg h, hd]

theorem scan_of_continue (T : OpcodeTables) (co : PyCodeObject) (n : Nat)
    (tc : List (Option PyTypeObject)) (fuel : Nat) (rd : Bool) (s : Emit) (i : Nat)
    (s1 : Emit) (i1 : Nat) (h : ¬ (rd = false ∧ Py_SIZE co ≤ i))
    (hd : dispatch_opcode T co n tc s i = .ok (.continue_ s1 i1)) :
    scan T co n tc (fuel + 1) rd s i = scan T co n tc fuel false s1 (i1 + 1) := by
  rw [scan, if_neg h, hd]

theorem scan_of_dispatch_goto (T : OpcodeTables) (co : PyCodeObject) (n : Nat)
    (tc : List (Option PyTypeObject)) (fuel : Nat) (rd : Bool) (s : Emit) (i : Nat)
    (s1 : Emit) (h : ¬ (rd = false ∧ Py_SIZE co ≤ i))
    (hd : dispatch_opcode T co n tc s i = .ok (.dispatch_goto s1)) :
    scan T co n tc (fuel + 1) rd s i = scan T co n tc fuel true s1 i := by
  rw [scan, if_neg h, hd]

theorem scan_of_goto_end (T : OpcodeTables) (co : PyCodeObject) (n : Nat)
    (tc : List (Option PyTypeObject)) (fuel : Nat) (rd : Bool) (s : Emit) (i : Nat)
    (s1 : Emit) (i1 : Nat) (h : ¬ (rd = false ∧ Py_SIZE co ≤ i))
    (hd : dispatch_opcode T co n tc s i = .ok (.goto_end s1 i1)) :
    scan T co n tc (fuel + 1) rd s i = .ok (.at_end s1 i1) := by
  rw [scan, if_neg h, hd]

theorem scan_of_return_null (T : OpcodeTables) (co : PyCodeObject) (n : Nat)
    (tc : List (Option PyTypeObject)) (fuel : Nat) (rd : Bool) (s : Emit) (i : Nat)
    (s1 : Emit) (h : ¬ (rd = false ∧ Py_SIZE co ≤ i))
    (hd : dispatch_opcode T co n tc s i = .ok (.return_null s1)) :
    scan T co n tc (fuel + 1) rd s i = .ok (.returned_null s1) := by
  rw [scan, if_neg h, hd]

/-! ## Label `end` for a block that starts at a jump target -/

/-- The version arrays after the id `id` was offered to the row of `target`:
stored in the first slot holding -1, or no change when the row is full. -/
theorem add_metadata_spec (t2 : _PyTier2Info) (m : _PyTier2BBMetadata) (target : Nat)
    (htarget : IS_BACKWARDS_JUMP_TARGET t2 target = true)
    (hrows : t2.backward_jump_count ≤ t2.backward_jump_target_bb_ids.length) :
    ∃ row, t2.backward_jump_target_bb_ids[find_jump_offset_index t2 target]? = some row ∧
      ((find_free_version row = none ∧
          add_metadata_to_jump_2d_array t2 (some m) target = .ok (1, t2)) ∨
       (∃ j, find_free_version row = some j ∧
          add_metadata_to_jump_2d_array t2 (some m) target = .ok (0, { t2 with
            backward_jump_target_bb_ids :=
              t2.backward_jump_target_bb_ids.set (find_jump_offset_index t2 target)
                (row.set j (m.id : Int)) }))) := by
  have hlt := find_jump_offset_index_lt t2 target htarget
  have hidx : find_jump_offset_index t2 target < t2.backward_jump_target_bb_ids.length := by
    omega
  refine ⟨t2.backward_jump_target_bb_ids[find_jump_offset_index t2 target], ?_, ?_⟩
  · exact List.getElem?_eq_getElem hidx
  · unfold add_metadata_to_jump_2d_array
    simp only [List.get?_eq_getElem?, List.getElem?_eq_getElem hidx]
    cases hfree : find_free_version
        t2.backward_jump_target_bb_ids[find_jump_offset_index t2 target] with
    | none => exact Or.inl ⟨rfl, rfl⟩
    | some j => exact Or.inr ⟨j, rfl, rfl⟩

/-- Label `end` reached in a block that was marked as starting at the jump
target `target`, after an earlier block `m1` of the same call was registered:
the call returns `m1`, registers the block under the next id and offers that
id to the version array of `target`. -/
theorem detect_end_marked (s : Emit) (i n : Nat) (tc : List (Option PyTypeObject))
    (m1 : _PyTier2BBMetadata) (target : Nat)
    (hmeta : s.metadata = some m1)
    (hsw : s.starts_with_backwards_jump_target = true)
    (hoff : s.backwards_jump_target_offset = (target : Int))
    (htarget : IS_BACKWARDS_JUMP_TARGET s.t2 target = true)
    (hrows : s.t2.backward_jump_count ≤ s.t2.backward_jump_target_bb_ids.length)
    (hheap : never_fails s.heap) (hlen : (s.t2.bb_data_len + 1) * 2 < 2 ^ 31)
    (hwf : bb_data_wf s.t2) :
    ∃ r row, detect_end s i n tc = .ok r ∧ r.result = some m1 ∧
      r.t2.bb_data_curr = s.t2.bb_data_curr + 1 ∧
      bb_data_at r.t2 s.t2.bb_data_curr
        = some ⟨s.t2.bb_data_curr, s.t2_start, (i : Int) + 1, n, tc⟩ ∧
      (∀ k, k < s.t2.bb_data_curr → bb_data_at r.t2 k = bb_data_at s.t2 k) ∧
      r.t2.backward_jump_count = s.t2.backward_jump_count ∧
      r.t2.backward_jump_offsets = s.t2.backward_jump_offsets ∧
      s.t2.backward_jump_target_bb_ids[find_jump_offset_index s.t2 target]? = some row ∧
      r.t2.backward_jump_target_bb_ids =
        (match find_free_version row with
         | some j => s.t2.backward_jump_target_bb_ids.set (find_jump_offset_index s.t2 target)
              (row.set j (s.t2.bb_data_curr : Int))
         | none => s.t2.backward_jump_target_bb_ids) ∧
      r.bb_space.water_level
        = s.bb_space.water_level + (s.write_i - s.t2_start) * sizeof_CODEUNIT ∧
      r.bb_space.u_code = s.bb_space.u_code ∧
      never_fails r.heap := by
  obtain ⟨t2a, heap1, halloc, hnf, hcurr, _, _, hcount, hoffs, hids, hat, hbelow⟩ :=
    allocate_metadata_ok s.t2 s.heap s.t2_start ((i : Int) + 1) n tc hheap hlen hwf
  have htarget' : IS_BACKWARDS_JUMP_TARGET t2a target = true := by
    rw [IS_BACKWARDS_JUMP_TARGET_congr hcount hoffs]; exact htarget
  have hrows' : t2a.backward_jump_count ≤ t2a.backward_jump_target_bb_ids.length := by
    rw [hcount, hids]; exact hrows
  have hidx : find_jump_offset_index t2a target = find_jump_offset_index s.t2 target :=
    find_jump_offset_index_congr hcount hoffs _
  obtain ⟨row, hrow, hadd⟩ := add_metadata_spec t2a
    ⟨s.t2.bb_data_curr, s.t2_start, (i : Int) + 1, n, tc⟩ target htarget' hrows'
  rw [hidx, hids] at hrow
  unfold detect_end
  rw [halloc]
  simp only [hmeta, hsw, hoff, if_true]
  rcases hadd with ⟨hfree, hadd⟩ | ⟨j, hfree, hadd⟩
  · rw [hadd]
    refine ⟨⟨t2a, { s.bb_space with water_level := s.bb_space.water_level
        + (s.write_i - s.t2_start) * sizeof_CODEUNIT }, heap1, some m1⟩, row, ?_, ?_⟩
    · simp
    · refine ⟨rfl, hcurr, hat, hbelow, hcount, hoffs, hrow, ?_, rfl, rfl, hnf⟩
      simp only [hfree, hids]
  · rw [hadd]
    refine ⟨⟨{ t2a with
          backward_jump_target_bb_ids :=
            t2a.backward_jump_target_bb_ids.set (find_jump_offset_index t2a target)
              (row.set j (s.t2.bb_data_curr : Int)) },
        { s.bb_space with water_level := s.bb_space.water_level
          + (s.write_i - s.t2_start) * sizeof_CODEUNIT }, heap1, some m1⟩, row, ?_, ?_⟩
    · simp
    · refine ⟨rfl, hcurr, hat, hbelow, hcount, hoffs, hrow, ?_, rfl, rfl, hnf⟩
      simp only [hfree, hidx, hids]
/-! ## Discovery at a jump target -/

/-- C8: the bootstrap of `nestedLoopFrame`, no allocation failing.  The jump
target index holds the offsets 1 and 3.  The discovery call from offset 0
closes the entry block in front of offset 1, opens block 1 at offset 1, a
jump target, and closes it in front of offset 3, the next jump target; block
2, opened there, is ended by the branch at offset 9.  Block 1 holds the
instructions of the offsets 1 and 2, and only block 2 is stored in a version
array: the one of offset 1 stays empty.  The call returns block 1, the one
closed last by a virtual end, and the bootstrap enters the code at its first
word.  After the successor request for the fall-through of block 2 (block
3, the backward jump at offset 10 to offset 1), the lookup for that jump
finds no version and reads `bb_data[-1]`.  Also, a discovery call that
itself starts at a jump target (offset 1 of `loopCode`) registers two
records, not one: an empty block that ends at offset 0, which it returns,
and the block of the target. -/
theorem block_closed_at_next_target_is_not_installed :
    (∃ r t2 sp g,
      _PyCode_Tier2Initialize sampleTables nestedLoopFrame [] sampleArena.u_code = .ok r ∧
      r.frame.f_code._tier2_info = .live t2 ∧ t2._bb_space = some sp ∧
      t2.backward_jump_offsets = [1, 3] ∧
      IS_BACKWARDS_JUMP_TARGET t2 (1 : Nat) = true ∧
      t2.bb_data_curr = 3 ∧
      bb_data_at t2 0 = some ⟨0, 0, 0, 2, [none, none]⟩ ∧
      bb_data_at t2 1 = some ⟨1, 1, 2, 2, [none, none]⟩ ∧
      bb_data_at t2 2 = some ⟨2, 3, 10, 2, [none, none]⟩ ∧
      sp.words 1 2 = [code_at nestedLoopCode 1, code_at nestedLoopCode 2] ∧
      t2.backward_jump_target_bb_ids = [[-1, -1, -1, -1, -1], [2, -1, -1, -1, -1]] ∧
      t2._entry_bb = some ⟨1, 1, 2, 2, [none, none]⟩ ∧ r.next = some (.tier2 1) ∧
      _PyTier2_GenerateNextBB sampleTables nestedLoopCode t2 [] 2 0 = .ok g ∧
      code_at nestedLoopCode 10 = ⟨.JUMP_BACKWARD_QUICK, 10⟩ ∧
      bb_data_at g.t2 3 = some ⟨3, 12, 11, 2, [none, none]⟩ ∧
      g.t2.backward_jump_target_bb_ids = [[-1, -1, -1, -1, -1], [2, -1, -1, -1, -1]] ∧
      _PyTier2_LocateJumpBackwardsBB sampleTables nestedLoopCode g.t2 [] 3 (-10)
        = .error .out_of_bounds) ∧
    ∃ r, _PyTier2_Code_DetectAndEmitBB sampleTables loopCode loopInfo sampleArena 1 2
        [none, none] [] = .ok r ∧
      r.t2.bb_data_curr = 2 ∧
      r.t2.bb_data
        = some [some ⟨0, 0, 0, 2, [none, none]⟩, some ⟨1, 0, 3, 2, [none, none]⟩] ∧
      r.result = some ⟨0, 0, 0, 2, [none, none]⟩ := by
  refine ⟨⟨_, _, _, _, rfl, rfl, rfl, by decide, by decide, by decide, by decide, by decide,
    by decide, by decide, by decide, by decide, rfl, rfl, by decide, by decide, by decide,
    rfl⟩,
    ⟨_, rfl, by decide, by decide, by decide⟩⟩

/-- C9, counterexample: discovery from offset 0 of `loopCode` falls through
into the loop header at offset 1; the call returns the record with id 0, the
block that ends before the header, while the block that begins at the header
is the record with id 1. -/
theorem fall_through_split_returns_first :
    ∃ r, _PyTier2_Code_DetectAndEmitBB sampleTables loopCode loopInfo sampleArena 0 2
        [none, none] [] = .ok r ∧
      r.result = some ⟨0, 0, 0, 2, [none, none]⟩ ∧
      bb_data_at r.t2 1 = some ⟨1, 1, 3, 2, [none, none]⟩ ∧
      r.result ≠ bb_data_at r.t2 1 ∧
      r.t2.backward_jump_target_bb_ids = [[1, -1, -1, -1, -1]] := by
  refine ⟨_, rfl, by decide, by decide, by decide, by decide⟩

/-! ## Water level after a block that begins with `END_FOR` -/

/-- C11: discovery from the loop exit of `forLoopCode` (offset 7, the
`END_FOR`) on an empty arena writes the three words 0..2, `END_FOR;
LOAD_CONST 0; RETURN_VALUE`, and returns a record whose `tier2_start` is
word 1, but `water_level` grows by 4 bytes (two words), not 6: it points at
word 2, the `RETURN_VALUE` just emitted.  The next discovery call (the loop
body, from offset 5) starts writing at word 2 and overwrites that
`RETURN_VALUE` with its own `STORE_FAST 1`. -/
theorem end_for_block_leaves_water_level_short :
    ∃ r1 r2, _PyTier2_Code_DetectAndEmitBB sampleTables forLoopCode (sampleInfo 4 [3])
        sampleArena 7 2 [none, none] [] = .ok r1 ∧
      r1.result = some ⟨0, 1, 10, 2, [none, none]⟩ ∧
      r1.bb_space.words 0 3 = [⟨.END_FOR, 0⟩, ⟨.LOAD_CONST, 0⟩, ⟨.RETURN_VALUE, 0⟩] ∧
      r1.bb_space.water_level = 4 ∧
      _PyTier2_Code_DetectAndEmitBB sampleTables forLoopCode r1.t2 r1.bb_space 5 2
        [none, none] [] = .ok r2 ∧
      r2.result = some ⟨1, 2, 7, 2, [none, none]⟩ ∧
      r2.bb_space.words 0 6 = [⟨.END_FOR, 0⟩, ⟨.LOAD_CONST, 0⟩, ⟨.OTHER 125, 1⟩,
        ⟨.EXTENDED_ARG, 0⟩, ⟨.BB_JUMP_BACKWARD_LAZY, 4⟩, ⟨.OTHER 1, 0⟩] := by
  refine ⟨_, _, rfl, by decide, by decide, by decide, rfl, by decide, by decide⟩

/-! ## Failure of the bootstrap after the Tier2Info was installed -/

/-- C12: the bootstrap of `constAddFrame` (whose `_tier2_info` is NULL
before the call) with the fourth allocation, the one of the arena, failing:
the call returns NULL, and `co->_tier2_info` is not NULL but still holds the
address of the Tier2Info that was just freed.  The same holds when the
allocation of the initial type context (the fifth) or the first allocation of
entry-block discovery (the sixth) fails. -/
theorem failed_bootstrap_leaves_dangling_info :
    constAddFrame.f_code._tier2_info.is_null = true ∧
    (∃ r, _PyCode_Tier2Initialize sampleTables constAddFrame [true, true, true, false]
        sampleArena.u_code = .ok r ∧
      r.next = none ∧ r.frame.f_code._tier2_info.is_null = false ∧
      r.frame.f_code._tier2_info.is_dangling = true) ∧
    (∃ r, _PyCode_Tier2Initialize sampleTables constAddFrame [true, true, true, true, false]
        sampleArena.u_code = .ok r ∧
      r.next = none ∧ r.frame.f_code._tier2_info.is_dangling = true) ∧
    (∃ r, _PyCode_Tier2Initialize sampleTables constAddFrame
        [true, true, true, true, true, false] sampleArena.u_code = .ok r ∧
      r.next = none ∧ r.frame.f_code._tier2_info.is_dangling = true) := by
  refine ⟨by decide, ⟨_, rfl, by decide, by decide, by decide⟩, ⟨_, rfl, by decide, by decide⟩,
    ⟨_, rfl, by decide, by decide⟩⟩

/-! ## The jump target index built at bootstrap -/

theorem collect_backward_jump_targets_eq (T : OpcodeTables) (co : PyCodeObject) :
    ∀ fuel i, collect_backward_jump_targets T co fuel i
      = ((instruction_offsets T co fuel i).filter (is_backward_jump_at T co)).map
          (backward_jump_target co) := by
  intro fuel
  induction fuel with
  | zero => intro i; rfl
  | succ fuel ih =>
    intro i
    unfold collect_backward_jump_targets instruction_offsets
    by_cases hi : Py_SIZE co ≤ i
    · simp [hi]
    · simp only [hi, if_false, ih]
      by_cases hb : IS_JUMP_BACKWARDS_OPCODE (T.deopt (code_at co i).opcode) = true
      · simp [hb, List.filter_cons, is_backward_jump_at, backward_jump_target]
      · simp [hb, List.filter_cons, is_backward_jump_at]

theorem count_backward_jumps_eq (T : OpcodeTables) (co : PyCodeObject) :
    ∀ fuel i, count_backward_jumps T co fuel i
      = ((instruction_offsets T co fuel i).filter (is_backward_jump_at T co)).length := by
  intro fuel
  induction fuel with
  | zero => intro i; rfl
  | succ fuel ih =>
    intro i
    unfold count_backward_jumps instruction_offsets
    by_cases hi : Py_SIZE co ≤ i
    · simp [hi]
    · simp only [hi, if_false, ih]
      by_cases hb : IS_JUMP_BACKWARDS_OPCODE (T.deopt (code_at co i).opcode) = true
      · simp [hb, List.filter_cons, is_backward_jump_at]; omega
      · simp [hb, List.filter_cons, is_backward_jump_at]

theorem allocate_jump_offset_2d_array_rows :
    ∀ (n : Nat) (heap heap1 : Allocator) (rows : List (List Int)),
      allocate_jump_offset_2d_array heap n = (heap1, some rows) →
      rows = List.replicate n (List.replicate MAX_BB_VERSIONS (-1)) := by
  intro n
  induction n with
  | zero =>
    intro heap heap1 rows h
    simp only [allocate_jump_offset_2d_array, Prod.mk.injEq, Option.some.injEq] at h
    simp [← h.2]
  | succ n ih =>
    intro heap heap1 rows h
    unfold allocate_jump_offset_2d_array at h
    rcases hm : PyMem_Malloc heap with ⟨b, heap2⟩
    rw [hm] at h
    cases b with
    | false => simp at h
    | true =>
      simp only at h
      rcases hr : allocate_jump_offset_2d_array heap2 n with ⟨heap3, orows⟩
      rw [hr] at h
      cases orows with
      | none => simp at h
      | some rows1 =>
        simp only [Prod.mk.injEq, Option.some.injEq] at h
        rw [← h.2, ih heap2 heap3 rows1 hr, List.replicate_succ]

/-- What a successful `_PyCode_Tier2FillJumpTargets` stores: the sorted list
of the targets of all backward jumps, their number, and one fresh version
array for each. -/
theorem fill_jump_targets_success (T : OpcodeTables) (co : PyCodeObject) (t2 t2a : _PyTier2Info)
    (heap heap1 : Allocator)
    (h : _PyCode_Tier2FillJumpTargets T co t2 heap = (0, t2a, heap1)) :
    t2a.backward_jump_offsets
      = ((backward_jump_sources T co).map (backward_jump_target co)).insertionSort (· ≤ ·) ∧
    t2a.backward_jump_count = (backward_jump_sources T co).length ∧
    (t2a.backward_jump_count ≠ 0 → t2a.backward_jump_target_bb_ids
      = List.replicate t2a.backward_jump_count (List.replicate MAX_BB_VERSIONS (-1))) := by
  unfold _PyCode_Tier2FillJumpTargets at h
  have hcount := count_backward_jumps_eq T co (Py_SIZE co) 0
  have hcoll := collect_backward_jump_targets_eq T co (Py_SIZE co) 0
  simp only at h
  split_ifs at h with h1 h2
  · simp at h
  · simp only [Prod.mk.injEq, true_and] at h
    have hlen : (backward_jump_sources T co).length = 0 := by
      rw [backward_jump_sources, ← hcount]; exact h2
    have hnil : backward_jump_sources T co = [] := List.length_eq_zero.mp hlen
    rw [← h.1]
    simp [hnil]
  · rcases hm1 : PyMem_Malloc heap with ⟨b1, heapa⟩
    rw [hm1] at h
    cases b1 with
    | false => simp at h
    | true =>
      simp only at h
      rcases hm2 : PyMem_Malloc heapa with ⟨b2, heapb⟩
      rw [hm2] at h
      cases b2 with
      | false => simp at h
      | true =>
        simp only at h
        rcases hr : allocate_jump_offset_2d_array heapb
          (count_backward_jumps T co (Py_SIZE co) 0) with ⟨heapc, orows⟩
        rw [hr] at h
        cases orows with
        | none => simp at h
        | some rows =>
          simp only [Prod.mk.injEq, true_and] at h
          have hrows := allocate_jump_offset_2d_array_rows _ _ _ _ hr
          rw [← h.1]
          refine ⟨?_, ?_, ?_⟩
          · simp only [hcoll, backward_jump_sources]
          · simp only [hcount, backward_jump_sources]
          · intro _
            simp only [hrows]

theorem is_jump_backwards_iff (op : Opcode) :
    IS_JUMP_BACKWARDS_OPCODE op = true ↔
      op = .JUMP_BACKWARD ∨ op = .JUMP_BACKWARD_QUICK ∨ op = .JUMP_BACKWARD_NO_INTERRUPT := by
  simp only [IS_JUMP_BACKWARDS_OPCODE, Bool.or_eq_true, beq_iff_eq]
  tauto

/-- C14: after `_PyCode_Tier2FillJumpTargets` returns 0, the list
`backward_jump_offsets` is in non-decreasing order and has
`backward_jump_count` entries; a value occurs in it exactly when it is
`s + 1 - oparg` for an instruction at offset `s` of the code object whose
de-specialized opcode is `JUMP_BACKWARD`, `JUMP_BACKWARD_QUICK` or
`JUMP_BACKWARD_NO_INTERRUPT`; and each of the `backward_jump_count` version
arrays holds -1 in all `MAX_BB_VERSIONS` slots. -/
theorem jump_target_index_is_sorted_and_exact (T : OpcodeTables) (co : PyCodeObject)
    (t2 t2a : _PyTier2Info) (heap heap1 : Allocator)
    (h : _PyCode_Tier2FillJumpTargets T co t2 heap = (0, t2a, heap1)) :
    List.Sorted (· ≤ ·) t2a.backward_jump_offsets ∧
    t2a.backward_jump_offsets.length = t2a.backward_jump_count ∧
    (∀ o : Int, o ∈ t2a.backward_jump_offsets ↔
      ∃ s ∈ instruction_offsets T co (Py_SIZE co) 0,
        (T.deopt (code_at co s).opcode = .JUMP_BACKWARD ∨
          T.deopt (code_at co s).opcode = .JUMP_BACKWARD_QUICK ∨
          T.deopt (code_at co s).opcode = .JUMP_BACKWARD_NO_INTERRUPT) ∧
        o = (s : Int) + 1 - ((code_at co s).oparg : Int)) ∧
    (∀ i, i < t2a.backward_jump_count →
      t2a.backward_jump_target_bb_ids[i]? = some (List.replicate MAX_BB_VERSIONS (-1))) := by
  obtain ⟨hoff, hcnt, hrows⟩ := fill_jump_targets_success T co t2 t2a heap heap1 h
  refine ⟨?_, ?_, ?_, ?_⟩
  · rw [hoff]; exact List.sorted_insertionSort _ _
  · rw [hoff, hcnt, List.length_insertionSort, List.length_map]
  · intro o
    rw [hoff, (List.perm_insertionSort _ _).mem_iff, List.mem_map]
    constructor
    · rintro ⟨s, hs, rfl⟩
      rw [backward_jump_sources, List.mem_filter] at hs
      exact ⟨s, hs.1, (is_jump_backwards_iff _).mp hs.2, rfl⟩
    · rintro ⟨s, hs, hop, rfl⟩
      refine ⟨s, ?_, rfl⟩
      rw [backward_jump_sources, List.mem_filter]
      exact ⟨hs, (is_jump_backwards_iff _).mpr hop⟩
  · intro i hi
    have hne : t2a.backward_jump_count ≠ 0 := by omega
    rw [hrows hne, List.getElem?_replicate, if_pos hi]

/-- Witness for C14: the jump target index of `loopCode`, whose only
backward jump, at offset 4 with oparg 4, targets offset 1. -/
theorem jump_target_index_is_sorted_and_exact_witness :
    _PyCode_Tier2FillJumpTargets sampleTables loopCode (freshInfo loopCode) []
      = (0, { freshInfo loopCode with
                backward_jump_count := 1, backward_jump_offsets := [1],
                backward_jump_target_bb_ids := [[-1, -1, -1, -1, -1]] }, []) ∧
    (List.Sorted (· ≤ ·) ([1] : List Int) ∧
    ([1] : List Int).length = 1 ∧
    (∀ o : Int, o ∈ ([1] : List Int) ↔
      ∃ s ∈ instruction_offsets sampleTables loopCode (Py_SIZE loopCode) 0,
        (sampleTables.deopt (code_at loopCode s).opcode = .JUMP_BACKWARD ∨
          sampleTables.deopt (code_at loopCode s).opcode = .JUMP_BACKWARD_QUICK ∨
          sampleTables.deopt (code_at loopCode s).opcode = .JUMP_BACKWARD_NO_INTERRUPT) ∧
        o = (s : Int) + 1 - ((code_at loopCode s).oparg : Int)) ∧
    (∀ i, i < 1 →
      ([[-1, -1, -1, -1, -1]] : List (List Int))[i]?
        = some (List.replicate MAX_BB_VERSIONS (-1)))) :=
  ⟨rfl, jump_target_index_is_sorted_and_exact sampleTables loopCode (freshInfo loopCode) _ []
    [] rfl⟩

/-- C15 (amended): after `_PyCode_Tier2FillJumpTargets` returns 0,
`backward_jump_offsets` holds one entry for each backward-jump instruction of
the code object: a value occurs in it as many times as there are backward
jumps with that target, and `backward_jump_count` is the number of
backward-jump instructions. -/
theorem jump_target_index_has_one_entry_per_jump (T : OpcodeTables) (co : PyCodeObject)
    (t2 t2a : _PyTier2Info) (heap heap1 : Allocator)
    (h : _PyCode_Tier2FillJumpTargets T co t2 heap = (0, t2a, heap1)) :
    t2a.backward_jump_count = (backward_jump_sources T co).length ∧
    t2a.backward_jump_offsets.length = (backward_jump_sources T co).length ∧
    ∀ o : Int, t2a.backward_jump_offsets.count o
      = (backward_jump_sources T co).countP (fun s => backward_jump_target co s == o) := by
  obtain ⟨hoff, hcnt, -⟩ := fill_jump_targets_success T co t2 t2a heap heap1 h
  refine ⟨hcnt, ?_, ?_⟩
  · rw [hoff, List.length_insertionSort, List.length_map]
  · intro o
    rw [hoff, (List.perm_insertionSort _ _).count_eq, List.count, List.countP_map]
    rfl

/-- Witness for C15: in `continueLoopCode` the backward jumps at offsets 3
and 5 both target offset 1; the index has two entries. -/
theorem jump_target_index_has_one_entry_per_jump_witness :
    _PyCode_Tier2FillJumpTargets sampleTables continueLoopCode (freshInfo continueLoopCode) []
      = (0, { freshInfo continueLoopCode with
                backward_jump_count := 2, backward_jump_offsets := [1, 1],
                backward_jump_target_bb_ids :=
                  [[-1, -1, -1, -1, -1], [-1, -1, -1, -1, -1]] }, []) ∧
    backward_jump_sources sampleTables continueLoopCode = [3, 5] ∧
    (2 = (backward_jump_sources sampleTables continueLoopCode).length ∧
    ([1, 1] : List Int).length = (backward_jump_sources sampleTables continueLoopCode).length ∧
    ∀ o : Int, ([1, 1] : List Int).count o
      = (backward_jump_sources sampleTables continueLoopCode).countP
          (fun s => backward_jump_target continueLoopCode s == o)) :=
  ⟨rfl, by decide,
   jump_target_index_has_one_entry_per_jump sampleTables continueLoopCode
     (freshInfo continueLoopCode) _ [] [] rfl⟩

/-- Counterexample for C15: two backward jumps with the same target give two
equal entries. -/
theorem same_target_is_listed_twice :
    ∃ t2a, _PyCode_Tier2FillJumpTargets sampleTables continueLoopCode
        (freshInfo continueLoopCode) [] = (0, t2a, []) ∧
      t2a.backward_jump_offsets = [1, 1] ∧ t2a.backward_jump_count = 2 ∧
      t2a.backward_jump_target_bb_ids = [[-1, -1, -1, -1, -1], [-1, -1, -1, -1, -1]] := by
  refine ⟨_, rfl, by decide, by decide, by decide⟩

/-! ## Installing a block id in a version array -/

theorem find_range_some (p : Nat → Bool) :
    ∀ (n j : Nat), (List.range n).find? p = some j →
      j < n ∧ p j = true ∧ ∀ k, k < j → p k = false := by
  intro n
  induction n with
  | zero => intro j h; simp at h
  | succ n ih =>
    intro j h
    rw [List.range_succ, List.find?_append] at h
    cases hn : (List.range n).find? p with
    | some a =>
      rw [hn] at h
      simp only [Option.or, Option.some.injEq] at h
      subst h
      obtain ⟨h1, h2, h3⟩ := ih a hn
      exact ⟨by omega, h2, h3⟩
    | none =>
      rw [hn] at h
      simp only [Option.or] at h
      have hpj := List.find?_some h
      have hmem := List.mem_of_find?_eq_some h
      simp only [List.mem_singleton] at hmem
      subst hmem
      refine ⟨by omega, hpj, ?_⟩
      intro k hk
      have := List.find?_eq_none.mp hn k (List.mem_range.mpr hk)
      simpa using this

theorem find_free_version_some (row : List Int) (j : Nat) (h : find_free_version row = some j) :
    j < MAX_BB_VERSIONS ∧ row[j]? = some (-1) ∧ ∀ k, k < j → row[k]? ≠ some (-1) := by
  obtain ⟨h1, h2, h3⟩ := find_range_some _ _ _ h
  refine ⟨h1, by simpa using h2, ?_⟩
  intro k hk
  have := h3 k hk
  simpa using this

theorem find_free_version_none (row : List Int) :
    find_free_version row = none ↔ ∀ j, j < MAX_BB_VERSIONS → row[j]? ≠ some (-1) := by
  unfold find_free_version
  rw [List.find?_eq_none]
  constructor
  · intro h j hj
    have := h j (List.mem_range.mpr hj)
    simpa using this
  · intro h j hj
    have := h j (List.mem_range.mp hj)
    simpa using this

theorem densely_packed_set (row : List Int) (j : Nat) (v : Int) (hv : v ≠ -1)
    (hj : row[j]? = some (-1)) (hlow : ∀ k, k < j → row[k]? ≠ some (-1))
    (hd : densely_packed row) : densely_packed (row.set j v) := by
  obtain ⟨b, hb, hids, htail⟩ := hd
  have hjlen : j < row.length := by
    by_contra hcon
    rw [List.getElem?_eq_none (by omega)] at hj
    exact absurd hj (by simp)
  have hbj : b = j := by
    by_contra hne
    rcases Nat.lt_or_gt_of_ne hne with hlt | hgt
    · exact hlow b hlt (htail b (le_refl _) (by omega))
    · exact hids j hgt hj
  subst hbj
  refine ⟨b + 1, by simpa using hjlen, ?_, ?_⟩
  · intro k hk
    by_cases hkb : k = b
    · subst hkb
      rw [List.getElem?_set_self hjlen]
      simpa using hv
    · rw [List.getElem?_set_ne (by omega)]
      exact hids k (by omega)
  · intro k hk hklen
    rw [List.getElem?_set_ne (by omega)]
    exact htail k (by omega) (by simpa using hklen)

/-- C16: `add_metadata_to_jump_2d_array` for a target offset present in
`backward_jump_offsets` (whose version array `row` is the one of the first
matching entry).  If slot `j` is the lowest-index slot that holds -1, the
call returns 0 and writes the block id into slot `j` of that array; every
other slot of that array, every other version array and every other field
of the Tier2Info stay as they were.  The call returns 1 exactly when none of
the `MAX_BB_VERSIONS` slots holds -1, and whenever it returns 1 the Tier2Info
is unchanged.  It always returns 0 or 1, and a densely packed version array
is densely packed after the call. -/
theorem add_metadata_fills_lowest_free_slot (t2 : _PyTier2Info) (m : _PyTier2BBMetadata)
    (target : Int)
    (htarget : IS_BACKWARDS_JUMP_TARGET t2 target = true)
    (hrows : t2.backward_jump_count ≤ t2.backward_jump_target_bb_ids.length) :
    ∃ row, t2.backward_jump_target_bb_ids[find_jump_offset_index t2 target]? = some row ∧
      (∀ j, j < MAX_BB_VERSIONS → row[j]? = some (-1) → (∀ k, k < j → row[k]? ≠ some (-1)) →
        ∃ ids, add_metadata_to_jump_2d_array t2 (some m) target
            = .ok (0, { t2 with backward_jump_target_bb_ids := ids }) ∧
          (∃ row1, ids[find_jump_offset_index t2 target]? = some row1 ∧
            row1[j]? = some (m.id : Int) ∧ ∀ x, x ≠ j → row1[x]? = row[x]?) ∧
          ∀ i, i ≠ find_jump_offset_index t2 target →
            ids[i]? = t2.backward_jump_target_bb_ids[i]?) ∧
      (add_metadata_to_jump_2d_array t2 (some m) target = .ok (1, t2) ↔
        ∀ j, j < MAX_BB_VERSIONS → row[j]? ≠ some (-1)) ∧
      (∀ t2a, add_metadata_to_jump_2d_array t2 (some m) target = .ok (1, t2a) → t2a = t2) ∧
      (∃ rc t2a, add_metadata_to_jump_2d_array t2 (some m) target = .ok (rc, t2a) ∧
        (rc = 0 ∨ rc = 1) ∧
        (densely_packed row → ∃ row1,
          t2a.backward_jump_target_bb_ids[find_jump_offset_index t2 target]? = some row1 ∧
          densely_packed row1)) := by
  have hlt := find_jump_offset_index_lt t2 target htarget
  have hidx : find_jump_offset_index t2 target < t2.backward_jump_target_bb_ids.length := by
    omega
  have hrow := List.getElem?_eq_getElem hidx
  refine ⟨t2.backward_jump_target_bb_ids[find_jump_offset_index t2 target], hrow, ?_⟩
  generalize t2.backward_jump_target_bb_ids[find_jump_offset_index t2 target] = row at hrow
  have hadd : ∀ (r : Option Nat), find_free_version row = r →
      add_metadata_to_jump_2d_array t2 (some m) target
        = match r with
          | none => .ok (1, t2)
          | some j => .ok (0, { t2 with
              backward_jump_target_bb_ids :=
                t2.backward_jump_target_bb_ids.set (find_jump_offset_index t2 target)
                  (row.set j (m.id : Int)) }) := by
    intro r hr
    unfold add_metadata_to_jump_2d_array
    simp only [List.get?_eq_getElem?, hrow, hr]
  refine ⟨?_, ?_, ?_, ?_⟩
  · intro j hj hslot hlow
    have hfree : find_free_version row = some j := by
      cases hf : find_free_version row with
      | none => exact absurd hslot ((find_free_version_none row).mp hf j hj)
      | some j1 =>
        obtain ⟨h1, h2, h3⟩ := find_free_version_some row j1 hf
        rcases Nat.lt_trichotomy j1 j with hlt1 | heq | hgt
        · exact absurd h2 (hlow j1 hlt1)
        · rw [heq]
        · exact absurd hslot (h3 j hgt)
    have hjlen : j < row.length := by
      by_contra hcon
      rw [List.getElem?_eq_none (by omega)] at hslot
      exact absurd hslot (by simp)
    refine ⟨_, hadd _ hfree, ⟨row.set j (m.id : Int), ?_, ?_, ?_⟩, ?_⟩
    · rw [List.getElem?_set_self hidx]
    · rw [List.getElem?_set_self hjlen]
    · intro x hx
      rw [List.getElem?_set_ne (Ne.symm hx)]
    · intro i hi
      rw [List.getElem?_set_ne (Ne.symm hi)]
  · constructor
    · intro h
      cases hf : find_free_version row with
      | none => exact (find_free_version_none row).mp hf
      | some j =>
        rw [hadd _ hf] at h
        simp at h
    · intro h
      rw [hadd _ ((find_free_version_none row).mpr h)]
  · intro t2a h
    cases hf : find_free_version row with
    | none =>
      rw [hadd _ hf] at h
      simp only [Except.ok.injEq, Prod.mk.injEq, true_and] at h
      exact h.symm
    | some j =>
      rw [hadd _ hf] at h
      simp at h
  · cases hf : find_free_version row with
    | none =>
      exact ⟨1, t2, hadd _ hf, Or.inr rfl, fun hd => ⟨row, hrow, hd⟩⟩
    | some j =>
      obtain ⟨h1, h2, h3⟩ := find_free_version_some row j hf
      refine ⟨0, _, hadd _ hf, Or.inl rfl, fun hd => ⟨row.set j (m.id : Int), ?_, ?_⟩⟩
      · exact List.getElem?_set_self hidx
      · exact densely_packed_set row j _ (by omega) h2 h3 hd

/-! ## The metadata table -/

/-- The two outcomes of `write_bb_metadata`: 1 with the Tier2Info and the
record untouched, or 0 with the record stored by `store_bb_metadata`, after
a grow of the table when there was no free slot. -/
theorem write_bb_metadata_cases (t2 : _PyTier2Info) (heap : Allocator)
    (m : _PyTier2BBMetadata) :
    (∃ heap1, write_bb_metadata t2 heap m = (1, t2, heap1, m)) ∨
    (∃ t2g heap1,
      write_bb_metadata t2 heap m
        = (0, (store_bb_metadata t2g m).1, heap1, (store_bb_metadata t2g m).2) ∧
      ((t2g = t2 ∧ t2.bb_data ≠ none ∧ t2.bb_data_curr < t2.bb_data_len) ∨
       (t2g = { t2 with bb_data := some (realloc_bb_data t2.bb_data ((t2.bb_data_len + 1) * 2)),
                        bb_data_len := (t2.bb_data_len + 1) * 2 } ∧
        (t2.bb_data = none ∨ t2.bb_data_len ≤ t2.bb_data_curr)))) := by
  unfold write_bb_metadata
  by_cases hgrow : (t2.bb_data.isNone || decide (t2.bb_data_curr ≥ t2.bb_data_len)) = true
  · simp only [hgrow, if_true]
    by_cases hnew : (t2.bb_data_len + 1) * 2 ≥ 2 ^ 31
    · simp only [hnew, if_true]
      exact Or.inl ⟨heap, rfl⟩
    · simp only [hnew, if_false]
      rcases hm : PyMem_Malloc heap with ⟨b, heap1⟩
      cases b with
      | false => exact Or.inl ⟨heap1, rfl⟩
      | true =>
        refine Or.inr ⟨_, heap1, rfl, Or.inr ⟨rfl, ?_⟩⟩
        simp only [Bool.or_eq_true, Option.isNone_iff_eq_none, decide_eq_true_eq] at hgrow
        exact hgrow
  · simp only [hgrow, Bool.false_eq_true, if_false]
    refine Or.inr ⟨t2, heap, rfl, Or.inl ⟨rfl, ?_⟩⟩
    simp only [Bool.or_eq_true, Option.isNone_iff_eq_none, decide_eq_true_eq, not_or,
      not_le] at hgrow
    exact hgrow

/-- A successful `write_bb_metadata` on a consistent table. -/
theorem write_bb_metadata_success (t2 t2a : _PyTier2Info) (heap heap1 : Allocator)
    (m m1 : _PyTier2BBMetadata) (hwf : bb_data_wf t2)
    (h : write_bb_metadata t2 heap m = (0, t2a, heap1, m1)) :
    m1 = { m with id := t2.bb_data_curr } ∧
    bb_data_at t2a t2.bb_data_curr = some m1 ∧
    t2a.bb_data_curr = t2.bb_data_curr + 1 ∧
    (∀ k, k < t2.bb_data_curr → bb_data_at t2a k = bb_data_at t2 k) ∧
    bb_data_wf t2a ∧ t2.bb_data_len ≤ t2a.bb_data_len ∧
    t2a.backward_jump_count = t2.backward_jump_count ∧
    t2a.backward_jump_offsets = t2.backward_jump_offsets ∧
    t2a.backward_jump_target_bb_ids = t2.backward_jump_target_bb_ids ∧
    t2a._bb_space = t2._bb_space ∧ t2a._entry_bb = t2._entry_bb := by
  obtain ⟨hcurr, hl⟩ := hwf
  rcases write_bb_metadata_cases t2 heap m with ⟨heap2, hf⟩ | ⟨t2g, heap2, hs, hcase⟩
  · rw [hf] at h
    simp at h
  · rw [hs] at h
    simp only [Prod.mk.injEq, true_and] at h
    obtain ⟨h1, -, h3⟩ := h
    subst h1 h3
    rcases hcase with ⟨hg, hnn, hlt⟩ | ⟨hg, hor⟩
    · subst hg
      obtain ⟨l, hb⟩ : ∃ l, t2g.bb_data = some l := by
        cases hb : t2g.bb_data with
        | none => exact absurd hb hnn
        | some l => exact ⟨l, rfl⟩
      have hll := hl l hb
      refine ⟨rfl, ?_, rfl, ?_, ⟨?_, ?_⟩, le_refl _, rfl, rfl, rfl, rfl, rfl⟩
      · simp only [bb_data_at, store_bb_metadata, hb, Option.getD_some]
        rw [List.getElem?_set_self (by omega)]
        rfl
      · intro k hk
        simp only [bb_data_at, store_bb_metadata, hb, Option.getD_some]
        rw [List.getElem?_set_ne (by omega)]
      · simp [store_bb_metadata]; omega
      · intro l1 h
        simp only [store_bb_metadata, hb, Option.getD_some, Option.some.injEq] at h
        rw [← h]; simp [hll, store_bb_metadata]
    · subst hg
      have hlen_new : (realloc_bb_data t2.bb_data ((t2.bb_data_len + 1) * 2)).length
          = (t2.bb_data_len + 1) * 2 := by
        simp [realloc_bb_data]
      refine ⟨rfl, ?_, rfl, ?_, ⟨?_, ?_⟩, ?_, rfl, rfl, rfl, rfl, rfl⟩
      · simp only [bb_data_at, store_bb_metadata, Option.getD_some]
        rw [List.getElem?_set_self (by rw [hlen_new]; omega)]
        rfl
      · intro k hk
        simp only [bb_data_at, store_bb_metadata, Option.getD_some]
        rw [List.getElem?_set_ne (by omega)]
        cases hb : t2.bb_data with
        | none => simp [realloc_bb_data, List.getElem?_take, List.getElem?_replicate]
        | some l =>
          have hll := hl l hb
          simp only [realloc_bb_data, Option.getD_some]
          rw [List.getElem?_take_of_lt (by omega), List.getElem?_append_left (by omega)]
      · simp [store_bb_metadata]; omega
      · intro l h
        simp only [store_bb_metadata, Option.getD_some, Option.some.injEq] at h
        rw [← h]; simp [hlen_new, store_bb_metadata]
      · simp [store_bb_metadata]; omega

/-- A failing `write_bb_metadata` changes nothing. -/
theorem write_bb_metadata_failure (t2 t2a : _PyTier2Info) (heap heap1 : Allocator)
    (m m1 : _PyTier2BBMetadata) (rc : Nat) (hrc : rc ≠ 0)
    (h : write_bb_metadata t2 heap m = (rc, t2a, heap1, m1)) : t2a = t2 ∧ m1 = m := by
  rcases write_bb_metadata_cases t2 heap m with ⟨heap2, hf⟩ | ⟨t2g, heap2, hs, -⟩
  · rw [hf] at h
    simp only [Prod.mk.injEq] at h
    exact ⟨h.2.1.symm, h.2.2.2.symm⟩
  · rw [hs] at h
    simp only [Prod.mk.injEq] at h
    exact absurd h.1.symm hrc

theorem initialize_gives_consistent_table (co : PyCodeObject) (heap heap1 : Allocator)
    (t2 : _PyTier2Info) (h : _PyTier2Info_Initialize co heap = (heap1, some t2)) :
    bb_data_wf t2 ∧ t2.bb_data_curr = 0 := by
  unfold _PyTier2Info_Initialize at h
  rcases h1 : PyMem_Malloc heap with ⟨b1, heapa⟩
  rw [h1] at h
  cases b1 with
  | false => simp at h
  | true =>
    simp only at h
    rcases h2 : PyMem_Malloc heapa with ⟨b2, heapb⟩
    rw [h2] at h
    cases b2 with
    | false => simp at h
    | true =>
      simp only at h
      rcases h3 : PyMem_Malloc heapb with ⟨b3, heapc⟩
      rw [h3] at h
      cases b3 with
      | false => simp at h
      | true =>
        simp only [Prod.mk.injEq, Option.some.injEq] at h
        rw [← h.2]
        refine ⟨⟨Nat.zero_le _, ?_⟩, rfl⟩
        intro l hl
        simp only [Option.some.injEq] at hl
        rw [← hl, List.length_replicate]

/-- The invariant of the metadata table in every reachable state. -/
theorem bb_data_reachable_invariant (co : PyCodeObject) (t2 : _PyTier2Info)
    (h : bb_data_reachable co t2) :
    bb_data_wf t2 ∧ ∀ k, k < t2.bb_data_curr → ∃ m, bb_data_at t2 k = some m ∧ m.id = k := by
  induction h with
  | init heap heap1 t2 h =>
    obtain ⟨hwf, h0⟩ := initialize_gives_consistent_table co heap heap1 t2 h
    exact ⟨hwf, fun k hk => by omega⟩
  | write t2 heap m _ ih =>
    obtain ⟨hwf, hid⟩ := ih
    rcases hw : write_bb_metadata t2 heap m with ⟨rc, t2a, heap1, m1⟩
    simp only
    by_cases hrc : rc = 0
    · subst hrc
      obtain ⟨hm1, hat, hcurr, hold, hwfa, -⟩ :=
        write_bb_metadata_success t2 t2a heap heap1 m m1 hwf hw
      refine ⟨hwfa, ?_⟩
      intro k hk
      by_cases hkc : k = t2.bb_data_curr
      · subst hkc
        exact ⟨m1, hat, by rw [hm1]⟩
      · rw [hold k (by omega)]
        exact hid k (by omega)
    · obtain ⟨ht, -⟩ := write_bb_metadata_failure t2 t2a heap heap1 m m1 rc hrc hw
      rw [ht]
      exact ⟨hwf, hid⟩
  | other t2 t2a _ hd hc hl ih =>
    obtain ⟨hwf, hid⟩ := ih
    refine ⟨⟨by rw [hc, hl]; exact hwf.1, ?_⟩, ?_⟩
    · intro l hlist
      rw [hl]
      exact hwf.2 l (by rw [← hd]; exact hlist)
    · intro k hk
      have : bb_data_at t2a k = bb_data_at t2 k := by
        simp only [bb_data_at, hd]
      rw [this]
      exact hid k (by omega)

/-- C17: `write_bb_metadata` on a metadata table of a reachable state.  When
it returns 0, the record is stored at index `id`, the value `bb_data_curr`
had before the call, its `id` field is that index, `bb_data_curr` has grown
by one and the entries `0..id-1` are as before.  When it returns anything
else, the Tier2Info (so `bb_data_curr` and every stored entry) is unchanged.
Hence in every state reachable from a freshly initialized Tier2Info,
`bb_data[k].id = k` for every `k < bb_data_curr`, and
`bb_data_curr ≤ bb_data_len`. -/
theorem metadata_table_is_append_only (co : PyCodeObject) (t2 : _PyTier2Info)
    (hreach : bb_data_reachable co t2) :
    (∀ (heap heap1 : Allocator) (m m1 : _PyTier2BBMetadata) (rc : Nat) (t2a : _PyTier2Info),
      write_bb_metadata t2 heap m = (rc, t2a, heap1, m1) →
        (rc = 0 →
          bb_data_at t2a t2.bb_data_curr = some m1 ∧
          m1 = { m with id := t2.bb_data_curr } ∧
          t2a.bb_data_curr = t2.bb_data_curr + 1 ∧
          ∀ k, k < t2.bb_data_curr → bb_data_at t2a k = bb_data_at t2 k) ∧
        (rc ≠ 0 → t2a = t2)) ∧
    (∀ k, k < t2.bb_data_curr → ∃ m, bb_data_at t2 k = some m ∧ m.id = k) ∧
    t2.bb_data_curr ≤ t2.bb_data_len := by
  obtain ⟨hwf, hid⟩ := bb_data_reachable_invariant co t2 hreach
  refine ⟨?_, hid, hwf.1⟩
  intro heap heap1 m m1 rc t2a hw
  constructor
  · intro hrc
    subst hrc
    obtain ⟨hm1, hat, hcurr, hold, -⟩ := write_bb_metadata_success t2 t2a heap heap1 m m1 hwf hw
    exact ⟨hat, hm1, hcurr, hold⟩
  · intro hrc
    exact (write_bb_metadata_failure t2 t2a heap heap1 m m1 rc hrc hw).1

/-- Witness for C16: the version array of offset 1 holds `3, 5, -1, -1, -1`;
the call for a block with id 8 returns 0 and leaves `3, 5, 8, -1, -1`. -/
theorem add_metadata_fills_lowest_free_slot_witness :
    IS_BACKWARDS_JUMP_TARGET twoVersionsInfo 1 = true ∧
    twoVersionsInfo.backward_jump_count ≤ twoVersionsInfo.backward_jump_target_bb_ids.length ∧
    add_metadata_to_jump_2d_array twoVersionsInfo (some { sampleRecord with id := 8 }) 1
      = .ok (0, { twoVersionsInfo with
          backward_jump_target_bb_ids := [[3, 5, 8, -1, -1], [-1, -1, -1, -1, -1]] }) ∧
    ∃ row, twoVersionsInfo.backward_jump_target_bb_ids[find_jump_offset_index
        twoVersionsInfo 1]? = some row ∧
      (∀ j, j < MAX_BB_VERSIONS → row[j]? = some (-1) → (∀ k, k < j → row[k]? ≠ some (-1)) →
        ∃ ids, add_metadata_to_jump_2d_array twoVersionsInfo
              (some { sampleRecord with id := 8 }) 1
            = .ok (0, { twoVersionsInfo with backward_jump_target_bb_ids := ids }) ∧
          (∃ row1, ids[find_jump_offset_index twoVersionsInfo 1]? = some row1 ∧
            row1[j]? = some (({ sampleRecord with id := 8 } : _PyTier2BBMetadata).id : Int) ∧
            ∀ x, x ≠ j → row1[x]? = row[x]?) ∧
          ∀ i, i ≠ find_jump_offset_index twoVersionsInfo 1 →
            ids[i]? = twoVersionsInfo.backward_jump_target_bb_ids[i]?) ∧
      (add_metadata_to_jump_2d_array twoVersionsInfo (some { sampleRecord with id := 8 }) 1
          = .ok (1, twoVersionsInfo) ↔
        ∀ j, j < MAX_BB_VERSIONS → row[j]? ≠ some (-1)) ∧
      (∀ t2a, add_metadata_to_jump_2d_array twoVersionsInfo
          (some { sampleRecord with id := 8 }) 1 = .ok (1, t2a) → t2a = twoVersionsInfo) ∧
      (∃ rc t2a, add_metadata_to_jump_2d_array twoVersionsInfo
            (some { sampleRecord with id := 8 }) 1 = .ok (rc, t2a) ∧
        (rc = 0 ∨ rc = 1) ∧
        (densely_packed row → ∃ row1,
          t2a.backward_jump_target_bb_ids[find_jump_offset_index twoVersionsInfo 1]?
            = some row1 ∧
          densely_packed row1)) :=
  ⟨by decide, by decide, rfl,
   add_metadata_fills_lowest_free_slot twoVersionsInfo { sampleRecord with id := 8 } 1
     (by decide) (by decide)⟩

/-- Witness for C17: the state after two registrations on the fresh table of
`loopCode` is reachable; both slots of the table are in use, and a third
`write_bb_metadata` grows the table and stores its record under id 2. -/
theorem metadata_table_is_append_only_witness :
    bb_data_reachable loopCode twoRecordsInfo ∧
    twoRecordsInfo.bb_data_curr = 2 ∧ twoRecordsInfo.bb_data_len = 2 ∧
    (write_bb_metadata twoRecordsInfo [] sampleRecord).1 = 0 ∧
    (write_bb_metadata twoRecordsInfo [] sampleRecord).2.1.bb_data_len = 6 ∧
    ((∀ (heap heap1 : Allocator) (m m1 : _PyTier2BBMetadata) (rc : Nat) (t2a : _PyTier2Info),
      write_bb_metadata twoRecordsInfo heap m = (rc, t2a, heap1, m1) →
        (rc = 0 →
          bb_data_at t2a twoRecordsInfo.bb_data_curr = some m1 ∧
          m1 = { m with id := twoRecordsInfo.bb_data_curr } ∧
          t2a.bb_data_curr = twoRecordsInfo.bb_data_curr + 1 ∧
          ∀ k, k < twoRecordsInfo.bb_data_curr →
            bb_data_at t2a k = bb_data_at twoRecordsInfo k) ∧
        (rc ≠ 0 → t2a = twoRecordsInfo)) ∧
    (∀ k, k < twoRecordsInfo.bb_data_curr →
      ∃ m, bb_data_at twoRecordsInfo k = some m ∧ m.id = k) ∧
    twoRecordsInfo.bb_data_curr ≤ twoRecordsInfo.bb_data_len) :=
  ⟨.write _ [] sampleRecord (.write _ [] sampleRecord (.init [] [] _ rfl)),
   by decide, by decide, by decide, by decide,
   metadata_table_is_append_only loopCode twoRecordsInfo
     (.write _ [] sampleRecord (.write _ [] sampleRecord (.init [] [] _ rfl)))⟩

/-! ## The arena check -/

/-- The three ways `_PyTier2_BBSpaceCheckAndReallocIfNeeded` ends on a
Tier2Info whose arena is `curr`.  With room for the request the arena is
returned, and the Tier2Info and the allocator are as before.  Without room
the function returns NULL when `PyMem_Realloc` fails, the Tier2Info being as
before, and reaches `PyMem_Free(curr)` on the block it gave to
`PyMem_Realloc` when `PyMem_Realloc` succeeds. -/
theorem space_check_cases (T : OpcodeTables) (t2 : _PyTier2Info) (heap : Allocator)
    (r : Int) (curr : _PyTier2BBSpace) (hsp : t2._bb_space = some curr) :
    ((curr.water_level : Int) + r ≤ curr.max_capacity →
      _PyTier2_BBSpaceCheckAndReallocIfNeeded T t2 heap r = .ok ⟨t2, heap, some curr⟩) ∧
    ((curr.water_level : Int) + r > curr.max_capacity → (PyMem_Malloc heap).1 = false →
      _PyTier2_BBSpaceCheckAndReallocIfNeeded T t2 heap r
        = .ok ⟨t2, (PyMem_Malloc heap).2, none⟩) ∧
    ((curr.water_level : Int) + r > curr.max_capacity → (PyMem_Malloc heap).1 = true →
      _PyTier2_BBSpaceCheckAndReallocIfNeeded T t2 heap r = .error .invalid_free) := by
  refine ⟨?_, ?_, ?_⟩
  · intro h
    unfold _PyTier2_BBSpaceCheckAndReallocIfNeeded
    simp only [hsp]
    rw [if_neg (by omega)]
  · intro h hm
    unfold _PyTier2_BBSpaceCheckAndReallocIfNeeded
    simp only [hsp]
    rw [if_pos h]
    rcases hp : PyMem_Malloc heap with ⟨b, heap1⟩
    rw [hp] at hm
    simp only at hm
    subst hm
    simp only [realloc_bb_space, hp]
  · intro h hm
    unfold _PyTier2_BBSpaceCheckAndReallocIfNeeded
    simp only [hsp]
    rw [if_pos h]
    rcases hp : PyMem_Malloc heap with ⟨b, heap1⟩
    rw [hp] at hm
    simp only at hm
    subst hm
    simp only [realloc_bb_space, hp]

/-- C18: an arena of capacity 20 with 14 bytes in use (`smallArenaInfo`)
and a request of 10 bytes, `PyMem_Realloc` succeeding.  The arena is too
small; the reallocation gives a block with the water level 14 and the
capacity 64, to which `_bb_space` is set, and the function then calls
`PyMem_Free` on the block it gave to `PyMem_Realloc`: the arena it returns
is released memory.  A request of 6 bytes is met without reallocation, and
a request of 10 bytes with `PyMem_Realloc` failing returns NULL.
The same happens in the first lookup of a loop header after the bootstrap of
`plainLoopFrame`: the arena, of capacity 26, holds 18 bytes, the lookup for
the backward jump of block 1 asks the arena check for 12 bytes, and the
check reallocates the arena and frees it. -/
theorem grow_frees_reallocated_arena :
    (∃ curr grown, smallArenaInfo._bb_space = some curr ∧
      curr.max_capacity = 20 ∧ curr.water_level = 14 ∧
      (curr.water_level : Int) + 10 > curr.max_capacity ∧
      PyMem_Malloc [] = (true, []) ∧
      (realloc_bb_space sampleTables smallArenaInfo curr [] 10).space = some grown ∧
      grown.water_level = 14 ∧ grown.max_capacity = 64 ∧
      _PyTier2_BBSpaceCheckAndReallocIfNeeded sampleTables smallArenaInfo [] 10
        = .error .invalid_free ∧
      _PyTier2_BBSpaceCheckAndReallocIfNeeded sampleTables smallArenaInfo [] 6
        = .ok ⟨smallArenaInfo, [], some curr⟩ ∧
      _PyTier2_BBSpaceCheckAndReallocIfNeeded sampleTables smallArenaInfo [false] 10
        = .ok ⟨smallArenaInfo, [], none⟩) ∧
    ∃ r t2 sp,
      _PyCode_Tier2Initialize sampleTables plainLoopFrame [] sampleArena.u_code = .ok r ∧
      r.frame.f_code._tier2_info = .live t2 ∧ t2._bb_space = some sp ∧
      sp.max_capacity = 26 ∧ sp.water_level = 18 ∧
      bb_data_at t2 1 = some ⟨1, 1, 7, 2, [none, none]⟩ ∧
      t2.backward_jump_target_bb_ids = [[1, -1, -1, -1, -1]] ∧
      sp.words 6 2 = [⟨.EXTENDED_ARG, 0⟩, ⟨.BB_JUMP_BACKWARD_LAZY, 6⟩] ∧
      (_PyCode_NBYTES plainLoopCode : Int) - ((7 : Int) + (-6)) * (sizeof_CODEUNIT : Int)
        = 12 ∧
      _PyTier2_BBSpaceCheckAndReallocIfNeeded sampleTables t2 [] 12 = .error .invalid_free ∧
      _PyTier2_LocateJumpBackwardsBB sampleTables plainLoopCode t2 [] 1 (-6)
        = .error .invalid_free := by
  refine ⟨⟨_, _, rfl, by decide, by decide, by decide, rfl, rfl, by decide, by decide, rfl,
    rfl, rfl⟩, _, _, _, rfl, rfl, rfl, by decide, by decide, by decide, by decide, by decide,
    by decide, rfl, rfl⟩

/-- C19: `_PyTier2_CreateBBSpace(36)` records the capacity 20, the 36
allocated bytes less the 16 bytes of the header.  With 14 bytes in use a
request of 10 bytes exceeds it; after the grow the recorded capacity is 64,
the size of the whole new allocation, header included, and not
2 × (14 + 10) = 48.  That arena is the one `_bb_space` is set to when the
function reaches `PyMem_Free(curr)`. -/
theorem grow_records_allocation_size :
    (∃ sp, _PyTier2_CreateBBSpace sampleTables [] sampleArena.u_code 36 = ([], some sp) ∧
      sp.max_capacity = 36 - 16) ∧
    ∃ curr sp, smallArenaInfo._bb_space = some curr ∧
      curr.max_capacity = 20 ∧ curr.water_level = 14 ∧
      (realloc_bb_space sampleTables smallArenaInfo curr [] 10).space = some sp ∧
      (realloc_bb_space sampleTables smallArenaInfo curr [] 10).t2._bb_space = some sp ∧
      _PyTier2_BBSpaceCheckAndReallocIfNeeded sampleTables smallArenaInfo [] 10
        = .error .invalid_free ∧
      sp.max_capacity = 64 ∧ sp.max_capacity = 16 + 2 * (14 + 10) ∧
      sp.max_capacity ≠ 2 * (14 + 10) := by
  refine ⟨⟨_, rfl, by decide⟩, _, _, rfl, by decide, by decide, rfl, rfl, rfl, by decide,
    by decide, by decide⟩

/-! ## Registration of a record, whatever the allocator does -/

/-- What `_PyTier2_AllocateBBMetaData` can change: the jump target index and
the arena pointer never; the metadata table only by appending the new
record; nothing at all when it returns NULL. -/
theorem allocate_metadata_frame (t2 : _PyTier2Info) (heap : Allocator) (ts : Nat) (te : Int)
    (n : Nat) (tc : List (Option PyTypeObject)) (t2a : _PyTier2Info) (heap1 : Allocator)
    (om : Option _PyTier2BBMetadata)
    (h : _PyTier2_AllocateBBMetaData t2 heap ts te n tc = (t2a, heap1, om)) :
    t2a.backward_jump_count = t2.backward_jump_count ∧
    t2a.backward_jump_offsets = t2.backward_jump_offsets ∧
    t2a.backward_jump_target_bb_ids = t2.backward_jump_target_bb_ids ∧
    t2a._bb_space = t2._bb_space ∧ t2a._entry_bb = t2._entry_bb ∧
    (om = none → t2a = t2) ∧
    (bb_data_wf t2 →
      bb_data_wf t2a ∧ t2.bb_data_curr ≤ t2a.bb_data_curr ∧
      (∀ k, k < t2.bb_data_curr → bb_data_at t2a k = bb_data_at t2 k) ∧
      ∀ m, om = some m →
        m = ⟨t2.bb_data_curr, ts, te, n, tc⟩ ∧ t2a.bb_data_curr = t2.bb_data_curr + 1 ∧
        bb_data_at t2a t2.bb_data_curr = some m) := by
  unfold _PyTier2_AllocateBBMetaData allocate_bb_metadata at h
  rcases hm : PyMem_Malloc heap with ⟨b, heapa⟩
  rw [hm] at h
  cases b with
  | false =>
    simp only [Prod.mk.injEq] at h
    obtain ⟨h1, -, h3⟩ := h
    subst h1 h3
    exact ⟨rfl, rfl, rfl, rfl, rfl, fun _ => rfl,
      fun hwf => ⟨hwf, le_refl _, fun _ _ => rfl, fun m hm => by simp at hm⟩⟩
  | true =>
    simp only at h
    rcases hw : write_bb_metadata t2 heapa ⟨0, ts, te, n, tc⟩ with ⟨rc, t2w, heapb, m1⟩
    rw [hw] at h
    cases rc with
    | zero =>
      simp only [Prod.mk.injEq] at h
      obtain ⟨h1, -, h3⟩ := h
      subst h1 h3
      have hfields : t2w.backward_jump_count = t2.backward_jump_count ∧
          t2w.backward_jump_offsets = t2.backward_jump_offsets ∧
          t2w.backward_jump_target_bb_ids = t2.backward_jump_target_bb_ids ∧
          t2w._bb_space = t2._bb_space ∧ t2w._entry_bb = t2._entry_bb := by
        rcases write_bb_metadata_cases t2 heapa ⟨0, ts, te, n, tc⟩ with
          ⟨heap2, hf⟩ | ⟨t2g, heap2, hs, hcase⟩
        · rw [hf] at hw; simp at hw
        · rw [hs] at hw
          simp only [Prod.mk.injEq, true_and] at hw
          rw [← hw.1]
          rcases hcase with ⟨hg, -⟩ | ⟨hg, -⟩ <;> subst hg <;> exact ⟨rfl, rfl, rfl, rfl, rfl⟩
      obtain ⟨f1, f2, f3, f4, f5⟩ := hfields
      refine ⟨f1, f2, f3, f4, f5, fun hn => by simp at hn, ?_⟩
      intro hwf
      obtain ⟨hm1, hat, hcurr, hold, hwfa, -⟩ :=
        write_bb_metadata_success t2 t2w heapa heapb _ m1 hwf hw
      refine ⟨hwfa, by omega, hold, ?_⟩
      intro m hsome
      simp only [Option.some.injEq] at hsome
      subst hsome
      exact ⟨hm1, hcurr, hat⟩
    | succ rc =>
      simp only [Prod.mk.injEq] at h
      obtain ⟨h1, -, h3⟩ := h
      subst h1 h3
      obtain ⟨ht, -⟩ := write_bb_metadata_failure t2 t2w heapa heapb _ m1 (rc + 1)
        (Nat.succ_ne_zero _) hw
      subst ht
      exact ⟨rfl, rfl, rfl, rfl, rfl, fun _ => rfl,
        fun hwf => ⟨hwf, le_refl _, fun _ _ => rfl, fun m hm => by simp at hm⟩⟩

/-! ## Pass-through instructions -/

theorem copy_cache_entries_words (co : PyCodeObject) :
    ∀ (n : Nat) (u : UCode) (w c : Nat),
      (∀ k, k < n → (copy_cache_entries co u w c n).1 (w + k) = code_at co (c + k)) ∧
      ∀ a, w + n ≤ a → (copy_cache_entries co u w c n).1 a = u a := by
  intro n
  induction n with
  | zero => intro u w c; exact ⟨fun k hk => by omega, fun _ _ => rfl⟩
  | succ n ih =>
    intro u w c
    obtain ⟨h1, h2⟩ := ih (u.store w (code_at co c)) (w + 1) (c + 1)
    have h3 := (copy_cache_entries_spec co n (u.store w (code_at co c)) (w + 1) (c + 1)).2
    refine ⟨?_, ?_⟩
    · intro k hk
      simp only [copy_cache_entries]
      cases k with
      | zero =>
        simp only [Nat.add_zero]
        rw [h3 w (by omega), ucode_store_apply, if_pos rfl]
      | succ k =>
        have := h1 k (by omega)
        rw [show w + (k + 1) = w + 1 + k by omega, show c + (k + 1) = c + 1 + k by omega]
        exact this
    · intro a ha
      simp only [copy_cache_entries]
      rw [h2 a (by omega), ucode_store_apply, if_neg (by omega)]

/-- The words that `DISPATCH()` writes: the instruction word at the write
cursor, then the cache tail copied from the Tier-1 code. -/
theorem DISPATCH_words (co : PyCodeObject) (s : Emit) (i : Nat) (opcode : Opcode)
    (oparg caches : Nat) :
    (DISPATCH co s i opcode oparg caches).write_i = s.write_i + 1 + caches ∧
    (DISPATCH co s i opcode oparg caches).bb_space.u_code s.write_i = ⟨opcode, oparg % 256⟩ ∧
    (∀ k, k < caches →
      (DISPATCH co s i opcode oparg caches).bb_space.u_code (s.write_i + 1 + k)
        = code_at co (i + 1 + k)) ∧
    (∀ a, a < s.write_i →
      (DISPATCH co s i opcode oparg caches).bb_space.u_code a = s.bb_space.u_code a) ∧
    (∀ a, s.write_i + 1 + caches ≤ a →
      (DISPATCH co s i opcode oparg caches).bb_space.u_code a = s.bb_space.u_code a) := by
  have hc := copy_cache_entries_spec co caches
    (UCode.store s.bb_space.u_code s.write_i ⟨opcode, oparg % 256⟩) (s.write_i + 1) (i + 1)
  have hw := copy_cache_entries_words co caches
    (UCode.store s.bb_space.u_code s.write_i ⟨opcode, oparg % 256⟩) (s.write_i + 1) (i + 1)
  refine ⟨?_, ?_, ?_, ?_, ?_⟩
  · simp only [DISPATCH, emit_i]; exact hc.1
  · simp only [DISPATCH, emit_i]
    rw [hc.2 _ (by omega), ucode_store_apply, if_pos rfl]
  · intro k hk
    simp only [DISPATCH, emit_i]
    exact hw.1 k hk
  · intro a ha
    simp only [DISPATCH, emit_i]
    rw [hc.2 a (by omega), ucode_store_apply, if_neg (by omega)]
  · intro a ha
    simp only [DISPATCH, emit_i]
    rw [hw.2 a (by omega), ucode_store_apply, if_neg (by omega)]

theorem fall_through_pass (T : OpcodeTables) (co : PyCodeObject) (s : Emit) (i : Nat)
    (hexit : IS_SCOPE_EXIT_OPCODE (T.deopt (code_at co i).opcode) = false)
    (hjump : IS_JUMP_OPCODE (T.deopt (code_at co i).opcode) = false) :
    fall_through T co s i
      = .ok (.continue_ (DISPATCH co s i (T.deopt (code_at co i).opcode) (code_at co i).oparg
          (T.caches (T.deopt (code_at co i).opcode)))
        (i + T.caches (T.deopt (code_at co i).opcode))) := by
  unfold fall_through
  simp only [hexit, hjump, Bool.false_eq_true, if_false]

/-- The opcode of the word that `DISPATCH()` emits for a pass-through
instruction with de-specialized opcode `opcode`. -/
theorem pass_through_emits (T : OpcodeTables) (co : PyCodeObject) (n : Nat)
    (tc : List (Option PyTypeObject)) (s : Emit) (i : Nat)
    (hexit : IS_SCOPE_EXIT_OPCODE (T.deopt (code_at co i).opcode) = false)
    (hjump : IS_JUMP_OPCODE (T.deopt (code_at co i).opcode) = false)
    (hsplit : IS_BACKWARDS_JUMP_TARGET s.t2 i = true → s.virtual_start = true ∨
      T.deopt (code_at co i).opcode = .RESUME ∨
      T.deopt (code_at co i).opcode = .COMPARE_AND_BRANCH ∨
      T.deopt (code_at co i).opcode = .END_FOR) :
    ∃ s0, s0.write_i = s.write_i ∧ s0.bb_space.u_code = s.bb_space.u_code ∧
      dispatch_opcode T co n tc s i
        = .ok (.continue_ (DISPATCH co s0 i (pass_through_opcode (T.deopt (code_at co i).opcode))
            (code_at co i).oparg (T.caches (T.deopt (code_at co i).opcode)))
          (i + T.caches (T.deopt (code_at co i).opcode))) := by
  unfold dispatch_opcode
  simp only
  by_cases h1 : T.deopt (code_at co i).opcode = .RESUME
  · simp only [h1, if_true]
    exact ⟨s, rfl, rfl, rfl⟩
  · by_cases h2 : T.deopt (code_at co i).opcode = .COMPARE_AND_BRANCH
    · simp only [h2, if_true]
      exact ⟨s, rfl, rfl, by simp [pass_through_opcode]⟩
    · by_cases h3 : T.deopt (code_at co i).opcode = .END_FOR
      · simp only [h3, if_true]
        exact ⟨{ s with t2_start := s.t2_start + 1 }, rfl, rfl, by simp [pass_through_opcode]⟩
      · have hp : pass_through_opcode (T.deopt (code_at co i).opcode)
            = T.deopt (code_at co i).opcode := by
          unfold pass_through_opcode
          split
          · exact absurd (by assumption) h1
          · exact absurd (by assumption) h2
          · rfl
        simp only [h1, h2, h3, if_false]
        by_cases ht : IS_BACKWARDS_JUMP_TARGET s.t2 i = true
        · have hv : s.virtual_start = true := by
            rcases hsplit ht with h | h | h | h
            · exact h
            · exact absurd h h1
            · exact absurd h h2
            · exact absurd h h3
          simp only [ht, hv, if_true]
          rw [fall_through_pass T co _ i hexit hjump, hp]
          exact ⟨mark_jump_target s i, rfl, rfl, rfl⟩
        · simp only [ht, Bool.false_eq_true, if_false]
          rw [fall_through_pass T co _ i hexit hjump, hp]
          exact ⟨s, rfl, rfl, rfl⟩

/-- One pass through the `switch` at a jump target that ends the current
block: the record of the block is registered and the same instruction is
dispatched again, or the call returns NULL. -/
theorem dispatch_opcode_split (T : OpcodeTables) (co : PyCodeObject) (n : Nat)
    (tc : List (Option PyTypeObject)) (s : Emit) (i : Nat)
    (h1 : T.deopt (code_at co i).opcode ≠ .RESUME)
    (h2 : T.deopt (code_at co i).opcode ≠ .COMPARE_AND_BRANCH)
    (h3 : T.deopt (code_at co i).opcode ≠ .END_FOR)
    (ht : IS_BACKWARDS_JUMP_TARGET s.t2 i = true) (hv : s.virtual_start = false) :
    dispatch_opcode T co n tc s i
      = match _PyTier2_AllocateBBMetaData s.t2 s.heap s.t2_start ((i : Int) - 1) n tc with
        | (t2a, heap1, none) => .ok (.return_null { s with t2 := t2a, heap := heap1 })
        | (t2a, heap1, some m) => .ok (.dispatch_goto (virtual_end s t2a heap1 m)) := by
  unfold dispatch_opcode
  simp only [h1, h2, h3, ht, hv, if_true, if_false, Bool.false_eq_true]

/-- C20: the scan loop at an instruction `i` inside the code object whose
de-specialized opcode is neither a scope exit nor a jump.  Unless the
instruction lies at a jump target where the current block has to be ended
first and the registration of that block fails (the call then returns NULL),
the loop writes at the write cursor one word carrying the instruction's
oparg (its opcode is the de-specialized opcode, `RESUME_QUICK` for `RESUME`
and `COMPARE_OP` for `COMPARE_AND_BRANCH`), then exactly
`_PyOpcode_Caches[opcode]` words equal, in order, to the Tier-1 words
`i + 1, i + 2, ...`; it leaves the words below the write cursor alone, moves
the write cursor behind the copied tail, and goes on at the Tier-1 index
`i + _PyOpcode_Caches[opcode] + 1`, just behind the cache tail. -/
theorem pass_through_copies_cache_tail (T : OpcodeTables) (co : PyCodeObject) (n : Nat)
    (tc : List (Option PyTypeObject)) (fuel : Nat) (rd : Bool) (s : Emit) (i : Nat)
    (hi : i < Py_SIZE co)
    (hexit : IS_SCOPE_EXIT_OPCODE (T.deopt (code_at co i).opcode) = false)
    (hjump : IS_JUMP_OPCODE (T.deopt (code_at co i).opcode) = false)
    (harg : (code_at co i).oparg < 256) :
    (IS_BACKWARDS_JUMP_TARGET s.t2 i = true ∧ s.virtual_start = false ∧
      (_PyTier2_AllocateBBMetaData s.t2 s.heap s.t2_start ((i : Int) - 1) n tc).2.2 = none ∧
      ∃ s1, scan T co n tc (fuel + 2) rd s i = .ok (.returned_null s1)) ∨
    ∃ s1 fuel1,
      scan T co n tc (fuel + 2) rd s i
        = scan T co n tc fuel1 false s1 (i + T.caches (T.deopt (code_at co i).opcode) + 1) ∧
      fuel ≤ fuel1 ∧
      s1.write_i = s.write_i + 1 + T.caches (T.deopt (code_at co i).opcode) ∧
      s1.bb_space.u_code s.write_i
        = ⟨pass_through_opcode (T.deopt (code_at co i).opcode), (code_at co i).oparg⟩ ∧
      (∀ k, k < T.caches (T.deopt (code_at co i).opcode) →
        s1.bb_space.u_code (s.write_i + 1 + k) = code_at co (i + 1 + k)) ∧
      (∀ a, a < s.write_i → s1.bb_space.u_code a = s.bb_space.u_code a) := by
  have hnot : ¬ (rd = false ∧ Py_SIZE co ≤ i) := fun h => by omega
  have hmod : (code_at co i).oparg % 256 = (code_at co i).oparg := Nat.mod_eq_of_lt harg
  -- the facts about the state after `DISPATCH()` from a state with the same cursor and words
  have hfacts : ∀ s0 : Emit, s0.write_i = s.write_i → s0.bb_space.u_code = s.bb_space.u_code →
      (DISPATCH co s0 i (pass_through_opcode (T.deopt (code_at co i).opcode))
          (code_at co i).oparg (T.caches (T.deopt (code_at co i).opcode))).write_i
        = s.write_i + 1 + T.caches (T.deopt (code_at co i).opcode) ∧
      (DISPATCH co s0 i (pass_through_opcode (T.deopt (code_at co i).opcode))
          (code_at co i).oparg (T.caches (T.deopt (code_at co i).opcode))).bb_space.u_code
          s.write_i
        = ⟨pass_through_opcode (T.deopt (code_at co i).opcode), (code_at co i).oparg⟩ ∧
      (∀ k, k < T.caches (T.deopt (code_at co i).opcode) →
        (DISPATCH co s0 i (pass_through_opcode (T.deopt (code_at co i).opcode))
          (code_at co i).oparg (T.caches (T.deopt (code_at co i).opcode))).bb_space.u_code
          (s.write_i + 1 + k) = code_at co (i + 1 + k)) ∧
      (∀ a, a < s.write_i →
        (DISPATCH co s0 i (pass_through_opcode (T.deopt (code_at co i).opcode))
          (code_at co i).oparg (T.caches (T.deopt (code_at co i).opcode))).bb_space.u_code a
        = s.bb_space.u_code a) := by
    intro s0 hw hu
    obtain ⟨d1, d2, d3, d4, -⟩ := DISPATCH_words co s0 i
      (pass_through_opcode (T.deopt (code_at co i).opcode)) (code_at co i).oparg
      (T.caches (T.deopt (code_at co i).opcode))
    rw [hw] at d1 d2 d3 d4
    rw [hmod] at d2
    rw [hu] at d4
    exact ⟨d1, d2, d3, d4⟩
  by_cases hs : IS_BACKWARDS_JUMP_TARGET s.t2 i = true ∧ s.virtual_start = false ∧
      T.deopt (code_at co i).opcode ≠ .RESUME ∧
      T.deopt (code_at co i).opcode ≠ .COMPARE_AND_BRANCH ∧
      T.deopt (code_at co i).opcode ≠ .END_FOR
  · -- the block in front of the jump target is ended first
    obtain ⟨ht, hv, h1, h2, h3⟩ := hs
    have hd := dispatch_opcode_split T co n tc s i h1 h2 h3 ht hv
    rcases hA : _PyTier2_AllocateBBMetaData s.t2 s.heap s.t2_start ((i : Int) - 1) n tc with
      ⟨t2a, heap1, om⟩
    rw [hA] at hd
    cases om with
    | none =>
      left
      refine ⟨ht, hv, rfl, _, scan_of_return_null T co n tc (fuel + 1) rd s i _ hnot hd⟩
    | some m =>
      right
      simp only at hd
      have hstep := scan_of_dispatch_goto T co n tc (fuel + 1) rd s i _ hnot hd
      obtain ⟨s0, hw0, hu0, hd0⟩ := pass_through_emits T co n tc (virtual_end s t2a heap1 m) i
        hexit hjump (fun _ => Or.inl rfl)
      have hstep2 := scan_of_continue T co n tc fuel true (virtual_end s t2a heap1 m) i _ _
        (fun h => by simp at h) hd0
      obtain ⟨d1, d2, d3, d4⟩ := hfacts s0 hw0 hu0
      exact ⟨_, fuel, hstep.trans hstep2, le_refl _, d1, d2, d3, d4⟩
  · right
    have hsplit : IS_BACKWARDS_JUMP_TARGET s.t2 i = true → s.virtual_start = true ∨
        T.deopt (code_at co i).opcode = .RESUME ∨
        T.deopt (code_at co i).opcode = .COMPARE_AND_BRANCH ∨
        T.deopt (code_at co i).opcode = .END_FOR := by
      intro ht
      by_contra hcon
      simp only [not_or] at hcon
      obtain ⟨c1, c2, c3, c4⟩ := hcon
      exact hs ⟨ht, by simpa using c1, c2, c3, c4⟩
    obtain ⟨s0, hw0, hu0, hd0⟩ := pass_through_emits T co n tc s i hexit hjump hsplit
    have hstep := scan_of_continue T co n tc (fuel + 1) rd s i _ _ hnot hd0
    obtain ⟨d1, d2, d3, d4⟩ := hfacts s0 hw0 hu0
    exact ⟨_, fuel + 1, hstep, Nat.le_succ _, d1, d2, d3, d4⟩

/-- Witness for C20: discovery on scenario S1 at the `BINARY_OP` of offset 2,
which carries one cache word, after the two `LOAD_FAST` were emitted. -/
theorem pass_through_copies_cache_tail_witness :
    2 < Py_SIZE addCode ∧
    IS_SCOPE_EXIT_OPCODE (sampleTables.deopt (code_at addCode 2).opcode) = false ∧
    IS_JUMP_OPCODE (sampleTables.deopt (code_at addCode 2).opcode) = false ∧
    (code_at addCode 2).oparg < 256 ∧
    sampleTables.caches (sampleTables.deopt (code_at addCode 2).opcode) = 1 ∧
    ((IS_BACKWARDS_JUMP_TARGET addAfterLoads.t2 2 = true ∧ addAfterLoads.virtual_start = false ∧
      (_PyTier2_AllocateBBMetaData addAfterLoads.t2 addAfterLoads.heap addAfterLoads.t2_start
        ((2 : Int) - 1) 2 [none, none]).2.2 = none ∧
      ∃ s1, scan sampleTables addCode 2 [none, none] (0 + 2) false addAfterLoads 2
        = .ok (.returned_null s1)) ∨
    ∃ s1 fuel1,
      scan sampleTables addCode 2 [none, none] (0 + 2) false addAfterLoads 2
        = scan sampleTables addCode 2 [none, none] fuel1 false s1
            (2 + sampleTables.caches (sampleTables.deopt (code_at addCode 2).opcode) + 1) ∧
      0 ≤ fuel1 ∧
      s1.write_i = addAfterLoads.write_i + 1
        + sampleTables.caches (sampleTables.deopt (code_at addCode 2).opcode) ∧
      s1.bb_space.u_code addAfterLoads.write_i
        = ⟨pass_through_opcode (sampleTables.deopt (code_at addCode 2).opcode),
            (code_at addCode 2).oparg⟩ ∧
      (∀ k, k < sampleTables.caches (sampleTables.deopt (code_at addCode 2).opcode) →
        s1.bb_space.u_code (addAfterLoads.write_i + 1 + k) = code_at addCode (2 + 1 + k)) ∧
      (∀ a, a < addAfterLoads.write_i →
        s1.bb_space.u_code a = addAfterLoads.bb_space.u_code a)) :=
  ⟨by decide, by decide, by decide, by decide, by decide,
   pass_through_copies_cache_tail sampleTables addCode 2 [none, none] 0 false addAfterLoads 2
     (by decide) (by decide) (by decide) (by decide)⟩

/-! ## What a discovery call leaves of the earlier state -/

theorem info_extends_refl (t2 : _PyTier2Info) (hwf : bb_data_wf t2) : info_extends t2 t2 :=
  ⟨rfl, rfl, fun _ row h => ⟨row, h, fun _ _ hv _ => hv⟩, le_refl _, fun _ _ => rfl, hwf⟩

theorem info_extends_wf {t2 t2a : _PyTier2Info} (h : info_extends t2 t2a) : bb_data_wf t2a :=
  h.2.2.2.2.2

theorem info_extends_trans {t2 t2a t2b : _PyTier2Info} (h1 : info_extends t2 t2a)
    (h2 : info_extends t2a t2b) : info_extends t2 t2b := by
  obtain ⟨a1, a2, a3, a4, a5, -⟩ := h1
  obtain ⟨b1, b2, b3, b4, b5, b6⟩ := h2
  refine ⟨b1.trans a1, b2.trans a2, ?_, le_trans a4 b4, ?_, b6⟩
  · intro i row hrow
    obtain ⟨row1, hrow1, hk1⟩ := a3 i row hrow
    obtain ⟨row2, hrow2, hk2⟩ := b3 i row1 hrow1
    exact ⟨row2, hrow2, fun x v hv hne => hk2 x v (hk1 x v hv hne) hne⟩
  · intro k hk
    rw [b5 k (by omega), a5 k hk]

/-- A step that changes nothing but the metadata table, by appending. -/
theorem info_extends_of_allocate (t2 : _PyTier2Info) (heap : Allocator) (ts : Nat) (te : Int)
    (n : Nat) (tc : List (Option PyTypeObject)) (t2a : _PyTier2Info) (heap1 : Allocator)
    (om : Option _PyTier2BBMetadata) (hwf : bb_data_wf t2)
    (h : _PyTier2_AllocateBBMetaData t2 heap ts te n tc = (t2a, heap1, om)) :
    info_extends t2 t2a ∧
    t2a.backward_jump_target_bb_ids = t2.backward_jump_target_bb_ids := by
  obtain ⟨f1, f2, f3, -, -, -, f7⟩ := allocate_metadata_frame t2 heap ts te n tc t2a heap1 om h
  obtain ⟨g1, g2, g3, -⟩ := f7 hwf
  refine ⟨⟨f1, f2, ?_, g2, g3, g1⟩, f3⟩
  intro i row hrow
  exact ⟨row, by rw [f3]; exact hrow, fun _ _ hv _ => hv⟩

/-- One pass through the `switch`: whatever the exit, the Tier2Info only
grew by a record, and the version arrays are untouched. -/
theorem dispatch_opcode_frame (T : OpcodeTables) (co : PyCodeObject) (n : Nat)
    (tc : List (Option PyTypeObject)) (s : Emit) (i : Nat) (hwf : bb_data_wf s.t2) :
    dispatch_opcode T co n tc s i = .error .unreachable ∨
    ∃ x, dispatch_opcode T co n tc s i = .ok x ∧
      ∃ s1, (x = .dispatch_goto s1 ∨ x = .return_null s1 ∨ (∃ i1, x = .continue_ s1 i1) ∨
          ∃ i1, x = .goto_end s1 i1) ∧
        info_extends s.t2 s1.t2 ∧
        s1.t2.backward_jump_target_bb_ids = s.t2.backward_jump_target_bb_ids := by
  have hkeep : ∀ s0 s1 : Emit, s0.t2 = s.t2 → s0.continues s1 →
      info_extends s.t2 s1.t2 ∧
        s1.t2.backward_jump_target_bb_ids = s.t2.backward_jump_target_bb_ids := by
    intro s0 s1 h0 hc
    rw [hc.1, h0]
    exact ⟨info_extends_refl _ hwf, rfl⟩
  have hft : ∀ s0 : Emit, s0.t2 = s.t2 →
      fall_through T co s0 i = .error .unreachable ∨
      ∃ x, fall_through T co s0 i = .ok x ∧
        ∃ s1, (x = .dispatch_goto s1 ∨ x = .return_null s1 ∨ (∃ i1, x = .continue_ s1 i1) ∨
            ∃ i1, x = .goto_end s1 i1) ∧
          info_extends s.t2 s1.t2 ∧
          s1.t2.backward_jump_target_bb_ids = s.t2.backward_jump_target_bb_ids := by
    intro s0 h0
    rcases fall_through_spec T co s0 i with he | ⟨s1, i1, he, -, hc, -⟩ | ⟨s1, i1, he, -, hc, -⟩
    · exact Or.inl he
    · exact Or.inr ⟨_, he, s1, Or.inr (Or.inr (Or.inl ⟨i1, rfl⟩)), hkeep s0 s1 h0 hc⟩
    · exact Or.inr ⟨_, he, s1, Or.inr (Or.inr (Or.inr ⟨i1, rfl⟩)), hkeep s0 s1 h0 hc⟩
  unfold dispatch_opcode
  simp only
  split_ifs with h1 h2 h3 h4 h5
  · exact Or.inr ⟨_, rfl, _, Or.inr (Or.inr (Or.inl ⟨_, rfl⟩)),
      hkeep s _ rfl (DISPATCH_continues co s i _ _ _)⟩
  · exact Or.inr ⟨_, rfl, _, Or.inr (Or.inr (Or.inl ⟨_, rfl⟩)),
      hkeep s _ rfl (DISPATCH_continues co s i _ _ _)⟩
  · exact Or.inr ⟨_, rfl, _, Or.inr (Or.inr (Or.inl ⟨_, rfl⟩)),
      hkeep { s with t2_start := s.t2_start + 1 } _ rfl (DISPATCH_continues co _ i _ _ _)⟩
  · exact hft (mark_jump_target s i) rfl
  · rcases hA : _PyTier2_AllocateBBMetaData s.t2 s.heap s.t2_start ((i : Int) - 1) n tc with
      ⟨t2a, heap1, om⟩
    have hext := info_extends_of_allocate _ _ _ _ _ _ _ _ _ hwf hA
    cases om with
    | none => exact Or.inr ⟨_, rfl, _, Or.inr (Or.inl rfl), hext⟩
    | some m => exact Or.inr ⟨_, rfl, virtual_end s t2a heap1 m, Or.inl rfl, hext⟩
  · exact hft s rfl

/-- The scan loop, from any state: when it ends without a fault, the
Tier2Info only grew by records and the version arrays are untouched. -/
theorem scan_frame (T : OpcodeTables) (co : PyCodeObject) (n : Nat)
    (tc : List (Option PyTypeObject)) :
    ∀ (fuel : Nat) (rd : Bool) (s : Emit) (i : Nat) (e : ScanExit), bb_data_wf s.t2 →
      scan T co n tc fuel rd s i = .ok e →
      ∃ s1, (e = .returned_null s1 ∨ ∃ i1, e = .at_end s1 i1) ∧
        info_extends s.t2 s1.t2 ∧
        s1.t2.backward_jump_target_bb_ids = s.t2.backward_jump_target_bb_ids := by
  intro fuel
  induction fuel with
  | zero => intro rd s i e _ h; simp [scan] at h
  | succ fuel ih =>
    intro rd s i e hwf h
    by_cases hend : rd = false ∧ Py_SIZE co ≤ i
    · rw [scan, if_pos hend] at h
      simp only [Except.ok.injEq] at h
      exact ⟨s, Or.inr ⟨i, h.symm⟩, info_extends_refl _ hwf, rfl⟩
    · rcases dispatch_opcode_frame T co n tc s i hwf with he | ⟨x, hx, s1, hcase, hext, hids⟩
      · rw [scan_of_error T co n tc fuel rd s i _ hend he] at h
        simp at h
      · rcases hcase with hc | hc | ⟨i1, hc⟩ | ⟨i1, hc⟩
        · subst hc
          rw [scan_of_dispatch_goto T co n tc fuel rd s i s1 hend hx] at h
          obtain ⟨s2, hcase2, hext2, hids2⟩ := ih true s1 i e (info_extends_wf hext) h
          exact ⟨s2, hcase2, info_extends_trans hext hext2, hids2.trans hids⟩
        · subst hc
          rw [scan_of_return_null T co n tc fuel rd s i s1 hend hx] at h
          simp only [Except.ok.injEq] at h
          exact ⟨s1, Or.inl h.symm, hext, hids⟩
        · subst hc
          rw [scan_of_continue T co n tc fuel rd s i s1 i1 hend hx] at h
          obtain ⟨s2, hcase2, hext2, hids2⟩ := ih false s1 (i1 + 1) e (info_extends_wf hext) h
          exact ⟨s2, hcase2, info_extends_trans hext hext2, hids2.trans hids⟩
        · subst hc
          rw [scan_of_goto_end T co n tc fuel rd s i s1 i1 hend hx] at h
          simp only [Except.ok.injEq] at h
          exact ⟨s1, Or.inr ⟨i1, h.symm⟩, hext, hids⟩

theorem add_metadata_frame (t2 t2b : _PyTier2Info) (md : Option _PyTier2BBMetadata)
    (target : Int) (rc : Int) (hwf : bb_data_wf t2)
    (h : add_metadata_to_jump_2d_array t2 md target = .ok (rc, t2b)) :
    info_extends t2 t2b := by
  unfold add_metadata_to_jump_2d_array at h
  simp only [List.get?_eq_getElem?] at h
  cases hrow : t2.backward_jump_target_bb_ids[find_jump_offset_index t2 target]? with
  | none => rw [hrow] at h; simp at h
  | some row =>
    rw [hrow] at h
    simp only at h
    cases hf : find_free_version row with
    | none =>
      rw [hf] at h
      simp only [Except.ok.injEq, Prod.mk.injEq] at h
      rw [← h.2]
      exact info_extends_refl _ hwf
    | some j =>
      rw [hf] at h
      cases md with
      | none => simp at h
      | some m =>
        simp only [Except.ok.injEq, Prod.mk.injEq] at h
        rw [← h.2]
        obtain ⟨-, hj, -⟩ := find_free_version_some row j hf
        refine ⟨rfl, rfl, ?_, le_refl _, fun _ _ => rfl, hwf⟩
        intro i row0 hrow0
        by_cases hi : i = find_jump_offset_index t2 target
        · subst hi
          rw [hrow] at hrow0
          simp only [Option.some.injEq] at hrow0
          subst hrow0
          have hlen : find_jump_offset_index t2 target < t2.backward_jump_target_bb_ids.length := by
            by_contra hcon
            rw [List.getElem?_eq_none (by omega)] at hrow
            simp at hrow
          refine ⟨row.set j (m.id : Int), List.getElem?_set_self hlen, ?_⟩
          intro x v hv hne
          have hxj : j ≠ x := by
            intro hcon
            subst hcon
            rw [hj] at hv
            simp only [Option.some.injEq] at hv
            exact hne hv.symm
          rw [List.getElem?_set_ne hxj]
          exact hv
        · refine ⟨row0, ?_, fun _ _ hv _ => hv⟩
          simp only
          rw [List.getElem?_set_ne (Ne.symm hi)]
          exact hrow0

/-- Label `end`: the Tier2Info it leaves extends the one it found. -/
theorem detect_end_frame (s : Emit) (i n : Nat) (tc : List (Option PyTypeObject))
    (r : DetectResult) (hwf : bb_data_wf s.t2) (h : detect_end s i n tc = .ok r) :
    info_extends s.t2 r.t2 := by
  unfold detect_end at h
  rcases hA : _PyTier2_AllocateBBMetaData s.t2 s.heap s.t2_start ((i : Int) + 1) n tc with
    ⟨t2a, heap1, temp_meta⟩
  rw [hA] at h
  simp only at h
  obtain ⟨hext, -⟩ := info_extends_of_allocate _ _ _ _ _ _ _ _ _ hwf hA
  have hinst : ∀ (rc : Int) (t2b : _PyTier2Info),
      (if s.starts_with_backwards_jump_target = true then
          add_metadata_to_jump_2d_array t2a temp_meta s.backwards_jump_target_offset
        else .ok (0, t2a)) = .ok (rc, t2b) → info_extends s.t2 t2b := by
    intro rc t2b hi
    split_ifs at hi
    · exact info_extends_trans hext (add_metadata_frame _ _ _ _ _ (info_extends_wf hext) hi)
    · simp only [Except.ok.injEq, Prod.mk.injEq] at hi
      rw [← hi.2]
      exact hext
  cases hinstalled : (if s.starts_with_backwards_jump_target = true then
      add_metadata_to_jump_2d_array t2a temp_meta s.backwards_jump_target_offset
    else (.ok (0, t2a) : Except Fault (Int × _PyTier2Info))) with
  | error f => rw [hinstalled] at h; simp at h
  | ok p =>
    obtain ⟨rc, t2b⟩ := p
    rw [hinstalled] at h
    simp only at h
    have hb := hinst rc t2b hinstalled
    split_ifs at h
    · simp only [Except.ok.injEq] at h
      rw [← h]
      exact hb
    all_goals
      split at h
      · simp at h
      · simp only [Except.ok.injEq] at h
        rw [← h]
        exact hb

/-- A discovery call that ends without a fault, from any consistent state,
with any start offset and whatever the allocator does: the jump target index
is unchanged, every record registered before the call is unchanged, and
every version slot that held a block id before the call still holds it. -/
theorem discovery_call_frame (T : OpcodeTables) (co : PyCodeObject) (t2 : _PyTier2Info)
    (bb_space : _PyTier2BBSpace) (tier1_start n : Nat) (tc : List (Option PyTypeObject))
    (heap : Allocator) (r : DetectResult) (hwf : bb_data_wf t2)
    (h : _PyTier2_Code_DetectAndEmitBB T co t2 bb_space tier1_start n tc heap = .ok r) :
    info_extends t2 r.t2 := by
  unfold _PyTier2_Code_DetectAndEmitBB at h
  rcases hm : PyMem_Malloc heap with ⟨b, heap1⟩
  rw [hm] at h
  cases b with
  | false =>
    simp only [Except.ok.injEq] at h
    rw [← h]
    exact info_extends_refl _ hwf
  | true =>
    simp only at h
    unfold detect_from at h
    cases hs : scan T co n (tc.take n) (2 * (Py_SIZE co - tier1_start) + 2) false
        (detect_init t2 bb_space heap1) tier1_start with
    | error f => rw [hs] at h; simp at h
    | ok e =>
      rw [hs] at h
      obtain ⟨s1, hcase, hext, -⟩ := scan_frame T co n (tc.take n) _ _ _ _ e hwf hs
      rcases hcase with he | ⟨i1, he⟩
      · subst he
        simp only [Except.ok.injEq] at h
        rw [← h]
        exact hext
      · subst he
        simp only at h
        exact info_extends_trans hext (detect_end_frame s1 i1 n _ r (info_extends_wf hext) h)

/-! ## Lookup of the block of a loop header -/

theorem find_some_range (f : Nat → Option Int) (v : Int) :
    ∀ (n x : Nat), x < n → f x = some v → (∀ k, k < x → f k = none) →
      (List.range n).findSome? f = some v := by
  intro n
  induction n with
  | zero => intro x hx; omega
  | succ n ih =>
    intro x hx hfx hlow
    rw [List.range_succ, List.findSome?_append]
    by_cases hxn : x < n
    · rw [ih x hxn hfx hlow]
      rfl
    · have hxe : x = n := by omega
      subst hxe
      have hnone : (List.range x).findSome? f = none := by
        rw [List.findSome?_eq_none_iff]
        intro k hk
        exact hlow k (List.mem_range.mp hk)
      rw [hnone]
      simp [hfx]

theorem first_valid_version_eq (row : List Int) (x : Nat) (v : Int)
    (hx : x < MAX_BB_VERSIONS) (hv : row[x]? = some v) (hv0 : 0 ≤ v)
    (hlow : ∀ k, k < x → row[k]? = some (-1)) : first_valid_version row = some v := by
  unfold first_valid_version
  apply find_some_range _ v MAX_BB_VERSIONS x hx
  · simp only [List.get?_eq_getElem?, hv]
    rw [if_pos (by omega)]
  · intro k hk
    simp only [List.get?_eq_getElem?, hlow k hk]
    rfl

/-- The value of `_PyTier2_LocateJumpBackwardsBB` for a stub whose target
offset has the version array `row`, in which `v`, at slot `x`, is the first
entry that is a block id, when the arena has room for the request of the
arena check or `PyMem_Realloc` fails.  The call makes one allocation
request, the one of `PyMem_Realloc` when the arena lacks room and the one of
`initialize_type_context` otherwise; it returns NULL when that request
fails and the `tier2_start` of block `v` when it succeeds. -/
theorem locate_spec (T : OpcodeTables) (co : PyCodeObject) (t2 : _PyTier2Info)
    (heap : Allocator) (bb_id : Nat) (jumpby : Int) (metadata : _PyTier2BBMetadata)
    (curr : _PyTier2BBSpace) (row : List Int) (x : Nat) (v : Int) (tm : _PyTier2BBMetadata)
    (hmeta : bb_data_at t2 bb_id = some metadata) (hsp : t2._bb_space = some curr)
    (htarget : IS_BACKWARDS_JUMP_TARGET t2 (metadata.tier1_end + jumpby) = true)
    (hrow : t2.backward_jump_target_bb_ids[find_jump_offset_index t2
      (metadata.tier1_end + jumpby)]? = some row)
    (hx : x < MAX_BB_VERSIONS) (hv : row[x]? = some v) (hv0 : 0 ≤ v)
    (hlow : ∀ k, k < x → row[k]? = some (-1))
    (htm : bb_data_at t2 v.toNat = some tm)
    (hroom : (curr.water_level : Int) + ((_PyCode_NBYTES co : Int)
        - (metadata.tier1_end + jumpby) * (sizeof_CODEUNIT : Int)) ≤ curr.max_capacity ∨
      (PyMem_Malloc heap).1 = false) :
    ∃ res, _PyTier2_LocateJumpBackwardsBB T co t2 heap bb_id jumpby = .ok res ∧
      res.tier1_fallback = metadata.tier1_end + jumpby ∧
      res.t2 = t2 ∧
      ((PyMem_Malloc heap).1 = true → res.result = some tm.tier2_start) ∧
      ((PyMem_Malloc heap).1 = false → res.result = none) := by
  obtain ⟨c1, c2, -⟩ := space_check_cases T t2 heap
    ((_PyCode_NBYTES co : Int) - (metadata.tier1_end + jumpby) * (sizeof_CODEUNIT : Int))
    curr hsp
  have hlt := find_jump_offset_index_lt t2 _ htarget
  have hfirst := first_valid_version_eq row x v hx hv hv0 hlow
  simp only [bb_data_at] at hmeta htm
  unfold _PyTier2_LocateJumpBackwardsBB
  simp only [hmeta]
  by_cases hfit : (curr.water_level : Int) + ((_PyCode_NBYTES co : Int)
      - (metadata.tier1_end + jumpby) * (sizeof_CODEUNIT : Int)) ≤ curr.max_capacity
  · rw [c1 hfit]
    simp only
    rcases hm : PyMem_Malloc heap with ⟨b, heap1⟩
    cases b with
    | false =>
      simp only [initialize_type_context, hm]
      exact ⟨_, rfl, rfl, rfl, fun h => by simp at h, fun _ => rfl⟩
    | true =>
      simp only [initialize_type_context, hm, hlt, if_true, List.get?_eq_getElem?, hrow,
        hfirst, Option.getD_some]
      rw [if_neg (by omega)]
      simp only [htm]
      exact ⟨_, rfl, rfl, rfl, fun _ => rfl, fun h => by simp at h⟩
  · have hfail : (PyMem_Malloc heap).1 = false := by
      rcases hroom with h | h
      · exact absurd h hfit
      · exact h
    rw [c2 (by omega) hfail]
    simp only
    exact ⟨_, rfl, rfl, rfl, fun h => by rw [hfail] at h; simp at h, fun _ => rfl⟩

/-! ## The scan loop inside one block -/

theorem scan_continue_ge (T : OpcodeTables) (co : PyCodeObject) (i i1 : Nat)
    (h : scan_continue T co i = some i1) : i ≤ i1 := by
  unfold scan_continue at h
  simp only at h
  split_ifs at h <;> simp only [Option.some.injEq] at h <;> omega

theorem block_offsets_ge (T : OpcodeTables) (co : PyCodeObject) :
    ∀ (fuel i j : Nat), j ∈ block_offsets T co fuel i → i ≤ j := by
  intro fuel
  induction fuel with
  | zero => intro i j h; simp [block_offsets] at h
  | succ fuel ih =>
    intro i j h
    unfold block_offsets at h
    split_ifs at h with hsz
    · simp at h
    · rcases List.mem_cons.mp h with h1 | h1
      · omega
      · cases hc : scan_continue T co i with
        | none => rw [hc] at h1; simp at h1
        | some i1 =>
          rw [hc] at h1
          have := ih (i1 + 1) j h1
          have := scan_continue_ge T co i i1 hc
          omega

theorem block_offsets_fuel (T : OpcodeTables) (co : PyCodeObject) :
    ∀ (fuel fuel1 i : Nat), Py_SIZE co - i ≤ fuel → Py_SIZE co - i ≤ fuel1 →
      block_offsets T co fuel i = block_offsets T co fuel1 i := by
  intro fuel
  induction fuel with
  | zero =>
    intro fuel1 i h _
    have hsz : Py_SIZE co ≤ i := by omega
    cases fuel1 with
    | zero => rfl
    | succ f => simp [block_offsets, hsz]
  | succ fuel ih =>
    intro fuel1 i h h1
    by_cases hsz : Py_SIZE co ≤ i
    · cases fuel1 with
      | zero => simp [block_offsets, hsz]
      | succ f => simp [block_offsets, hsz]
    · cases fuel1 with
      | zero => omega
      | succ f =>
        unfold block_offsets
        simp only [hsz, if_false]
        cases hc : scan_continue T co i with
        | none => rfl
        | some i1 =>
          have := scan_continue_ge T co i i1 hc
          simp only
          rw [ih f (i1 + 1) (by omega) (by omega)]

/-- One pass from label `fall_through`, with the index at which the loop
goes on. -/
theorem fall_through_in_block (T : OpcodeTables) (co : PyCodeObject) (s : Emit) (i : Nat)
    (h1 : T.deopt (code_at co i).opcode ≠ .RESUME)
    (h2 : T.deopt (code_at co i).opcode ≠ .COMPARE_AND_BRANCH)
    (h3 : T.deopt (code_at co i).opcode ≠ .END_FOR) :
    fall_through T co s i = .error .unreachable ∨
    (∃ s1 i1, scan_continue T co i = some i1 ∧
      fall_through T co s i = .ok (.continue_ s1 i1) ∧ i ≤ i1 ∧ s.continues s1 ∧
      s1.t2_start = s.t2_start) ∨
    (∃ s1 i1, scan_continue T co i = none ∧
      fall_through T co s i = .ok (.goto_end s1 i1) ∧ i ≤ i1 ∧ s.continues s1 ∧
      s1.t2_start = s.t2_start) := by
  have hsc : scan_continue T co i
      = if IS_SCOPE_EXIT_OPCODE (T.deopt (code_at co i).opcode) = true then none
        else if IS_JUMP_OPCODE (T.deopt (code_at co i).opcode) = true then
          if T.deopt (code_at co i).opcode = .JUMP_FORWARD then
            some (i + ((code_at co i).oparg + 1))
          else none
        else some (i + T.caches (T.deopt (code_at co i).opcode)) := by
    unfold scan_continue
    simp only [h1, h2, h3, or_self, if_false]
  rcases fall_through_spec T co s i with he | ⟨s1, i1, he, hi1, hc, hs⟩ | ⟨s1, i1, he, hi1, hc, hs⟩
  · exact Or.inl he
  · right; left
    refine ⟨s1, i1, ?_, he, hi1, hc, hs⟩
    unfold fall_through at he
    simp only at he
    rw [hsc]
    split_ifs at he with g1 g2 g3
    · split at he <;> simp at he
    · simp only [Except.ok.injEq, StepExit.continue_.injEq] at he
      rw [if_neg g1, if_pos g2, if_pos g3, he.2]
    · split at he <;> simp at he
    · simp only [Except.ok.injEq, StepExit.continue_.injEq] at he
      rw [if_neg g1, if_neg g2, he.2]
  · right; right
    refine ⟨s1, i1, ?_, he, hi1, hc, hs⟩
    unfold fall_through at he
    simp only at he
    rw [hsc]
    split_ifs at he with g1 g2 g3
    · rw [if_pos g1]
    · simp at he
    · rw [if_neg g1, if_pos g2, if_neg g3]
    · simp at he

/-- One pass through the `switch` at an index that is no jump target, with
the index at which the loop goes on. -/
theorem dispatch_opcode_in_block (T : OpcodeTables) (co : PyCodeObject) (n : Nat)
    (tc : List (Option PyTypeObject)) (s : Emit) (i : Nat)
    (h : IS_BACKWARDS_JUMP_TARGET s.t2 i = false) :
    dispatch_opcode T co n tc s i = .error .unreachable ∨
    (∃ s1 i1, scan_continue T co i = some i1 ∧
      dispatch_opcode T co n tc s i = .ok (.continue_ s1 i1) ∧ i ≤ i1 ∧ s.continues s1 ∧
      (T.deopt (code_at co i).opcode ≠ .END_FOR → s1.t2_start = s.t2_start)) ∨
    (∃ s1 i1, scan_continue T co i = none ∧
      dispatch_opcode T co n tc s i = .ok (.goto_end s1 i1) ∧ i ≤ i1 ∧ s.continues s1 ∧
      (T.deopt (code_at co i).opcode ≠ .END_FOR → s1.t2_start = s.t2_start)) := by
  by_cases h1 : T.deopt (code_at co i).opcode = .RESUME
  · right; left
    refine ⟨DISPATCH co s i .RESUME_QUICK (code_at co i).oparg
      (T.caches (T.deopt (code_at co i).opcode)), i + T.caches (T.deopt (code_at co i).opcode),
      ?_, ?_, Nat.le_add_right _ _, DISPATCH_continues co s i .RESUME_QUICK
      (code_at co i).oparg (T.caches (T.deopt (code_at co i).opcode)), fun _ => rfl⟩
    · unfold scan_continue; simp only [h1, true_or, if_true]
    · unfold dispatch_opcode; simp only [h1, if_true]
  · by_cases h2 : T.deopt (code_at co i).opcode = .COMPARE_AND_BRANCH
    · right; left
      refine ⟨DISPATCH co s i .COMPARE_OP (code_at co i).oparg
        (T.caches (T.deopt (code_at co i).opcode)),
        i + T.caches (T.deopt (code_at co i).opcode),
        ?_, ?_, Nat.le_add_right _ _, DISPATCH_continues co s i .COMPARE_OP
        (code_at co i).oparg (T.caches (T.deopt (code_at co i).opcode)), fun _ => rfl⟩
      · unfold scan_continue; simp only [h2, true_or, or_true, if_true]
      · unfold dispatch_opcode; simp [h2]
    · by_cases h3 : T.deopt (code_at co i).opcode = .END_FOR
      · right; left
        have hstep : s.continues { s with t2_start := s.t2_start + 1 } :=
          ⟨rfl, rfl, rfl, rfl, rfl, rfl, rfl, rfl, Nat.le_succ _, Nat.le_refl _, fun _ _ => rfl⟩
        refine ⟨DISPATCH co { s with t2_start := s.t2_start + 1 } i .END_FOR
          (code_at co i).oparg (T.caches (T.deopt (code_at co i).opcode)),
          i + T.caches (T.deopt (code_at co i).opcode), ?_, ?_, Nat.le_add_right _ _,
          Emit.continues_trans hstep (DISPATCH_continues co _ i .END_FOR
            (code_at co i).oparg (T.caches (T.deopt (code_at co i).opcode))),
          fun hne => absurd h3 hne⟩
        · unfold scan_continue; simp only [h3, or_true, if_true]
        · unfold dispatch_opcode; simp [h3]
      · have hd : dispatch_opcode T co n tc s i = fall_through T co s i := by
          unfold dispatch_opcode
          simp only [h1, h2, h3, h, if_false, Bool.false_eq_true]
        rw [hd]
        rcases fall_through_in_block T co s i h1 h2 h3 with
          he | ⟨s1, i1, hc, he, hi1, hcont, hs⟩ | ⟨s1, i1, hc, he, hi1, hcont, hs⟩
        · exact Or.inl he
        · exact Or.inr (Or.inl ⟨s1, i1, hc, he, hi1, hcont, fun _ => hs⟩)
        · exact Or.inr (Or.inr ⟨s1, i1, hc, he, hi1, hcont, fun _ => hs⟩)

/-- The scan loop from an index `i` when no offset of the block that starts
there is a jump target: it ends through `Py_UNREACHABLE()` or reaches label
`end`, having registered nothing and written only at or above the write
cursor. -/
theorem scan_in_block (T : OpcodeTables) (co : PyCodeObject) (n : Nat)
    (tc : List (Option PyTypeObject)) :
    ∀ (fuel : Nat) (s : Emit) (i : Nat),
      (∀ j ∈ block_offsets T co fuel i, IS_BACKWARDS_JUMP_TARGET s.t2 j = false) →
      Py_SIZE co - i + 1 ≤ fuel →
      scan T co n tc fuel false s i = .error .unreachable ∨
      ∃ s1 i1, scan T co n tc fuel false s i = .ok (.at_end s1 i1) ∧ i ≤ i1 ∧
        s.continues s1 ∧
        ((∀ j ∈ block_offsets T co fuel i, T.deopt (code_at co j).opcode ≠ .END_FOR) →
          s1.t2_start = s.t2_start) := by
  intro fuel
  induction fuel with
  | zero => intro s i _ hf; omega
  | succ fuel ih =>
    intro s i hno hf
    by_cases hsz : Py_SIZE co ≤ i
    · right
      exact ⟨s, i, scan_at_end T co n tc fuel s i hsz, Nat.le_refl _, s.continues_refl,
        fun _ => rfl⟩
    · have hc : ¬ (false = false ∧ Py_SIZE co ≤ i) := fun hc => hsz hc.2
      have hblock : block_offsets T co (fuel + 1) i
          = i :: (match scan_continue T co i with
                  | none => []
                  | some i1 => block_offsets T co fuel (i1 + 1)) := by
        rw [block_offsets, if_neg hsz]
      have hi : IS_BACKWARDS_JUMP_TARGET s.t2 i = false :=
        hno i (by rw [hblock]; exact List.mem_cons_self _ _)
      rcases dispatch_opcode_in_block T co n tc s i hi with
        he | ⟨s1, i1, hsc, he, hi1, hcont, hst⟩ | ⟨s1, i1, hsc, he, hi1, hcont, hst⟩
      · left; exact scan_of_error T co n tc fuel false s i _ hc he
      · rw [scan_of_continue T co n tc fuel false s i s1 i1 hc he]
        rw [hsc] at hblock
        simp only at hblock
        have hno1 : ∀ j ∈ block_offsets T co fuel (i1 + 1),
            IS_BACKWARDS_JUMP_TARGET s1.t2 j = false := by
          intro j hj
          rw [hcont.1]
          exact hno j (by rw [hblock]; exact List.mem_cons_of_mem _ hj)
        rcases ih s1 (i1 + 1) hno1 (by omega) with h2 | ⟨s2, i2, h2, hi2, hcont2, hst2⟩
        · exact Or.inl h2
        · refine Or.inr ⟨s2, i2, h2, by omega, Emit.continues_trans hcont hcont2, ?_⟩
          intro hef
          rw [hst2 (fun j hj => hef j (by rw [hblock]; exact List.mem_cons_of_mem _ hj)),
            hst (hef i (by rw [hblock]; exact List.mem_cons_self _ _))]
      · right
        exact ⟨s1, i1, scan_of_goto_end T co n tc fuel false s i s1 i1 hc he, hi1, hcont,
          fun hef => hst (hef i (by rw [hblock]; exact List.mem_cons_self _ _))⟩

/-- The rest of a discovery call from the moment the scan is at a jump target
`i` in a block that was not opened by a virtual end, when no other offset of
the block that starts at `i` is a jump target and no allocation fails:
unless `Py_UNREACHABLE()` is hit, the block so far is registered under the
next id `c` with `tier1_end = i - 1`, the block from `i` on under `c + 1`,
the id `c + 1` is offered to the version array of `i`, and the record `c` is
returned. -/
theorem detect_from_in_block (T : OpcodeTables) (co : PyCodeObject) (n : Nat)
    (tc : List (Option PyTypeObject)) (fuel : Nat) (s : Emit) (i : Nat)
    (hi : i < Py_SIZE co) (hfuel : Py_SIZE co - i + 2 ≤ fuel)
    (hop1 : T.deopt (code_at co i).opcode ≠ .RESUME)
    (hop2 : T.deopt (code_at co i).opcode ≠ .COMPARE_AND_BRANCH)
    (hop3 : T.deopt (code_at co i).opcode ≠ .END_FOR)
    (htarget : IS_BACKWARDS_JUMP_TARGET s.t2 i = true)
    (hblock : ∀ j ∈ block_offsets T co (Py_SIZE co) i, j ≠ i →
      IS_BACKWARDS_JUMP_TARGET s.t2 j = false)
    (hvs : s.virtual_start = false)
    (hrows : s.t2.backward_jump_count ≤ s.t2.backward_jump_target_bb_ids.length)
    (hheap : never_fails s.heap) (hlen : s.t2.bb_data_len < 2 ^ 28) (hwf : bb_data_wf s.t2) :
    detect_from T co n tc fuel s i = .error .unreachable ∨
    ∃ (r : DetectResult) (row : List Int) (start2 end2 cursor2 : Nat),
      detect_from T co n tc fuel s i = .ok r ∧
      r.result = some ⟨s.t2.bb_data_curr, s.t2_start, (i : Int) - 1, n, tc⟩ ∧
      r.t2.bb_data_curr = s.t2.bb_data_curr + 2 ∧
      bb_data_at r.t2 s.t2.bb_data_curr
        = some ⟨s.t2.bb_data_curr, s.t2_start, (i : Int) - 1, n, tc⟩ ∧
      bb_data_at r.t2 (s.t2.bb_data_curr + 1)
        = some ⟨s.t2.bb_data_curr + 1, start2, (end2 : Int) + 1, n, tc⟩ ∧
      s.write_i ≤ start2 ∧ s.write_i ≤ cursor2 ∧ i ≤ end2 ∧
      ((∀ j ∈ block_offsets T co (Py_SIZE co) i, j ≠ i →
        T.deopt (code_at co j).opcode ≠ .END_FOR) → start2 = s.write_i) ∧
      (∀ k, k < s.t2.bb_data_curr → bb_data_at r.t2 k = bb_data_at s.t2 k) ∧
      r.t2.backward_jump_count = s.t2.backward_jump_count ∧
      r.t2.backward_jump_offsets = s.t2.backward_jump_offsets ∧
      s.t2.backward_jump_target_bb_ids[find_jump_offset_index s.t2 i]? = some row ∧
      r.t2.backward_jump_target_bb_ids =
        (match find_free_version row with
         | some j => s.t2.backward_jump_target_bb_ids.set (find_jump_offset_index s.t2 i)
              (row.set j ((s.t2.bb_data_curr + 1 : Nat) : Int))
         | none => s.t2.backward_jump_target_bb_ids) ∧
      r.bb_space.water_level
        = s.bb_space.water_level + (s.write_i - s.t2_start) * sizeof_CODEUNIT
          + (cursor2 - start2) * sizeof_CODEUNIT ∧
      (∀ a, a < s.write_i → r.bb_space.u_code a = s.bb_space.u_code a) ∧
      never_fails r.heap := by
  obtain ⟨t2a, heap1, halloc, hnf1, hcurr1, hlen1, hwf1, hcount1, hoffs1, hids1, hat1, hbelow1⟩ :=
    allocate_metadata_ok s.t2 s.heap s.t2_start ((i : Int) - 1) n tc hheap (by omega) hwf
  obtain ⟨f, rfl⟩ : ∃ f, fuel = f + 2 := ⟨fuel - 2, by omega⟩
  have hnsz1 : ¬ (false = false ∧ Py_SIZE co ≤ i) := fun hc => by omega
  have hnsz2 : ¬ (true = false ∧ Py_SIZE co ≤ i) := fun hc => by simp at hc
  have htarget2 : IS_BACKWARDS_JUMP_TARGET t2a i = true := by
    rw [IS_BACKWARDS_JUMP_TARGET_congr hcount1 hoffs1]; exact htarget
  -- first pass: the virtual end
  have hd1 : dispatch_opcode T co n tc s i = .ok (.dispatch_goto (virtual_end s t2a heap1
      ⟨s.t2.bb_data_curr, s.t2_start, (i : Int) - 1, n, tc⟩)) := by
    unfold dispatch_opcode
    simp only [hop1, hop2, hop3, htarget, hvs, if_false, if_true, Bool.false_eq_true, halloc]
  -- second pass: the block is marked and the instruction handled
  have hd2 : dispatch_opcode T co n tc (virtual_end s t2a heap1
      ⟨s.t2.bb_data_curr, s.t2_start, (i : Int) - 1, n, tc⟩) i
      = fall_through T co (mark_jump_target (virtual_end s t2a heap1
          ⟨s.t2.bb_data_curr, s.t2_start, (i : Int) - 1, n, tc⟩) i) i := by
    unfold dispatch_opcode
    simp only [hop1, hop2, hop3, if_false]
    have h1 : (virtual_end s t2a heap1
        ⟨s.t2.bb_data_curr, s.t2_start, (i : Int) - 1, n, tc⟩).t2 = t2a := rfl
    have h2 : (virtual_end s t2a heap1
        ⟨s.t2.bb_data_curr, s.t2_start, (i : Int) - 1, n, tc⟩).virtual_start = true := rfl
    simp only [h1, h2, htarget2, if_true]
  have hscan0 : scan T co n tc (f + 2) false s i
      = scan T co n tc (f + 1) true (virtual_end s t2a heap1
          ⟨s.t2.bb_data_curr, s.t2_start, (i : Int) - 1, n, tc⟩) i :=
    scan_of_dispatch_goto T co n tc (f + 1) false s i _ hnsz1 hd1
  -- what label `end` does with any state that continues the marked one
  have final : ∀ (sf : Emit) (jf : Nat),
      scan T co n tc (f + 2) false s i = .ok (.at_end sf jf) →
      (mark_jump_target (virtual_end s t2a heap1
        ⟨s.t2.bb_data_curr, s.t2_start, (i : Int) - 1, n, tc⟩) i).continues sf →
      i ≤ jf →
      ((∀ j ∈ block_offsets T co (Py_SIZE co) i, j ≠ i →
          T.deopt (code_at co j).opcode ≠ .END_FOR) →
        sf.t2_start = s.write_i) →
      ∃ (r : DetectResult) (row : List Int) (start2 end2 cursor2 : Nat),
        detect_from T co n tc (f + 2) s i = .ok r ∧
        r.result = some ⟨s.t2.bb_data_curr, s.t2_start, (i : Int) - 1, n, tc⟩ ∧
        r.t2.bb_data_curr = s.t2.bb_data_curr + 2 ∧
        bb_data_at r.t2 s.t2.bb_data_curr
          = some ⟨s.t2.bb_data_curr, s.t2_start, (i : Int) - 1, n, tc⟩ ∧
        bb_data_at r.t2 (s.t2.bb_data_curr + 1)
          = some ⟨s.t2.bb_data_curr + 1, start2, (end2 : Int) + 1, n, tc⟩ ∧
        s.write_i ≤ start2 ∧ s.write_i ≤ cursor2 ∧ i ≤ end2 ∧
        ((∀ j ∈ block_offsets T co (Py_SIZE co) i, j ≠ i →
            T.deopt (code_at co j).opcode ≠ .END_FOR) →
          start2 = s.write_i) ∧
        (∀ k, k < s.t2.bb_data_curr → bb_data_at r.t2 k = bb_data_at s.t2 k) ∧
        r.t2.backward_jump_count = s.t2.backward_jump_count ∧
        r.t2.backward_jump_offsets = s.t2.backward_jump_offsets ∧
        s.t2.backward_jump_target_bb_ids[find_jump_offset_index s.t2 i]? = some row ∧
        r.t2.backward_jump_target_bb_ids =
          (match find_free_version row with
           | some j => s.t2.backward_jump_target_bb_ids.set (find_jump_offset_index s.t2 i)
                (row.set j ((s.t2.bb_data_curr + 1 : Nat) : Int))
           | none => s.t2.backward_jump_target_bb_ids) ∧
        r.bb_space.water_level
          = s.bb_space.water_level + (s.write_i - s.t2_start) * sizeof_CODEUNIT
            + (cursor2 - start2) * sizeof_CODEUNIT ∧
        (∀ a, a < s.write_i → r.bb_space.u_code a = s.bb_space.u_code a) ∧
        never_fails r.heap := by
    intro sf jf hscan hcont hjf hstart
    obtain ⟨c1, c2, c3, c4, c5, c6, c7, c8, c9, c10, c11⟩ := hcont
    have e1 : sf.t2 = t2a := c1
    have e2 : sf.heap = heap1 := c2
    have e3 : sf.metadata = some ⟨s.t2.bb_data_curr, s.t2_start, (i : Int) - 1, n, tc⟩ := c3
    have e4 : sf.starts_with_backwards_jump_target = true := c4
    have e5 : sf.backwards_jump_target_offset = (i : Int) := c5
    have e7 : sf.bb_space.water_level
        = s.bb_space.water_level + (s.write_i - s.t2_start) * sizeof_CODEUNIT := c7
    have e9 : s.write_i ≤ sf.t2_start := c9
    have e10 : s.write_i ≤ sf.write_i := c10
    have e11 : ∀ a, a < s.write_i → sf.bb_space.u_code a = s.bb_space.u_code a := c11
    obtain ⟨r, row, hr, hres, hcurr, hat, hbelow, hcount, hoffs, hrow, hids, hwl, hu, hnf⟩ :=
      detect_end_marked sf jf n tc ⟨s.t2.bb_data_curr, s.t2_start, (i : Int) - 1, n, tc⟩ i
        e3 e4 e5 (by rw [e1]; exact htarget2)
        (by rw [e1, hcount1, hids1]; exact hrows) (by rw [e2]; exact hnf1)
        (by rw [e1]; omega) (by rw [e1]; exact hwf1)
    rw [e1] at hcurr hat hbelow hcount hoffs hrow hids
    rw [hcurr1] at hcurr hat hids
    rw [find_jump_offset_index_congr hcount1 hoffs1, hids1] at hrow hids
    refine ⟨r, row, sf.t2_start, jf, sf.write_i, ?_, hres, by omega, ?_, hat, e9, e10, hjf,
      hstart, ?_, by rw [hcount, hcount1], by rw [hoffs, hoffs1], hrow, hids, ?_, ?_, hnf⟩
    · unfold detect_from
      rw [hscan]
      exact hr
    · rw [hbelow _ (by omega)]
      exact hat1
    · intro k hk
      rw [hbelow k (by omega), hbelow1 k hk]
    · rw [hwl, e7]
    · intro a ha
      rw [hu]
      exact e11 a ha
  rcases fall_through_in_block T co (mark_jump_target (virtual_end s t2a heap1
      ⟨s.t2.bb_data_curr, s.t2_start, (i : Int) - 1, n, tc⟩) i) i hop1 hop2 hop3 with
    he | ⟨s3, i3, hsc3, he, hi3, hc3, hs3⟩ | ⟨s3, i3, hsc3, he, hi3, hc3, hs3⟩
  · left
    unfold detect_from
    rw [hscan0, scan_of_error T co n tc f true _ i _ hnsz2 (hd2.trans he)]
  · have hscan1 : scan T co n tc (f + 2) false s i = scan T co n tc f false s3 (i3 + 1) := by
      rw [hscan0]
      exact scan_of_continue T co n tc f true _ i s3 i3 hnsz2 (hd2.trans he)
    -- the offsets of the block after `i`
    obtain ⟨sz, hsz⟩ : ∃ sz, Py_SIZE co = sz + 1 := ⟨Py_SIZE co - 1, by omega⟩
    have hrest : ∀ j ∈ block_offsets T co f (i3 + 1),
        j ∈ block_offsets T co (Py_SIZE co) i ∧ j ≠ i := by
      intro j hj
      have hge := block_offsets_ge T co f (i3 + 1) j hj
      refine ⟨?_, by omega⟩
      rw [hsz, block_offsets, if_neg (by omega), hsc3]
      simp only
      rw [block_offsets_fuel T co sz f (i3 + 1) (by omega) (by omega)]
      exact List.mem_cons_of_mem _ hj
    have hno : ∀ j ∈ block_offsets T co f (i3 + 1),
        IS_BACKWARDS_JUMP_TARGET s3.t2 j = false := by
      intro j hj
      have e1 : s3.t2 = t2a := hc3.1
      rw [e1, IS_BACKWARDS_JUMP_TARGET_congr hcount1 hoffs1]
      exact hblock j (hrest j hj).1 (hrest j hj).2
    rcases scan_in_block T co n tc f s3 (i3 + 1) hno (by omega) with
      h4 | ⟨s4, i4, h4, hi4, hc4, hs4⟩
    · left
      unfold detect_from
      rw [hscan1, h4]
    · right
      refine final s4 i4 (hscan1.trans h4) (Emit.continues_trans hc3 hc4) (by omega) ?_
      intro hef
      rw [hs4 (fun j hj => hef j (hrest j hj).1 (hrest j hj).2), hs3]
      rfl
  · right
    have hscan1 : scan T co n tc (f + 2) false s i = .ok (.at_end s3 i3) := by
      rw [hscan0]
      exact scan_of_goto_end T co n tc f true _ i s3 i3 hnsz2 (hd2.trans he)
    exact final s3 i3 hscan1 hc3 hi3 (fun _ => hs3)

/-! ## Discovery at a jump target, whatever follows it -/

/-- The size of the metadata table after a registration: when `M` bounds the
table length (the length after the first grow when the array is not yet
allocated) and twice the next id plus 2, then `M + 2` bounds them after the
registration, and the array is allocated. -/
theorem allocate_metadata_bound (t2 : _PyTier2Info) (heap : Allocator) (ts : Nat) (te : Int)
    (n : Nat) (tc : List (Option PyTypeObject)) (t2a : _PyTier2Info) (heap1 : Allocator)
    (m : _PyTier2BBMetadata) (M : Nat) (hwf : bb_data_wf t2)
    (h : _PyTier2_AllocateBBMetaData t2 heap ts te n tc = (t2a, heap1, some m))
    (hM0 : t2.bb_data = none → 2 * t2.bb_data_len + 2 ≤ M)
    (hM1 : t2.bb_data_len ≤ M) (hM2 : 2 * t2.bb_data_curr + 2 ≤ M) :
    t2a.bb_data ≠ none ∧ t2a.bb_data_len ≤ M + 2 ∧ 2 * t2a.bb_data_curr + 2 ≤ M + 2 := by
  unfold _PyTier2_AllocateBBMetaData allocate_bb_metadata at h
  rcases hm : PyMem_Malloc heap with ⟨b, heapa⟩
  rw [hm] at h
  cases b with
  | false => simp at h
  | true =>
    simp only at h
    rcases write_bb_metadata_cases t2 heapa ⟨0, ts, te, n, tc⟩ with ⟨hp, hw⟩ | ⟨t2g, hp, hw, hc⟩
    · rw [hw] at h
      simp at h
    · rw [hw] at h
      simp only [Prod.mk.injEq] at h
      obtain ⟨h1, -, -⟩ := h
      subst h1
      rcases hc with ⟨hg, hne, hlt⟩ | ⟨hg, hfull⟩
      · subst hg
        refine ⟨by simp [store_bb_metadata], ?_, ?_⟩
        · simp only [store_bb_metadata]; omega
        · simp only [store_bb_metadata]; omega
      · subst hg
        refine ⟨by simp [store_bb_metadata], ?_, ?_⟩
        · simp only [store_bb_metadata]
          rcases hfull with hnone | hle
          · have := hM0 hnone
            omega
          · omega
        · simp only [store_bb_metadata]; omega

theorem Emit.advances_of_continues {s s1 : Emit} (h : s.continues s1) : s.advances s1 :=
  ⟨h.1, h.2.1, h.2.2.1, h.2.2.2.2.2.2.2.2.1, h.2.2.2.2.2.2.2.2.2.1, h.2.2.2.2.2.2.2.2.2.2⟩

theorem Emit.marked_of_continues {s s1 : Emit} (h : s.continues s1) (hm : s.marked) :
    s1.marked := by
  obtain ⟨c1, -, c3, c4, c5, -⟩ := h
  obtain ⟨m1, m2, t, m3, m4⟩ := hm
  exact ⟨by rw [c4]; exact m1, by rw [c3]; exact m2, t, by rw [c5]; exact m3,
    by rw [c1]; exact m4⟩

/-- One pass through the `switch` in a marked block when the next
registration cannot fail: `Py_UNREACHABLE()`, or `continue` or `END()` with
nothing registered and the block still marked, or the virtual end in front
of a jump target, which registers the block so far. -/
theorem dispatch_opcode_marked (T : OpcodeTables) (co : PyCodeObject) (n : Nat)
    (tc : List (Option PyTypeObject)) (s : Emit) (k : Nat)
    (hheap : never_fails s.heap) (hlen : (s.t2.bb_data_len + 1) * 2 < 2 ^ 31)
    (hwf : bb_data_wf s.t2) (hmark : s.marked) :
    dispatch_opcode T co n tc s k = .error .unreachable ∨
    (∃ s1 k1, dispatch_opcode T co n tc s k = .ok (.continue_ s1 k1) ∧ k ≤ k1 ∧
      s.advances s1 ∧ s1.marked ∧
      (T.deopt (code_at co k).opcode ≠ .END_FOR → s1.t2_start = s.t2_start)) ∨
    (∃ s1 k1, dispatch_opcode T co n tc s k = .ok (.goto_end s1 k1) ∧ k ≤ k1 ∧
      s.advances s1 ∧ s1.marked ∧
      (T.deopt (code_at co k).opcode ≠ .END_FOR → s1.t2_start = s.t2_start)) ∨
    (∃ t2a heap1,
      dispatch_opcode T co n tc s k = .ok (.dispatch_goto (virtual_end s t2a heap1
        ⟨s.t2.bb_data_curr, s.t2_start, (k : Int) - 1, n, tc⟩)) ∧
      s.virtual_start = false ∧
      _PyTier2_AllocateBBMetaData s.t2 s.heap s.t2_start ((k : Int) - 1) n tc
        = (t2a, heap1, some ⟨s.t2.bb_data_curr, s.t2_start, (k : Int) - 1, n, tc⟩) ∧
      never_fails heap1 ∧ t2a.bb_data_curr = s.t2.bb_data_curr + 1 ∧ bb_data_wf t2a ∧
      t2a.backward_jump_count = s.t2.backward_jump_count ∧
      t2a.backward_jump_offsets = s.t2.backward_jump_offsets ∧
      t2a.backward_jump_target_bb_ids = s.t2.backward_jump_target_bb_ids ∧
      bb_data_at t2a s.t2.bb_data_curr
        = some ⟨s.t2.bb_data_curr, s.t2_start, (k : Int) - 1, n, tc⟩) := by
  have hft : ∀ s0 : Emit, s.advances s0 → s0.marked → s0.t2_start = s.t2_start →
      fall_through T co s0 k = .error .unreachable ∨
      (∃ s1 k1, fall_through T co s0 k = .ok (.continue_ s1 k1) ∧ k ≤ k1 ∧
        s.advances s1 ∧ s1.marked ∧
        (T.deopt (code_at co k).opcode ≠ .END_FOR → s1.t2_start = s.t2_start)) ∨
      (∃ s1 k1, fall_through T co s0 k = .ok (.goto_end s1 k1) ∧ k ≤ k1 ∧
        s.advances s1 ∧ s1.marked ∧
        (T.deopt (code_at co k).opcode ≠ .END_FOR → s1.t2_start = s.t2_start)) ∨
      (∃ t2a heap1,
        fall_through T co s0 k = .ok (.dispatch_goto (virtual_end s t2a heap1
          ⟨s.t2.bb_data_curr, s.t2_start, (k : Int) - 1, n, tc⟩)) ∧
        s.virtual_start = false ∧
        _PyTier2_AllocateBBMetaData s.t2 s.heap s.t2_start ((k : Int) - 1) n tc
          = (t2a, heap1, some ⟨s.t2.bb_data_curr, s.t2_start, (k : Int) - 1, n, tc⟩) ∧
        never_fails heap1 ∧ t2a.bb_data_curr = s.t2.bb_data_curr + 1 ∧ bb_data_wf t2a ∧
        t2a.backward_jump_count = s.t2.backward_jump_count ∧
        t2a.backward_jump_offsets = s.t2.backward_jump_offsets ∧
        t2a.backward_jump_target_bb_ids = s.t2.backward_jump_target_bb_ids ∧
        bb_data_at t2a s.t2.bb_data_curr
          = some ⟨s.t2.bb_data_curr, s.t2_start, (k : Int) - 1, n, tc⟩) := by
    intro s0 ha hm0 hst
    have key : ∀ s1 : Emit, s0.continues s1 → s1.t2_start = s0.t2_start →
        s.advances s1 ∧ s1.marked ∧
        (T.deopt (code_at co k).opcode ≠ .END_FOR → s1.t2_start = s.t2_start) := by
      intro s1 hc hs
      obtain ⟨a1, a2, a3, a4, a5, a6⟩ := ha
      obtain ⟨b1, b2, b3, b4, b5, b6⟩ := Emit.advances_of_continues hc
      refine ⟨⟨b1.trans a1, b2.trans a2, b3.trans a3, by omega, by omega, ?_⟩,
        Emit.marked_of_continues hc hm0, fun _ => by rw [hs, hst]⟩
      intro a hlt
      rw [b6 a (by omega), a6 a hlt]
    rcases fall_through_spec T co s0 k with he | ⟨s1, k1, he, hk1, hc, hs⟩ |
      ⟨s1, k1, he, hk1, hc, hs⟩
    · exact Or.inl he
    · exact Or.inr (Or.inl ⟨s1, k1, he, hk1, key s1 hc hs⟩)
    · exact Or.inr (Or.inr (Or.inl ⟨s1, k1, he, hk1, key s1 hc hs⟩))
  have hrefl : s.advances s := ⟨rfl, rfl, rfl, le_refl _, le_refl _, fun _ _ => rfl⟩
  have hdis : ∀ (s0 : Emit) (op : Opcode) (oparg caches : Nat), s.advances s0 → s0.marked →
      s.advances (DISPATCH co s0 k op oparg caches) ∧
      (DISPATCH co s0 k op oparg caches).marked ∧
      (DISPATCH co s0 k op oparg caches).t2_start = s0.t2_start := by
    intro s0 op oparg caches ha hm0
    have hc := DISPATCH_continues co s0 k op oparg caches
    obtain ⟨a1, a2, a3, a4, a5, a6⟩ := ha
    obtain ⟨b1, b2, b3, b4, b5, b6⟩ := Emit.advances_of_continues hc
    refine ⟨⟨b1.trans a1, b2.trans a2, b3.trans a3, by omega, by omega, ?_⟩,
      Emit.marked_of_continues hc hm0, rfl⟩
    intro a hlt
    rw [b6 a (by omega), a6 a hlt]
  unfold dispatch_opcode
  simp only
  split_ifs with h1 h2 h3 h4 h5
  · obtain ⟨x1, x2, x3⟩ := hdis s .RESUME_QUICK (code_at co k).oparg
      (T.caches (T.deopt (code_at co k).opcode)) hrefl hmark
    exact Or.inr (Or.inl ⟨_, _, rfl, by omega, x1, x2, fun _ => x3⟩)
  · obtain ⟨x1, x2, x3⟩ := hdis s .COMPARE_OP (code_at co k).oparg
      (T.caches (T.deopt (code_at co k).opcode)) hrefl hmark
    exact Or.inr (Or.inl ⟨_, _, rfl, by omega, x1, x2, fun _ => x3⟩)
  · have hadv : s.advances { s with t2_start := s.t2_start + 1 } :=
      ⟨rfl, rfl, rfl, Nat.le_succ _, le_refl _, fun _ _ => rfl⟩
    have hm1 : Emit.marked { s with t2_start := s.t2_start + 1 } := hmark
    obtain ⟨x1, x2, -⟩ := hdis { s with t2_start := s.t2_start + 1 } .END_FOR
      (code_at co k).oparg (T.caches (T.deopt (code_at co k).opcode)) hadv hm1
    exact Or.inr (Or.inl ⟨_, _, rfl, by omega, x1, x2, fun hne => absurd h3 hne⟩)
  · have hadv : s.advances (mark_jump_target s k) :=
      ⟨rfl, rfl, rfl, le_refl _, le_refl _, fun _ _ => rfl⟩
    have hm1 : (mark_jump_target s k).marked := ⟨rfl, hmark.2.1, k, rfl, h4⟩
    exact hft (mark_jump_target s k) hadv hm1 rfl
  · obtain ⟨t2a, heap1, halloc, hnf1, hcurr1, -, hwf1, hcount1, hoffs1, hids1, hat1, -⟩ :=
      allocate_metadata_ok s.t2 s.heap s.t2_start ((k : Int) - 1) n tc hheap hlen hwf
    rw [halloc]
    exact Or.inr (Or.inr (Or.inr ⟨t2a, heap1, rfl, by simpa using h5, rfl, hnf1, hcurr1, hwf1,
      hcount1, hoffs1, hids1, hat1⟩))
  · exact hft s hrefl hmark rfl

/-- The scan loop in a marked block when no allocation fails and the
metadata table stays below its size limit (`M` bounds its length and twice
the next id): unless `Py_UNREACHABLE()` is hit the loop reaches label `end`
in a marked block in which the registration can again not fail, having
written only at or above the write cursor; and either nothing was
registered, or the first record registered is the block that was open, under
the next id. -/
theorem scan_marked (T : OpcodeTables) (co : PyCodeObject) (n : Nat)
    (tc : List (Option PyTypeObject)) :
    ∀ (fuel : Nat) (rd : Bool) (s : Emit) (k M : Nat),
      never_fails s.heap → bb_data_wf s.t2 → s.marked →
      s.t2.backward_jump_count ≤ s.t2.backward_jump_target_bb_ids.length →
      s.t2.bb_data ≠ none → s.t2.bb_data_len ≤ M → 2 * s.t2.bb_data_curr + 2 ≤ M →
      M + 2 * (Py_SIZE co - k) + (if s.virtual_start = true then 0 else 2) + 1 < 2 ^ 30 →
      (rd = true → k < Py_SIZE co) →
      2 * (Py_SIZE co - k) + (if s.virtual_start = true then 1 else 2) ≤ fuel →
      scan T co n tc fuel rd s k = .error .unreachable ∨
      ∃ s1 k1, scan T co n tc fuel rd s k = .ok (.at_end s1 k1) ∧ k ≤ k1 ∧
        never_fails s1.heap ∧ bb_data_wf s1.t2 ∧ s1.marked ∧
        s1.t2.backward_jump_count ≤ s1.t2.backward_jump_target_bb_ids.length ∧
        (s1.t2.bb_data_len + 1) * 2 < 2 ^ 31 ∧
        s.write_i ≤ s1.write_i ∧
        (∀ a, a < s.write_i → s1.bb_space.u_code a = s.bb_space.u_code a) ∧
        ((s1.t2 = s.t2 ∧ s.t2_start ≤ s1.t2_start ∧
            ((∀ j, k ≤ j → T.deopt (code_at co j).opcode ≠ .END_FOR) →
              s1.t2_start = s.t2_start)) ∨
          (∃ (ts : Nat) (te : Int),
            bb_data_at s1.t2 s.t2.bb_data_curr = some ⟨s.t2.bb_data_curr, ts, te, n, tc⟩ ∧
            s.t2_start ≤ ts ∧ (k : Int) - 1 ≤ te ∧
            ((∀ j, k ≤ j → T.deopt (code_at co j).opcode ≠ .END_FOR) → ts = s.t2_start) ∧
            s.t2.bb_data_curr < s1.t2.bb_data_curr)) := by
  intro fuel
  induction fuel with
  | zero =>
    intro rd s k M _ _ _ _ _ _ _ _ _ hf
    split_ifs at hf <;> omega
  | succ fuel ih =>
    intro rd s k M hheap hwf hmark hrows hbd hM1 hM2 hnum hrd hf
    have hlen : (s.t2.bb_data_len + 1) * 2 < 2 ^ 31 := by
      split_ifs at hnum <;> omega
    by_cases hend : rd = false ∧ Py_SIZE co ≤ k
    · right
      refine ⟨s, k, ?_, le_refl _, hheap, hwf, hmark, hrows, hlen, le_refl _, fun _ _ => rfl,
        Or.inl ⟨rfl, le_refl _, fun _ => rfl⟩⟩
      rw [scan, if_pos hend]
    · have hk : k < Py_SIZE co := by
        cases rd with
        | true => exact hrd rfl
        | false =>
          have : ¬ Py_SIZE co ≤ k := fun h => hend ⟨rfl, h⟩
          omega
      rcases dispatch_opcode_marked T co n tc s k hheap hlen hwf hmark with
        he | ⟨s1, k1, he, hk1, hadv, hm1, hst⟩ | ⟨s1, k1, he, hk1, hadv, hm1, hst⟩ |
        ⟨t2a, heap1, he, hvs, halloc, hnf1, hcurr1, hwf1, hcount1, hoffs1, hids1, hat1⟩
      · left
        exact scan_of_error T co n tc fuel rd s k _ hend he
      · rw [scan_of_continue T co n tc fuel rd s k s1 k1 hend he]
        obtain ⟨a1, a2, a3, a4, a5, a6⟩ := hadv
        rcases ih false s1 (k1 + 1) M (by rw [a2]; exact hheap) (by rw [a1]; exact hwf) hm1
            (by rw [a1]; exact hrows) (by rw [a1]; exact hbd) (by rw [a1]; exact hM1)
            (by rw [a1]; exact hM2) (by split_ifs at hnum ⊢ <;> omega)
            (by intro h; simp at h) (by split_ifs at hf ⊢ <;> omega) with
          h2 | ⟨s2, k2, h2, b0, b1, b2, b3, b4, b5, b6, b7, b8⟩
        · exact Or.inl h2
        · right
          refine ⟨s2, k2, h2, by omega, b1, b2, b3, b4, b5, by omega, ?_, ?_⟩
          · intro a ha
            rw [b7 a (by omega), a6 a ha]
          · rcases b8 with ⟨c1, c2, c3⟩ | ⟨ts, te, c1, c2, c5, c3, c4⟩
            · left
              refine ⟨c1.trans a1, by omega, ?_⟩
              intro hne
              rw [c3 (fun j hj => hne j (by omega)), hst (hne k (le_refl _))]
            · right
              rw [a1] at c1 c4
              refine ⟨ts, te, c1, by omega, by omega, ?_, c4⟩
              intro hne
              rw [c3 (fun j hj => hne j (by omega)), hst (hne k (le_refl _))]
      · rw [scan_of_goto_end T co n tc fuel rd s k s1 k1 hend he]
        obtain ⟨a1, a2, a3, a4, a5, a6⟩ := hadv
        right
        refine ⟨s1, k1, rfl, hk1, by rw [a2]; exact hheap, by rw [a1]; exact hwf, hm1,
          by rw [a1]; exact hrows, by rw [a1]; exact hlen, a5, a6,
          Or.inl ⟨a1, a4, fun hne => hst (hne k (le_refl _))⟩⟩
      · rw [scan_of_dispatch_goto T co n tc fuel rd s k _ hend he]
        obtain ⟨hbd1, hlen1, hcur1⟩ := allocate_metadata_bound s.t2 s.heap s.t2_start
          ((k : Int) - 1) n tc t2a heap1 _ M hwf halloc (fun h => absurd h hbd) hM1 hM2
        obtain ⟨m1, m2, t, m3, m4⟩ := hmark
        have hm' : (virtual_end s t2a heap1
            ⟨s.t2.bb_data_curr, s.t2_start, (k : Int) - 1, n, tc⟩).marked :=
          ⟨m1, by simp [virtual_end], t, m3, by
            show IS_BACKWARDS_JUMP_TARGET t2a t = true
            rw [IS_BACKWARDS_JUMP_TARGET_congr hcount1 hoffs1]; exact m4⟩
        have hv' : (virtual_end s t2a heap1
            ⟨s.t2.bb_data_curr, s.t2_start, (k : Int) - 1, n, tc⟩).virtual_start = true := rfl
        rcases ih true (virtual_end s t2a heap1
              ⟨s.t2.bb_data_curr, s.t2_start, (k : Int) - 1, n, tc⟩) k (M + 2)
            hnf1 hwf1 hm' (by
              show t2a.backward_jump_count ≤ t2a.backward_jump_target_bb_ids.length
              rw [hcount1, hids1]; exact hrows)
            hbd1 hlen1 hcur1
            (by rw [if_pos hv']; rw [if_neg (by rw [hvs]; simp)] at hnum; omega)
            (fun _ => hk)
            (by rw [if_pos hv']; rw [if_neg (by rw [hvs]; simp)] at hf; omega) with
          h2 | ⟨s2, k2, h2, b0, b1, b2, b3, b4, b5, b6, b7, b8⟩
        · exact Or.inl h2
        · right
          obtain ⟨sx, hcase, hext, -⟩ := scan_frame T co n tc fuel true _ k _ hwf1 h2
          have hsx : sx = s2 := by
            rcases hcase with hc | ⟨ix, hc⟩
            · cases hc
            · cases hc; rfl
          subst hsx
          obtain ⟨-, -, -, e4, e5, -⟩ := hext
          refine ⟨sx, k2, h2, b0, b1, b2, b3, b4, b5, b6, b7, Or.inr ⟨s.t2_start, (k : Int) - 1, ?_,
            le_refl _, le_refl _, fun _ => rfl, ?_⟩⟩
          · have := e5 s.t2.bb_data_curr (by
              show s.t2.bb_data_curr < t2a.bb_data_curr
              omega)
            rw [this]
            exact hat1
          · have : t2a.bb_data_curr ≤ sx.t2.bb_data_curr := e4
            omega

/-- The rest of a discovery call from the moment the scan is at a jump target
`i` in a block that was not opened by a virtual end, whatever lies behind
`i`, when no allocation fails and the metadata table is far from its size
limit: unless `Py_UNREACHABLE()` is hit, the call returns a record, the
block so far is registered under the next id `c` with `tier1_end = i - 1`,
the block that starts at `i` under `c + 1` with its `tier2_start` at or
behind the write cursor, and no word below the write cursor changes. -/
theorem detect_from_at_any_target (T : OpcodeTables) (co : PyCodeObject) (n : Nat)
    (tc : List (Option PyTypeObject)) (fuel : Nat) (s : Emit) (i : Nat)
    (hi : i < Py_SIZE co) (hfuel : 2 * (Py_SIZE co - i) + 2 ≤ fuel)
    (hop1 : T.deopt (code_at co i).opcode ≠ .RESUME)
    (hop2 : T.deopt (code_at co i).opcode ≠ .COMPARE_AND_BRANCH)
    (hop3 : T.deopt (code_at co i).opcode ≠ .END_FOR)
    (htarget : IS_BACKWARDS_JUMP_TARGET s.t2 i = true)
    (hvs : s.virtual_start = false)
    (hrows : s.t2.backward_jump_count ≤ s.t2.backward_jump_target_bb_ids.length)
    (hheap : never_fails s.heap) (hlen : s.t2.bb_data_len + Py_SIZE co < 2 ^ 28)
    (hwf : bb_data_wf s.t2) :
    detect_from T co n tc fuel s i = .error .unreachable ∨
    ∃ (r : DetectResult) (start2 : Nat) (end2 : Int),
      detect_from T co n tc fuel s i = .ok r ∧
      r.result ≠ none ∧
      s.t2.bb_data_curr + 2 ≤ r.t2.bb_data_curr ∧
      bb_data_at r.t2 s.t2.bb_data_curr
        = some ⟨s.t2.bb_data_curr, s.t2_start, (i : Int) - 1, n, tc⟩ ∧
      bb_data_at r.t2 (s.t2.bb_data_curr + 1)
        = some ⟨s.t2.bb_data_curr + 1, start2, end2, n, tc⟩ ∧
      s.write_i ≤ start2 ∧ (i : Int) ≤ end2 ∧
      ((∀ j : Nat, i < j → T.deopt (code_at co j).opcode ≠ .END_FOR) → start2 = s.write_i) ∧
      (∀ a, a < s.write_i → r.bb_space.u_code a = s.bb_space.u_code a) := by
  obtain ⟨hwc, hwl⟩ := hwf
  have hwf : bb_data_wf s.t2 := ⟨hwc, hwl⟩
  obtain ⟨t2a, heap1, halloc, hnf1, hcurr1, -, hwf1, hcount1, hoffs1, hids1, hat1, -⟩ :=
    allocate_metadata_ok s.t2 s.heap s.t2_start ((i : Int) - 1) n tc hheap (by omega) hwf
  obtain ⟨hbd1, hlen1, hcur1⟩ := allocate_metadata_bound s.t2 s.heap s.t2_start
    ((i : Int) - 1) n tc t2a heap1 _ (2 * s.t2.bb_data_len + 2) hwf halloc (fun _ => le_refl _)
    (by omega) (by omega)
  obtain ⟨f, rfl⟩ : ∃ f, fuel = f + 2 := ⟨fuel - 2, by omega⟩
  have hnsz1 : ¬ (false = false ∧ Py_SIZE co ≤ i) := fun hc => by omega
  have hnsz2 : ¬ (true = false ∧ Py_SIZE co ≤ i) := fun hc => by simp at hc
  have htarget2 : IS_BACKWARDS_JUMP_TARGET t2a i = true := by
    rw [IS_BACKWARDS_JUMP_TARGET_congr hcount1 hoffs1]; exact htarget
  have hrows1 : t2a.backward_jump_count ≤ t2a.backward_jump_target_bb_ids.length := by
    rw [hcount1, hids1]; exact hrows
  -- first pass: the virtual end
  have hd1 : dispatch_opcode T co n tc s i = .ok (.dispatch_goto (virtual_end s t2a heap1
      ⟨s.t2.bb_data_curr, s.t2_start, (i : Int) - 1, n, tc⟩)) := by
    unfold dispatch_opcode
    simp only [hop1, hop2, hop3, htarget, hvs, if_false, if_true, Bool.false_eq_true, halloc]
  -- second pass: the block is marked and the instruction handled
  have hd2 : dispatch_opcode T co n tc (virtual_end s t2a heap1
      ⟨s.t2.bb_data_curr, s.t2_start, (i : Int) - 1, n, tc⟩) i
      = fall_through T co (mark_jump_target (virtual_end s t2a heap1
          ⟨s.t2.bb_data_curr, s.t2_start, (i : Int) - 1, n, tc⟩) i) i := by
    unfold dispatch_opcode
    simp only [hop1, hop2, hop3, if_false]
    have h1 : (virtual_end s t2a heap1
        ⟨s.t2.bb_data_curr, s.t2_start, (i : Int) - 1, n, tc⟩).t2 = t2a := rfl
    have h2 : (virtual_end s t2a heap1
        ⟨s.t2.bb_data_curr, s.t2_start, (i : Int) - 1, n, tc⟩).virtual_start = true := rfl
    simp only [h1, h2, htarget2, if_true]
  have hscan0 : scan T co n tc (f + 2) false s i
      = scan T co n tc (f + 1) true (virtual_end s t2a heap1
          ⟨s.t2.bb_data_curr, s.t2_start, (i : Int) - 1, n, tc⟩) i :=
    scan_of_dispatch_goto T co n tc (f + 1) false s i _ hnsz1 hd1
  have hmark0 : (mark_jump_target (virtual_end s t2a heap1
      ⟨s.t2.bb_data_curr, s.t2_start, (i : Int) - 1, n, tc⟩) i).marked :=
    ⟨rfl, by simp [mark_jump_target, virtual_end], i, rfl, htarget2⟩
  -- what label `end` does once the loop is left
  have final : ∀ (sf : Emit) (jf : Nat),
      scan T co n tc (f + 2) false s i = .ok (.at_end sf jf) →
      never_fails sf.heap → bb_data_wf sf.t2 → sf.marked →
      sf.t2.backward_jump_count ≤ sf.t2.backward_jump_target_bb_ids.length →
      (sf.t2.bb_data_len + 1) * 2 < 2 ^ 31 →
      (∀ a, a < s.write_i → sf.bb_space.u_code a = s.bb_space.u_code a) →
      i ≤ jf →
      bb_data_at sf.t2 s.t2.bb_data_curr
        = some ⟨s.t2.bb_data_curr, s.t2_start, (i : Int) - 1, n, tc⟩ →
      ((sf.t2.bb_data_curr = s.t2.bb_data_curr + 1 ∧ s.write_i ≤ sf.t2_start ∧
          ((∀ j : Nat, i < j → T.deopt (code_at co j).opcode ≠ .END_FOR) →
            sf.t2_start = s.write_i)) ∨
        (∃ (ts : Nat) (te : Int),
          bb_data_at sf.t2 (s.t2.bb_data_curr + 1)
            = some ⟨s.t2.bb_data_curr + 1, ts, te, n, tc⟩ ∧
          s.write_i ≤ ts ∧ (i : Int) ≤ te ∧
          ((∀ j : Nat, i < j → T.deopt (code_at co j).opcode ≠ .END_FOR) →
            ts = s.write_i) ∧
          s.t2.bb_data_curr + 1 < sf.t2.bb_data_curr)) →
      ∃ (r : DetectResult) (start2 : Nat) (end2 : Int),
        detect_from T co n tc (f + 2) s i = .ok r ∧
        r.result ≠ none ∧
        s.t2.bb_data_curr + 2 ≤ r.t2.bb_data_curr ∧
        bb_data_at r.t2 s.t2.bb_data_curr
          = some ⟨s.t2.bb_data_curr, s.t2_start, (i : Int) - 1, n, tc⟩ ∧
        bb_data_at r.t2 (s.t2.bb_data_curr + 1)
          = some ⟨s.t2.bb_data_curr + 1, start2, end2, n, tc⟩ ∧
        s.write_i ≤ start2 ∧ (i : Int) ≤ end2 ∧
        ((∀ j : Nat, i < j → T.deopt (code_at co j).opcode ≠ .END_FOR) →
          start2 = s.write_i) ∧
        (∀ a, a < s.write_i → r.bb_space.u_code a = s.bb_space.u_code a) := by
    intro sf jf hscan hnf hwff hmf hrowsf hlenf hwords hjf hrec hcase
    obtain ⟨m1, m2, t, m3, m4⟩ := hmf
    obtain ⟨mrec, hmrec⟩ : ∃ mrec, sf.metadata = some mrec := by
      cases hm : sf.metadata with
      | none => exact absurd hm m2
      | some mrec => exact ⟨mrec, rfl⟩
    obtain ⟨r, row, hr, hres, hcurr, hat, hbelow, -, -, -, -, -, hu, -⟩ :=
      detect_end_marked sf jf n tc mrec t hmrec m1 m3 m4 hrowsf hnf hlenf hwff
    have hdet : detect_from T co n tc (f + 2) s i = .ok r := by
      unfold detect_from
      rw [hscan]
      exact hr
    have hwords2 : ∀ a, a < s.write_i → r.bb_space.u_code a = s.bb_space.u_code a := by
      intro a ha
      rw [hu]
      exact hwords a ha
    rcases hcase with ⟨d1, d2, d3⟩ | ⟨ts, te, d1, d2, d3, d4, d5⟩
    · refine ⟨r, sf.t2_start, (jf : Int) + 1, hdet, by rw [hres]; simp, by omega, ?_, ?_, d2,
        by omega, d3, hwords2⟩
      · rw [hbelow _ (by omega)]
        exact hrec
      · rw [← d1]
        exact hat
    · refine ⟨r, ts, te, hdet, by rw [hres]; simp, by omega, ?_, ?_, d2, d3, d4, hwords2⟩
      · rw [hbelow _ (by omega)]
        exact hrec
      · rw [hbelow _ (by omega)]
        exact d1
  rcases fall_through_spec T co (mark_jump_target (virtual_end s t2a heap1
      ⟨s.t2.bb_data_curr, s.t2_start, (i : Int) - 1, n, tc⟩) i) i with
    he | ⟨s3, i3, he, hi3, hc3, hs3⟩ | ⟨s3, i3, he, hi3, hc3, hs3⟩
  · left
    unfold detect_from
    rw [hscan0, scan_of_error T co n tc f true _ i _ hnsz2 (hd2.trans he)]
  · have hscan1 : scan T co n tc (f + 2) false s i = scan T co n tc f false s3 (i3 + 1) := by
      rw [hscan0]
      exact scan_of_continue T co n tc f true _ i s3 i3 hnsz2 (hd2.trans he)
    have hm3 := Emit.marked_of_continues hc3 hmark0
    obtain ⟨c1, c2, c3, c4, c5, c6, c7, c8, c9, c10, c11⟩ := hc3
    have e1 : s3.t2 = t2a := c1
    have e2 : s3.heap = heap1 := c2
    have e10 : s.write_i ≤ s3.write_i := c10
    have e11 : ∀ a, a < s.write_i → s3.bb_space.u_code a = s.bb_space.u_code a := c11
    have e12 : s3.t2_start = s.write_i := hs3
    rcases scan_marked T co n tc f false s3 (i3 + 1) (2 * s.t2.bb_data_len + 4)
        (by rw [e2]; exact hnf1) (by rw [e1]; exact hwf1) hm3 (by rw [e1]; exact hrows1)
        (by rw [e1]; exact hbd1) (by rw [e1]; omega) (by rw [e1]; omega)
        (by split_ifs <;> omega) (by intro h; simp at h) (by split_ifs <;> omega) with
      h4 | ⟨s4, i4, h4, b0, b1, b2, b3, b4, b5, b6, b7, b8⟩
    · left
      unfold detect_from
      rw [hscan1, h4]
    · right
      obtain ⟨sx, hcase, hext, -⟩ := scan_frame T co n tc f false s3 (i3 + 1) _
        (by rw [e1]; exact hwf1) h4
      have hsx : sx = s4 := by
        rcases hcase with hc | ⟨ix, hc⟩
        · cases hc
        · cases hc; rfl
      subst hsx
      obtain ⟨-, -, -, x4, x5, -⟩ := hext
      rw [e1] at x4 x5
      have hi4 : i ≤ i4 := by omega
      refine final sx i4 (hscan1.trans h4) b1 b2 b3 b4 b5 ?_ hi4 ?_ ?_
      · intro a ha
        rw [b7 a (by omega), e11 a ha]
      · rw [x5 _ (by omega)]
        exact hat1
      · rcases b8 with ⟨g1, g2, g3⟩ | ⟨ts, te, g1, g2, g5, g3, g4⟩
        · left
          refine ⟨by rw [g1, e1, hcurr1], by omega, ?_⟩
          intro hne
          rw [g3 (fun j hj => hne j (by omega)), e12]
        · right
          rw [e1, hcurr1] at g1 g4
          refine ⟨ts, te, g1, by omega, by omega, ?_, g4⟩
          intro hne
          rw [g3 (fun j hj => hne j (by omega)), e12]
  · right
    have hscan1 : scan T co n tc (f + 2) false s i = .ok (.at_end s3 i3) := by
      rw [hscan0]
      exact scan_of_goto_end T co n tc f true _ i s3 i3 hnsz2 (hd2.trans he)
    have hm3 := Emit.marked_of_continues hc3 hmark0
    obtain ⟨c1, c2, c3, c4, c5, c6, c7, c8, c9, c10, c11⟩ := hc3
    have e1 : s3.t2 = t2a := c1
    have e2 : s3.heap = heap1 := c2
    have e11 : ∀ a, a < s.write_i → s3.bb_space.u_code a = s.bb_space.u_code a := c11
    have e12 : s3.t2_start = s.write_i := hs3
    refine final s3 i3 hscan1 (by rw [e2]; exact hnf1) (by rw [e1]; exact hwf1) hm3
      (by rw [e1]; exact hrows1) (by rw [e1]; omega) e11 hi3 (by rw [e1]; exact hat1)
      (Or.inl ⟨by rw [e1, hcurr1], by omega, fun _ => e12⟩)

/-- C9 (amended): when the scan of a discovery call is at an instruction
`i` that lies at a backward-jump target, is dispatched through the default
case (not `RESUME`, `COMPARE_AND_BRANCH` or `END_FOR`) and is not the start
of a block opened by an earlier virtual end, and no allocation fails (the
metadata table being far from its size limit), then, unless
`Py_UNREACHABLE()` is hit, the call returns a record, having ended the
current block before that instruction (its record, under the next id `c`,
has `tier1_end = i - 1`, and no word below the write cursor changes),
started the second block at the append cursor (exactly there when no
`END_FOR` follows) and registered it under the id `c + 1`.  When no other
instruction of the block that starts at `i` lies at a jump target, these two
records are the only ones the call registers, and the record returned is the
first, the block that ends before the jump target. -/
theorem virtual_end_returns_first_record (T : OpcodeTables) (co : PyCodeObject) (n : Nat)
    (tc : List (Option PyTypeObject)) (fuel : Nat) (s : Emit) (i : Nat)
    (hi : i < Py_SIZE co) (hfuel : 2 * (Py_SIZE co - i) + 2 ≤ fuel)
    (hop1 : T.deopt (code_at co i).opcode ≠ .RESUME)
    (hop2 : T.deopt (code_at co i).opcode ≠ .COMPARE_AND_BRANCH)
    (hop3 : T.deopt (code_at co i).opcode ≠ .END_FOR)
    (htarget : IS_BACKWARDS_JUMP_TARGET s.t2 i = true)
    (hvs : s.virtual_start = false)
    (hrows : s.t2.backward_jump_count ≤ s.t2.backward_jump_target_bb_ids.length)
    (hheap : never_fails s.heap) (hlen : s.t2.bb_data_len + Py_SIZE co < 2 ^ 28)
    (hwf : bb_data_wf s.t2) :
    detect_from T co n tc fuel s i = .error .unreachable ∨
    ∃ (r : DetectResult) (start2 : Nat) (end2 : Int),
      detect_from T co n tc fuel s i = .ok r ∧
      r.result ≠ none ∧
      s.t2.bb_data_curr + 2 ≤ r.t2.bb_data_curr ∧
      bb_data_at r.t2 s.t2.bb_data_curr
        = some ⟨s.t2.bb_data_curr, s.t2_start, (i : Int) - 1, n, tc⟩ ∧
      bb_data_at r.t2 (s.t2.bb_data_curr + 1)
        = some ⟨s.t2.bb_data_curr + 1, start2, end2, n, tc⟩ ∧
      s.write_i ≤ start2 ∧ (i : Int) ≤ end2 ∧
      ((∀ j : Nat, i < j → T.deopt (code_at co j).opcode ≠ .END_FOR) → start2 = s.write_i) ∧
      (∀ a, a < s.write_i → r.bb_space.u_code a = s.bb_space.u_code a) ∧
      ((∀ j ∈ block_offsets T co (Py_SIZE co) i, j ≠ i →
          IS_BACKWARDS_JUMP_TARGET s.t2 j = false) →
        r.result = bb_data_at r.t2 s.t2.bb_data_curr ∧
        r.t2.bb_data_curr = s.t2.bb_data_curr + 2 ∧
        ((∀ j ∈ block_offsets T co (Py_SIZE co) i, j ≠ i →
            T.deopt (code_at co j).opcode ≠ .END_FOR) → start2 = s.write_i)) := by
  rcases detect_from_at_any_target T co n tc fuel s i hi hfuel hop1 hop2 hop3 htarget hvs hrows
      hheap hlen hwf with he | ⟨r, start2, end2, hr, hres, hcurr, hat1, hat2, hs2, he2, hst, hu⟩
  · exact Or.inl he
  · refine Or.inr ⟨r, start2, end2, hr, hres, hcurr, hat1, hat2, hs2, he2, hst, hu, ?_⟩
    intro hblock
    rcases detect_from_in_block T co n tc fuel s i hi (by omega) hop1 hop2 hop3 htarget hblock
        hvs hrows hheap (by omega) hwf with he |
      ⟨r1, row, st, en, cu, hr1, hres1, hcurr1, hat11, hat21, -, -, -, hst1, -⟩
    · rw [he] at hr
      simp at hr
    · rw [hr1] at hr
      simp only [Except.ok.injEq] at hr
      subst hr
      rw [hat2] at hat21
      simp only [Option.some.injEq, _PyTier2BBMetadata.mk.injEq, true_and, and_true] at hat21
      refine ⟨by rw [hres1, hat1], hcurr1, ?_⟩
      intro hne
      rw [hat21.1]
      exact hst1 hne

/-- Witness for C9: discovery from offset 0 of `loopCode`, at the moment the
scan reaches the loop header at offset 1 after emitting `RESUME_QUICK`; the
block that starts there holds the offsets 1 and 2, and offset 2 is no jump
target. -/
theorem virtual_end_returns_first_record_witness :
    (1 < Py_SIZE loopCode ∧ 2 * (Py_SIZE loopCode - 1) + 2 ≤ 13 ∧
      IS_BACKWARDS_JUMP_TARGET loopAfterResume.t2 (1 : Nat) = true ∧
      block_offsets sampleTables loopCode (Py_SIZE loopCode) 1 = [1, 2] ∧
      IS_BACKWARDS_JUMP_TARGET loopAfterResume.t2 (2 : Nat) = false ∧
      loopAfterResume.virtual_start = false) ∧
    (detect_from sampleTables loopCode 2 [none, none] 13 loopAfterResume 1
      = .error .unreachable ∨
    ∃ (r : DetectResult) (start2 : Nat) (end2 : Int),
      detect_from sampleTables loopCode 2 [none, none] 13 loopAfterResume 1 = .ok r ∧
      r.result ≠ none ∧
      loopAfterResume.t2.bb_data_curr + 2 ≤ r.t2.bb_data_curr ∧
      bb_data_at r.t2 loopAfterResume.t2.bb_data_curr
        = some ⟨loopAfterResume.t2.bb_data_curr, loopAfterResume.t2_start,
            ((1 : Nat) : Int) - 1, 2, [none, none]⟩ ∧
      bb_data_at r.t2 (loopAfterResume.t2.bb_data_curr + 1)
        = some ⟨loopAfterResume.t2.bb_data_curr + 1, start2, end2, 2, [none, none]⟩ ∧
      loopAfterResume.write_i ≤ start2 ∧ ((1 : Nat) : Int) ≤ end2 ∧
      ((∀ j : Nat, 1 < j → sampleTables.deopt (code_at loopCode j).opcode ≠ .END_FOR) →
        start2 = loopAfterResume.write_i) ∧
      (∀ a, a < loopAfterResume.write_i →
        r.bb_space.u_code a = loopAfterResume.bb_space.u_code a) ∧
      ((∀ j ∈ block_offsets sampleTables loopCode (Py_SIZE loopCode) 1, j ≠ 1 →
          IS_BACKWARDS_JUMP_TARGET loopAfterResume.t2 j = false) →
        r.result = bb_data_at r.t2 loopAfterResume.t2.bb_data_curr ∧
        r.t2.bb_data_curr = loopAfterResume.t2.bb_data_curr + 2 ∧
        ((∀ j ∈ block_offsets sampleTables loopCode (Py_SIZE loopCode) 1, j ≠ 1 →
            sampleTables.deopt (code_at loopCode j).opcode ≠ .END_FOR) →
          start2 = loopAfterResume.write_i))) :=
  ⟨⟨by decide, by decide, by decide, by decide, by decide, rfl⟩,
   virtual_end_returns_first_record sampleTables loopCode 2 [none, none] 13 loopAfterResume 1
    (by decide) (by decide) (by decide) (by decide) (by decide) (by decide)
    rfl (by decide)
    (by intro b hb; cases hb)
    (by decide)
    ⟨by decide, by
      intro l h
      simp only [loopAfterResume, DISPATCH, loopStart, detect_init, loopInfo, sampleInfo,
        Option.some.injEq] at h
      subst h
      rfl⟩⟩

theorem find_free_version_first (row : List Int) (h : row[0]? = some (-1)) :
    find_free_version row = some 0 := by
  cases hf : find_free_version row with
  | none =>
    exact absurd h ((find_free_version_none row).mp hf 0 (by decide))
  | some j =>
    obtain ⟨-, -, hlow⟩ := find_free_version_some row j hf
    cases j with
    | zero => rfl
    | succ j => exact absurd h (hlow 0 (Nat.succ_pos _))

/-- From the installation of the first block of a loop header to every
later lookup.  The scan of a discovery call stands at the jump target `i`
with the write cursor at `s.write_i` (hypotheses as in
`detect_from_in_block`, no `END_FOR` in the rest of the block), the version
array of `i` holds no block yet, and the call ends in `r`.  Then in every
Tier2Info `t2x` that extends the one the call left and whose arena has room
for the request of the arena check (or `PyMem_Realloc` fails),
`_PyTier2_LocateJumpBackwardsBB` for a stub whose target is `i` returns the
word index `s.write_i` when its allocation request succeeds and NULL when it
fails. -/
theorem located_after_discovery (T : OpcodeTables) (co : PyCodeObject) (n : Nat)
    (tc : List (Option PyTypeObject)) (fuel : Nat) (s : Emit) (i : Nat)
    (hi : i < Py_SIZE co) (hfuel : Py_SIZE co - i + 2 ≤ fuel)
    (hop1 : T.deopt (code_at co i).opcode ≠ .RESUME)
    (hop2 : T.deopt (code_at co i).opcode ≠ .COMPARE_AND_BRANCH)
    (hop3 : T.deopt (code_at co i).opcode ≠ .END_FOR)
    (htarget : IS_BACKWARDS_JUMP_TARGET s.t2 i = true)
    (hblock : ∀ j ∈ block_offsets T co (Py_SIZE co) i, j ≠ i →
      IS_BACKWARDS_JUMP_TARGET s.t2 j = false)
    (hnoend : ∀ j ∈ block_offsets T co (Py_SIZE co) i, j ≠ i →
      T.deopt (code_at co j).opcode ≠ .END_FOR)
    (hvs : s.virtual_start = false)
    (hrows : s.t2.backward_jump_count ≤ s.t2.backward_jump_target_bb_ids.length)
    (hheap : never_fails s.heap) (hlen : s.t2.bb_data_len < 2 ^ 28) (hwf : bb_data_wf s.t2)
    (row : List Int)
    (hrow : s.t2.backward_jump_target_bb_ids[find_jump_offset_index s.t2 i]? = some row)
    (hempty : row[0]? = some (-1))
    (r : DetectResult) (hr : detect_from T co n tc fuel s i = .ok r)
    (t2x : _PyTier2Info) (hext : info_extends r.t2 t2x)
    (bb_id : Nat) (jumpby : Int) (metadata : _PyTier2BBMetadata)
    (hmeta : bb_data_at t2x bb_id = some metadata)
    (hjump : metadata.tier1_end + jumpby = (i : Int))
    (curr : _PyTier2BBSpace) (hsp : t2x._bb_space = some curr) (heap2 : Allocator)
    (hroom : (curr.water_level : Int) + ((_PyCode_NBYTES co : Int)
        - (i : Int) * (sizeof_CODEUNIT : Int)) ≤ curr.max_capacity ∨
      (PyMem_Malloc heap2).1 = false) :
    ∃ res, _PyTier2_LocateJumpBackwardsBB T co t2x heap2 bb_id jumpby = .ok res ∧
      res.tier1_fallback = (i : Int) ∧
      res.t2 = t2x ∧
      ((PyMem_Malloc heap2).1 = true → res.result = some s.write_i) ∧
      ((PyMem_Malloc heap2).1 = false → res.result = none) := by
  rcases detect_from_in_block T co n tc fuel s i hi hfuel hop1 hop2 hop3 htarget hblock hvs
      hrows hheap hlen hwf with he |
    ⟨r1, row1, start2, end2, cursor2, hr1, -, hcurr, -, hat2, -, -, -, hst, -, hcount,
      hoffs, hrow1, hids, -, -, -⟩
  · rw [he] at hr
    simp at hr
  · rw [hr1] at hr
    simp only [Except.ok.injEq] at hr
    subst hr
    rw [hrow] at hrow1
    simp only [Option.some.injEq] at hrow1
    subst hrow1
    rw [find_free_version_first row hempty] at hids
    simp only at hids
    obtain ⟨x1, x2, x3, x4, x5, -⟩ := hext
    have hidx_len : find_jump_offset_index s.t2 i < s.t2.backward_jump_target_bb_ids.length := by
      by_contra hcon
      rw [List.getElem?_eq_none (by omega)] at hrow
      simp at hrow
    have hrow_len : 0 < row.length := by
      by_contra hcon
      rw [List.getElem?_eq_none (by omega)] at hempty
      simp at hempty
    have hrowr : r1.t2.backward_jump_target_bb_ids[find_jump_offset_index s.t2 i]?
        = some (row.set 0 ((s.t2.bb_data_curr + 1 : Nat) : Int)) := by
      rw [hids]
      exact List.getElem?_set_self hidx_len
    obtain ⟨rowx, hrowx, hkeep⟩ := x3 _ _ hrowr
    have hslot : rowx[0]? = some ((s.t2.bb_data_curr + 1 : Nat) : Int) :=
      hkeep 0 _ (List.getElem?_set_self hrow_len) (by omega)
    have hidx : find_jump_offset_index t2x (i : Int) = find_jump_offset_index s.t2 (i : Int) :=
      find_jump_offset_index_congr (x1.trans hcount) (x2.trans hoffs) _
    have htx : IS_BACKWARDS_JUMP_TARGET t2x (i : Int) = true := by
      rw [IS_BACKWARDS_JUMP_TARGET_congr (x1.trans hcount) (x2.trans hoffs)]
      exact htarget
    have htm : bb_data_at t2x (((s.t2.bb_data_curr + 1 : Nat) : Int)).toNat
        = some ⟨s.t2.bb_data_curr + 1, s.write_i, (end2 : Int) + 1, n, tc⟩ := by
      rw [Int.toNat_natCast, x5 _ (by omega), hat2, hst hnoend]
    obtain ⟨res, h1, h2, h3, h4, h5⟩ := locate_spec T co t2x heap2 bb_id jumpby metadata curr
      rowx 0 ((s.t2.bb_data_curr + 1 : Nat) : Int) _ hmeta hsp (by rw [hjump]; exact htx)
      (by rw [hjump, hidx]; exact hrowx) (by decide) hslot (by omega)
      (fun k hk => by omega) htm (by rw [hjump]; exact hroom)
    exact ⟨res, h1, by rw [h2, hjump], h3, h4, h5⟩

theorem loopInfo_wf : bb_data_wf loopInfo :=
  ⟨by decide, by
    intro l h
    simp only [loopInfo, sampleInfo, Option.some.injEq] at h
    subst h
    rfl⟩

/-- The state `loopAfterCalls` extends the state left by the discovery call
that installed the block of the loop header of `loopCode`. -/
theorem loopAfterCalls_extends :
    ∃ r, detect_from sampleTables loopCode 2 [none, none] 13 loopAfterResume 1 = .ok r ∧
      info_extends r.t2 loopAfterCalls := by
  have h1 : ∃ r1, _PyTier2_Code_DetectAndEmitBB sampleTables loopCode loopInfo sampleArena 0 2
      [none, none] [] = .ok r1 ∧
      ∃ r2, _PyTier2_Code_DetectAndEmitBB sampleTables loopCode r1.t2 r1.bb_space 3 2
        [none, none] [] = .ok r2 ∧
        loopAfterCalls = { r2.t2 with _bb_space := some r2.bb_space } :=
    ⟨_, rfl, _, rfl, rfl⟩
  obtain ⟨r1, hr1, r2, hr2, hl⟩ := h1
  have hwf1 := info_extends_wf (discovery_call_frame _ _ _ _ _ _ _ _ _ loopInfo_wf hr1)
  have hext := discovery_call_frame _ _ _ _ _ _ _ _ _ hwf1 hr2
  have hsame : detect_from sampleTables loopCode 2 [none, none] 13 loopAfterResume 1
      = .ok r1 := by
    rw [← hr1]
    rfl
  refine ⟨r1, hsame, ?_⟩
  rw [hl]
  exact hext

/-- A lookup that returns without a fault leaves the Tier2Info, and with it
the pointer to the arena, as it found them. -/
theorem locate_keeps_info (T : OpcodeTables) (co : PyCodeObject) (t2 : _PyTier2Info)
    (heap : Allocator) (bb_id : Nat) (jumpby : Int) (res : LocateResult)
    (h : _PyTier2_LocateJumpBackwardsBB T co t2 heap bb_id jumpby = .ok res) :
    res.t2 = t2 := by
  have hcheck : ∀ (r : Int) (c : SpaceCheckResult),
      _PyTier2_BBSpaceCheckAndReallocIfNeeded T t2 heap r = .ok c → c.t2 = t2 := by
    intro r c hc
    unfold _PyTier2_BBSpaceCheckAndReallocIfNeeded at hc
    cases hsp : t2._bb_space with
    | none => rw [hsp] at hc; simp at hc
    | some curr =>
      rw [hsp] at hc
      simp only at hc
      split_ifs at hc with hbig
      · unfold realloc_bb_space at hc
        rcases hm : PyMem_Malloc heap with ⟨b, heap1⟩
        rw [hm] at hc
        cases b with
        | false =>
          simp only [Except.ok.injEq] at hc
          rw [← hc]
        | true => simp at hc
      · simp only [Except.ok.injEq] at hc
        rw [← hc]
  unfold _PyTier2_LocateJumpBackwardsBB at h
  cases hmeta : ((t2.bb_data.getD [])[bb_id]?).join with
  | none => rw [hmeta] at h; simp at h
  | some metadata =>
    rw [hmeta] at h
    simp only at h
    cases hc : _PyTier2_BBSpaceCheckAndReallocIfNeeded T t2 heap
        ((_PyCode_NBYTES co : Int) - (metadata.tier1_end + jumpby) * (sizeof_CODEUNIT : Int)) with
    | error f => rw [hc] at h; simp at h
    | ok c =>
      have hct := hcheck _ c hc
      rw [hc] at h
      simp only at h
      cases hs : c.space with
      | none =>
        rw [hs] at h
        simp only [Except.ok.injEq] at h
        rw [← h]; exact hct
      | some sp =>
        rw [hs] at h
        simp only at h
        rcases hi : initialize_type_context co c.heap with ⟨heap2, otc⟩
        rw [hi] at h
        cases otc with
        | none =>
          simp only [Except.ok.injEq] at h
          rw [← h]; exact hct
        | some p =>
          simp only at h
          split at h
          · simp at h
          · split at h
            · simp at h
            · split at h
              · simp at h
              · simp only [Except.ok.injEq] at h
                rw [← h]; exact hct

/-- C13 (amended).  (1) For a stub `bb_id`, `jumpby` whose target offset
`bb_data[bb_id].tier1_end + jumpby` is in `backward_jump_offsets` and whose
version array `row` (the one of the first matching entry) holds the block id
`v` in slot `x` and -1 in every slot before it, in a state whose arena has
room for the request of the arena check or in which `PyMem_Realloc` fails:
`_PyTier2_LocateJumpBackwardsBB` stores the target offset through
`tier1_fallback`, leaves the Tier2Info as it is, and returns NULL when the
arena lacks room (the reallocation having failed), NULL when the arena has
room and the allocation of the type context fails, and the `tier2_start` of
block `v` when the arena has room and that allocation succeeds.
(2) A discovery call that ends without a fault, from any consistent state,
leaves a Tier2Info that extends the one it found: same jump target index,
every registered record unchanged, every version slot that held a block id
unchanged.
(3) When the scan of a discovery call reaches the jump target `i` with the
write cursor at `s.write_i` (the instruction is dispatched through the
default case, no other offset of the block that starts at `i` is a jump
target or an `END_FOR`, no allocation of that call fails) and the version
array of `i` holds no block yet, then in the state the call leaves and in
every state that extends it, the lookup for a stub with target `i`, under
the condition of (1) on the arena, returns NULL in the two cases of (1) and
otherwise the word index `s.write_i`, the place where the emission of the
instruction at offset `i` began.
(4) A lookup that returns without a fault leaves the Tier2Info as it found
it: the arena is not replaced, and the word index that is returned names a
word of the arena block in which the block was emitted. -/
theorem locate_returns_first_installed_block (T : OpcodeTables) (co : PyCodeObject) :
    (∀ (t2 : _PyTier2Info) (heap : Allocator) (bb_id : Nat) (jumpby : Int)
        (metadata tm : _PyTier2BBMetadata) (curr : _PyTier2BBSpace) (row : List Int)
        (x : Nat) (v : Int),
      bb_data_at t2 bb_id = some metadata → t2._bb_space = some curr →
      IS_BACKWARDS_JUMP_TARGET t2 (metadata.tier1_end + jumpby) = true →
      t2.backward_jump_target_bb_ids[find_jump_offset_index t2
        (metadata.tier1_end + jumpby)]? = some row →
      x < MAX_BB_VERSIONS → row[x]? = some v → 0 ≤ v →
      (∀ k, k < x → row[k]? = some (-1)) →
      bb_data_at t2 v.toNat = some tm →
      ((curr.water_level : Int) + ((_PyCode_NBYTES co : Int)
          - (metadata.tier1_end + jumpby) * (sizeof_CODEUNIT : Int)) ≤ curr.max_capacity ∨
        (PyMem_Malloc heap).1 = false) →
      ∃ res, _PyTier2_LocateJumpBackwardsBB T co t2 heap bb_id jumpby = .ok res ∧
        res.tier1_fallback = metadata.tier1_end + jumpby ∧
        res.t2 = t2 ∧
        (¬ ((curr.water_level : Int) + ((_PyCode_NBYTES co : Int)
            - (metadata.tier1_end + jumpby) * (sizeof_CODEUNIT : Int)) ≤ curr.max_capacity) →
          res.result = none) ∧
        ((curr.water_level : Int) + ((_PyCode_NBYTES co : Int)
            - (metadata.tier1_end + jumpby) * (sizeof_CODEUNIT : Int)) ≤ curr.max_capacity →
          (initialize_type_context co heap).2 = none → res.result = none) ∧
        ((curr.water_level : Int) + ((_PyCode_NBYTES co : Int)
            - (metadata.tier1_end + jumpby) * (sizeof_CODEUNIT : Int)) ≤ curr.max_capacity →
          (initialize_type_context co heap).2 ≠ none →
          res.result = some tm.tier2_start)) ∧
    (∀ (t2 : _PyTier2Info) (bb_space : _PyTier2BBSpace) (tier1_start n : Nat)
        (tc : List (Option PyTypeObject)) (heap : Allocator) (r : DetectResult),
      bb_data_wf t2 →
      _PyTier2_Code_DetectAndEmitBB T co t2 bb_space tier1_start n tc heap = .ok r →
      info_extends t2 r.t2) ∧
    (∀ (n : Nat) (tc : List (Option PyTypeObject)) (fuel : Nat) (s : Emit) (i : Nat)
        (row : List Int) (r : DetectResult) (t2x : _PyTier2Info) (bb_id : Nat) (jumpby : Int)
        (metadata : _PyTier2BBMetadata) (curr : _PyTier2BBSpace) (heap2 : Allocator),
      i < Py_SIZE co → Py_SIZE co - i + 2 ≤ fuel →
      T.deopt (code_at co i).opcode ≠ .RESUME →
      T.deopt (code_at co i).opcode ≠ .COMPARE_AND_BRANCH →
      T.deopt (code_at co i).opcode ≠ .END_FOR →
      IS_BACKWARDS_JUMP_TARGET s.t2 i = true →
      (∀ j ∈ block_offsets T co (Py_SIZE co) i, j ≠ i →
        IS_BACKWARDS_JUMP_TARGET s.t2 j = false) →
      (∀ j ∈ block_offsets T co (Py_SIZE co) i, j ≠ i →
        T.deopt (code_at co j).opcode ≠ .END_FOR) →
      s.virtual_start = false →
      s.t2.backward_jump_count ≤ s.t2.backward_jump_target_bb_ids.length →
      never_fails s.heap → s.t2.bb_data_len < 2 ^ 28 → bb_data_wf s.t2 →
      s.t2.backward_jump_target_bb_ids[find_jump_offset_index s.t2 i]? = some row →
      row[0]? = some (-1) →
      detect_from T co n tc fuel s i = .ok r →
      info_extends r.t2 t2x →
      bb_data_at t2x bb_id = some metadata → metadata.tier1_end + jumpby = (i : Int) →
      t2x._bb_space = some curr →
      ((curr.water_level : Int) + ((_PyCode_NBYTES co : Int)
          - (i : Int) * (sizeof_CODEUNIT : Int)) ≤ curr.max_capacity ∨
        (PyMem_Malloc heap2).1 = false) →
      ∃ res, _PyTier2_LocateJumpBackwardsBB T co t2x heap2 bb_id jumpby = .ok res ∧
        res.tier1_fallback = (i : Int) ∧
        res.t2 = t2x ∧
        (¬ ((curr.water_level : Int) + ((_PyCode_NBYTES co : Int)
            - (i : Int) * (sizeof_CODEUNIT : Int)) ≤ curr.max_capacity) →
          res.result = none) ∧
        ((curr.water_level : Int) + ((_PyCode_NBYTES co : Int)
            - (i : Int) * (sizeof_CODEUNIT : Int)) ≤ curr.max_capacity →
          (initialize_type_context co heap2).2 = none → res.result = none) ∧
        ((curr.water_level : Int) + ((_PyCode_NBYTES co : Int)
            - (i : Int) * (sizeof_CODEUNIT : Int)) ≤ curr.max_capacity →
          (initialize_type_context co heap2).2 ≠ none →
          res.result = some s.write_i)) ∧
    (∀ (t2 : _PyTier2Info) (heap : Allocator) (bb_id : Nat) (jumpby : Int)
        (res : LocateResult),
      _PyTier2_LocateJumpBackwardsBB T co t2 heap bb_id jumpby = .ok res → res.t2 = t2) := by
  have hctx : ∀ heap : Allocator,
      ((initialize_type_context co heap).2 = none ↔ (PyMem_Malloc heap).1 = false) := by
    intro heap
    unfold initialize_type_context
    rcases hm : PyMem_Malloc heap with ⟨b, heap1⟩
    cases b <;> simp
  have hsplit : ∀ (heap : Allocator) (fits : Prop) (result : Option Nat) (w : Nat),
      (fits ∨ (PyMem_Malloc heap).1 = false) →
      ((PyMem_Malloc heap).1 = true → result = some w) →
      ((PyMem_Malloc heap).1 = false → result = none) →
      (¬ fits → result = none) ∧
      (fits → (initialize_type_context co heap).2 = none → result = none) ∧
      (fits → (initialize_type_context co heap).2 ≠ none → result = some w) := by
    intro heap fits result w hroom h1 h2
    refine ⟨?_, ?_, ?_⟩
    · intro hn
      rcases hroom with h | h
      · exact absurd h hn
      · exact h2 h
    · intro _ hc
      exact h2 ((hctx heap).mp hc)
    · intro _ hc
      apply h1
      cases hb : (PyMem_Malloc heap).1 with
      | true => rfl
      | false => exact absurd ((hctx heap).mpr hb) hc
  refine ⟨?_, ?_, ?_, ?_⟩
  · intro t2 heap bb_id jumpby metadata tm curr row x v hmeta hsp htarget hrow hx hv hv0 hlow htm
      hroom
    obtain ⟨res, h1, h2, h3, h4, h5⟩ := locate_spec T co t2 heap bb_id jumpby metadata curr row
      x v tm hmeta hsp htarget hrow hx hv hv0 hlow htm hroom
    exact ⟨res, h1, h2, h3, hsplit heap _ res.result tm.tier2_start hroom h4 h5⟩
  · intro t2 bb_space tier1_start n tc heap r hwf h
    exact discovery_call_frame T co t2 bb_space tier1_start n tc heap r hwf h
  · intro n tc fuel s i row r t2x bb_id jumpby metadata curr heap2 hi hfuel hop1 hop2 hop3
      htarget hblock hnoend hvs hrows hheap hlen hwf hrow hempty hr hext hmeta hjump hsp hroom
    obtain ⟨res, h1, h2, h3, h4, h5⟩ := located_after_discovery T co n tc fuel s i hi hfuel hop1
      hop2 hop3 htarget hblock hnoend hvs hrows hheap hlen hwf row hrow hempty r hr t2x hext bb_id
      jumpby metadata hmeta hjump curr hsp heap2 hroom
    exact ⟨res, h1, h2, h3, hsplit heap2 _ res.result s.write_i hroom h4 h5⟩
  · intro t2 heap bb_id jumpby res h
    exact locate_keeps_info T co t2 heap bb_id jumpby res h

/-- C13, counterexample: in `loopAfterCalls` the stub of block 2 (whose
`tier1_end` is 5) with `jumpby = -4` targets offset 1, which is in
`backward_jump_offsets` and has block 1 installed; with the allocator
refusing the next request (the one of `initialize_type_context`) the lookup
returns NULL, not the `tier2_start` of block 1. -/
theorem locate_returns_null_without_memory :
    bb_data_at loopAfterCalls 2 = some ⟨2, 5, 5, 2, [none, none]⟩ ∧
    loopAfterCalls.backward_jump_count = 1 ∧
    loopAfterCalls.backward_jump_offsets = [1] ∧
    loopAfterCalls.backward_jump_target_bb_ids = [[1, -1, -1, -1, -1]] ∧
    bb_data_at loopAfterCalls 1 = some ⟨1, 1, 3, 2, [none, none]⟩ ∧
    (∃ res, _PyTier2_LocateJumpBackwardsBB sampleTables loopCode loopAfterCalls [false] 2 (-4)
        = .ok res ∧ res.tier1_fallback = 1 ∧ res.result = none) ∧
    (∃ res, _PyTier2_LocateJumpBackwardsBB sampleTables loopCode loopAfterCalls [] 2 (-4)
        = .ok res ∧ res.tier1_fallback = 1 ∧ res.result = some 1) := by
  refine ⟨by decide, by decide, by decide, by decide, by decide, ⟨_, rfl, by decide, by decide⟩,
    ⟨_, rfl, by decide, by decide⟩⟩

/-- Witness for C13 on `loopCode`: the discovery call from offset 0 reaches
the loop header (offset 1) with the write cursor at word 1 and installs
block 1 there; after a further discovery call (block 2, ending with the
backward jump) the arena, of capacity 1000 with 18 bytes in use, has room
for the 10 bytes the lookup asks for, and the lookup for the stub of block 2
returns word 1 when the type context is allocated. -/
theorem locate_returns_first_installed_block_witness :
    bb_data_at loopAfterCalls 2 = some ⟨2, 5, 5, 2, [none, none]⟩ ∧
    IS_BACKWARDS_JUMP_TARGET loopAfterCalls ((5 : Int) + (-4)) = true ∧
    IS_BACKWARDS_JUMP_TARGET loopAfterResume.t2 (1 : Nat) = true ∧
    block_offsets sampleTables loopCode (Py_SIZE loopCode) 1 = [1, 2] ∧
    loopAfterResume.write_i = 1 ∧
    (initialize_type_context loopCode []).2 ≠ none ∧
    (∃ curr, loopAfterCalls._bb_space = some curr ∧
      curr.water_level = 18 ∧ curr.max_capacity = 1000 ∧
      (_PyCode_NBYTES loopCode : Int) - ((5 : Int) + (-4)) * (sizeof_CODEUNIT : Int) = 10 ∧
      (∃ res, _PyTier2_LocateJumpBackwardsBB sampleTables loopCode loopAfterCalls [] 2 (-4)
          = .ok res ∧
        res.tier1_fallback = (5 : Int) + (-4) ∧
        res.t2 = loopAfterCalls ∧
        (¬ ((curr.water_level : Int) + ((_PyCode_NBYTES loopCode : Int)
            - ((5 : Int) + (-4)) * (sizeof_CODEUNIT : Int)) ≤ curr.max_capacity) →
          res.result = none) ∧
        ((curr.water_level : Int) + ((_PyCode_NBYTES loopCode : Int)
            - ((5 : Int) + (-4)) * (sizeof_CODEUNIT : Int)) ≤ curr.max_capacity →
          (initialize_type_context loopCode []).2 = none → res.result = none) ∧
        ((curr.water_level : Int) + ((_PyCode_NBYTES loopCode : Int)
            - ((5 : Int) + (-4)) * (sizeof_CODEUNIT : Int)) ≤ curr.max_capacity →
          (initialize_type_context loopCode []).2 ≠ none →
          res.result = some 1)) ∧
      (∃ res, _PyTier2_LocateJumpBackwardsBB sampleTables loopCode loopAfterCalls [] 2 (-4)
          = .ok res ∧
        res.tier1_fallback = ((1 : Nat) : Int) ∧
        res.t2 = loopAfterCalls ∧
        (¬ ((curr.water_level : Int) + ((_PyCode_NBYTES loopCode : Int)
            - ((1 : Nat) : Int) * (sizeof_CODEUNIT : Int)) ≤ curr.max_capacity) →
          res.result = none) ∧
        ((curr.water_level : Int) + ((_PyCode_NBYTES loopCode : Int)
            - ((1 : Nat) : Int) * (sizeof_CODEUNIT : Int)) ≤ curr.max_capacity →
          (initialize_type_context loopCode []).2 = none → res.result = none) ∧
        ((curr.water_level : Int) + ((_PyCode_NBYTES loopCode : Int)
            - ((1 : Nat) : Int) * (sizeof_CODEUNIT : Int)) ≤ curr.max_capacity →
          (initialize_type_context loopCode []).2 ≠ none →
          res.result = some loopAfterResume.write_i))) ∧
    (∃ r, _PyTier2_Code_DetectAndEmitBB sampleTables loopCode loopInfo sampleArena 0 2
        [none, none] [] = .ok r ∧ info_extends loopInfo r.t2) := by
  obtain ⟨r, hr, hext⟩ := loopAfterCalls_extends
  refine ⟨by decide, by decide, by decide, by decide, by decide, by decide,
    ⟨_, rfl, by decide, by decide, by decide, ?_, ?_⟩, ?_⟩
  · exact (locate_returns_first_installed_block sampleTables loopCode).1 loopAfterCalls [] 2 (-4)
      ⟨2, 5, 5, 2, [none, none]⟩ ⟨1, 1, 3, 2, [none, none]⟩ _ [1, -1, -1, -1, -1] 0 1
      (by decide) rfl (by decide) (by decide) (by decide) (by decide) (by decide)
      (fun k hk => by omega) (by decide) (Or.inl (by decide))
  · exact (locate_returns_first_installed_block sampleTables loopCode).2.2.1 2 [none, none] 13
      loopAfterResume 1 [-1, -1, -1, -1, -1] r loopAfterCalls 2 (-4)
      ⟨2, 5, 5, 2, [none, none]⟩ _ []
      (by decide) (by decide) (by decide) (by decide) (by decide) (by decide)
      (by decide) (by decide)
      rfl (by decide) (by intro b hb; cases hb) (by decide) loopInfo_wf (by decide) (by decide)
      hr hext (by decide) (by decide) rfl (Or.inl (by decide))
  · exact ⟨_, rfl, (locate_returns_first_installed_block sampleTables loopCode).2.1 loopInfo
      sampleArena 0 2 [none, none] [] _ loopInfo_wf rfl⟩

/-! ## Discovery keeps the metadata table reachable -/

theorem allocate_keeps_reachable (co : PyCodeObject) (t2 : _PyTier2Info) (heap : Allocator)
    (ts : Nat) (te : Int) (n : Nat) (tc : List (Option PyTypeObject)) (t2a : _PyTier2Info)
    (heap1 : Allocator) (om : Option _PyTier2BBMetadata) (hreach : bb_data_reachable co t2)
    (h : _PyTier2_AllocateBBMetaData t2 heap ts te n tc = (t2a, heap1, om)) :
    bb_data_reachable co t2a := by
  unfold _PyTier2_AllocateBBMetaData allocate_bb_metadata at h
  rcases hm : PyMem_Malloc heap with ⟨b, heapa⟩
  rw [hm] at h
  cases b with
  | false =>
    simp only [Prod.mk.injEq] at h
    rw [← h.1]
    exact hreach
  | true =>
    simp only at h
    have hw := bb_data_reachable.write t2 heapa ⟨0, ts, te, n, tc⟩ hreach
    rcases hwr : write_bb_metadata t2 heapa ⟨0, ts, te, n, tc⟩ with ⟨rc, t2w, heapb, m1⟩
    rw [hwr] at h hw
    cases rc with
    | zero =>
      simp only [Prod.mk.injEq] at h
      rw [← h.1]
      exact hw
    | succ rc =>
      simp only [Prod.mk.injEq] at h
      rw [← h.1]
      exact hw

theorem scan_keeps_reachable (T : OpcodeTables) (co : PyCodeObject) (n : Nat)
    (tc : List (Option PyTypeObject)) :
    ∀ (fuel : Nat) (rd : Bool) (s : Emit) (i : Nat) (e : ScanExit),
      bb_data_reachable co s.t2 → scan T co n tc fuel rd s i = .ok e →
      ∃ s1, (e = .returned_null s1 ∨ ∃ i1, e = .at_end s1 i1) ∧
        bb_data_reachable co s1.t2 := by
  intro fuel
  induction fuel with
  | zero => intro rd s i e _ h; simp [scan] at h
  | succ fuel ih =>
    intro rd s i e hreach h
    by_cases hend : rd = false ∧ Py_SIZE co ≤ i
    · rw [scan, if_pos hend] at h
      simp only [Except.ok.injEq] at h
      exact ⟨s, Or.inr ⟨i, h.symm⟩, hreach⟩
    · have hstep : dispatch_opcode T co n tc s i = .error .unreachable ∨
          ∃ x, dispatch_opcode T co n tc s i = .ok x ∧
            ∃ s1, (x = .dispatch_goto s1 ∨ x = .return_null s1 ∨
                (∃ i1, x = .continue_ s1 i1) ∨ ∃ i1, x = .goto_end s1 i1) ∧
              bb_data_reachable co s1.t2 := by
        have hft : ∀ s0 : Emit, s0.t2 = s.t2 →
            fall_through T co s0 i = .error .unreachable ∨
            ∃ x, fall_through T co s0 i = .ok x ∧
              ∃ s1, (x = .dispatch_goto s1 ∨ x = .return_null s1 ∨
                  (∃ i1, x = .continue_ s1 i1) ∨ ∃ i1, x = .goto_end s1 i1) ∧
                bb_data_reachable co s1.t2 := by
          intro s0 h0
          rcases fall_through_spec T co s0 i with
            he | ⟨s1, i1, he, -, hc, -⟩ | ⟨s1, i1, he, -, hc, -⟩
          · exact Or.inl he
          · exact Or.inr ⟨_, he, s1, Or.inr (Or.inr (Or.inl ⟨i1, rfl⟩)),
              by rw [hc.1, h0]; exact hreach⟩
          · exact Or.inr ⟨_, he, s1, Or.inr (Or.inr (Or.inr ⟨i1, rfl⟩)),
              by rw [hc.1, h0]; exact hreach⟩
        unfold dispatch_opcode
        simp only
        split_ifs with h1 h2 h3 h4 h5
        · exact Or.inr ⟨_, rfl, _, Or.inr (Or.inr (Or.inl ⟨_, rfl⟩)), hreach⟩
        · exact Or.inr ⟨_, rfl, _, Or.inr (Or.inr (Or.inl ⟨_, rfl⟩)), hreach⟩
        · exact Or.inr ⟨_, rfl, _, Or.inr (Or.inr (Or.inl ⟨_, rfl⟩)), hreach⟩
        · exact hft (mark_jump_target s i) rfl
        · rcases hA : _PyTier2_AllocateBBMetaData s.t2 s.heap s.t2_start ((i : Int) - 1) n tc
            with ⟨t2a, heap1, om⟩
          have hr := allocate_keeps_reachable co _ _ _ _ _ _ _ _ _ hreach hA
          cases om with
          | none => exact Or.inr ⟨_, rfl, _, Or.inr (Or.inl rfl), hr⟩
          | some m => exact Or.inr ⟨_, rfl, virtual_end s t2a heap1 m, Or.inl rfl, hr⟩
        · exact hft s rfl
      rcases hstep with he | ⟨x, hx, s1, hcase, hr1⟩
      · rw [scan_of_error T co n tc fuel rd s i _ hend he] at h
        simp at h
      · rcases hcase with hc | hc | ⟨i1, hc⟩ | ⟨i1, hc⟩
        · subst hc
          rw [scan_of_dispatch_goto T co n tc fuel rd s i s1 hend hx] at h
          exact ih true s1 i e hr1 h
        · subst hc
          rw [scan_of_return_null T co n tc fuel rd s i s1 hend hx] at h
          simp only [Except.ok.injEq] at h
          exact ⟨s1, Or.inl h.symm, hr1⟩
        · subst hc
          rw [scan_of_continue T co n tc fuel rd s i s1 i1 hend hx] at h
          exact ih false s1 (i1 + 1) e hr1 h
        · subst hc
          rw [scan_of_goto_end T co n tc fuel rd s i s1 i1 hend hx] at h
          simp only [Except.ok.injEq] at h
          exact ⟨s1, Or.inr ⟨i1, h.symm⟩, hr1⟩

theorem add_metadata_keeps_table (t2 t2b : _PyTier2Info) (md : Option _PyTier2BBMetadata)
    (target : Int) (rc : Int)
    (h : add_metadata_to_jump_2d_array t2 md target = .ok (rc, t2b)) :
    t2b.bb_data = t2.bb_data ∧ t2b.bb_data_curr = t2.bb_data_curr ∧
    t2b.bb_data_len = t2.bb_data_len := by
  unfold add_metadata_to_jump_2d_array at h
  simp only at h
  split at h
  · simp at h
  · split at h
    · simp only [Except.ok.injEq, Prod.mk.injEq] at h
      rw [← h.2]
      exact ⟨rfl, rfl, rfl⟩
    · split at h
      · simp at h
      · simp only [Except.ok.injEq, Prod.mk.injEq] at h
        rw [← h.2]
        exact ⟨rfl, rfl, rfl⟩

/-- Every discovery call that ends without a fault leads from a reachable
state of the metadata table to a reachable state. -/
theorem discovery_call_keeps_reachable (T : OpcodeTables) (co : PyCodeObject)
    (t2 : _PyTier2Info) (bb_space : _PyTier2BBSpace) (tier1_start n : Nat)
    (tc : List (Option PyTypeObject)) (heap : Allocator) (r : DetectResult)
    (hreach : bb_data_reachable co t2)
    (h : _PyTier2_Code_DetectAndEmitBB T co t2 bb_space tier1_start n tc heap = .ok r) :
    bb_data_reachable co r.t2 := by
  unfold _PyTier2_Code_DetectAndEmitBB at h
  rcases hm : PyMem_Malloc heap with ⟨b, heap1⟩
  rw [hm] at h
  cases b with
  | false =>
    simp only [Except.ok.injEq] at h
    rw [← h]
    exact hreach
  | true =>
    simp only at h
    unfold detect_from at h
    cases hs : scan T co n (tc.take n) (2 * (Py_SIZE co - tier1_start) + 2) false
        (detect_init t2 bb_space heap1) tier1_start with
    | error f => rw [hs] at h; simp at h
    | ok e =>
      rw [hs] at h
      obtain ⟨s1, hcase, hr1⟩ := scan_keeps_reachable T co n (tc.take n) _ _ _ _ e hreach hs
      rcases hcase with he | ⟨i1, he⟩
      · subst he
        simp only [Except.ok.injEq] at h
        rw [← h]
        exact hr1
      · subst he
        simp only at h
        unfold detect_end at h
        rcases hA : _PyTier2_AllocateBBMetaData s1.t2 s1.heap s1.t2_start ((i1 : Int) + 1) n
          (tc.take n) with ⟨t2a, heap2, temp_meta⟩
        rw [hA] at h
        simp only at h
        have hr2 := allocate_keeps_reachable co _ _ _ _ _ _ _ _ _ hr1 hA
        have hinst : ∀ (rc : Int) (t2b : _PyTier2Info),
            (if s1.starts_with_backwards_jump_target = true then
                add_metadata_to_jump_2d_array t2a temp_meta s1.backwards_jump_target_offset
              else .ok (0, t2a)) = .ok (rc, t2b) → bb_data_reachable co t2b := by
          intro rc t2b hi
          split_ifs at hi
          · obtain ⟨k1, k2, k3⟩ := add_metadata_keeps_table _ _ _ _ _ hi
            exact bb_data_reachable.other t2a t2b hr2 k1 k2 k3
          · simp only [Except.ok.injEq, Prod.mk.injEq] at hi
            rw [← hi.2]
            exact hr2
        cases hinstalled : (if s1.starts_with_backwards_jump_target = true then
            add_metadata_to_jump_2d_array t2a temp_meta s1.backwards_jump_target_offset
          else (.ok (0, t2a) : Except Fault (Int × _PyTier2Info))) with
        | error f => rw [hinstalled] at h; simp at h
        | ok p =>
          obtain ⟨rc, t2b⟩ := p
          rw [hinstalled] at h
          simp only at h
          have hb := hinst rc t2b hinstalled
          split_ifs at h
          · simp only [Except.ok.injEq] at h
            rw [← h]
            exact hb
          all_goals
            split at h
            · simp at h
            · simp only [Except.ok.injEq] at h
              rw [← h]
              exact hb

/-! ## Specialized instructions in the emitted block -/

/-- C21: on `LOAD_FAST 0; LOAD_FAST 1; OTHER 1 NB_ADD; RETURN_VALUE`, where
`OTHER 1` is a specialized form of `BINARY_OP` and is neither a terminator,
`JUMP_FORWARD`, `RESUME` nor `COMPARE_AND_BRANCH`, discovery passes the
instruction at offset 2 through, but the word it emits carries the
de-specialized opcode `BINARY_OP`, not the opcode `OTHER 1` of the Tier-1
word; the cache word behind it is copied as it is. -/
theorem specialized_opcode_is_not_kept :
    code_at specializedAddCode 2 = ⟨.OTHER 1, 0⟩ ∧
    sampleTables.deopt (code_at specializedAddCode 2).opcode = .BINARY_OP ∧
    IS_TERMINATOR_OPCODE (sampleTables.deopt (code_at specializedAddCode 2).opcode) = false ∧
    ∃ r, _PyTier2_Code_DetectAndEmitBB sampleTables specializedAddCode (sampleInfo 2 [])
        sampleArena 0 2 [none, none] [] = .ok r ∧
      r.bb_space.words 0 5 = [⟨.LOAD_FAST, 0⟩, ⟨.LOAD_FAST, 1⟩, ⟨.BINARY_OP, 0⟩, ⟨.OTHER 17, 0⟩,
        ⟨.RETURN_VALUE, 0⟩] ∧
      r.bb_space.u_code 2 ≠ code_at specializedAddCode 2 ∧
      r.result = some ⟨0, 0, 5, 2, [none, none]⟩ := by
  refine ⟨by decide, by decide, by decide, _, rfl, by decide, by decide, by decide⟩

/-! ## The bytecode after an aborted bootstrap -/

/-- Counterexample for C23: the bootstrap aborts on `RESUME; YIELD_VALUE;
RETURN_VALUE` (a forbidden opcode is present) and on `RESUME; LOAD_CONST 0;
RETURN_VALUE` (no opcode is optimizable), and in both cases the first word
of the bytecode has been changed from `RESUME` to `RESUME_QUICK`. -/
theorem aborted_bootstrap_has_replaced_resume :
    (∃ r, _PyCode_Tier2Initialize sampleTables yieldFrame [] sampleArena.u_code = .ok r ∧
      r.next = none ∧
      yieldFrame.f_code.co_code_adaptive
        = [⟨.RESUME, 0⟩, ⟨.YIELD_VALUE, 0⟩, ⟨.RETURN_VALUE, 0⟩] ∧
      r.frame.f_code.co_code_adaptive
        = [⟨.RESUME_QUICK, 0⟩, ⟨.YIELD_VALUE, 0⟩, ⟨.RETURN_VALUE, 0⟩] ∧
      r.frame.f_code.co_code_adaptive ≠ yieldFrame.f_code.co_code_adaptive) ∧
    (∃ r, _PyCode_Tier2Initialize sampleTables constFrame [] sampleArena.u_code = .ok r ∧
      r.next = none ∧
      constFrame.f_code.co_code_adaptive
        = [⟨.RESUME, 0⟩, ⟨.LOAD_CONST, 0⟩, ⟨.RETURN_VALUE, 0⟩] ∧
      r.frame.f_code.co_code_adaptive
        = [⟨.RESUME_QUICK, 0⟩, ⟨.LOAD_CONST, 0⟩, ⟨.RETURN_VALUE, 0⟩] ∧
      r.frame.f_code.co_code_adaptive ≠ constFrame.f_code.co_code_adaptive) := by
  refine ⟨⟨_, rfl, by decide, by decide, by decide, by decide⟩,
    ⟨_, rfl, by decide, by decide, by decide, by decide⟩⟩

/-! ## The scan for optimizable opcodes -/

/-- C24: `IS_OPTIMIZABLE_OPCODE(opcode, oparg)` holds exactly when `opcode`
de-specializes to `BINARY_OP`, is not `BINARY_OP` itself and `oparg` is
`NB_ADD`.  But the bootstrap applies it to every code unit, cache words
included: on `RESUME; LOAD_FAST 0; LOAD_FAST 1; COMPARE_OP 0; RETURN_VALUE`,
where no instruction is optimizable and the cache word of `COMPARE_OP` holds
the two bytes of a specialized `BINARY_OP NB_ADD`, the bootstrap does not
return NULL: it creates a Tier2Info and returns the entry block. -/
theorem cache_word_counts_as_optimizable :
    (∀ (T : OpcodeTables) (opcode : Opcode) (oparg : Nat),
      IS_OPTIMIZABLE_OPCODE T opcode oparg = true ↔
        (T.deopt opcode = .BINARY_OP ∧ opcode ≠ .BINARY_OP ∧ oparg = T.NB_ADD)) ∧
    instruction_offsets sampleTables compareFrame.f_code (Py_SIZE compareFrame.f_code) 0
      = [0, 1, 2, 3, 5] ∧
    (∀ p ∈ instruction_offsets sampleTables compareFrame.f_code (Py_SIZE compareFrame.f_code) 0,
      IS_OPTIMIZABLE_OPCODE sampleTables (code_at compareFrame.f_code p).opcode
        (code_at compareFrame.f_code p).oparg = false) ∧
    ∃ r, _PyCode_Tier2Initialize sampleTables compareFrame [] sampleArena.u_code = .ok r ∧
      r.next = some (.tier2 0) ∧
      r.frame.f_code._tier2_info.is_null = false ∧
      r.frame.f_code._tier2_info.is_dangling = false := by
  refine ⟨?_, by decide, by decide, _, rfl, by decide, by decide, by decide⟩
  intro T opcode oparg
  unfold IS_OPTIMIZABLE_OPCODE
  constructor
  · intro h
    split at h
    · rename_i hd
      split_ifs at h with ho
      · have hne : opcode ≠ T.deopt opcode := by simpa using h
        exact ⟨hd, fun hc => hne (by rw [hd, hc]), ho⟩
    · simp at h
  · rintro ⟨hd, hne, ho⟩
    rw [hd]
    simp only [ho, if_true, decide_eq_true_eq]
    exact hne

/-! ## A failed registration at label `end` -/

/-- C26: when the allocation of the record fails at label `end` (first run:
the `PyMem_Malloc` of the record fails; second run: the table has to grow
and its reallocation fails), discovery does not return NULL: `temp_meta` is
not tested, and the `fprintf` under `BB_DEBUG` reads `meta->tier2_start`
through the NULL pointer.  Third run: a block was registered before at a
virtual end, the allocation for the block at the jump target fails, and
`add_metadata_to_jump_2d_array` reads `meta->id` through the NULL pointer. -/
theorem failed_registration_at_end_reads_null :
    _PyTier2_Code_DetectAndEmitBB sampleTables addCode (sampleInfo 2 []) sampleArena 0 2
        [none, none] [true, false] = .error .null_deref ∧
    _PyTier2_Code_DetectAndEmitBB sampleTables addCode (sampleInfo 0 []) sampleArena 0 2
        [none, none] [true, true, false] = .error .null_deref ∧
    _PyTier2_Code_DetectAndEmitBB sampleTables loopCode loopInfo sampleArena 0 2
        [none, none] [true, true, false] = .error .null_deref :=
  ⟨rfl, rfl, rfl⟩

/-! ## The operand of the `FOR_ITER` stub -/

set_option maxRecDepth 20000 in
/-- C28: the bootstrap of a code object whose `FOR_ITER` at offset 3 has
oparg 255.  The entry block ends with `BB_TEST_ITER`, one cache word,
`BB_BRANCH` and the cache word holding the block id 0, but the operand of
`BB_TEST_ITER` and of `BB_BRANCH` is 0: the sum
`255 + INLINE_CACHE_ENTRIES_FOR_ITER = 256` was truncated to 8 bits. -/
theorem for_iter_operand_is_truncated :
    code_at longLoopFrame.f_code 3 = ⟨.FOR_ITER, 255⟩ ∧
    (code_at longLoopFrame.f_code 3).oparg + sampleTables.INLINE_CACHE_ENTRIES_FOR_ITER = 256 ∧
    ∃ r, _PyCode_Tier2Initialize sampleTables longLoopFrame [] sampleArena.u_code = .ok r ∧
      r.next = some (.tier2 0) ∧
      r.arena_words 7 = some [⟨.RESUME_QUICK, 0⟩, ⟨.LOAD_FAST, 0⟩, ⟨.OTHER 68, 0⟩,
        ⟨.BB_TEST_ITER, 0⟩, ⟨.CACHE, 0⟩, ⟨.BB_BRANCH, 0⟩, sampleTables.bb_id_word 0] := by
  refine ⟨by decide, by decide, _, rfl, by decide, by decide⟩

/-! ## The last instruction of a block -/

theorem emit_cache_entries_words :
    ∀ (n : Nat) (u : UCode) (w : Nat),
      (∀ k, k < n → (emit_cache_entries u w n).1 (w + k) = _py_set_opcode (u (w + k)) .CACHE) ∧
      ∀ a, w + n ≤ a → (emit_cache_entries u w n).1 a = u a := by
  intro n
  induction n with
  | zero => intro u w; exact ⟨fun k hk => by omega, fun _ _ => rfl⟩
  | succ n ih =>
    intro u w
    obtain ⟨h1, h2⟩ := ih (u.store w (_py_set_opcode (u w) .CACHE)) (w + 1)
    have h3 := (emit_cache_entries_spec n (u.store w (_py_set_opcode (u w) .CACHE)) (w + 1)).2
    refine ⟨?_, ?_⟩
    · intro k hk
      simp only [emit_cache_entries]
      cases k with
      | zero =>
        simp only [Nat.add_zero]
        rw [h3 w (by omega), ucode_store_apply, if_pos rfl]
      | succ k =>
        have := h1 k (by omega)
        rw [show w + (k + 1) = w + 1 + k by omega, this, ucode_store_apply, if_neg (by omega)]
    · intro a ha
      simp only [emit_cache_entries]
      rw [h2 a (by omega), ucode_store_apply, if_neg (by omega)]

/-- The cache words of a branch stub, written from word `c` on: the first
one holds the block id, the others carry the opcode `CACHE`. -/
theorem branch_cache_words (T : OpcodeTables) (u : UCode) (c n bb_id : Nat) :
    (emit_cache_entries u c n).2 = c + n ∧
    store_bb_id T (emit_cache_entries u c n).1 c bb_id c = T.bb_id_word (bb_id % 65536) ∧
    (∀ k, 1 ≤ k → k < n →
      store_bb_id T (emit_cache_entries u c n).1 c bb_id (c + k)
        = _py_set_opcode (u (c + k)) .CACHE) ∧
    ∀ a, a < c → store_bb_id T (emit_cache_entries u c n).1 c bb_id a = u a := by
  refine ⟨(emit_cache_entries_spec n u c).1, ?_, ?_, ?_⟩
  · simp only [store_bb_id, ucode_store_apply, if_true]
  · intro k hk1 hkn
    simp only [store_bb_id, ucode_store_apply]
    rw [if_neg (by omega)]
    exact (emit_cache_entries_words n u c).1 k hkn
  · intro a ha
    simp only [store_bb_id, ucode_store_apply]
    rw [if_neg (by omega)]
    exact (emit_cache_entries_spec n u c).2 a ha

theorem logical_branch_opcode_class (d bop : Opcode)
    (h : logical_branch_opcode d = some bop) :
    IS_SCOPE_EXIT_OPCODE d = false ∧ IS_JUMP_OPCODE d = true ∧ d ≠ .JUMP_FORWARD ∧
    d ≠ .RESUME ∧ d ≠ .COMPARE_AND_BRANCH ∧ d ≠ .END_FOR := by
  cases d <;> simp [logical_branch_opcode] at h <;> decide

/-- Label `fall_through` at a jump that `emit_logical_branch` handles: the
stub is emitted and the block ends. -/
theorem fall_through_branch (T : OpcodeTables) (co : PyCodeObject) (s : Emit) (i : Nat)
    (bop : Opcode) (hb : logical_branch_opcode (T.deopt (code_at co i).opcode) = some bop)
    (r : UCode × Nat)
    (hr : emit_logical_branch T s.bb_space.u_code s.write_i (code_at co i) s.t2.bb_data_curr
      = .ok r) :
    fall_through T co s i
      = .ok (.goto_end { s with bb_space := { s.bb_space with u_code := r.1 }, write_i := r.2 }
          (i + T.caches (T.deopt (code_at co i).opcode))) := by
  obtain ⟨c1, c2, c3, -⟩ := logical_branch_opcode_class _ _ hb
  unfold fall_through
  simp only [c1, c2, c3, hr, Bool.false_eq_true, if_false, if_true]

/-- From a state of the scan loop at an instruction other than `RESUME`,
`COMPARE_AND_BRANCH` and `END_FOR` to label `fall_through`: the write
cursor and the arena words are those of the state, and when the pass from
`fall_through` ends the block, the loop is left through label `end`. -/
theorem scan_to_fall_through (T : OpcodeTables) (co : PyCodeObject) (n : Nat)
    (tc : List (Option PyTypeObject)) (fuel : Nat) (rd : Bool) (s : Emit) (i : Nat) (s0 : Emit)
    (hnot : ¬ (rd = false ∧ Py_SIZE co ≤ i))
    (h1 : T.deopt (code_at co i).opcode ≠ .RESUME)
    (h2 : T.deopt (code_at co i).opcode ≠ .COMPARE_AND_BRANCH)
    (h3 : T.deopt (code_at co i).opcode ≠ .END_FOR)
    (hentry : emission_state n tc s i = some s0) :
    s0.write_i = s.write_i ∧ s0.bb_space.u_code = s.bb_space.u_code ∧
    (bb_data_wf s.t2 → bb_data_wf s0.t2) ∧
    ∀ s1 i1, fall_through T co s0 i = .ok (.goto_end s1 i1) →
      scan T co n tc (fuel + 2) rd s i = .ok (.at_end s1 i1) := by
  unfold emission_state at hentry
  by_cases ht : IS_BACKWARDS_JUMP_TARGET s.t2 i = true
  · rw [if_pos ht] at hentry
    by_cases hv : s.virtual_start = true
    · rw [if_pos hv] at hentry
      simp only [Option.some.injEq] at hentry
      subst hentry
      have hd : dispatch_opcode T co n tc s i = fall_through T co (mark_jump_target s i) i := by
        unfold dispatch_opcode
        simp only [h1, h2, h3, ht, hv, if_true, if_false]
      refine ⟨rfl, rfl, fun h => h, ?_⟩
      intro s1 i1 hf
      exact scan_of_goto_end T co n tc (fuel + 1) rd s i s1 i1 hnot (hd.trans hf)
    · rw [if_neg hv] at hentry
      have hv0 : s.virtual_start = false := by simpa using hv
      rcases hA : _PyTier2_AllocateBBMetaData s.t2 s.heap s.t2_start ((i : Int) - 1) n tc with
        ⟨t2a, heap1, om⟩
      rw [hA] at hentry
      cases om with
      | none => simp at hentry
      | some m =>
        simp only [Option.some.injEq] at hentry
        subst hentry
        have hd := dispatch_opcode_split T co n tc s i h1 h2 h3 ht hv0
        rw [hA] at hd
        simp only at hd
        have hstep := scan_of_dispatch_goto T co n tc (fuel + 1) rd s i _ hnot hd
        obtain ⟨f1, f2, -, -, -, -, fwf⟩ :=
          allocate_metadata_frame s.t2 s.heap s.t2_start _ n tc t2a heap1 (some m) hA
        have ht1 : IS_BACKWARDS_JUMP_TARGET (virtual_end s t2a heap1 m).t2 i = true := by
          show IS_BACKWARDS_JUMP_TARGET t2a i = true
          rw [IS_BACKWARDS_JUMP_TARGET_congr f1 f2]
          exact ht
        have hv1 : (virtual_end s t2a heap1 m).virtual_start = true := rfl
        have hd2 : dispatch_opcode T co n tc (virtual_end s t2a heap1 m) i
            = fall_through T co (mark_jump_target (virtual_end s t2a heap1 m) i) i := by
          unfold dispatch_opcode
          simp only [h1, h2, h3, ht1, hv1, if_true, if_false]
        refine ⟨rfl, rfl, fun h => (fwf h).1, ?_⟩
        intro s1 i1 hf
        rw [hstep]
        exact scan_of_goto_end T co n tc fuel true _ i s1 i1 (fun h => by simp at h)
          (hd2.trans hf)
  · rw [if_neg ht] at hentry
    simp only [Option.some.injEq] at hentry
    subst hentry
    have hd : dispatch_opcode T co n tc s i = fall_through T co s i := by
      unfold dispatch_opcode
      simp only [h1, h2, h3, ht, if_false, Bool.false_eq_true]
    refine ⟨rfl, rfl, fun h => h, ?_⟩
    intro s1 i1 hf
    exact scan_of_goto_end T co n tc (fuel + 1) rd s i s1 i1 hnot (hd.trans hf)

/-- The record that label `end` registers for a block: its id is the value
of `bb_data_curr` before the registration. -/
theorem registered_record_id (t2 : _PyTier2Info) (heap : Allocator) (ts : Nat) (te : Int)
    (n : Nat) (tc : List (Option PyTypeObject)) (t2a : _PyTier2Info) (heap1 : Allocator)
    (m : _PyTier2BBMetadata) (hwf : bb_data_wf t2)
    (h : _PyTier2_AllocateBBMetaData t2 heap ts te n tc = (t2a, heap1, some m)) :
    m.id = t2.bb_data_curr ∧ m.tier2_start = ts ∧ bb_data_at t2a m.id = some m := by
  obtain ⟨-, -, -, -, -, -, fwf⟩ := allocate_metadata_frame t2 heap ts te n tc t2a heap1 _ h
  obtain ⟨-, -, -, hm⟩ := fwf hwf
  obtain ⟨e1, -, e3⟩ := hm m rfl
  subst e1
  exact ⟨rfl, rfl, e3⟩

/-- The words of the stub that `emit_logical_branch` writes for a
conditional branch. -/
theorem emit_conditional_branch_words (T : OpcodeTables) (u : UCode) (w : Nat)
    (branch : CodeUnit) (bb_id : Nat) (bop : Opcode)
    (hb : logical_branch_opcode (T.deopt branch.opcode) = some bop)
    (hb1 : bop ≠ .BB_JUMP_BACKWARD_LAZY) (hb2 : bop ≠ .BB_TEST_ITER) :
    ∃ r, emit_logical_branch T u w branch bb_id = .ok r ∧
      r.2 = w + 2 + T.INLINE_CACHE_ENTRIES_BB_BRANCH ∧
      r.1 w = ⟨bop, branch.oparg % 256⟩ ∧
      r.1 (w + 1) = ⟨.BB_BRANCH, branch.oparg % 256⟩ ∧
      r.1 (w + 2) = T.bb_id_word (bb_id % 65536) ∧
      (∀ k, 1 ≤ k → k < T.INLINE_CACHE_ENTRIES_BB_BRANCH → (r.1 (w + 2 + k)).opcode = .CACHE) ∧
      ∀ a, a < w → r.1 a = u a := by
  obtain ⟨t1, t2, t3, t4⟩ := branch_cache_words T
    (UCode.store (UCode.store u w ⟨bop, branch.oparg % 256⟩)
      (w + 1) ⟨.BB_BRANCH, branch.oparg % 256⟩)
    (w + 1 + 1) T.INLINE_CACHE_ENTRIES_BB_BRANCH bb_id
  unfold emit_logical_branch
  simp only [hb]
  rw [if_neg hb1, if_neg hb2]
  refine ⟨_, rfl, ?_, ?_, ?_, ?_, ?_, ?_⟩
  · exact t1
  · exact (t4 _ (by omega)).trans (by
      rw [ucode_store_apply, if_neg (by omega), ucode_store_apply, if_pos rfl])
  · exact (t4 _ (by omega)).trans (by rw [ucode_store_apply, if_pos rfl])
  · exact t2
  · intro k hk1 hk2
    exact congrArg CodeUnit.opcode (t3 k hk1 hk2)
  · intro a ha
    exact (t4 a (by omega)).trans (by
      rw [ucode_store_apply, if_neg (by omega), ucode_store_apply, if_neg (by omega)])

/-- The words of the stub that `emit_logical_branch` writes for a backward
jump. -/
theorem emit_backward_jump_words (T : OpcodeTables) (u : UCode) (w : Nat)
    (branch : CodeUnit) (bb_id : Nat)
    (hb : logical_branch_opcode (T.deopt branch.opcode) = some .BB_JUMP_BACKWARD_LAZY) :
    ∃ r, emit_logical_branch T u w branch bb_id = .ok r ∧
      r.2 = w + 2 + T.INLINE_CACHE_ENTRIES_BB_BRANCH ∧
      r.1 w = ⟨.EXTENDED_ARG, 0⟩ ∧
      r.1 (w + 1) = ⟨.BB_JUMP_BACKWARD_LAZY, branch.oparg % 256⟩ ∧
      r.1 (w + 2) = T.bb_id_word (bb_id % 65536) ∧
      (∀ k, 1 ≤ k → k < T.INLINE_CACHE_ENTRIES_BB_BRANCH → (r.1 (w + 2 + k)).opcode = .CACHE) ∧
      ∀ a, a < w → r.1 a = u a := by
  obtain ⟨t1, t2, t3, t4⟩ := branch_cache_words T
    (UCode.store (UCode.store u w ⟨.EXTENDED_ARG, 0⟩)
      (w + 1) ⟨.BB_JUMP_BACKWARD_LAZY, branch.oparg % 256⟩)
    (w + 1 + 1) T.INLINE_CACHE_ENTRIES_BB_BRANCH bb_id
  unfold emit_logical_branch
  simp only [hb, if_true]
  refine ⟨_, rfl, ?_, ?_, ?_, ?_, ?_, ?_⟩
  · exact t1
  · exact (t4 _ (by omega)).trans (by
      rw [ucode_store_apply, if_neg (by omega), ucode_store_apply, if_pos rfl])
  · exact (t4 _ (by omega)).trans (by rw [ucode_store_apply, if_pos rfl])
  · exact t2
  · intro k hk1 hk2
    exact congrArg CodeUnit.opcode (t3 k hk1 hk2)
  · intro a ha
    exact (t4 a (by omega)).trans (by
      rw [ucode_store_apply, if_neg (by omega), ucode_store_apply, if_neg (by omega)])

/-- The scan loop at a jump that `emit_logical_branch` handles: the loop is
left through label `end` right behind the stub, nothing was registered
since label `fall_through` was reached, and the record that label `end`
registers next gets the id that the stub was given. -/
theorem branch_ends_block (T : OpcodeTables) (co : PyCodeObject) (n : Nat)
    (tc : List (Option PyTypeObject)) (fuel : Nat) (s : Emit) (i : Nat) (s0 : Emit)
    (bop : Opcode) (r : UCode × Nat)
    (hi : i < Py_SIZE co)
    (hb : logical_branch_opcode (T.deopt (code_at co i).opcode) = some bop)
    (hwf : bb_data_wf s.t2)
    (hentry : emission_state n tc s i = some s0)
    (hr : emit_logical_branch T s.bb_space.u_code s.write_i (code_at co i) s0.t2.bb_data_curr
      = .ok r) :
    ∃ s1,
      scan T co n tc (fuel + 2) false s i
        = .ok (.at_end s1 (i + T.caches (T.deopt (code_at co i).opcode))) ∧
      detect_from T co n tc (fuel + 2) s i
        = detect_end s1 (i + T.caches (T.deopt (code_at co i).opcode)) n tc ∧
      s1.write_i = r.2 ∧ s1.bb_space.u_code = r.1 ∧
      (∀ t2a heap1 m,
        _PyTier2_AllocateBBMetaData s1.t2 s1.heap s1.t2_start
            (((i + T.caches (T.deopt (code_at co i).opcode) : Nat) : Int) + 1) n tc
          = (t2a, heap1, some m) →
        m.id = s0.t2.bb_data_curr ∧ bb_data_at t2a m.id = some m) ∧
      (never_fails s0.heap → (s0.t2.bb_data_len + 1) * 2 < 2 ^ 31 →
        ∃ t2a heap1 m,
          _PyTier2_AllocateBBMetaData s1.t2 s1.heap s1.t2_start
              (((i + T.caches (T.deopt (code_at co i).opcode) : Nat) : Int) + 1) n tc
            = (t2a, heap1, some m)) := by
  obtain ⟨-, -, -, c4, c5, c6⟩ := logical_branch_opcode_class _ _ hb
  have hnot : ¬ (false = false ∧ Py_SIZE co ≤ i) := fun h => by omega
  obtain ⟨e1, e2, e3, e4⟩ := scan_to_fall_through T co n tc fuel false s i s0 hnot c4 c5 c6 hentry
  have hwf0 := e3 hwf
  rw [← e1, ← e2] at hr
  have hscan := e4 _ _ (fall_through_branch T co s0 i bop hb r hr)
  refine ⟨_, hscan, ?_, rfl, rfl, ?_, ?_⟩
  · unfold detect_from
    rw [hscan]
  · intro t2a heap1 m hA
    obtain ⟨g1, -, g3⟩ :=
      registered_record_id s0.t2 s0.heap s0.t2_start _ n tc t2a heap1 m hwf0 hA
    exact ⟨g1, g3⟩
  · intro hheap hlen
    obtain ⟨t2a, heap1, hA, -⟩ := allocate_metadata_ok s0.t2 s0.heap s0.t2_start
      (((i + T.caches (T.deopt (code_at co i).opcode) : Nat) : Int) + 1) n tc hheap hlen hwf0
    exact ⟨t2a, heap1, _, hA⟩

/-- C22: the scan loop at a conditional branch.  Let the instruction at
offset `i` de-specialize to one of `JUMP_IF_FALSE_OR_POP`,
`JUMP_IF_TRUE_OR_POP`, `POP_JUMP_IF_FALSE`, `POP_JUMP_IF_TRUE`,
`POP_JUMP_IF_NOT_NONE`, `POP_JUMP_IF_NONE` (`bop` being the corresponding
`BB_TEST_*` opcode), and let `s0` be the state in which the loop reaches
label `fall_through` for it (the call returns NULL before when a block in
front of a jump target cannot be registered).  Then the loop is left through
label `end` with the stub as the last words of the block: the `BB_TEST_*`
word with the oparg, `BB_BRANCH` with the same oparg, and
`INLINE_CACHE_ENTRIES_BB_BRANCH` cache words of which the first holds the
value of `bb_data_curr` at that moment.  The record that label `end`
registers next, for the block that contains the stub, gets exactly this id
and is stored in the table under it; with an allocator that does not fail
the registration succeeds. -/
theorem conditional_branch_ends_block (T : OpcodeTables) (co : PyCodeObject) (n : Nat)
    (tc : List (Option PyTypeObject)) (fuel : Nat) (s : Emit) (i : Nat) (s0 : Emit)
    (bop : Opcode)
    (hi : i < Py_SIZE co)
    (hop : (T.deopt (code_at co i).opcode, bop) ∈
      [(Opcode.JUMP_IF_FALSE_OR_POP, Opcode.BB_TEST_IF_FALSE_OR_POP),
       (Opcode.JUMP_IF_TRUE_OR_POP, Opcode.BB_TEST_IF_TRUE_OR_POP),
       (Opcode.POP_JUMP_IF_FALSE, Opcode.BB_TEST_POP_IF_FALSE),
       (Opcode.POP_JUMP_IF_TRUE, Opcode.BB_TEST_POP_IF_TRUE),
       (Opcode.POP_JUMP_IF_NOT_NONE, Opcode.BB_TEST_POP_IF_NOT_NONE),
       (Opcode.POP_JUMP_IF_NONE, Opcode.BB_TEST_POP_IF_NONE)])
    (harg : (code_at co i).oparg < 256)
    (hcache : 1 ≤ T.INLINE_CACHE_ENTRIES_BB_BRANCH)
    (hwf : bb_data_wf s.t2)
    (hentry : emission_state n tc s i = some s0)
    (hid : s0.t2.bb_data_curr < 65536) :
    ∃ s1,
      scan T co n tc (fuel + 2) false s i
        = .ok (.at_end s1 (i + T.caches (T.deopt (code_at co i).opcode))) ∧
      detect_from T co n tc (fuel + 2) s i
        = detect_end s1 (i + T.caches (T.deopt (code_at co i).opcode)) n tc ∧
      s1.write_i = s.write_i + 2 + T.INLINE_CACHE_ENTRIES_BB_BRANCH ∧
      s.write_i + 2 < s1.write_i ∧
      s1.bb_space.u_code s.write_i = ⟨bop, (code_at co i).oparg⟩ ∧
      s1.bb_space.u_code (s.write_i + 1) = ⟨.BB_BRANCH, (code_at co i).oparg⟩ ∧
      s1.bb_space.u_code (s.write_i + 2) = T.bb_id_word s0.t2.bb_data_curr ∧
      (∀ k, 1 ≤ k → k < T.INLINE_CACHE_ENTRIES_BB_BRANCH →
        (s1.bb_space.u_code (s.write_i + 2 + k)).opcode = .CACHE) ∧
      (∀ a, a < s.write_i → s1.bb_space.u_code a = s.bb_space.u_code a) ∧
      (∀ t2a heap1 m,
        _PyTier2_AllocateBBMetaData s1.t2 s1.heap s1.t2_start
            (((i + T.caches (T.deopt (code_at co i).opcode) : Nat) : Int) + 1) n tc
          = (t2a, heap1, some m) →
        m.id = s0.t2.bb_data_curr ∧ bb_data_at t2a m.id = some m ∧
        s1.bb_space.u_code (s.write_i + 2) = T.bb_id_word m.id) ∧
      (never_fails s0.heap → (s0.t2.bb_data_len + 1) * 2 < 2 ^ 31 →
        ∃ t2a heap1 m,
          _PyTier2_AllocateBBMetaData s1.t2 s1.heap s1.t2_start
              (((i + T.caches (T.deopt (code_at co i).opcode) : Nat) : Int) + 1) n tc
            = (t2a, heap1, some m)) := by
  have hb : logical_branch_opcode (T.deopt (code_at co i).opcode) = some bop ∧
      bop ≠ .BB_JUMP_BACKWARD_LAZY ∧ bop ≠ .BB_TEST_ITER := by
    simp only [List.mem_cons, Prod.mk.injEq, List.mem_singleton, List.not_mem_nil,
      or_false] at hop
    rcases hop with ⟨h, hb⟩ | ⟨h, hb⟩ | ⟨h, hb⟩ | ⟨h, hb⟩ | ⟨h, hb⟩ | ⟨h, hb⟩ <;>
      (rw [h, hb]; exact ⟨rfl, by decide, by decide⟩)
  obtain ⟨hb, hb1, hb2⟩ := hb
  obtain ⟨r, hr, r1, r2, r3, r4, r5, r6⟩ := emit_conditional_branch_words T s.bb_space.u_code
    s.write_i (code_at co i) s0.t2.bb_data_curr bop hb hb1 hb2
  rw [Nat.mod_eq_of_lt harg] at r2 r3
  rw [Nat.mod_eq_of_lt hid] at r4
  obtain ⟨s1, q1, q2, q3, q4, q5, q6⟩ := branch_ends_block T co n tc fuel s i s0 bop r hi hb hwf
    hentry hr
  refine ⟨s1, q1, q2, q3.trans r1, by omega, ?_, ?_, ?_, ?_, ?_, ?_, q6⟩
  · rw [q4]; exact r2
  · rw [q4]; exact r3
  · rw [q4]; exact r4
  · rw [q4]; exact r5
  · rw [q4]; exact r6
  · intro t2a heap1 m hA
    obtain ⟨g1, g2⟩ := q5 t2a heap1 m hA
    exact ⟨g1, g2, by rw [q4, g1]; exact r4⟩

/-- Witness for C22: the `POP_JUMP_IF_FALSE 2` at offset 2 of the loop code
object, from the state before the scan on a fresh Tier2Info: the stub
`BB_TEST_POP_IF_FALSE 2; BB_BRANCH 2` and the cache word holding id 0 are
written at words 0, 1, 2. -/
theorem conditional_branch_ends_block_witness :
    2 < Py_SIZE loopCode ∧
    (sampleTables.deopt (code_at loopCode 2).opcode, Opcode.BB_TEST_POP_IF_FALSE) ∈
      [(Opcode.JUMP_IF_FALSE_OR_POP, Opcode.BB_TEST_IF_FALSE_OR_POP),
       (Opcode.JUMP_IF_TRUE_OR_POP, Opcode.BB_TEST_IF_TRUE_OR_POP),
       (Opcode.POP_JUMP_IF_FALSE, Opcode.BB_TEST_POP_IF_FALSE),
       (Opcode.POP_JUMP_IF_TRUE, Opcode.BB_TEST_POP_IF_TRUE),
       (Opcode.POP_JUMP_IF_NOT_NONE, Opcode.BB_TEST_POP_IF_NOT_NONE),
       (Opcode.POP_JUMP_IF_NONE, Opcode.BB_TEST_POP_IF_NONE)] ∧
    (code_at loopCode 2).oparg < 256 ∧
    1 ≤ sampleTables.INLINE_CACHE_ENTRIES_BB_BRANCH ∧
    bb_data_wf loopStart.t2 ∧
    emission_state 2 [none, none] loopStart 2 = some loopStart ∧
    loopStart.t2.bb_data_curr < 65536 ∧
    ∃ s1,
      scan sampleTables loopCode 2 [none, none] (0 + 2) false loopStart 2
        = .ok (.at_end s1 2) ∧
      s1.bb_space.u_code 0 = ⟨.BB_TEST_POP_IF_FALSE, 2⟩ ∧
      s1.bb_space.u_code 1 = ⟨.BB_BRANCH, 2⟩ ∧
      s1.bb_space.u_code 2 = sampleTables.bb_id_word 0 := by
  obtain ⟨s1, h1, -, -, -, h5, h6, h7, -⟩ :=
    conditional_branch_ends_block sampleTables loopCode 2 [none, none] 0 loopStart 2 loopStart
      .BB_TEST_POP_IF_FALSE (by decide) (by decide) (by decide) (by decide) loopInfo_wf rfl
      (by decide)
  exact ⟨by decide, by decide, by decide, by decide, loopInfo_wf, rfl, by decide,
    s1, h1, h5, h6, h7⟩

/-- C29: the scan loop at a backward jump.  Let the instruction at offset
`i` de-specialize to `JUMP_BACKWARD` or `JUMP_BACKWARD_QUICK`, and let `s0`
be the state in which the loop reaches label `fall_through` for it.  Then
the loop is left through label `end` with the stub as the last words of the
block: `EXTENDED_ARG 0`, `BB_JUMP_BACKWARD_LAZY` with the oparg, and
`INLINE_CACHE_ENTRIES_BB_BRANCH` cache words of which the first holds the
value of `bb_data_curr` at that moment, which is the id that the record of
the block gets at label `end`.  The stub has the shape that
`_PyTier2_RewriteBackwardJump` asserts at the address `L` of the
`BB_JUMP_BACKWARD_LAZY` word: the word at `L - 1` is `EXTENDED_ARG` and the
word at `L + 1`, which the rewrite overwrites, lies inside the stub. -/
theorem backward_jump_ends_block (T : OpcodeTables) (co : PyCodeObject) (n : Nat)
    (tc : List (Option PyTypeObject)) (fuel : Nat) (s : Emit) (i : Nat) (s0 : Emit)
    (hi : i < Py_SIZE co)
    (hop : T.deopt (code_at co i).opcode = .JUMP_BACKWARD ∨
      T.deopt (code_at co i).opcode = .JUMP_BACKWARD_QUICK)
    (harg : (code_at co i).oparg < 256)
    (hcache : 1 ≤ T.INLINE_CACHE_ENTRIES_BB_BRANCH)
    (hwf : bb_data_wf s.t2)
    (hentry : emission_state n tc s i = some s0)
    (hid : s0.t2.bb_data_curr < 65536) :
    ∃ s1,
      scan T co n tc (fuel + 2) false s i
        = .ok (.at_end s1 (i + T.caches (T.deopt (code_at co i).opcode))) ∧
      detect_from T co n tc (fuel + 2) s i
        = detect_end s1 (i + T.caches (T.deopt (code_at co i).opcode)) n tc ∧
      s1.write_i = s.write_i + 2 + T.INLINE_CACHE_ENTRIES_BB_BRANCH ∧
      s1.bb_space.u_code s.write_i = ⟨.EXTENDED_ARG, 0⟩ ∧
      s1.bb_space.u_code (s.write_i + 1) = ⟨.BB_JUMP_BACKWARD_LAZY, (code_at co i).oparg⟩ ∧
      s1.bb_space.u_code (s.write_i + 2) = T.bb_id_word s0.t2.bb_data_curr ∧
      (∀ k, 1 ≤ k → k < T.INLINE_CACHE_ENTRIES_BB_BRANCH →
        (s1.bb_space.u_code (s.write_i + 2 + k)).opcode = .CACHE) ∧
      (∀ a, a < s.write_i → s1.bb_space.u_code a = s.bb_space.u_code a) ∧
      ((s1.bb_space.u_code (s.write_i + 1)).opcode = .BB_JUMP_BACKWARD_LAZY ∧
        (s1.bb_space.u_code (s.write_i + 1 - 1)).opcode = .EXTENDED_ARG ∧
        s.write_i + 1 + 1 < s1.write_i) ∧
      (∀ t2a heap1 m,
        _PyTier2_AllocateBBMetaData s1.t2 s1.heap s1.t2_start
            (((i + T.caches (T.deopt (code_at co i).opcode) : Nat) : Int) + 1) n tc
          = (t2a, heap1, some m) →
        m.id = s0.t2.bb_data_curr ∧ bb_data_at t2a m.id = some m ∧
        s1.bb_space.u_code (s.write_i + 2) = T.bb_id_word m.id) ∧
      (never_fails s0.heap → (s0.t2.bb_data_len + 1) * 2 < 2 ^ 31 →
        ∃ t2a heap1 m,
          _PyTier2_AllocateBBMetaData s1.t2 s1.heap s1.t2_start
              (((i + T.caches (T.deopt (code_at co i).opcode) : Nat) : Int) + 1) n tc
            = (t2a, heap1, some m)) := by
  have hb : logical_branch_opcode (T.deopt (code_at co i).opcode)
      = some .BB_JUMP_BACKWARD_LAZY := by
    rcases hop with h | h <;> (rw [h]; rfl)
  obtain ⟨r, hr, r1, r2, r3, r4, r5, r6⟩ := emit_backward_jump_words T s.bb_space.u_code
    s.write_i (code_at co i) s0.t2.bb_data_curr hb
  rw [Nat.mod_eq_of_lt harg] at r3
  rw [Nat.mod_eq_of_lt hid] at r4
  obtain ⟨s1, q1, q2, q3, q4, q5, q6⟩ := branch_ends_block T co n tc fuel s i s0 _ r hi hb hwf
    hentry hr
  refine ⟨s1, q1, q2, q3.trans r1, ?_, ?_, ?_, ?_, ?_, ⟨?_, ?_, by omega⟩, ?_, q6⟩
  · rw [q4]; exact r2
  · rw [q4]; exact r3
  · rw [q4]; exact r4
  · rw [q4]; exact r5
  · rw [q4]; exact r6
  · rw [q4, r3]
  · rw [q4, Nat.add_sub_cancel, r2]
  · intro t2a heap1 m hA
    obtain ⟨g1, g2⟩ := q5 t2a heap1 m hA
    exact ⟨g1, g2, by rw [q4, g1]; exact r4⟩

/-- Witness for C29: the `JUMP_BACKWARD 4` at offset 4 of the loop code
object, from the state before the scan on a fresh Tier2Info: the stub
`EXTENDED_ARG 0; BB_JUMP_BACKWARD_LAZY 4` and the cache word holding id 0
are written at words 0, 1, 2. -/
theorem backward_jump_ends_block_witness :
    4 < Py_SIZE loopCode ∧
    (sampleTables.deopt (code_at loopCode 4).opcode = .JUMP_BACKWARD ∨
      sampleTables.deopt (code_at loopCode 4).opcode = .JUMP_BACKWARD_QUICK) ∧
    (code_at loopCode 4).oparg < 256 ∧
    1 ≤ sampleTables.INLINE_CACHE_ENTRIES_BB_BRANCH ∧
    bb_data_wf loopStart.t2 ∧
    emission_state 2 [none, none] loopStart 4 = some loopStart ∧
    loopStart.t2.bb_data_curr < 65536 ∧
    ∃ s1,
      scan sampleTables loopCode 2 [none, none] (0 + 2) false loopStart 4
        = .ok (.at_end s1 4) ∧
      s1.bb_space.u_code 0 = ⟨.EXTENDED_ARG, 0⟩ ∧
      s1.bb_space.u_code 1 = ⟨.BB_JUMP_BACKWARD_LAZY, 4⟩ ∧
      s1.bb_space.u_code 2 = sampleTables.bb_id_word 0 ∧
      s1.write_i = 3 := by
  obtain ⟨s1, h1, -, h3, h4, h5, h6, -⟩ :=
    backward_jump_ends_block sampleTables loopCode 2 [none, none] 0 loopStart 4 loopStart
      (by decide) (by decide) (by decide) (by decide) loopInfo_wf rfl (by decide)
  exact ⟨by decide, by decide, by decide, by decide, loopInfo_wf, rfl, by decide,
    s1, h1, h4, h5, h6, h3⟩

/-! ## Scope exits -/

theorem scan_forbidden_some (T : OpcodeTables) (code : List CodeUnit) (b : Bool)
    (h : scan_forbidden T code b ≠ none) :
    ∀ w ∈ code, IS_FORBIDDEN_OPCODE (T.deopt w.opcode) = false := by
  intro w hw
  by_contra hc
  have hf : IS_FORBIDDEN_OPCODE (T.deopt w.opcode) = true := by simpa using hc
  exact h (scan_forbidden_none T code b ⟨w, hw, hf⟩)

/-- The scope exits are the three opcodes that `emit_scope_exit` copies and
the two forbidden opcodes `RAISE_VARARGS` and `RERAISE`. -/
theorem scope_exit_cases (op : Opcode) (h : IS_SCOPE_EXIT_OPCODE op = true) :
    ((op = .RETURN_VALUE ∨ op = .RETURN_CONST ∨ op = .INTERPRETER_EXIT) ∧
      IS_FORBIDDEN_OPCODE op = false) ∨
    ((op = .RAISE_VARARGS ∨ op = .RERAISE) ∧ IS_FORBIDDEN_OPCODE op = true) := by
  cases op <;> simp [IS_SCOPE_EXIT_OPCODE] at h <;> simp [IS_FORBIDDEN_OPCODE]

theorem sampleTables_scope_exit (op : Opcode)
    (h : IS_SCOPE_EXIT_OPCODE (sampleTables.deopt op) = true) : sampleTables.deopt op = op := by
  cases op with
  | OTHER k =>
    by_cases hk : k = 1
    · subst hk
      exact absurd h (by decide)
    · simp [sampleTables, hk]
  | _ => first | rfl | exact absurd h (by decide)

/-- C30: the scan loop at a scope exit, on a code object that passed the
forbidden-opcode scan of the bootstrap, for decode tables in which the
scope-exit opcodes have no specialized forms.  A scope exit is one of
`RETURN_VALUE`, `RETURN_CONST`, `INTERPRETER_EXIT` (not forbidden) or
`RAISE_VARARGS`, `RERAISE` (forbidden).  The instruction at offset `i`, a
scope exit, is then one of the first three; `emit_scope_exit` does not reach
its `default` case on it; from the state `s0` in which the loop reaches
label `fall_through`, the Tier-1 word is written verbatim at the write
cursor as the last word of the block, and the loop is left through label
`end` at this instruction. -/
theorem scope_exit_ends_block (T : OpcodeTables) (co : PyCodeObject) (n : Nat)
    (tc : List (Option PyTypeObject)) (fuel : Nat) (s : Emit) (i : Nat) (s0 : Emit)
    (hT : ∀ op, IS_SCOPE_EXIT_OPCODE (T.deopt op) = true → T.deopt op = op)
    (hscan : scan_forbidden T co.co_code_adaptive false ≠ none)
    (hi : i < Py_SIZE co)
    (hexit : IS_SCOPE_EXIT_OPCODE (T.deopt (code_at co i).opcode) = true)
    (hentry : emission_state n tc s i = some s0) :
    (∀ op, IS_SCOPE_EXIT_OPCODE op = true →
      ((op = .RETURN_VALUE ∨ op = .RETURN_CONST ∨ op = .INTERPRETER_EXIT) ∧
        IS_FORBIDDEN_OPCODE op = false) ∨
      ((op = .RAISE_VARARGS ∨ op = .RERAISE) ∧ IS_FORBIDDEN_OPCODE op = true)) ∧
    ((code_at co i).opcode = .RETURN_VALUE ∨ (code_at co i).opcode = .RETURN_CONST ∨
      (code_at co i).opcode = .INTERPRETER_EXIT) ∧
    (∀ (u : UCode) (w : Nat),
      emit_scope_exit u w (code_at co i) = .ok (u.store w (code_at co i), w + 1)) ∧
    ∃ s1,
      scan T co n tc (fuel + 2) false s i = .ok (.at_end s1 i) ∧
      detect_from T co n tc (fuel + 2) s i = detect_end s1 i n tc ∧
      s1.write_i = s.write_i + 1 ∧
      s1.bb_space.u_code s.write_i = code_at co i ∧
      (∀ a, a < s.write_i → s1.bb_space.u_code a = s.bb_space.u_code a) := by
  have hmem : code_at co i ∈ co.co_code_adaptive := by
    unfold code_at
    rw [List.getD_eq_getElem _ _ hi]
    exact List.getElem_mem _
  have hnf := scan_forbidden_some T _ _ hscan _ hmem
  have hraw := hT _ hexit
  have hop : (code_at co i).opcode = .RETURN_VALUE ∨ (code_at co i).opcode = .RETURN_CONST ∨
      (code_at co i).opcode = .INTERPRETER_EXIT := by
    rcases scope_exit_cases _ hexit with ⟨h, -⟩ | ⟨-, h⟩
    · rw [hraw] at h; exact h
    · rw [hnf] at h; exact absurd h (by decide)
  have hemit : ∀ (u : UCode) (w : Nat),
      emit_scope_exit u w (code_at co i) = .ok (u.store w (code_at co i), w + 1) := by
    intro u w
    unfold emit_scope_exit
    rcases hop with h | h | h <;> simp only [h]
  have hne : T.deopt (code_at co i).opcode ≠ .RESUME ∧
      T.deopt (code_at co i).opcode ≠ .COMPARE_AND_BRANCH ∧
      T.deopt (code_at co i).opcode ≠ .END_FOR := by
    rw [hraw]
    rcases hop with h | h | h <;> (rw [h]; decide)
  have hnot : ¬ (false = false ∧ Py_SIZE co ≤ i) := fun h => by omega
  obtain ⟨e1, e2, -, e4⟩ :=
    scan_to_fall_through T co n tc fuel false s i s0 hnot hne.1 hne.2.1 hne.2.2 hentry
  have hft : fall_through T co s0 i
      = .ok (.goto_end { s0 with
          bb_space := { s0.bb_space with
            u_code := UCode.store s0.bb_space.u_code s0.write_i (code_at co i) },
          write_i := s0.write_i + 1 } i) := by
    unfold fall_through
    simp only [hexit, if_true, hemit]
  have hs := e4 _ _ hft
  refine ⟨scope_exit_cases, hop, hemit, _, hs, ?_, ?_, ?_, ?_⟩
  · unfold detect_from
    rw [hs]
  · show s0.write_i + 1 = s.write_i + 1
    rw [e1]
  · show UCode.store s0.bb_space.u_code s0.write_i (code_at co i) s.write_i = code_at co i
    rw [ucode_store_apply, if_pos e1.symm]
  · intro a ha
    show UCode.store s0.bb_space.u_code s0.write_i (code_at co i) a = s.bb_space.u_code a
    rw [ucode_store_apply, if_neg (by omega), e2]

/-- Witness for C30: the `RETURN_VALUE` at offset 5 of the loop code object,
from the state before the scan on a fresh Tier2Info. -/
theorem scope_exit_ends_block_witness :
    (∀ op, IS_SCOPE_EXIT_OPCODE (sampleTables.deopt op) = true → sampleTables.deopt op = op) ∧
    scan_forbidden sampleTables loopCode.co_code_adaptive false ≠ none ∧
    5 < Py_SIZE loopCode ∧
    IS_SCOPE_EXIT_OPCODE (sampleTables.deopt (code_at loopCode 5).opcode) = true ∧
    emission_state 2 [none, none] loopStart 5 = some loopStart ∧
    ∃ s1,
      scan sampleTables loopCode 2 [none, none] (0 + 2) false loopStart 5
        = .ok (.at_end s1 5) ∧
      s1.write_i = loopStart.write_i + 1 ∧
      s1.bb_space.u_code loopStart.write_i = code_at loopCode 5 := by
  obtain ⟨-, -, -, s1, h1, -, h3, h4, -⟩ :=
    scope_exit_ends_block sampleTables loopCode 2 [none, none] 0 loopStart 5 loopStart
      sampleTables_scope_exit (by decide) (by decide) (by decide) rfl
  exact ⟨sampleTables_scope_exit, by decide, by decide, by decide, rfl, s1, h1, h3, h4⟩

/-! ## The in-place substitution of the quick forms -/

theorem list_set_same {α : Type} (l : List α) (i : Nat) (h : i < l.length) :
    l.set i l[i] = l := by
  apply List.ext_getElem?
  intro k
  by_cases hk : i = k
  · subst hk
    rw [List.getElem?_set_self h, List.getElem?_eq_getElem h]
  · rw [List.getElem?_set_ne hk]

theorem instruction_offsets_from (T : OpcodeTables) (co : PyCodeObject) :
    ∀ (fuel i p : Nat), p ∈ instruction_offsets T co fuel i → i ≤ p := by
  intro fuel
  induction fuel with
  | zero => intro i p h; simp [instruction_offsets] at h
  | succ fuel ih =>
    intro i p h
    unfold instruction_offsets at h
    split_ifs at h with hsz
    · simp at h
    · rcases List.mem_cons.mp h with rfl | h
      · exact Nat.le_refl _
      · have := ih _ p h
        omega

theorem instruction_offsets_congr (T : OpcodeTables) (co co1 : PyCodeObject)
    (hsize : Py_SIZE co1 = Py_SIZE co) :
    ∀ (fuel i : Nat), (∀ q, i ≤ q → code_at co1 q = code_at co q) →
      instruction_offsets T co1 fuel i = instruction_offsets T co fuel i := by
  intro fuel
  induction fuel with
  | zero => intro i _; rfl
  | succ fuel ih =>
    intro i h
    unfold instruction_offsets
    rw [hsize, h i (Nat.le_refl _)]
    split_ifs
    · rfl
    · rw [ih _ (fun q hq => h q (by omega))]

/-- The loop of `replace_resume_and_jump_backwards` from index `i`: the
code keeps its length, the word of every instruction the loop stands at is
replaced by its quick form, and every other word is unchanged. -/
theorem replace_loop_spec (T : OpcodeTables) :
    ∀ (fuel i : Nat) (co : PyCodeObject),
      (replace_loop T fuel i co.co_code_adaptive).length = co.co_code_adaptive.length ∧
      ∀ p, (replace_loop T fuel i co.co_code_adaptive).getD p ⟨.CACHE, 0⟩
        = if p ∈ instruction_offsets T co fuel i then quick_form T (code_at co p)
          else code_at co p := by
  intro fuel
  induction fuel with
  | zero =>
    intro i co
    exact ⟨rfl, fun p => by simp [replace_loop, instruction_offsets, code_at]⟩
  | succ fuel ih =>
    intro i co
    by_cases hlen : co.co_code_adaptive.length ≤ i
    · have hsz : Py_SIZE co ≤ i := hlen
      rw [replace_loop, if_pos hlen, instruction_offsets, if_pos hsz]
      exact ⟨rfl, fun p => by simp [code_at]⟩
    · have hsz : ¬ Py_SIZE co ≤ i := hlen
      have hlt : i < co.co_code_adaptive.length := by omega
      have hstep : replace_loop T (fuel + 1) i co.co_code_adaptive
          = replace_loop T fuel (i + T.caches (T.deopt (code_at co i).opcode) + 1)
              (co.co_code_adaptive.set i (quick_form T (code_at co i))) := by
        rw [replace_loop, if_neg hlen]
        simp only [quick_form, code_at]
        split_ifs
        · rfl
        · rfl
        · congr 1
          rw [List.getD_eq_getElem _ _ hlt, list_set_same _ _ hlt]
      obtain ⟨l1, g1⟩ := ih (i + T.caches (T.deopt (code_at co i).opcode) + 1)
        { co with co_code_adaptive := co.co_code_adaptive.set i (quick_form T (code_at co i)) }
      simp only at l1 g1
      have hat : ∀ q, q ≠ i →
          code_at { co with
            co_code_adaptive := co.co_code_adaptive.set i (quick_form T (code_at co i)) } q
          = code_at co q := by
        intro q hq
        simp only [code_at, List.getD_eq_getElem?_getD]
        rw [List.getElem?_set_ne (fun h => hq h.symm)]
      have hoff := instruction_offsets_congr T co
        { co with co_code_adaptive := co.co_code_adaptive.set i (quick_form T (code_at co i)) }
        (by simp [Py_SIZE]) fuel (i + T.caches (T.deopt (code_at co i).opcode) + 1)
        (fun q hq => hat q (by omega))
      rw [hoff] at g1
      rw [hstep]
      refine ⟨by rw [l1, List.length_set], ?_⟩
      intro p
      rw [g1 p]
      have hcons : instruction_offsets T co (fuel + 1) i
          = i :: instruction_offsets T co fuel
              (i + T.caches (T.deopt (code_at co i).opcode) + 1) := by
        rw [instruction_offsets, if_neg hsz]
      rw [hcons]
      by_cases hp : p = i
      · subst hp
        have hnm : p ∉ instruction_offsets T co fuel
            (p + T.caches (T.deopt (code_at co p).opcode) + 1) := by
          intro hm
          have := instruction_offsets_from T co _ _ _ hm
          omega
        rw [if_neg hnm, if_pos (List.mem_cons_self _ _)]
        simp only [code_at, List.getD_eq_getElem?_getD]
        rw [List.getElem?_set_self hlt]
        rfl
      · rw [hat p hp]
        by_cases hm : p ∈ instruction_offsets T co fuel
            (i + T.caches (T.deopt (code_at co i).opcode) + 1)
        · rw [if_pos hm, if_pos (List.mem_cons_of_mem _ hm)]
        · rw [if_neg hm, if_neg (fun h => by
            rcases List.mem_cons.mp h with h | h
            · exact hp h
            · exact hm h)]

/-- C23, amended: when the bootstrap aborts because a forbidden opcode is
present or because the scan finds no optimizable opcode, it returns NULL
without any allocation, `co->_tier2_info`, the warm-up counter and the
frame's `prev_instr` are what they were, and the bytecode has the same
length and differs from the bytecode before the call in this only: the
opcode of every instruction (cache words excluded) that de-specializes to
`RESUME` is `RESUME_QUICK`, and the opcode of every instruction that
de-specializes to `JUMP_BACKWARD` is `JUMP_BACKWARD_QUICK`.  Every oparg and
every other word is unchanged. -/
theorem aborted_bootstrap_only_replaces_quick_forms (T : OpcodeTables)
    (frame : _PyInterpreterFrame) (heap : Allocator) (fresh : UCode)
    (habort : (∃ w ∈ frame.f_code.co_code_adaptive,
        IS_FORBIDDEN_OPCODE (T.deopt w.opcode) = true) ∨
      scan_forbidden T (replace_resume_and_jump_backwards T frame.f_code).co_code_adaptive
        false = some false) :
    ∃ r, _PyCode_Tier2Initialize T frame heap fresh = .ok r ∧ r.next = none ∧
      r.heap = heap ∧ r.frame.prev_instr = frame.prev_instr ∧
      r.frame.f_code._tier2_info = frame.f_code._tier2_info ∧
      r.frame.f_code._tier2_warmup = frame.f_code._tier2_warmup ∧
      Py_SIZE r.frame.f_code = Py_SIZE frame.f_code ∧
      (∀ p, code_at r.frame.f_code p
        = if p ∈ instruction_offsets T frame.f_code (Py_SIZE frame.f_code) 0 then
            quick_form T (code_at frame.f_code p)
          else code_at frame.f_code p) ∧
      (∀ p, (code_at r.frame.f_code p).oparg = (code_at frame.f_code p).oparg) := by
  have hscan : scan_forbidden T
        (replace_resume_and_jump_backwards T frame.f_code).co_code_adaptive false = none ∨
      scan_forbidden T
        (replace_resume_and_jump_backwards T frame.f_code).co_code_adaptive false
        = some false := by
    rcases habort with ⟨w, hmem, hw⟩ | h
    · left
      obtain ⟨p, hp⟩ := List.getElem?_of_mem hmem
      have hkeep := replace_loop_keeps_forbidden T w hw (Py_SIZE frame.f_code) 0 _ p hp
      exact scan_forbidden_none T _ _ ⟨w, List.getElem?_mem hkeep, hw⟩
    · exact Or.inr h
  obtain ⟨hl, hg⟩ := replace_loop_spec T (Py_SIZE frame.f_code) 0 frame.f_code
  have hres : _PyCode_Tier2Initialize T frame heap fresh
      = .ok ⟨{ frame with f_code := replace_resume_and_jump_backwards T frame.f_code },
          heap, none⟩ := by
    unfold _PyCode_Tier2Initialize
    rcases hscan with h | h <;> (simp only [h]; split_ifs <;> rfl)
  refine ⟨_, hres, rfl, rfl, rfl, rfl, rfl, hl, hg, ?_⟩
  intro p
  have := hg p
  simp only [replace_resume_and_jump_backwards, code_at] at this ⊢
  rw [this]
  unfold quick_form
  split_ifs <;> rfl

/-- Witness for C23: the code object `RESUME; YIELD_VALUE; RETURN_VALUE`,
which contains a forbidden opcode; after the aborted bootstrap it reads
`RESUME_QUICK; YIELD_VALUE; RETURN_VALUE`. -/
theorem aborted_bootstrap_only_replaces_quick_forms_witness :
    ((∃ w ∈ yieldFrame.f_code.co_code_adaptive,
        IS_FORBIDDEN_OPCODE (sampleTables.deopt w.opcode) = true) ∨
      scan_forbidden sampleTables
        (replace_resume_and_jump_backwards sampleTables yieldFrame.f_code).co_code_adaptive
        false = some false) ∧
    instruction_offsets sampleTables yieldFrame.f_code (Py_SIZE yieldFrame.f_code) 0
      = [0, 1, 2] ∧
    ∃ r, _PyCode_Tier2Initialize sampleTables yieldFrame [] sampleArena.u_code = .ok r ∧
      r.next = none ∧
      Py_SIZE r.frame.f_code = Py_SIZE yieldFrame.f_code ∧
      ∀ p, code_at r.frame.f_code p
        = if p ∈ instruction_offsets sampleTables yieldFrame.f_code
              (Py_SIZE yieldFrame.f_code) 0 then
            quick_form sampleTables (code_at yieldFrame.f_code p)
          else code_at yieldFrame.f_code p := by
  obtain ⟨r, h1, h2, -, -, -, -, h7, h8, -⟩ :=
    aborted_bootstrap_only_replaces_quick_forms sampleTables yieldFrame [] sampleArena.u_code
      (Or.inl (by decide))
  exact ⟨Or.inl (by decide), by decide, r, h1, h2, h7, h8⟩

/-! ## The warm-up entry point -/

/-- The bootstrap does not write the warm-up counter. -/
theorem initialize_keeps_counter (T : OpcodeTables) (frame : _PyInterpreterFrame)
    (heap : Allocator) (fresh : UCode) (r : InitResult)
    (h : _PyCode_Tier2Initialize T frame heap fresh = .ok r) :
    r.frame.f_code._tier2_warmup = frame.f_code._tier2_warmup := by
  unfold _PyCode_Tier2Initialize at h
  simp only at h
  split_ifs at h
  · cases h; rfl
  · repeat' (split at h)
    all_goals first
      | (cases h; rfl)
      | (exact absurd h (by simp))

/-- C25: `_PyCode_Tier2Warmup` on a code object whose warm-up counter counts
up from a negative value and that has no Tier2Info yet.  If the code object
has a Tier2Info after the call (the bootstrap has run), its warm-up counter
is 0, and every later call of `_PyCode_Tier2Warmup` on it returns
`next_instr` and leaves the frame, with the code object's counter, bytecode
and Tier2Info, and the allocator as they are. -/
theorem warmup_after_bootstrap_is_noop (T : OpcodeTables) (frame : _PyInterpreterFrame)
    (heap : Allocator) (fresh : UCode) (next_instr : InstrPtr) (r : WarmupResult)
    (hneg : frame.f_code._tier2_warmup < 0)
    (hnull : frame.f_code._tier2_info.is_null = true)
    (hrun : _PyCode_Tier2Warmup T frame heap fresh next_instr = .ok r)
    (hinfo : r.frame.f_code._tier2_info.is_null = false) :
    r.frame.f_code._tier2_warmup = 0 ∧
    ∀ (heap2 : Allocator) (fresh2 : UCode) (next_instr2 : InstrPtr),
      _PyCode_Tier2Warmup T r.frame heap2 fresh2 next_instr2
        = .ok ⟨r.frame, heap2, next_instr2⟩ := by
  have hzero : r.frame.f_code._tier2_warmup = 0 := by
    unfold _PyCode_Tier2Warmup at hrun
    simp only at hrun
    rw [if_pos (by omega)] at hrun
    by_cases hge : frame.f_code._tier2_warmup + 1 ≥ 0
    · rw [if_pos hge] at hrun
      rcases hI : _PyCode_Tier2Initialize T
          { frame with f_code := { frame.f_code with
              _tier2_warmup := frame.f_code._tier2_warmup + 1 } } heap fresh with f | ri
      · rw [hI] at hrun
        simp at hrun
      · rw [hI] at hrun
        have hk := initialize_keeps_counter T _ heap fresh ri hI
        simp only at hk
        have hfr : r.frame = ri.frame := by
          cases hn : ri.next with
          | none => simp only [hn, Except.ok.injEq] at hrun; rw [← hrun]
          | some nx => simp only [hn, Except.ok.injEq] at hrun; rw [← hrun]
        rw [hfr, hk]
        omega
    · rw [if_neg hge] at hrun
      simp only [Except.ok.injEq] at hrun
      rw [← hrun] at hinfo
      simp only at hinfo
      rw [hnull] at hinfo
      exact absurd hinfo (by decide)
  refine ⟨hzero, ?_⟩
  intro heap2 fresh2 next_instr2
  unfold _PyCode_Tier2Warmup
  simp only [hzero, ne_eq, not_true_eq_false, if_false]

/-- Witness for C25: the first call on the frame of the code object that
adds two constants (counter -1, no Tier2Info) runs the bootstrap and enters
the entry block; a second call leaves everything as it is. -/
theorem warmup_after_bootstrap_is_noop_witness :
    constAddFrame.f_code._tier2_warmup < 0 ∧
    constAddFrame.f_code._tier2_info.is_null = true ∧
    ∃ r, _PyCode_Tier2Warmup sampleTables constAddFrame [] sampleArena.u_code (.tier1 1)
        = .ok r ∧
      r.next = .tier2 0 ∧
      r.frame.f_code._tier2_info.is_null = false ∧
      r.frame.f_code._tier2_warmup = 0 ∧
      ∀ (heap2 : Allocator) (fresh2 : UCode) (next_instr2 : InstrPtr),
        _PyCode_Tier2Warmup sampleTables r.frame heap2 fresh2 next_instr2
          = .ok ⟨r.frame, heap2, next_instr2⟩ :=
  ⟨by decide, by decide, _, rfl, by decide, by decide,
    warmup_after_bootstrap_is_noop sampleTables constAddFrame [] sampleArena.u_code (.tier1 1) _
      (by decide) (by decide) rfl (by decide)⟩


/-! ## Jumps that `emit_logical_branch` does not handle -/

/-- C31: `JUMP_BACKWARD_NO_INTERRUPT` is the one opcode that is a jump, is
not forbidden, is not `JUMP_FORWARD` and has no case in the `switch` of
`emit_logical_branch`.  The code object `RESUME; LOAD_FAST 0; LOAD_FAST 1;
OTHER 1 NB_ADD; STORE_FAST 0; JUMP_BACKWARD_NO_INTERRUPT 6` passes the scan
of the bootstrap (no forbidden opcode, one optimizable opcode), and the
discovery of its entry block reaches `Py_UNREACHABLE()` in the `default`
case of `emit_logical_branch`. -/
theorem no_interrupt_jump_reaches_unreachable :
    (∀ d : Opcode,
      (IS_JUMP_OPCODE d = true ∧ IS_FORBIDDEN_OPCODE d = false ∧ d ≠ .JUMP_FORWARD ∧
        logical_branch_opcode d = none) ↔ d = .JUMP_BACKWARD_NO_INTERRUPT) ∧
    sampleTables.deopt .JUMP_BACKWARD_NO_INTERRUPT = .JUMP_BACKWARD_NO_INTERRUPT ∧
    code_at noInterruptFrame.f_code 6 = ⟨.JUMP_BACKWARD_NO_INTERRUPT, 6⟩ ∧
    emit_logical_branch sampleTables sampleArena.u_code 0 (code_at noInterruptFrame.f_code 6) 0
      = .error .unreachable ∧
    scan_forbidden sampleTables
      (replace_resume_and_jump_backwards sampleTables noInterruptFrame.f_code).co_code_adaptive
      false = some true ∧
    _PyCode_Tier2Initialize sampleTables noInterruptFrame [] sampleArena.u_code
      = .error .unreachable := by
  refine ⟨?_, by decide, by decide, rfl, by decide, rfl⟩
  intro d
  constructor
  · rintro ⟨h1, h2, h3, h4⟩
    cases d <;>
      simp_all [IS_JUMP_OPCODE, IS_JREL_OPCODE, IS_JABS_OPCODE, IS_FORBIDDEN_OPCODE,
        logical_branch_opcode]
  · rintro rfl
    decide

/-! ## The room a successor block takes -/

/-- C32: the code object of `while True: if c1 and c2 and c3 and c4 and c5:
a = a + b` (17 words, arena of `max_capacity` 86 bytes) after the bootstrap
and nine successor requests: the water level is 82.  The request for the
taken branch of the fifth test starts discovery at offset 16, the
`JUMP_BACKWARD` that is the last word of the code.  The remaining Tier-1
length, which `_PyTier2_GenerateNextBB` reserves, is 2 bytes, and
`82 + 2 <= 86`, so the arena is not grown; discovery then writes the three
words of the stub, 6 bytes, at words 41 to 43: the water level becomes 88,
above `max_capacity`, and word 43 lies behind the end of the arena. -/
theorem successor_block_overruns_arena :
    ∃ t2 g, andChainInfo = some t2 ∧
      t2._bb_space.map (fun sp => sp.summary 41 0) = some (82, 86, []) ∧
      code_at andChainCode 16 = ⟨.JUMP_BACKWARD_QUICK, 16⟩ ∧
      (_PyCode_NBYTES andChainCode : Int) - 16 * (sizeof_CODEUNIT : Int) = 2 ∧
      _PyTier2_GenerateNextBB sampleTables andChainCode t2 [] 5 5 = .ok g ∧
      g.tier1_fallback = 16 ∧
      g.result = some 41 ∧
      g.t2._bb_space.map (fun sp => sp.summary 41 3)
        = some (88, 86, [⟨.EXTENDED_ARG, 0⟩, ⟨.BB_JUMP_BACKWARD_LAZY, 16⟩,
            sampleTables.bb_id_word 11]) := by
  refine ⟨_, _, rfl, by decide, by decide, by decide, rfl, by decide, by decide, by decide⟩

/-! ## Termination of the scan loop -/

/-- One pass through the `switch`, from any state: `Py_UNREACHABLE()`, or
`continue` at an index not below `i`, or `END()`, or `return NULL`, or the
re-dispatch after a virtual end, which is taken only with `virtual_start`
unset and leaves it set. -/
theorem dispatch_opcode_pass (T : OpcodeTables) (co : PyCodeObject) (n : Nat)
    (tc : List (Option PyTypeObject)) (s : Emit) (i : Nat) :
    dispatch_opcode T co n tc s i = .error .unreachable ∨
    (∃ s1 i1, dispatch_opcode T co n tc s i = .ok (.continue_ s1 i1) ∧ i ≤ i1) ∨
    (∃ s1 i1, dispatch_opcode T co n tc s i = .ok (.goto_end s1 i1)) ∨
    (∃ s1, dispatch_opcode T co n tc s i = .ok (.return_null s1)) ∨
    (∃ s1, dispatch_opcode T co n tc s i = .ok (.dispatch_goto s1) ∧
      s.virtual_start = false ∧ s1.virtual_start = true) := by
  have hft : ∀ s0 : Emit,
      fall_through T co s0 i = .error .unreachable ∨
      (∃ s1 i1, fall_through T co s0 i = .ok (.continue_ s1 i1) ∧ i ≤ i1) ∨
      (∃ s1 i1, fall_through T co s0 i = .ok (.goto_end s1 i1)) ∨
      (∃ s1, fall_through T co s0 i = .ok (.return_null s1)) ∨
      (∃ s1, fall_through T co s0 i = .ok (.dispatch_goto s1) ∧
        s.virtual_start = false ∧ s1.virtual_start = true) := by
    intro s0
    rcases fall_through_spec T co s0 i with he | ⟨s1, i1, he, hi1, -, -⟩ | ⟨s1, i1, he, -, -, -⟩
    · exact Or.inl he
    · exact Or.inr (Or.inl ⟨s1, i1, he, hi1⟩)
    · exact Or.inr (Or.inr (Or.inl ⟨s1, i1, he⟩))
  unfold dispatch_opcode
  simp only
  split_ifs with h1 h2 h3 h4 h5
  · exact Or.inr (Or.inl ⟨_, _, rfl, by omega⟩)
  · exact Or.inr (Or.inl ⟨_, _, rfl, by omega⟩)
  · exact Or.inr (Or.inl ⟨_, _, rfl, by omega⟩)
  · exact hft _
  · rcases hA : _PyTier2_AllocateBBMetaData s.t2 s.heap s.t2_start ((i : Int) - 1) n tc with
      ⟨t2a, heap1, om⟩
    cases om with
    | none => exact Or.inr (Or.inr (Or.inr (Or.inl ⟨_, rfl⟩)))
    | some m =>
      exact Or.inr (Or.inr (Or.inr (Or.inr ⟨_, rfl, by simpa using h5, rfl⟩)))
  · exact hft _

/-- The scan loop does not run out of steps: `2 * (Py_SIZE(co) - i)` passes,
plus one for a re-dispatch while `virtual_start` is unset, plus the final
test of the loop condition, are enough. -/
theorem scan_has_fuel (T : OpcodeTables) (co : PyCodeObject) (n : Nat)
    (tc : List (Option PyTypeObject)) :
    ∀ (fuel : Nat) (rd : Bool) (s : Emit) (i : Nat),
      (rd = true → i < Py_SIZE co) →
      2 * (Py_SIZE co - i) + (if s.virtual_start = true then 1 else 2) ≤ fuel →
      scan T co n tc fuel rd s i ≠ .error .out_of_fuel := by
  intro fuel
  induction fuel with
  | zero =>
    intro rd s i _ hf
    split_ifs at hf <;> omega
  | succ fuel ih =>
    intro rd s i hrd hf
    by_cases hend : rd = false ∧ Py_SIZE co ≤ i
    · rw [scan, if_pos hend]
      simp
    · have hi : i < Py_SIZE co := by
        cases rd with
        | true => exact hrd rfl
        | false =>
          have : ¬ Py_SIZE co ≤ i := fun h => hend ⟨rfl, h⟩
          omega
      rcases dispatch_opcode_pass T co n tc s i with
        he | ⟨s1, i1, he, hi1⟩ | ⟨s1, i1, he⟩ | ⟨s1, he⟩ | ⟨s1, he, hv, hv1⟩
      · rw [scan_of_error T co n tc fuel rd s i _ hend he]
        simp
      · rw [scan_of_continue T co n tc fuel rd s i s1 i1 hend he]
        apply ih
        · intro h; simp at h
        · split_ifs at hf ⊢ <;> omega
      · rw [scan_of_goto_end T co n tc fuel rd s i s1 i1 hend he]
        simp
      · rw [scan_of_return_null T co n tc fuel rd s i s1 hend he]
        simp
      · rw [scan_of_dispatch_goto T co n tc fuel rd s i s1 hend he]
        apply ih
        · intro _; exact hi
        · rw [if_pos hv1]
          rw [if_neg (by rw [hv]; simp)] at hf
          omega

/-- Steps beyond those the scan loop needs do not change its result. -/
theorem scan_fuel_mono (T : OpcodeTables) (co : PyCodeObject) (n : Nat)
    (tc : List (Option PyTypeObject)) :
    ∀ (fuel : Nat) (rd : Bool) (s : Emit) (i : Nat),
      scan T co n tc fuel rd s i ≠ .error .out_of_fuel →
      ∀ k, scan T co n tc (fuel + k) rd s i = scan T co n tc fuel rd s i := by
  intro fuel
  induction fuel with
  | zero => intro rd s i h; exact absurd rfl h
  | succ fuel ih =>
    intro rd s i h k
    rw [show fuel + 1 + k = (fuel + k) + 1 by omega]
    by_cases hend : rd = false ∧ Py_SIZE co ≤ i
    · rw [scan, if_pos hend, scan, if_pos hend]
    · rcases dispatch_opcode_pass T co n tc s i with
        he | ⟨s1, i1, he, -⟩ | ⟨s1, i1, he⟩ | ⟨s1, he⟩ | ⟨s1, he, -, -⟩
      · rw [scan_of_error T co n tc _ rd s i _ hend he,
          scan_of_error T co n tc _ rd s i _ hend he]
      · rw [scan_of_continue T co n tc _ rd s i s1 i1 hend he] at h ⊢
        rw [scan_of_continue T co n tc _ rd s i s1 i1 hend he]
        exact ih _ _ _ h k
      · rw [scan_of_goto_end T co n tc _ rd s i s1 i1 hend he,
          scan_of_goto_end T co n tc _ rd s i s1 i1 hend he]
      · rw [scan_of_return_null T co n tc _ rd s i s1 hend he,
          scan_of_return_null T co n tc _ rd s i s1 hend he]
      · rw [scan_of_dispatch_goto T co n tc _ rd s i s1 hend he] at h ⊢
        rw [scan_of_dispatch_goto T co n tc _ rd s i s1 hend he]
        exact ih _ _ _ h k

theorem add_metadata_has_fuel (t2 : _PyTier2Info) (md : Option _PyTier2BBMetadata)
    (target : Int) : add_metadata_to_jump_2d_array t2 md target ≠ .error .out_of_fuel := by
  unfold add_metadata_to_jump_2d_array
  simp only
  split
  · simp
  · split
    · simp
    · split <;> simp

/-- Label `end` is straight-line code. -/
theorem detect_end_has_fuel (s : Emit) (i n : Nat) (tc : List (Option PyTypeObject)) :
    detect_end s i n tc ≠ .error .out_of_fuel := by
  unfold detect_end
  rcases _PyTier2_AllocateBBMetaData s.t2 s.heap s.t2_start ((i : Int) + 1) n tc with
    ⟨t2a, heap1, temp⟩
  simp only
  by_cases hs : s.starts_with_backwards_jump_target = true
  · simp only [hs, if_true, true_and]
    rcases hI : add_metadata_to_jump_2d_array t2a temp s.backwards_jump_target_offset with
      f | ⟨rc, t2b⟩
    · simp only
      intro h
      injection h with h
      subst h
      exact add_metadata_has_fuel _ _ _ hI
    · simp only
      split_ifs
      all_goals first
        | (simp; done)
        | (cases temp <;> (simp; done))
        | (cases hm : s.metadata <;> simp)
  · simp only [hs, Bool.false_eq_true, if_false, false_and]
    split_ifs
    all_goals first
      | (simp; done)
      | (cases temp <;> (simp; done))
      | (cases hm : s.metadata <;> simp)

/-- C33: `_PyTier2_Code_DetectAndEmitBB` terminates, for every code object,
Tier2Info, arena, start offset, type context and allocator: the call does
not run out of the `2 * (Py_SIZE(co) - tier1_start) + 2` steps of the scan
loop that the model grants it (it returns, or it stops at
`Py_UNREACHABLE()` or at a fault of label `end`), and granting more steps
does not change the result.  Each pass through the `switch` of the scan
loop, from any state and at any index `i`, ends in one of five ways:
`Py_UNREACHABLE()`; `continue` at an index not below `i`, after which the
loop's `i++` makes the index strictly larger; `END()`; `return NULL`; or
the re-dispatch of the same instruction after a virtual end, which is taken
only with `virtual_start` unset and sets it, so that the pass that follows
for the same instruction does not re-dispatch again. -/
theorem discovery_terminates (T : OpcodeTables) (co : PyCodeObject) (t2 : _PyTier2Info)
    (bb_space : _PyTier2BBSpace) (tier1_start : Nat) (n : Nat)
    (tc : List (Option PyTypeObject)) (heap : Allocator) :
    _PyTier2_Code_DetectAndEmitBB T co t2 bb_space tier1_start n tc heap
      ≠ .error .out_of_fuel ∧
    (∀ (s : Emit) (k : Nat),
      detect_from T co n tc (2 * (Py_SIZE co - tier1_start) + 2 + k) s tier1_start
        = detect_from T co n tc (2 * (Py_SIZE co - tier1_start) + 2) s tier1_start) ∧
    (∀ (s : Emit) (i : Nat),
      dispatch_opcode T co n tc s i = .error .unreachable ∨
      (∃ s1 i1, dispatch_opcode T co n tc s i = .ok (.continue_ s1 i1) ∧ i < i1 + 1) ∨
      (∃ s1 i1, dispatch_opcode T co n tc s i = .ok (.goto_end s1 i1)) ∨
      (∃ s1, dispatch_opcode T co n tc s i = .ok (.return_null s1)) ∨
      (∃ s1, dispatch_opcode T co n tc s i = .ok (.dispatch_goto s1) ∧
        s.virtual_start = false ∧ s1.virtual_start = true ∧
        ∀ s2, dispatch_opcode T co n tc s1 i ≠ .ok (.dispatch_goto s2))) := by
  have hscan : ∀ (s : Emit) (m : Nat) (tc1 : List (Option PyTypeObject)),
      scan T co m tc1 (2 * (Py_SIZE co - tier1_start) + 2) false s tier1_start
        ≠ .error .out_of_fuel := by
    intro s m tc1
    apply scan_has_fuel T co m tc1 _ false s tier1_start (fun h => by simp at h)
    split_ifs <;> omega
  have hfrom : ∀ (s : Emit) (m : Nat) (tc1 : List (Option PyTypeObject)),
      detect_from T co m tc1 (2 * (Py_SIZE co - tier1_start) + 2) s tier1_start
        ≠ .error .out_of_fuel := by
    intro s m tc1
    unfold detect_from
    have h := hscan s m tc1
    rcases hr : scan T co m tc1 (2 * (Py_SIZE co - tier1_start) + 2) false s tier1_start with
      f | e
    · rw [hr] at h
      simp only
      intro hc
      injection hc with hc
      exact h (by rw [hc])
    · cases e with
      | at_end s1 i1 => exact detect_end_has_fuel s1 i1 m tc1
      | returned_null s1 => simp
  refine ⟨?_, ?_, ?_⟩
  · unfold _PyTier2_Code_DetectAndEmitBB
    rcases PyMem_Malloc heap with ⟨b, heap1⟩
    cases b with
    | false => simp
    | true => exact hfrom _ _ _
  · intro s k
    unfold detect_from
    rw [scan_fuel_mono T co n tc _ false s tier1_start (hscan s n tc) k]
  · intro s i
    rcases dispatch_opcode_pass T co n tc s i with
      he | ⟨s1, i1, he, hi1⟩ | ⟨s1, i1, he⟩ | ⟨s1, he⟩ | ⟨s1, he, hv, hv1⟩
    · exact Or.inl he
    · exact Or.inr (Or.inl ⟨s1, i1, he, by omega⟩)
    · exact Or.inr (Or.inr (Or.inl ⟨s1, i1, he⟩))
    · exact Or.inr (Or.inr (Or.inr (Or.inl ⟨s1, he⟩)))
    · refine Or.inr (Or.inr (Or.inr (Or.inr ⟨s1, he, hv, hv1, ?_⟩)))
      intro s2 hc
      rcases dispatch_opcode_pass T co n tc s1 i with
        h2 | ⟨_, _, h2, -⟩ | ⟨_, _, h2⟩ | ⟨_, h2⟩ | ⟨_, -, hv2, -⟩
      · rw [h2] at hc; simp at hc
      · rw [h2] at hc; simp at hc
      · rw [h2] at hc; simp at hc
      · rw [h2] at hc; simp at hc
      · rw [hv1] at hv2; simp at hv2


end Tier2
